import Mathlib

/-!
# Wallet transaction negotiation (`wallet/negotiator.cpp`)

A shallow embedding of the two negotiation state machines
`SendTransaction::update` and `ReceiveTransaction::update`, of
`BaseTransaction::cancel`, `onFailed`, `confirmKernel`, `completeTx`,
`getTxInputs` and `getTxOutputs`.

Curve scalars are the elements of a commutative ring `S`, curve points the
elements of an additive group `P` on which `S` acts (`s • G` is `G * s` of the
source).  Everything the negotiator calls but does not define (the key chain,
the hash functions, the transaction validator, the node gateway queries) is a
field of the record `Env`.
-/

namespace Beam

/-- The 16-byte transaction identifier `TxID`. -/
abbrev TxID := Nat

/-- The type `Amount` of the source, an unsigned 64-bit integer. -/
abbrev Amount := Nat

/-- The type `Height` of the source, an unsigned 64-bit integer. -/
abbrev Height := Nat

/-- The value of `Hash::Value`. -/
abbrev HashValue := Nat

/-- The value of `Merkle::Proof`. -/
abbrev MerkleProof := List Nat

/-- Unsigned 64-bit wrap-around. -/
def u64 (n : Nat) : Nat := n % 2 ^ 64

/-- Unsigned 64-bit addition. -/
def add64 (a b : Nat) : Nat := u64 (a + b)

/-- Unsigned 64-bit subtraction. -/
def sub64 (a b : Nat) : Nat := u64 (a + (2 ^ 64 - u64 b))

/-- The enumeration `TxParams` of `negotiator.h`. -/
inductive TxParams
  | Amount
  | Fee
  | MinHeight
  | Offset
  | Inputs
  | Outputs
  | BlindingExcess
  | PeerSignature
  | PublicPeerNonce
  | PublicPeerExcess
  | PeerOffset
  | PeerInputs
  | PeerOutputs
  | TransactionRegistered
  | KernelProof
  | FailureReason
  deriving DecidableEq, Repr

/-- Modelled from the spec: the declaration of `TxDescription::Status` is in
`wallet/common.h`; the spec lists
`status ∈ {Pending, InProgress, Registered, Completed, Cancelled, Failed}`. -/
inductive TxStatus
  | Pending
  | InProgress
  | Registered
  | Completed
  | Cancelled
  | Failed
  deriving DecidableEq, Repr

/-- Modelled from the spec: the declaration of `Coin::Status` is in
`wallet/wallet_db.h`; the spec lists
`status ∈ {Draft, Locked, Unconfirmed, Confirmed, Spent, Cancelled}`. -/
inductive CoinStatus
  | Draft
  | Locked
  | Unconfirmed
  | Confirmed
  | Spent
  | Cancelled
  deriving DecidableEq, Repr

/-- Modelled from the spec: the declaration of `TxDescription` is in
`wallet/common.h`; the fields are those of the spec's data model and of the
member accesses of `negotiator.cpp`. -/
structure TxDescription where
  m_txId : TxID
  m_amount : Amount
  m_fee : Amount
  m_change : Amount
  m_minHeight : Height
  m_peerId : Nat
  m_sender : Bool
  m_status : TxStatus
  m_modifyTime : Nat
  deriving DecidableEq, Repr

/-- Modelled from the spec: the declaration of `Coin` is in
`wallet/wallet_db.h`.  `m_height` holds the third argument of the constructor
`Coin{amount, status, height}`; the spec's data model has one height per
coin. -/
structure Coin where
  m_id : Nat
  m_amount : Amount
  m_status : CoinStatus
  m_height : Height
  m_createTxId : Option TxID
  m_spentTxId : Option TxID
  deriving DecidableEq, Repr

/-- The constructor call `Coin{amount, status, height}`: no identifier yet, no
creating and no spending transaction. -/
def Coin.new (amount : Amount) (status : CoinStatus) (height : Height) : Coin :=
  { m_id := 0, m_amount := amount, m_status := status, m_height := height,
    m_createTxId := none, m_spentTxId := none }

/-- Modelled from the spec: the declaration of `WalletAddress` is outside the
negotiator; `update` reads its member `m_own` only. -/
structure WalletAddress where
  m_walletID : Nat
  m_own : Bool
  deriving DecidableEq, Repr

/-- A transaction input: its commitment. -/
structure Input (P : Type) where
  m_Commitment : P
  deriving DecidableEq, Repr

/-- A transaction output: the coinbase flag and the commitment that
`Output::Create` computes (the range proof is an external primitive and is
not represented). -/
structure Output (P : Type) where
  m_Coinbase : Bool
  m_Commitment : P
  deriving DecidableEq, Repr

/-- The Schnorr signature `(m_e, m_k)` of a kernel. -/
structure Signature (S : Type) where
  m_e : S
  m_k : S
  deriving DecidableEq, Repr

/-- The members of `Signature::MultiSig`. -/
structure MultiSig (S P : Type) where
  m_Nonce : S
  m_NoncePub : P
  deriving DecidableEq, Repr

/-- The members of `TxKernel` that the negotiator sets. -/
structure TxKernel (S P : Type) where
  m_Fee : Amount
  m_HeightMin : Height
  m_HeightMax : Height
  m_Excess : P
  m_Signature : Signature S
  deriving DecidableEq, Repr

/-- The members of `Transaction` that the negotiator sets. -/
structure Transaction (S P : Type) where
  m_vInputs : List (Input P)
  m_vOutputs : List (Output P)
  m_vKernelsOutput : List (TxKernel S P)
  m_Offset : S
  deriving DecidableEq, Repr

/-- The wire message `Invite`. -/
structure Invite (S P : Type) where
  m_txId : TxID
  m_amount : Amount
  m_fee : Amount
  m_height : Height
  m_send : Bool
  m_inputs : List (Input P)
  m_outputs : List (Output P)
  m_publicPeerExcess : P
  m_publicPeerNonce : P
  m_offset : S
  deriving DecidableEq, Repr

/-- The wire message `ConfirmInvitation`. -/
structure ConfirmInvitation (S P : Type) where
  m_txId : TxID
  m_publicPeerExcess : P
  m_publicPeerNonce : P
  m_peerSignature : S
  deriving DecidableEq, Repr

/-- The wire message `ConfirmTransaction`. -/
structure ConfirmTransaction (S : Type) where
  m_txId : TxID
  m_peerSignature : S
  deriving DecidableEq, Repr

/-- The calls that a negotiation makes on the key chain and on the gateway, in
the order in which it makes them. -/
inductive Call (S P : Type)
  | saveTx (d : TxDescription)
  | deleteTx (id : TxID)
  | rollbackTx (id : TxID)
  | selectCoins (a : Amount)
  | store (c : Coin)
  | update (cs : List Coin)
  | setTxParameter (p : TxParams)
  | send_tx_invitation (d : TxDescription) (m : Invite S P)
  | send_tx_confirmation (d : TxDescription) (m : ConfirmInvitation S P)
  | send_tx_confirmation_tx (d : TxDescription) (m : ConfirmTransaction S)
  | send_tx_registered (d : TxDescription)
  | send_tx_failed (d : TxDescription)
  | register_tx (d : TxDescription) (t : Transaction S P)
  | confirm_kernel (d : TxDescription) (k : TxKernel S P)
  | on_tx_completed (d : TxDescription)
  deriving DecidableEq, Repr

/-- The parameter store of one transaction: one optional value per `TxParams`
identifier, of the type with which the negotiator reads it.  Curve points are
stored in their compact form `CP`. -/
structure Params (S P CP : Type) where
  Amount : Option Beam.Amount
  Fee : Option Beam.Amount
  MinHeight : Option Height
  Offset : Option S
  Inputs : Option (List (Input P))
  Outputs : Option (List (Output P))
  BlindingExcess : Option S
  PeerSignature : Option S
  PublicPeerNonce : Option CP
  PublicPeerExcess : Option CP
  PeerOffset : Option S
  PeerInputs : Option (List (Input P))
  PeerOutputs : Option (List (Output P))
  TransactionRegistered : Option Bool
  KernelProof : Option MerkleProof
  FailureReason : Option Int
  deriving DecidableEq, Repr

/-- The store in which no parameter is present. -/
def Params.empty {S P CP : Type} : Params S P CP :=
  { Amount := none, Fee := none, MinHeight := none, Offset := none, Inputs := none,
    Outputs := none, BlindingExcess := none, PeerSignature := none,
    PublicPeerNonce := none, PublicPeerExcess := none, PeerOffset := none,
    PeerInputs := none, PeerOutputs := none, TransactionRegistered := none,
    KernelProof := none, FailureReason := none }

/-- Whether the store holds a value for the identifier. -/
def Params.present {S P CP : Type} (ps : Params S P CP) : TxParams → Bool
  | .Amount => ps.Amount.isSome
  | .Fee => ps.Fee.isSome
  | .MinHeight => ps.MinHeight.isSome
  | .Offset => ps.Offset.isSome
  | .Inputs => ps.Inputs.isSome
  | .Outputs => ps.Outputs.isSome
  | .BlindingExcess => ps.BlindingExcess.isSome
  | .PeerSignature => ps.PeerSignature.isSome
  | .PublicPeerNonce => ps.PublicPeerNonce.isSome
  | .PublicPeerExcess => ps.PublicPeerExcess.isSome
  | .PeerOffset => ps.PeerOffset.isSome
  | .PeerInputs => ps.PeerInputs.isSome
  | .PeerOutputs => ps.PeerOutputs.isSome
  | .TransactionRegistered => ps.TransactionRegistered.isSome
  | .KernelProof => ps.KernelProof.isSome
  | .FailureReason => ps.FailureReason.isSome

/-- The part of the ECC library that the negotiator uses and does not
define. -/
structure Ecc (S P CP : Type) where
  /-- The generator `Context::get().G`. -/
  G : P
  /-- The value generator `H` of the commitments. -/
  H : P
  /-- `Point::Native::Import`: fails on bytes that are no curve point. -/
  pointImport : CP → Option P
  /-- The conversion of a `Point::Native` to its compact form `Point`. -/
  pointExport : P → CP
  /-- `TxKernel::get_Hash`. -/
  get_Hash : TxKernel S P → HashValue
  /-- `Signature::MultiSig::GenerateNonce(hv, sk)`: the nonce it leaves in
  `m_Nonce`. -/
  GenerateNonce : HashValue → S → S
  /-- The challenge hash of a signature over a public nonce and a message. -/
  get_Challenge : P → HashValue → S
  /-- `splitKey(key, index)` of `wallet/common.h`. -/
  splitKey : S → Nat → S × S

/-- The member functions of the interface `IKeyChain` that the negotiator
calls on the coin ledger.  `K` is the state of the key chain. -/
structure IKeyChain (K S : Type) where
  /-- `IKeyChain::selectCoins`. -/
  selectCoins : K → Amount → List Coin
  /-- `IKeyChain::calcKey`. -/
  calcKey : Coin → S
  /-- `IKeyChain::store`: the new state and the coin with its identifier. -/
  store : K → Coin → K × Coin
  /-- `IKeyChain::update`. -/
  update : K → List Coin → K
  /-- `IKeyChain::rollbackTx`. -/
  rollbackTx : K → TxID → K
  /-- `IKeyChain::visit`: the coins in the order in which the visitor sees
  them. -/
  visit : K → List Coin
  /-- `IKeyChain::getCoinsCreatedByTx`. -/
  getCoinsCreatedByTx : K → TxID → List Coin
  /-- `IKeyChain::getCurrentHeight`. -/
  getCurrentHeight : K → Height
  /-- `IKeyChain::getAddress`. -/
  getAddress : K → Nat → Option WalletAddress

/-- What `negotiator.cpp` calls and does not define: the ECC library, the key
chain, the transaction validator, the queries of the gateway and the
clock. -/
structure Env (K S P CP : Type) where
  ecc : Ecc S P CP
  keychain : IKeyChain K S
  /-- `Transaction::Sort`. -/
  txSort : Transaction S P → Transaction S P
  /-- `Transaction::IsValid` in a fresh `TxBase::Context`. -/
  IsValid : Transaction S P → Bool
  /-- `INegotiatorGateway::get_tip`: the tip, when there is one. -/
  get_tip : Option Nat
  /-- `Block::SystemState::Full::IsValidProofKernel`. -/
  IsValidProofKernel : Nat → TxKernel S P → MerkleProof → Bool
  /-- `INegotiatorGateway::isTestMode`. -/
  isTestMode : Bool
  /-- The reading of `getTimestamp()` during the call: `update()` reads the
  clock in `updateTxDescription` (line 666) and nowhere else.  The readings
  within one call are taken to be the same; a call made at another time is a
  call in an environment with another reading. -/
  getTimestamp : Nat

/-- A negotiation object together with what it persists: the member
`m_txDesc`, the key chain, the parameter store of the transaction, the
description last saved with `saveTx`, and the calls made so far.  The other
data members of the class (`negotiator.h` 131-137: `m_blindingExcess`,
`m_offset`, `m_peerSignature`, `m_publicPeerExcess`, `m_publicPeerNonce`,
`m_transaction`, `m_kernel`) occur in no statement of the two `update`
functions, of `cancel` or of a function that these call, which work on locals
read from the parameter store; they are left out. -/
structure TxState (K S P CP : Type) where
  m_txDesc : TxDescription
  m_keychain : K
  params : Params S P CP
  savedTx : Option TxDescription
  calls : List (Call S P)

section Operations

variable {K S P CP : Type} [CommRing S] [AddCommGroup P] [Module S P] [DecidableEq P]

/-- Appends a call to the record of calls. -/
def TxState.emit (w : TxState K S P CP) (c : Call S P) : TxState K S P CP :=
  { w with calls := w.calls ++ [c] }

/-- The assignment `m_txDesc.m_minHeight = height`. -/
def TxState.setMinHeight (w : TxState K S P CP) (height : Height) : TxState K S P CP :=
  { w with m_txDesc := { w.m_txDesc with m_minHeight := height } }

/-- The assignment `m_txDesc.m_change = change`. -/
def TxState.setChange (w : TxState K S P CP) (change : Amount) : TxState K S P CP :=
  { w with m_txDesc := { w.m_txDesc with m_change := change } }

/-- The call `m_keychain->update(coins)`. -/
def TxState.keychainUpdate (env : Env K S P CP) (w : TxState K S P CP) (coins : List Coin) :
    TxState K S P CP :=
  { w with m_keychain := env.keychain.update w.m_keychain coins,
           calls := w.calls ++ [Call.update coins] }

/-- The call `m_keychain->store(coin)`; the coin comes back with its
identifier. -/
def TxState.keychainStore (env : Env K S P CP) (w : TxState K S P CP) (coin : Coin) :
    TxState K S P CP × Coin :=
  ({ w with m_keychain := (env.keychain.store w.m_keychain coin).1,
            calls := w.calls ++ [Call.store coin] },
   (env.keychain.store w.m_keychain coin).2)

/-- The call `setParameter(TxParams::BlindingExcess, value)`. -/
def TxState.setBlindingExcess (w : TxState K S P CP) (value : S) : TxState K S P CP :=
  { w with params := { w.params with BlindingExcess := some value },
           calls := w.calls ++ [Call.setTxParameter TxParams.BlindingExcess] }

/-- The call `setParameter(TxParams::Offset, value)`. -/
def TxState.setOffset (w : TxState K S P CP) (value : S) : TxState K S P CP :=
  { w with params := { w.params with Offset := some value },
           calls := w.calls ++ [Call.setTxParameter TxParams.Offset] }

/-- The call `setParameter(TxParams::Outputs, value)`. -/
def TxState.setOutputs (w : TxState K S P CP) (value : List (Output P)) : TxState K S P CP :=
  { w with params := { w.params with Outputs := some value },
           calls := w.calls ++ [Call.setTxParameter TxParams.Outputs] }

/-- The coin `Coin newUtxo{amount, Coin::Draft, height}` with
`newUtxo.m_createTxId = txId`. -/
def draftCoin (txId : TxID) (amount : Amount) (height : Height) : Coin :=
  { Coin.new amount CoinStatus.Draft height with m_createTxId := some txId }

/-- Modelled from the spec: `Commitment(blindingFactor, amount)` is defined
in the ECC library; the spec's glossary gives the Pedersen commitment
`g·x + H·v` hiding value `v` with blinding `x`. -/
def Commitment (env : Env K S P CP) (blindingFactor : S) (amount : Amount) : P :=
  blindingFactor • env.ecc.G + amount • env.ecc.H

/-- Modelled from the spec: `Signature::CoSign(k, msg, sk, msig)` is defined in
the ECC library; after the spec the challenge is the hash over the combined
public nonce and the message, it is left in `m_e`, and the partial signature
is `s_i = r_i + e·x_i`.  Returns the signature object and the partial
signature `k`. -/
def Signature.CoSign (env : Env K S P CP) (sig : Signature S) (msg : HashValue) (sk : S)
    (msig : MultiSig S P) : Signature S × S :=
  let e := env.ecc.get_Challenge msig.m_NoncePub msg
  ({ sig with m_e := e }, msig.m_Nonce + e * sk)

/-- Modelled from the spec: `Signature::IsValidPartial(pubNonce, pk)` is
defined in the ECC library; after the spec a received `s_j` is accepted iff
`g·s_j == R_j + e·P_j`. -/
def Signature.IsValidPartial (env : Env K S P CP) (sig : Signature S) (pubNonce pk : P) : Bool :=
  decide (sig.m_k • env.ecc.G = pubNonce + sig.m_e • pk)

/-- The overload `getParameter(TxParams, ECC::Point::Native&)`: the stored
compact point, imported; `false` when absent or when the import fails. -/
def BaseTransaction.getParameterPoint (env : Env K S P CP) (stored : Option CP) : Option P :=
  match stored with
  | some pt => env.ecc.pointImport pt
  | none => none

/-- The member function `BaseTransaction::updateTxDescription`. -/
def BaseTransaction.updateTxDescription (env : Env K S P CP) (w : TxState K S P CP)
    (s : TxStatus) : TxState K S P CP :=
  let d := { w.m_txDesc with m_status := s, m_modifyTime := env.getTimestamp }
  { w with m_txDesc := d, savedTx := some d, calls := w.calls ++ [Call.saveTx d] }

/-- The member function `BaseTransaction::rollbackTx`. -/
def BaseTransaction.rollbackTx (env : Env K S P CP) (w : TxState K S P CP) : TxState K S P CP :=
  { w with m_keychain := env.keychain.rollbackTx w.m_keychain w.m_txDesc.m_txId,
           calls := w.calls ++ [Call.rollbackTx w.m_txDesc.m_txId] }

/-- The member function `BaseTransaction::onFailed(notify)`. -/
def BaseTransaction.onFailed (env : Env K S P CP) (w : TxState K S P CP) (notify : Bool) :
    TxState K S P CP :=
  let w1 := BaseTransaction.updateTxDescription env w TxStatus.Failed
  let w2 := BaseTransaction.rollbackTx env w1
  let w3 := if notify then w2.emit (Call.send_tx_failed w2.m_txDesc) else w2
  w3.emit (Call.on_tx_completed w3.m_txDesc)

/-- The member function `BaseTransaction::cancel`. -/
def BaseTransaction.cancel (env : Env K S P CP) (w : TxState K S P CP) : TxState K S P CP :=
  if w.m_txDesc.m_status = TxStatus.Pending then
    { w with savedTx := none, calls := w.calls ++ [Call.deleteTx w.m_txDesc.m_txId] }
  else
    let w1 := BaseTransaction.updateTxDescription env w TxStatus.Cancelled
    let w2 := BaseTransaction.rollbackTx env w1
    w2.emit (Call.send_tx_failed w2.m_txDesc)

/-- The member function `BaseTransaction::confirmKernel`. -/
def BaseTransaction.confirmKernel (env : Env K S P CP) (w : TxState K S P CP)
    (kernel : TxKernel S P) : TxState K S P CP :=
  let w1 := BaseTransaction.updateTxDescription env w TxStatus.Registered
  let coins := (env.keychain.getCoinsCreatedByTx w1.m_keychain w1.m_txDesc.m_txId).map
    (fun coin => { coin with m_status := CoinStatus.Unconfirmed })
  let w2 := w1.keychainUpdate env coins
  w2.emit (Call.confirm_kernel w2.m_txDesc kernel)

/-- The member function `BaseTransaction::completeTx`. -/
def BaseTransaction.completeTx (env : Env K S P CP) (w : TxState K S P CP) : TxState K S P CP :=
  let w1 := BaseTransaction.updateTxDescription env w TxStatus.Completed
  w1.emit (Call.on_tx_completed w1.m_txDesc)

/-- The member function `BaseTransaction::createKernel`; `MaxHeight` is the
largest 64-bit height. -/
def BaseTransaction.createKernel (fee : Amount) (minHeight : Height) : TxKernel S P :=
  { m_Fee := fee, m_HeightMin := minHeight, m_HeightMax := 2 ^ 64 - 1, m_Excess := 0,
    m_Signature := { m_e := 0, m_k := 0 } }

/-- The member function `BaseTransaction::createMultiSig`. -/
def BaseTransaction.createMultiSig (env : Env K S P CP) (kernel : TxKernel S P)
    (blindingExcess : S) : MultiSig S P :=
  { m_Nonce := env.ecc.GenerateNonce (env.ecc.get_Hash kernel) blindingExcess, m_NoncePub := 0 }

/-- The member function `BaseTransaction::getTxInputs`. -/
def BaseTransaction.getTxInputs (env : Env K S P CP) (k : K) (txID : TxID) : List (Input P) :=
  ((env.keychain.visit k).filter
      (fun c => decide (c.m_spentTxId = some txID) && decide (c.m_status = CoinStatus.Locked))).map
    (fun c => { m_Commitment := Commitment env (env.keychain.calcKey c) c.m_amount })

/-- The member function `BaseTransaction::getTxOutputs`. -/
def BaseTransaction.getTxOutputs (env : Env K S P CP) (k : K) (txID : TxID) : List (Output P) :=
  ((env.keychain.visit k).filter
      (fun c => decide (c.m_createTxId = some txID) && decide (c.m_status = CoinStatus.Draft))).map
    (fun c => { m_Coinbase := false, m_Commitment := Commitment env (env.keychain.calcKey c) c.m_amount })

/-- The sum of the amounts of the coins as the loop
`for (coin : coins) change += coin.m_amount` computes it in 64 bits. -/
def sumAmounts64 (coins : List Coin) : Amount :=
  coins.foldl (fun change coin => add64 change coin.m_amount) 0

/-- The sum of the keys of the coins as the loop
`for (coin : coins) blindingExcess += calcKey(coin)` adds it to
`blindingExcess`. -/
def addKeys (env : Env K S P CP) (blindingExcess : S) (coins : List Coin) : S :=
  coins.foldl (fun acc coin => acc + env.keychain.calcKey coin) blindingExcess

/-- The member function `SendTransaction::sendSelfTx`: every statement of its
body is commented out in the source. -/
def SendTransaction.sendSelfTx (w : TxState K S P CP) : TxState K S P CP := w

/-- The member function `SendTransaction::sendConfirmTransaction`. -/
def SendTransaction.sendConfirmTransaction (w : TxState K S P CP) (peerSignature : S) :
    TxState K S P CP :=
  w.emit (Call.send_tx_confirmation_tx w.m_txDesc
    { m_txId := w.m_txDesc.m_txId, m_peerSignature := peerSignature })

/-- The statements `setParameter(BlindingExcess)`, `setParameter(Offset)` and
`updateTxDescription(InProgress)` that end the first `if` of
`SendTransaction::update` (lines 204-207). -/
def SendTransaction.persistExcess (env : Env K S P CP) (w : TxState K S P CP)
    (blindingExcess offset : S) : TxState K S P CP :=
  BaseTransaction.updateTxDescription env
    ((w.setBlindingExcess blindingExcess).setOffset offset) TxStatus.InProgress

/-- The creation of an output coin of `SendTransaction::update` (lines 166-175
and 190-199): the coin is stored, its key split, and the locals
`blindingExcess` and `offset` are updated. -/
def SendTransaction.createUtxo (env : Env K S P CP) (w : TxState K S P CP) (amount : Amount)
    (height : Height) (blindingExcess offset : S) : TxState K S P CP × S × S :=
  let stored := w.keychainStore env (draftCoin w.m_txDesc.m_txId amount height)
  let newUtxo := stored.2
  let blindingFactor := env.keychain.calcKey newUtxo
  let split := env.ecc.splitKey blindingFactor newUtxo.m_id
  let blindingFactor := -split.1
  (stored.1, blindingExcess + blindingFactor, offset + split.2)

/-- The coins of the selection as the loop of lines 150-154 leaves them:
`coin.m_spentTxId = m_txDesc.m_txId`. -/
def SendTransaction.markSpent (txId : TxID) (coins : List Coin) : List Coin :=
  coins.map (fun coin => { coin with m_spentTxId := some txId })

/-- The change that lines 158-163 compute in 64 bits. -/
def SendTransaction.changeOf (coins : List Coin) (amountWithFee : Amount) : Amount :=
  sub64 (sumAmounts64 coins) amountWithFee

/-- The lines 150-178 of `SendTransaction::update`: the selected coins are
marked and written back, the change computed and, when positive, the change
coin created. -/
def SendTransaction.reserveCoins (env : Env K S P CP) (w : TxState K S P CP)
    (coins : List Coin) (amountWithFee : Amount) (currentHeight : Height)
    (blindingExcess offset : S) : TxState K S P CP × S × S :=
  let blindingExcess := addKeys env blindingExcess coins
  let coins := SendTransaction.markSpent w.m_txDesc.m_txId coins
  let w := w.keychainUpdate env coins
  let change := SendTransaction.changeOf coins amountWithFee
  if 0 < change then
    let r := SendTransaction.createUtxo env w change currentHeight blindingExcess offset
    (r.1.setChange change, r.2.1, r.2.2)
  else (w, blindingExcess, offset)

/-- The test `address.is_initialized() && address->m_own` of line 182 on the
address of the peer. -/
def SendTransaction.peerIsOwn (env : Env K S P CP) (w : TxState K S P CP) : Bool :=
  match env.keychain.getAddress w.m_keychain w.m_txDesc.m_peerId with
  | some address => address.m_own
  | none => false

/-- The sender branch of the first `if` of `SendTransaction::update` once the
selection is known to be non-empty (lines 150-186 and 204-207). -/
def SendTransaction.updateReserveCoins (env : Env K S P CP) (w : TxState K S P CP)
    (coins : List Coin) (amountWithFee : Amount) (currentHeight : Height)
    (blindingExcess offset : S) : TxState K S P CP ⊕ (TxState K S P CP × S × S) :=
  let r := SendTransaction.reserveCoins env w coins amountWithFee currentHeight blindingExcess
    offset
  if SendTransaction.peerIsOwn env r.1 then
    Sum.inl (SendTransaction.sendSelfTx r.1)
  else
    Sum.inr (SendTransaction.persistExcess env r.1 r.2.1 r.2.2, r.2.1, r.2.2)

/-- The body of the first `if` of `SendTransaction::update` (lines 135-207),
entered when `BlindingExcess` or `Offset` could not be read.  `inl` is a
`return` inside the block, `inr` carries on with the values of the locals
`blindingExcess` and `offset`. -/
def SendTransaction.updateReserve (env : Env K S P CP) (w : TxState K S P CP)
    (initiator : Bool) (blindingExcess offset : S) :
    TxState K S P CP ⊕ (TxState K S P CP × S × S) :=
  let sender := w.m_txDesc.m_sender
  let currentHeight := env.keychain.getCurrentHeight w.m_keychain
  let w := w.setMinHeight currentHeight
  if sender then
    let amountWithFee := add64 w.m_txDesc.m_amount w.m_txDesc.m_fee
    let coins := env.keychain.selectCoins w.m_keychain amountWithFee
    let w := w.emit (Call.selectCoins amountWithFee)
    if coins.isEmpty then
      Sum.inl (BaseTransaction.onFailed env w (!initiator))
    else
      SendTransaction.updateReserveCoins env w coins amountWithFee currentHeight blindingExcess
        offset
  else
    let r := SendTransaction.createUtxo env w w.m_txDesc.m_amount w.m_txDesc.m_minHeight
      blindingExcess offset
    Sum.inr (SendTransaction.persistExcess env r.1 r.2.1 r.2.2, r.2.1, r.2.2)

/-- The transaction that the invited participant builds before `Sort`
(lines 298-310 and 520-532): one kernel, the sum of the two offsets, the
inputs and outputs of the peer followed by the own ones. -/
def BaseTransaction.assemble (env : Env K S P CP) (w : TxState K S P CP)
    (kernel : TxKernel S P) (peerOffset offset : S) (inputs : List (Input P))
    (outputs : List (Output P)) : Transaction S P :=
  { m_vKernelsOutput := [kernel],
    m_Offset := peerOffset + offset,
    m_vInputs := inputs ++ BaseTransaction.getTxInputs env w.m_keychain w.m_txDesc.m_txId,
    m_vOutputs := outputs ++ BaseTransaction.getTxOutputs env w.m_keychain w.m_txDesc.m_txId }

/-- The end of both `update` functions (lines 343-354 and 561-572): the kernel
proof is checked against the tip and the transaction completed. -/
def BaseTransaction.updateFinish (env : Env K S P CP) (w : TxState K S P CP)
    (kernel : TxKernel S P) (kernelProof : MerkleProof) : TxState K S P CP :=
  let proofOk : Bool :=
    match env.get_tip with
    | some state => env.IsValidProofKernel state kernel kernelProof
    | none => false
  if !proofOk && !env.isTestMode then w
  else BaseTransaction.completeTx env w

/-- The co-signing steps that both `update` functions perform (lines 210-214
and 242-251, the same as 462-466 and 479-488): the kernel with the total
public excess and the challenge of `CoSign` in its signature, the own public
nonce, the own public excess and the own partial signature. -/
def BaseTransaction.updateCoSign (env : Env K S P CP) (d : TxDescription) (blindingExcess : S)
    (publicPeerNonce publicPeerExcess : P) : TxKernel S P × P × P × S :=
  let kernel : TxKernel S P := BaseTransaction.createKernel d.m_fee d.m_minHeight
  let msig := BaseTransaction.createMultiSig env kernel blindingExcess
  let publicNonce : P := msig.m_Nonce • env.ecc.G
  let publicExcess : P := blindingExcess • env.ecc.G
  let msig := { msig with m_NoncePub := publicNonce + publicPeerNonce }
  let totalPublicExcess := publicExcess + publicPeerExcess
  let kernel := { kernel with m_Excess := totalPublicExcess }
  let message := env.ecc.get_Hash kernel
  let cosigned := Signature.CoSign env kernel.m_Signature message blindingExcess msig
  ({ kernel with m_Signature := cosigned.1 }, publicNonce, publicExcess, cosigned.2)

/-- The start of `SendTransaction::update` (lines 121-208): the check of
`FailureReason` and the first `if`.  `inl` is a `return`, `inr` carries on
with the locals `blindingExcess` and `offset`. -/
def SendTransaction.updateEntry (env : Env K S P CP) (w : TxState K S P CP) :
    TxState K S P CP ⊕ (TxState K S P CP × S × S) :=
  match w.params.FailureReason with
  | some _ => Sum.inl (BaseTransaction.onFailed env w false)
  | none =>
    let initiator : Bool := w.params.PeerOffset.isNone
    match w.params.BlindingExcess, w.params.Offset with
    | some blindingExcess, some offset => Sum.inr (w, blindingExcess, offset)
    | blindingExcess, _ =>
      SendTransaction.updateReserve env w initiator (blindingExcess.getD 0) 0

/-- The end of `SendTransaction::update` once the peer signature is verified
and the kernel signed (lines 281-354). -/
def SendTransaction.updateRegister (env : Env K S P CP) (w : TxState K S P CP)
    (initiator : Bool) (peerOffset offset : S) (kernel : TxKernel S P) (partialSignature : S) :
    TxState K S P CP :=
  match w.params.TransactionRegistered with
  | none =>
    match w.params.PeerInputs, w.params.PeerOutputs with
    | some inputs, some outputs =>
      let transaction :=
        env.txSort (BaseTransaction.assemble env w kernel peerOffset offset inputs outputs)
      if !env.IsValid transaction then BaseTransaction.onFailed env w true
      else w.emit (Call.register_tx w.m_txDesc transaction)
    | _, _ => SendTransaction.sendConfirmTransaction w partialSignature
  | some isRegistered =>
    if !isRegistered then BaseTransaction.onFailed env w true
    else
      match w.params.KernelProof with
      | none =>
        let w := if !initiator then w.emit (Call.send_tx_registered w.m_txDesc) else w
        BaseTransaction.confirmKernel env w kernel
      | some kernelProof => BaseTransaction.updateFinish env w kernel kernelProof

/-- The rest of `SendTransaction::update` after the first `if` (lines
210-354), with the values of the locals `initiator`, `peerOffset`,
`blindingExcess` and `offset`. -/
def SendTransaction.updateNegotiate (env : Env K S P CP) (w : TxState K S P CP)
    (initiator : Bool) (peerOffset blindingExcess offset : S) : TxState K S P CP :=
  match BaseTransaction.getParameterPoint env w.params.PublicPeerNonce,
        BaseTransaction.getParameterPoint env w.params.PublicPeerExcess with
  | some publicPeerNonce, some publicPeerExcess =>
    let r := BaseTransaction.updateCoSign env w.m_txDesc blindingExcess publicPeerNonce
      publicPeerExcess
    let kernel := r.1
    let publicNonce := r.2.1
    let publicExcess := r.2.2.1
    let partialSignature := r.2.2.2
    match w.params.PeerSignature with
    | none =>
      let confirmMsg : ConfirmInvitation S P :=
        { m_txId := w.m_txDesc.m_txId, m_publicPeerExcess := publicExcess,
          m_peerSignature := partialSignature, m_publicPeerNonce := publicNonce }
      w.emit (Call.send_tx_confirmation w.m_txDesc confirmMsg)
    | some peerSignature =>
      let peerSig : Signature S := { m_e := kernel.m_Signature.m_e, m_k := peerSignature }
      if !Signature.IsValidPartial env peerSig publicPeerNonce publicPeerExcess then
        BaseTransaction.onFailed env w true
      else
        let kernel :=
          { kernel with m_Signature :=
              { kernel.m_Signature with m_k := partialSignature + peerSignature } }
        SendTransaction.updateRegister env w initiator peerOffset offset kernel partialSignature
  | _, _ =>
    let kernel : TxKernel S P :=
      BaseTransaction.createKernel w.m_txDesc.m_fee w.m_txDesc.m_minHeight
    let msig := BaseTransaction.createMultiSig env kernel blindingExcess
    let publicNonce : P := msig.m_Nonce • env.ecc.G
    let publicExcess : P := blindingExcess • env.ecc.G
    let txID := w.m_txDesc.m_txId
    let inviteMsg : Invite S P :=
      { m_txId := txID, m_amount := w.m_txDesc.m_amount, m_fee := w.m_txDesc.m_fee,
        m_height := w.m_txDesc.m_minHeight, m_send := w.m_txDesc.m_sender,
        m_inputs := BaseTransaction.getTxInputs env w.m_keychain txID,
        m_outputs := BaseTransaction.getTxOutputs env w.m_keychain txID,
        m_publicPeerExcess := publicExcess, m_publicPeerNonce := publicNonce,
        m_offset := offset }
    w.emit (Call.send_tx_invitation w.m_txDesc inviteMsg)

/-- The member function `SendTransaction::update`. -/
def SendTransaction.update (env : Env K S P CP) (w : TxState K S P CP) : TxState K S P CP :=
  match SendTransaction.updateEntry env w with
  | Sum.inl w1 => w1
  | Sum.inr r =>
    SendTransaction.updateNegotiate env r.1 w.params.PeerOffset.isNone
      (w.params.PeerOffset.getD 0) r.2.1 r.2.2

/-- The first `if` of `ReceiveTransaction::update` (lines 432-452): the output
coin is created when the parameter `Outputs` is absent. -/
def ReceiveTransaction.updateCreateOutput (env : Env K S P CP) (w : TxState K S P CP) :
    TxState K S P CP :=
  match w.params.Outputs with
  | some _ => w
  | none =>
    let stored := w.keychainStore env
      (draftCoin w.m_txDesc.m_txId w.m_txDesc.m_amount w.m_txDesc.m_minHeight)
    let w := stored.1
    let newUtxo := stored.2
    let blindingFactor := env.keychain.calcKey newUtxo
    let split := env.ecc.splitKey blindingFactor newUtxo.m_id
    let blindingFactor := -split.1
    let blindingExcess : S := 0 + blindingFactor
    let w := w.setOutputs (BaseTransaction.getTxOutputs env w.m_keychain w.m_txDesc.m_txId)
    let w := w.setBlindingExcess blindingExcess
    let w := w.setOffset split.2
    BaseTransaction.updateTxDescription env w TxStatus.InProgress

/-- The start of `ReceiveTransaction::update` (lines 430-460): the creation of
the output and the reading of `BlindingExcess` and `Offset`.  `inl` is a
`return`, `inr` carries on with the locals `blindingExcess` and `offset`. -/
def ReceiveTransaction.updateEntry (env : Env K S P CP) (w : TxState K S P CP) :
    TxState K S P CP ⊕ (TxState K S P CP × S × S) :=
  let w := ReceiveTransaction.updateCreateOutput env w
  match w.params.BlindingExcess, w.params.Offset with
  | some blindingExcess, some offset => Sum.inr (w, blindingExcess, offset)
  | _, _ => Sum.inl (BaseTransaction.onFailed env w true)

/-- The end of `ReceiveTransaction::update` once the peer signature is
verified and the kernel signed (lines 517-572). -/
def ReceiveTransaction.updateRegister (env : Env K S P CP) (w : TxState K S P CP)
    (peerOffset offset : S) (kernel : TxKernel S P) : TxState K S P CP :=
  match w.params.TransactionRegistered with
  | none =>
    let transaction :=
      env.txSort (BaseTransaction.assemble env w kernel peerOffset offset
        (w.params.PeerInputs.getD []) (w.params.PeerOutputs.getD []))
    if !env.IsValid transaction then BaseTransaction.onFailed env w true
    else w.emit (Call.register_tx w.m_txDesc transaction)
  | some isRegistered =>
    if !isRegistered then BaseTransaction.onFailed env w true
    else
      match w.params.KernelProof with
      | none =>
        let w := w.emit (Call.send_tx_registered w.m_txDesc)
        BaseTransaction.confirmKernel env w kernel
      | some kernelProof => BaseTransaction.updateFinish env w kernel kernelProof

/-- The rest of `ReceiveTransaction::update` (lines 462-572), with the values
of the locals `blindingExcess` and `offset`. -/
def ReceiveTransaction.updateNegotiate (env : Env K S P CP) (w : TxState K S P CP)
    (blindingExcess offset : S) : TxState K S P CP :=
  match w.params.PeerOffset, BaseTransaction.getParameterPoint env w.params.PublicPeerNonce,
        BaseTransaction.getParameterPoint env w.params.PublicPeerExcess with
  | some peerOffset, some publicPeerNonce, some publicPeerExcess =>
    let r := BaseTransaction.updateCoSign env w.m_txDesc blindingExcess publicPeerNonce
      publicPeerExcess
    let kernel := r.1
    let publicNonce := r.2.1
    let publicExcess := r.2.2.1
    let partialSignature := r.2.2.2
    match w.params.PeerSignature with
    | none =>
      let confirmMsg : ConfirmInvitation S P :=
        { m_txId := w.m_txDesc.m_txId, m_publicPeerExcess := publicExcess,
          m_peerSignature := partialSignature, m_publicPeerNonce := publicNonce }
      w.emit (Call.send_tx_confirmation w.m_txDesc confirmMsg)
    | some peerSignature =>
      let peerSig : Signature S := { m_e := kernel.m_Signature.m_e, m_k := peerSignature }
      if !Signature.IsValidPartial env peerSig publicPeerNonce publicPeerExcess then
        BaseTransaction.onFailed env w true
      else
        let kernel :=
          { kernel with m_Signature :=
              { kernel.m_Signature with m_k := partialSignature + peerSignature } }
        ReceiveTransaction.updateRegister env w peerOffset offset kernel
  | _, _, _ => BaseTransaction.onFailed env w true

/-- The member function `ReceiveTransaction::update`. -/
def ReceiveTransaction.update (env : Env K S P CP) (w : TxState K S P CP) : TxState K S P CP :=
  match ReceiveTransaction.updateEntry env w with
  | Sum.inl w1 => w1
  | Sum.inr r => ReceiveTransaction.updateNegotiate env r.1 r.2.1 r.2.2

/-- The description that `onFailed` saves: status Failed, stamped with the
time of the call. -/
def failedDesc (env : Env K S P CP) (w : TxState K S P CP) : TxDescription :=
  { w.m_txDesc with m_status := TxStatus.Failed, m_modifyTime := env.getTimestamp }

/-- The kernel as `update` has it after the statement
`kernel->m_Signature.m_k = partialSignature + peerSignature` (lines 279 and
515). -/
def signedKernel (env : Env K S P CP) (d : TxDescription) (blindingExcess peerSignature : S)
    (publicPeerNonce publicPeerExcess : P) : TxKernel S P :=
  let r := BaseTransaction.updateCoSign env d blindingExcess publicPeerNonce publicPeerExcess
  { r.1 with m_Signature := { r.1.m_Signature with m_k := r.2.2.2 + peerSignature } }

/-- The calls that go out to the peer or to the node: invitation,
confirmation, registered, failed, register-tx and confirm-kernel. -/
def Call.isOutbound : Call S P → Bool
  | .send_tx_invitation _ _ => true
  | .send_tx_confirmation _ _ => true
  | .send_tx_confirmation_tx _ _ => true
  | .send_tx_registered _ => true
  | .send_tx_failed _ => true
  | .register_tx _ _ => true
  | .confirm_kernel _ _ => true
  | _ => false

/-- The calls that write to the coin ledger: `store`, `update` and
`rollbackTx`. -/
def Call.isLedgerWrite : Call S P → Bool
  | .store _ => true
  | .update _ => true
  | .rollbackTx _ => true
  | _ => false

/-- The parameters that the peer and the node deliver are the same in two
stores. -/
def Params.samePeerData (p q : Params S P CP) : Prop :=
  p.PeerSignature = q.PeerSignature ∧ p.PublicPeerNonce = q.PublicPeerNonce ∧
  p.PublicPeerExcess = q.PublicPeerExcess ∧ p.PeerOffset = q.PeerOffset ∧
  p.PeerInputs = q.PeerInputs ∧ p.PeerOutputs = q.PeerOutputs ∧
  p.TransactionRegistered = q.TransactionRegistered ∧ p.KernelProof = q.KernelProof ∧
  p.FailureReason = q.FailureReason

/-- The own secret nonce of `update`: `createMultiSig` on the kernel without
excess (lines 210-211). -/
def BaseTransaction.ownNonce (env : Env K S P CP) (d : TxDescription) (blindingExcess : S) : S :=
  env.ecc.GenerateNonce
    (env.ecc.get_Hash (BaseTransaction.createKernel d.m_fee d.m_minHeight : TxKernel S P))
    blindingExcess

/-- The challenge of `update`: the hash over the combined public nonce
`G * nonce + publicPeerNonce` and the message, which is the hash of the kernel
with the combined excess `G * blindingExcess + publicPeerExcess` (lines
242-251). -/
def BaseTransaction.challenge (env : Env K S P CP) (d : TxDescription) (blindingExcess : S)
    (publicPeerNonce publicPeerExcess : P) : S :=
  env.ecc.get_Challenge
    (BaseTransaction.ownNonce env d blindingExcess • env.ecc.G + publicPeerNonce)
    (env.ecc.get_Hash
      { (BaseTransaction.createKernel d.m_fee d.m_minHeight : TxKernel S P) with
        m_Excess := blindingExcess • env.ecc.G + publicPeerExcess })

/-- The calls `send_tx_confirmation`, with either message. -/
def Call.isConfirmation : Call S P → Bool
  | .send_tx_confirmation _ _ => true
  | .send_tx_confirmation_tx _ _ => true
  | _ => false

/-- The calls `send_tx_invitation`. -/
def Call.isInvitation : Call S P → Bool
  | .send_tx_invitation _ _ => true
  | _ => false

/-- The calls `register_tx`. -/
def Call.isRegisterTx : Call S P → Bool
  | .register_tx _ _ => true
  | _ => false

/-- The calls `confirm_kernel`. -/
def Call.isConfirmKernel : Call S P → Bool
  | .confirm_kernel _ _ => true
  | _ => false

/-- The calls `send_tx_failed`. -/
def Call.isFailed : Call S P → Bool
  | .send_tx_failed _ => true
  | _ => false

/-- The four calls of `onFailed(true)` on a transaction description. -/
def failedCalls (env : Env K S P CP) (w : TxState K S P CP) : List (Call S P) :=
  [Call.saveTx (failedDesc env w), Call.rollbackTx w.m_txDesc.m_txId,
   Call.send_tx_failed (failedDesc env w), Call.on_tx_completed (failedDesc env w)]

/-- The calls `store` and `update` on the coin ledger. -/
def Call.isStoreOrUpdate : Call S P → Bool
  | .store _ => true
  | .update _ => true
  | _ => false

/-- The calls `setTxParameter`. -/
def Call.isSetParameter : Call S P → Bool
  | .setTxParameter _ => true
  | _ => false

/-- The calls that a step made: those of `w1` after the ones `w` already
has. -/
def TxState.callsSince (w w1 : TxState K S P CP) : List (Call S P) :=
  w1.calls.drop w.calls.length

/-- The coins that `selectCoins(amountWithFee)` returns to the sender (lines
141-142). -/
def SendTransaction.selection (env : Env K S P CP) (w : TxState K S P CP) : List Coin :=
  env.keychain.selectCoins w.m_keychain (add64 w.m_txDesc.m_amount w.m_txDesc.m_fee)

/-- The change of the sender: lines 158-163 on the selection. -/
def SendTransaction.change (env : Env K S P CP) (w : TxState K S P CP) : Amount :=
  SendTransaction.changeOf (SendTransaction.markSpent w.m_txDesc.m_txId
    (SendTransaction.selection env w)) (add64 w.m_txDesc.m_amount w.m_txDesc.m_fee)

/-- The change coin as `store` returns it to the sender (line 168), with its
identifier: the Draft coin of the change, stored in the ledger into which the
selection was written back. -/
def SendTransaction.changeCoin (env : Env K S P CP) (w : TxState K S P CP) : Coin :=
  (env.keychain.store
    (env.keychain.update w.m_keychain
      (SendTransaction.markSpent w.m_txDesc.m_txId (SendTransaction.selection env w)))
    (draftCoin w.m_txDesc.m_txId (SendTransaction.change env w)
      (env.keychain.getCurrentHeight w.m_keychain))).2

/-- The state and the locals `blindingExcess` and `offset` of the sender at
line 180, after the selection was written back and the change coin created
(lines 136-178), from the values that the locals have at line 135. -/
def SendTransaction.reserved (env : Env K S P CP) (w : TxState K S P CP)
    (blindingExcess offset : S) : TxState K S P CP × S × S :=
  SendTransaction.reserveCoins env
    ((w.setMinHeight (env.keychain.getCurrentHeight w.m_keychain)).emit
      (Call.selectCoins (add64 w.m_txDesc.m_amount w.m_txDesc.m_fee)))
    (SendTransaction.selection env w) (add64 w.m_txDesc.m_amount w.m_txDesc.m_fee)
    (env.keychain.getCurrentHeight w.m_keychain) blindingExcess offset

/-- The output coin of the receiver as `store` returns it (line 439), with
its identifier. -/
def ReceiveTransaction.outputCoin (env : Env K S P CP) (w : TxState K S P CP) : Coin :=
  (env.keychain.store w.m_keychain
    (draftCoin w.m_txDesc.m_txId w.m_txDesc.m_amount w.m_txDesc.m_minHeight)).2

/-- The calls `store`. -/
def Call.isStore : Call S P → Bool
  | .store _ => true
  | _ => false

/-- The calls that the steps after the reservation can make: `saveTx`,
`rollbackTx`, `update` and the calls on the gateway. -/
def Call.isLate : Call S P → Bool
  | .deleteTx _ => false
  | .selectCoins _ => false
  | .store _ => false
  | .setTxParameter _ => false
  | _ => true

/-- The calls of `w1` are those of `w` followed by calls that all satisfy
`f`. -/
def TxState.extendsBy (f : Call S P → Bool) (w w1 : TxState K S P CP) : Prop :=
  ∃ L, w1.calls = w.calls ++ L ∧ ∀ c ∈ L, f c = true

/-- The description `d1` is `d` up to the status and the time of
modification. -/
def TxDescription.sameButStatus (d d1 : TxDescription) : Prop :=
  d1 = { d with m_status := d1.m_status, m_modifyTime := d1.m_modifyTime }

/-! ### The two-party run

The transport between the two wallets is outside `negotiator.cpp`; the run
below wires a sender and a receiver through it as the spec describes it. -/

/-- Modelled from the spec: the transport (`wallet.cpp`, not under `src/`)
"writes their contents into the parameter store (e.g. an `Invite` populates
`PeerInputs, PeerOutputs, PublicPeerNonce, PublicPeerExcess, PeerOffset,
Amount, Fee, MinHeight`)". -/
def Transport.deliverInvite (ecc : Ecc S P CP) (w : TxState K S P CP) (m : Invite S P) :
    TxState K S P CP :=
  { w with params := { w.params with
      Amount := some m.m_amount, Fee := some m.m_fee, MinHeight := some m.m_height,
      PeerInputs := some m.m_inputs, PeerOutputs := some m.m_outputs,
      PublicPeerNonce := some (ecc.pointExport m.m_publicPeerNonce),
      PublicPeerExcess := some (ecc.pointExport m.m_publicPeerExcess),
      PeerOffset := some m.m_offset } }

/-- Modelled from the spec: the transport writes the fields
`publicPeerExcess, publicPeerNonce, peerSignature` of a `ConfirmInvitation`
into the parameters of the same names. -/
def Transport.deliverConfirmInvitation (ecc : Ecc S P CP) (w : TxState K S P CP)
    (m : ConfirmInvitation S P) : TxState K S P CP :=
  { w with params := { w.params with
      PublicPeerNonce := some (ecc.pointExport m.m_publicPeerNonce),
      PublicPeerExcess := some (ecc.pointExport m.m_publicPeerExcess),
      PeerSignature := some m.m_peerSignature } }

/-- Modelled from the spec: the transport writes the field `peerSignature` of
a `ConfirmTransaction` into the parameter `PeerSignature`. -/
def Transport.deliverConfirmTransaction (w : TxState K S P CP) (m : ConfirmTransaction S) :
    TxState K S P CP :=
  { w with params := { w.params with PeerSignature := some m.m_peerSignature } }

/-- The honest run of a sender `ws` and a receiver `wr` up to the call in
which the receiver assembles the transaction: the sender's `update` sends the
invitation, the receiver's `update` answers it with a confirmation, the
sender's next `update` answers that with its signature, which is delivered to
the receiver.  The result is the state of the receiver at the entry of its
second `update`; `none` when a message is missing. -/
def Negotiation.honestRun (envS envR : Env K S P CP) (ws wr : TxState K S P CP) :
    Option (TxState K S P CP) :=
  match (SendTransaction.update envS ws).calls.getLast? with
  | some (Call.send_tx_invitation _ invite) =>
    match (ReceiveTransaction.update envR
        (Transport.deliverInvite envR.ecc wr invite)).calls.getLast? with
    | some (Call.send_tx_confirmation _ confirm) =>
      match (SendTransaction.update envS
          (Transport.deliverConfirmInvitation envS.ecc (SendTransaction.update envS ws)
            confirm)).calls.getLast? with
      | some (Call.send_tx_confirmation_tx _ confirmTx) =>
        some (Transport.deliverConfirmTransaction
          (ReceiveTransaction.update envR (Transport.deliverInvite envR.ecc wr invite))
          confirmTx)
      | _ => none
    | _ => none
  | _ => none

/-- The sum of the input commitments of a transaction. -/
def Transaction.sumInputs (t : Transaction S P) : P :=
  (t.m_vInputs.map Input.m_Commitment).sum

/-- The sum of the output commitments of a transaction. -/
def Transaction.sumOutputs (t : Transaction S P) : P :=
  (t.m_vOutputs.map Output.m_Commitment).sum

/-- The sum of the excesses of the kernels of a transaction. -/
def Transaction.excess (t : Transaction S P) : P :=
  (t.m_vKernelsOutput.map TxKernel.m_Excess).sum

/-- The sum of the fees of the kernels of a transaction. -/
def Transaction.fee (t : Transaction S P) : Amount :=
  (t.m_vKernelsOutput.map TxKernel.m_Fee).sum

/-- The transaction that `ReceiveTransaction::update` assembles and sorts
(lines 520-534) in a state in which the own excess and offset, the offset,
public nonce and public excess of the peer and a peer signature are stored;
`none` when one of them is missing. -/
def ReceiveTransaction.assembled (env : Env K S P CP) (w : TxState K S P CP) :
    Option (Transaction S P) :=
  match w.params.BlindingExcess, w.params.Offset, w.params.PeerOffset,
        BaseTransaction.getParameterPoint env w.params.PublicPeerNonce,
        BaseTransaction.getParameterPoint env w.params.PublicPeerExcess,
        w.params.PeerSignature with
  | some blindingExcess, some offset, some peerOffset, some publicPeerNonce,
    some publicPeerExcess, some peerSignature =>
    some (env.txSort (BaseTransaction.assemble env w
      (signedKernel env w.m_txDesc blindingExcess peerSignature publicPeerNonce
        publicPeerExcess)
      peerOffset offset (w.params.PeerInputs.getD []) (w.params.PeerOutputs.getD [])))
  | _, _, _, _, _, _ => none

/-- The state of a fresh sender after S1: the reservation, persisted. -/
def Negotiation.senderReserved (envS : Env K S P CP) (ws : TxState K S P CP) :
    TxState K S P CP :=
  SendTransaction.persistExcess envS (SendTransaction.reserved envS ws 0 0).1
    (SendTransaction.reserved envS ws 0 0).2.1 (SendTransaction.reserved envS ws 0 0).2.2

/-- The invitation that a fresh sender sends after S1 (lines 224-234). -/
def Negotiation.invite (envS : Env K S P CP) (ws : TxState K S P CP) : Invite S P :=
  { m_txId := (Negotiation.senderReserved envS ws).m_txDesc.m_txId,
    m_amount := (Negotiation.senderReserved envS ws).m_txDesc.m_amount,
    m_fee := (Negotiation.senderReserved envS ws).m_txDesc.m_fee,
    m_height := (Negotiation.senderReserved envS ws).m_txDesc.m_minHeight,
    m_send := (Negotiation.senderReserved envS ws).m_txDesc.m_sender,
    m_inputs := BaseTransaction.getTxInputs envS (Negotiation.senderReserved envS ws).m_keychain
      (Negotiation.senderReserved envS ws).m_txDesc.m_txId,
    m_outputs := BaseTransaction.getTxOutputs envS
      (Negotiation.senderReserved envS ws).m_keychain
      (Negotiation.senderReserved envS ws).m_txDesc.m_txId,
    m_publicPeerExcess := (SendTransaction.reserved envS ws 0 0).2.1 • envS.ecc.G,
    m_publicPeerNonce :=
      BaseTransaction.ownNonce envS (Negotiation.senderReserved envS ws).m_txDesc
        (SendTransaction.reserved envS ws 0 0).2.1 • envS.ecc.G,
    m_offset := (SendTransaction.reserved envS ws 0 0).2.2 }

/-- The state of the invited receiver after R1: the output created and the
excess persisted. -/
def Negotiation.receiverCreated (envS envR : Env K S P CP) (ws wr : TxState K S P CP) :
    TxState K S P CP :=
  ReceiveTransaction.updateCreateOutput envR
    (Transport.deliverInvite envR.ecc wr (Negotiation.invite envS ws))

/-- The blinding excess that the receiver persists in R1. -/
def Negotiation.receiverExcess (envR : Env K S P CP) (wr : TxState K S P CP) : S :=
  -(envR.ecc.splitKey (envR.keychain.calcKey (ReceiveTransaction.outputCoin envR wr))
    (ReceiveTransaction.outputCoin envR wr).m_id).1

/-- The offset that the receiver persists in R1. -/
def Negotiation.receiverOffset (envR : Env K S P CP) (wr : TxState K S P CP) : S :=
  (envR.ecc.splitKey (envR.keychain.calcKey (ReceiveTransaction.outputCoin envR wr))
    (ReceiveTransaction.outputCoin envR wr).m_id).2

/-- The confirmation with which the receiver answers the invitation (lines
495-499). -/
def Negotiation.confirmation (envS envR : Env K S P CP) (ws wr : TxState K S P CP) :
    ConfirmInvitation S P :=
  { m_txId := (Negotiation.receiverCreated envS envR ws wr).m_txDesc.m_txId,
    m_publicPeerExcess := Negotiation.receiverExcess envR wr • envR.ecc.G,
    m_peerSignature :=
      BaseTransaction.ownNonce envR (Negotiation.receiverCreated envS envR ws wr).m_txDesc
          (Negotiation.receiverExcess envR wr) +
        BaseTransaction.challenge envR (Negotiation.receiverCreated envS envR ws wr).m_txDesc
          (Negotiation.receiverExcess envR wr) (Negotiation.invite envS ws).m_publicPeerNonce
          (Negotiation.invite envS ws).m_publicPeerExcess * Negotiation.receiverExcess envR wr,
    m_publicPeerNonce :=
      BaseTransaction.ownNonce envR (Negotiation.receiverCreated envS envR ws wr).m_txDesc
        (Negotiation.receiverExcess envR wr) • envR.ecc.G }

/-- The partial signature that the sender sends in its `ConfirmTransaction`
(line 293), co-signed over the data of the confirmation. -/
def Negotiation.senderSignature (envS envR : Env K S P CP) (ws wr : TxState K S P CP) : S :=
  BaseTransaction.ownNonce envS (Negotiation.senderReserved envS ws).m_txDesc
      (SendTransaction.reserved envS ws 0 0).2.1 +
    BaseTransaction.challenge envS (Negotiation.senderReserved envS ws).m_txDesc
      (SendTransaction.reserved envS ws 0 0).2.1
      (Negotiation.confirmation envS envR ws wr).m_publicPeerNonce
      (Negotiation.confirmation envS envR ws wr).m_publicPeerExcess *
    (SendTransaction.reserved envS ws 0 0).2.1

/-- The state of the receiver when the signature of the sender has been
delivered to it. -/
def Negotiation.receiverSigned (envS envR : Env K S P CP) (ws wr : TxState K S P CP) :
    TxState K S P CP :=
  Transport.deliverConfirmTransaction
    ((Negotiation.receiverCreated envS envR ws wr).emit
      (Call.send_tx_confirmation (Negotiation.receiverCreated envS envR ws wr).m_txDesc
        (Negotiation.confirmation envS envR ws wr)))
    { m_txId := (Negotiation.senderReserved envS ws).m_txDesc.m_txId,
      m_peerSignature := Negotiation.senderSignature envS envR ws wr }

/-- The sum, over the outputs that the two parties create in the run (the
change coin of the sender, if any, and the coin of the receiver), of
`privateExcess − key`, where `privateExcess` is the first component of
`splitKey(key, id)`. -/
def Negotiation.excessOverKeys (envS envR : Env K S P CP) (ws wr : TxState K S P CP) : S :=
  (if 0 < SendTransaction.change envS ws then
    (envS.ecc.splitKey (envS.keychain.calcKey (SendTransaction.changeCoin envS ws))
        (SendTransaction.changeCoin envS ws).m_id).1 -
      envS.keychain.calcKey (SendTransaction.changeCoin envS ws)
   else 0) +
  ((envR.ecc.splitKey (envR.keychain.calcKey (ReceiveTransaction.outputCoin envR wr))
      (ReceiveTransaction.outputCoin envR wr).m_id).1 -
    envR.keychain.calcKey (ReceiveTransaction.outputCoin envR wr))

/-- The transaction that the receiver assembles at the end of the honest run
(lines 520-534): the co-signed kernel, the two offsets, the inputs and
outputs of the invitation followed by the own ones, sorted. -/
def Negotiation.transaction (envS envR : Env K S P CP) (ws wr : TxState K S P CP) :
    Transaction S P :=
  envR.txSort (BaseTransaction.assemble envR (Negotiation.receiverSigned envS envR ws wr)
    (signedKernel envR (Negotiation.receiverSigned envS envR ws wr).m_txDesc
      (Negotiation.receiverExcess envR wr) (Negotiation.senderSignature envS envR ws wr)
      (Negotiation.invite envS ws).m_publicPeerNonce
      (Negotiation.invite envS ws).m_publicPeerExcess)
    (Negotiation.invite envS ws).m_offset (Negotiation.receiverOffset envR wr)
    (Negotiation.invite envS ws).m_inputs (Negotiation.invite envS ws).m_outputs)

/-- The conditions of an honest run of the sender `ws` with the receiver
`wr`. -/
structure Negotiation.Honest (envS envR : Env K S P CP) (ws wr : TxState K S P CP) :
    Prop where
  /-- Both wallets use the same ECC library. -/
  ecc_eq : envR.ecc = envS.ecc
  /-- A point that was exported imports to itself. -/
  import_export : ∀ p : P, envS.ecc.pointImport (envS.ecc.pointExport p) = some p
  /-- `Sort` permutes the inputs. -/
  sort_inputs : ∀ t, (envR.txSort t).m_vInputs.Perm t.m_vInputs
  /-- `Sort` permutes the outputs. -/
  sort_outputs : ∀ t, (envR.txSort t).m_vOutputs.Perm t.m_vOutputs
  /-- `Sort` permutes the kernels. -/
  sort_kernels : ∀ t, (envR.txSort t).m_vKernelsOutput.Perm t.m_vKernelsOutput
  /-- `Sort` keeps the offset. -/
  sort_offset : ∀ t, (envR.txSort t).m_Offset = t.m_Offset
  /-- The sender starts with an empty parameter store. -/
  s_fresh : ws.params = Params.empty
  /-- The sender is the sender. -/
  s_sender : ws.m_txDesc.m_sender = true
  /-- The sender has the funds. -/
  s_funds : SendTransaction.selection envS ws ≠ []
  /-- The peer is not an own address of the sender. -/
  s_notOwn : SendTransaction.peerIsOwn envS (SendTransaction.reserved envS ws 0 0).1 = false
  /-- The sum `amount + fee` fits 64 bits. -/
  s_noWrap : ws.m_txDesc.m_amount + ws.m_txDesc.m_fee < 2 ^ 64
  /-- The selection covers `amount + fee`. -/
  s_covered : ws.m_txDesc.m_amount + ws.m_txDesc.m_fee ≤
    ((SendTransaction.selection envS ws).map Coin.m_amount).sum
  /-- The change fits 64 bits. -/
  s_bounded : ((SendTransaction.selection envS ws).map Coin.m_amount).sum -
    (ws.m_txDesc.m_amount + ws.m_txDesc.m_fee) < 2 ^ 64
  /-- After S1 the ledger of the sender lists as inputs of the transaction the
  selected coins, with their keys and amounts. -/
  s_inputs : BaseTransaction.getTxInputs envS (SendTransaction.reserved envS ws 0 0).1.m_keychain
      ws.m_txDesc.m_txId =
    (SendTransaction.selection envS ws).map
      (fun c => { m_Commitment := Commitment envS (envS.keychain.calcKey c) c.m_amount })
  /-- After S1 the ledger of the sender lists as outputs of the transaction
  the change coin, if there is change. -/
  s_outputs : BaseTransaction.getTxOutputs envS
      (SendTransaction.reserved envS ws 0 0).1.m_keychain ws.m_txDesc.m_txId =
    if 0 < SendTransaction.change envS ws then
      [{ m_Coinbase := false,
         m_Commitment := Commitment envS
           (envS.keychain.calcKey (SendTransaction.changeCoin envS ws))
           (SendTransaction.change envS ws) }]
    else []
  /-- The receiver starts with an empty parameter store. -/
  r_fresh : wr.params = Params.empty
  /-- The receiver was created for the amount of the invitation. -/
  r_amount : wr.m_txDesc.m_amount = ws.m_txDesc.m_amount
  /-- The receiver was created for the fee of the invitation. -/
  r_fee : wr.m_txDesc.m_fee = ws.m_txDesc.m_fee
  /-- The receiver was created for the height of the invitation. -/
  r_height : wr.m_txDesc.m_minHeight = envS.keychain.getCurrentHeight ws.m_keychain
  /-- After R1 the ledger of the receiver lists no input of the
  transaction. -/
  r_inputs : BaseTransaction.getTxInputs envR
      (envR.keychain.store wr.m_keychain
        (draftCoin wr.m_txDesc.m_txId wr.m_txDesc.m_amount wr.m_txDesc.m_minHeight)).1
      wr.m_txDesc.m_txId = []
  /-- After R1 the ledger of the receiver lists as outputs of the transaction
  the coin that R1 stored. -/
  r_outputs : BaseTransaction.getTxOutputs envR
      (envR.keychain.store wr.m_keychain
        (draftCoin wr.m_txDesc.m_txId wr.m_txDesc.m_amount wr.m_txDesc.m_minHeight)).1
      wr.m_txDesc.m_txId =
    [{ m_Coinbase := false,
       m_Commitment := Commitment envR
         (envR.keychain.calcKey (ReceiveTransaction.outputCoin envR wr)) wr.m_txDesc.m_amount }]

/-- The calls on the gateway: the outbound ones and `on_tx_completed`. -/
def Call.isGateway : Call S P → Bool
  | .send_tx_invitation _ _ => true
  | .send_tx_confirmation _ _ => true
  | .send_tx_confirmation_tx _ _ => true
  | .send_tx_registered _ => true
  | .send_tx_failed _ => true
  | .register_tx _ _ => true
  | .confirm_kernel _ _ => true
  | .on_tx_completed _ => true
  | _ => false

/-- The calls `send_tx_registered`. -/
def Call.isRegistered : Call S P → Bool
  | .send_tx_registered _ => true
  | _ => false

/-- The calls that the start of an `update` makes when it carries on: the
calls on the ledger and the parameter store of the first `if`, and `saveTx`
with the status InProgress. -/
def Call.isEntryCall : Call S P → Bool
  | .selectCoins _ => true
  | .store _ => true
  | .update _ => true
  | .setTxParameter _ => true
  | .saveTx d => decide (d.m_status = TxStatus.InProgress)
  | _ => false

/-- The calls that the steps after the start of an `update` can make:
`rollbackTx`, `update`, the calls on the gateway, and `saveTx` with one of
the statuses Failed, Registered and Completed. -/
def Call.isAfterEntry : Call S P → Bool
  | .deleteTx _ => false
  | .selectCoins _ => false
  | .store _ => false
  | .setTxParameter _ => false
  | .saveTx d =>
    decide (d.m_status = TxStatus.Failed ∨ d.m_status = TxStatus.Registered ∨
      d.m_status = TxStatus.Completed)
  | _ => true

/-- The description `d1` is of the same transaction as `d`: same identifier,
amount, fee, peer and direction. -/
def TxDescription.sameTx (d d1 : TxDescription) : Prop :=
  d1.m_txId = d.m_txId ∧ d1.m_amount = d.m_amount ∧ d1.m_fee = d.m_fee ∧
    d1.m_peerId = d.m_peerId ∧ d1.m_sender = d.m_sender

/-- The description that `cancel` saves: status Cancelled, stamped with the
time of the call. -/
def cancelledDesc (env : Env K S P CP) (w : TxState K S P CP) : TxDescription :=
  { w.m_txDesc with m_status := TxStatus.Cancelled, m_modifyTime := env.getTimestamp }

/-- The description that `confirmKernel` saves: status Registered, stamped
with the time of the call. -/
def registeredDesc (env : Env K S P CP) (w : TxState K S P CP) : TxDescription :=
  { w.m_txDesc with m_status := TxStatus.Registered, m_modifyTime := env.getTimestamp }

/-- The description that `completeTx` saves: status Completed, stamped with
the time of the call. -/
def completedDesc (env : Env K S P CP) (w : TxState K S P CP) : TxDescription :=
  { w.m_txDesc with m_status := TxStatus.Completed, m_modifyTime := env.getTimestamp }

/-- The coins that `confirmKernel` writes back: those that
`getCoinsCreatedByTx(txId)` returns, with the status Unconfirmed. -/
def unconfirmedCoins (env : Env K S P CP) (w : TxState K S P CP) : List Coin :=
  (env.keychain.getCoinsCreatedByTx w.m_keychain w.m_txDesc.m_txId).map
    (fun coin => { coin with m_status := CoinStatus.Unconfirmed })

/-- The test of lines 344 and 562 passes: `get_tip` gives a tip and the
kernel proof is valid against it. -/
def proofIsValid (env : Env K S P CP) (kernel : TxKernel S P) (kernelProof : MerkleProof) :
    Bool :=
  match env.get_tip with
  | some state => env.IsValidProofKernel state kernel kernelProof
  | none => false

/-- The virtual member function `ITransaction::update` of a negotiation object:
`SendTransaction::update` for `role = true`, `ReceiveTransaction::update`
for `role = false`. -/
def BaseTransaction.update (env : Env K S P CP) (role : Bool) (w : TxState K S P CP) :
    TxState K S P CP :=
  if role then SendTransaction.update env w else ReceiveTransaction.update env w

/-- Two negotiation objects over the same persisted state: the same
description, the same ledger and the same parameter store.  The record of
the calls they made before may differ. -/
def TxState.samePersisted (w w1 : TxState K S P CP) : Prop :=
  w.m_txDesc = w1.m_txDesc ∧ w.m_keychain = w1.m_keychain ∧ w.params = w1.params

/-- The same object with another past: the calls `pre` were made before its
own, and `saved` is the description in the store unless the object has saved
one itself. -/
def TxState.rebase (w : TxState K S P CP) (pre : List (Call S P))
    (saved : Option TxDescription) : TxState K S P CP :=
  { w with calls := pre ++ w.calls,
           savedTx := match w.savedTx with
             | some d => some d
             | none => saved }

/-- The object without a past: no call made, no description saved. -/
def TxState.core (w : TxState K S P CP) : TxState K S P CP :=
  { w with calls := [], savedTx := none }

/-- The calls of the first `if` of an `update`: `selectCoins`, `update` and
`store` on the ledger, `setTxParameter` of `BlindingExcess`, `Offset` or
`Outputs`, and `saveTx` with the status InProgress. -/
def Call.isStepOne : Call S P → Bool
  | .selectCoins _ => true
  | .store _ => true
  | .update _ => true
  | .setTxParameter p =>
    decide (p = TxParams.BlindingExcess ∨ p = TxParams.Offset ∨ p = TxParams.Outputs)
  | .saveTx d => decide (d.m_status = TxStatus.InProgress)
  | _ => false

/-- The calls with which an `update` hands a message to the peer or a
transaction to the node and returns: `send_tx_invitation`,
`send_tx_confirmation` with either message, and `register_tx`. -/
def Call.isSingle : Call S P → Bool
  | .send_tx_invitation _ _ => true
  | .send_tx_confirmation _ _ => true
  | .send_tx_confirmation_tx _ _ => true
  | .register_tx _ _ => true
  | _ => false

/-- The messages to the peer: `send_tx_invitation`, `send_tx_confirmation`,
`send_tx_registered` and `send_tx_failed`. -/
def Call.isPeerMessage : Call S P → Bool
  | .send_tx_invitation _ _ => true
  | .send_tx_confirmation _ _ => true
  | .send_tx_confirmation_tx _ _ => true
  | .send_tx_registered _ => true
  | .send_tx_failed _ => true
  | _ => false

/-- The requests to the node: `register_tx` and `confirm_kernel`. -/
def Call.isNodeRequest : Call S P → Bool
  | .register_tx _ _ => true
  | .confirm_kernel _ _ => true
  | _ => false

/-- The calls `rollbackTx`. -/
def Call.isRollback : Call S P → Bool
  | .rollbackTx _ => true
  | _ => false

/-- The status that a call `saveTx` saves. -/
def Call.savedStatus : Call S P → Option TxStatus
  | .saveTx d => some d.m_status
  | _ => none

/-- The parameter that a call `setTxParameter` writes. -/
def Call.written : Call S P → Option TxParams
  | .setTxParameter p => some p
  | _ => none

/-- The store `p` is the store `q` up to the values of `BlindingExcess`,
`Offset` and `Outputs`. -/
def Params.sameButOwn (p q : Params S P CP) : Prop :=
  p = { q with BlindingExcess := p.BlindingExcess, Offset := p.Offset, Outputs := p.Outputs }

/-- What the first `if` of an `update` does to the object: it makes calls of
the first `if` only, keeps the identifier of the transaction, leaves the
status or sets it to InProgress, and writes no parameter but
`BlindingExcess`, `Offset` and `Outputs`. -/
def StepOne (w w1 : TxState K S P CP) : Prop :=
  TxState.extendsBy Call.isStepOne w w1 ∧ w1.m_txDesc.m_txId = w.m_txDesc.m_txId ∧
    (w1.m_txDesc.m_status = w.m_txDesc.m_status ∨
      w1.m_txDesc.m_status = TxStatus.InProgress) ∧
    Params.sameButOwn w1.params w.params

/-- The ways in which an `update` ends once its first `if` has left the
object `w1`: it returns at once, or after one message or `register_tx`; or
it fails (`onFailed`); or it confirms the kernel (`confirmKernel`, after
`send_tx_registered` when `told`); or it completes (`completeTx`). -/
def UpdateEnding (env : Env K S P CP) (w1 r : TxState K S P CP) : Prop :=
  r = w1 ∨
  (∃ c : Call S P, Call.isSingle c = true ∧ r = w1.emit c) ∨
  (∃ notify : Bool, r = BaseTransaction.onFailed env w1 notify) ∨
  (∃ (told : Bool) (kernel : TxKernel S P),
    r = BaseTransaction.confirmKernel env
      (if told then w1.emit (Call.send_tx_registered w1.m_txDesc) else w1) kernel) ∨
  r = BaseTransaction.completeTx env w1

/-- The failures of `update` that are decided on the parameter store alone:
at the sender a `FailureReason`; at the receiver `Outputs` without
`BlindingExcess` or `Offset`, or a peer offset, public nonce or public excess
that cannot be read; for either role a peer signature that does not verify,
or the answer of the node that the transaction is not registered. -/
def failsOnStore (env : Env K S P CP) (role : Bool) (w : TxState K S P CP) : Prop :=
  (role = true ∧ w.params.FailureReason.isSome = true) ∨
  (role = false ∧ w.params.Outputs.isSome = true ∧
    (w.params.BlindingExcess = none ∨ w.params.Offset = none)) ∨
  (∃ (w1 : TxState K S P CP) (be off : S),
    (if role then SendTransaction.updateEntry env w
      else ReceiveTransaction.updateEntry env w) = Sum.inr (w1, be, off) ∧
    ((role = false ∧
        (w.params.PeerOffset = none ∨
          BaseTransaction.getParameterPoint env w.params.PublicPeerNonce = none ∨
          BaseTransaction.getParameterPoint env w.params.PublicPeerExcess = none)) ∨
     (∃ (sp : S) (Rp Pp : P),
        (role = false → w.params.PeerOffset.isSome = true) ∧
        BaseTransaction.getParameterPoint env w.params.PublicPeerNonce = some Rp ∧
        BaseTransaction.getParameterPoint env w.params.PublicPeerExcess = some Pp ∧
        w.params.PeerSignature = some sp ∧
        (sp • env.ecc.G ≠ Rp + BaseTransaction.challenge env w1.m_txDesc be Rp Pp • Pp ∨
          w.params.TransactionRegistered = some false))))

/-- The sender fails for lack of funds and keeps doing so: the first `if` is
entered, and `selectCoins(amount + fee)` returns the empty list on the ledger
and on every ledger that `rollbackTx(txId)` makes of it. -/
def failsForFunds (env : Env K S P CP) (role : Bool) (w : TxState K S P CP) : Prop :=
  role = true ∧ w.m_txDesc.m_sender = true ∧ w.params.FailureReason = none ∧
  (w.params.BlindingExcess = none ∨ w.params.Offset = none) ∧
  ∀ n : Nat,
    env.keychain.selectCoins
      ((fun k => env.keychain.rollbackTx k w.m_txDesc.m_txId)^[n] w.m_keychain)
      (add64 w.m_txDesc.m_amount w.m_txDesc.m_fee) = []

/-- The invited party, whose first `if` leaves the object `w1`, fails at the
validation of the assembled transaction and keeps doing so: the peer
signature verifies, `TransactionRegistered` is absent, and `IsValid` rejects
the transaction assembled over the ledger of `w1` and over every ledger that
`rollbackTx(txId)` makes of it. -/
def failsOnValidationVia (env : Env K S P CP) (role : Bool) (w w1 : TxState K S P CP) : Prop :=
  ∃ (be off sp po : S) (Rp Pp : P),
    (if role then SendTransaction.updateEntry env w
      else ReceiveTransaction.updateEntry env w) = Sum.inr (w1, be, off) ∧
    w.params.PeerOffset = some po ∧
    BaseTransaction.getParameterPoint env w.params.PublicPeerNonce = some Rp ∧
    BaseTransaction.getParameterPoint env w.params.PublicPeerExcess = some Pp ∧
    w.params.PeerSignature = some sp ∧
    sp • env.ecc.G = Rp + BaseTransaction.challenge env w1.m_txDesc be Rp Pp • Pp ∧
    w.params.TransactionRegistered = none ∧
    (role = true →
      w.params.PeerInputs.isSome = true ∧ w.params.PeerOutputs.isSome = true) ∧
    ∀ n : Nat,
      env.IsValid (env.txSort (BaseTransaction.assemble env
        { w1 with m_keychain :=
            (fun k => env.keychain.rollbackTx k w1.m_txDesc.m_txId)^[n] w1.m_keychain }
        (signedKernel env w1.m_txDesc be sp Rp Pp) po off (w.params.PeerInputs.getD [])
        (w.params.PeerOutputs.getD []))) = false

/-- The failures of `update` that repeat: those decided on the parameter
store, the lack of funds that persists on the ledgers that `rollbackTx(txId)`
leaves, and the rejection by `IsValid` that persists on them. -/
def failsAgain (env : Env K S P CP) (role : Bool) (w : TxState K S P CP) : Prop :=
  failsOnStore env role w ∨ failsForFunds env role w ∨
    ∃ w1, failsOnValidationVia env role w w1

/-- The first `if` of the role's `update` has nothing to do on the object:
the sender has a `FailureReason`, or its excess and offset; the receiver has
its `Outputs`. -/
def firstIfDone (role : Bool) (w : TxState K S P CP) : Prop :=
  (role = true →
    w.params.FailureReason.isSome = true ∨
      (w.params.BlindingExcess.isSome = true ∧ w.params.Offset.isSome = true)) ∧
  (role = false → w.params.Outputs.isSome = true)

/-- The result of the first `if` of an `update` with another past of its
object. -/
def TxState.rebaseResult (r : TxState K S P CP ⊕ (TxState K S P CP × S × S))
    (pre : List (Call S P)) (saved : Option TxDescription) :
    TxState K S P CP ⊕ (TxState K S P CP × S × S) :=
  match r with
  | Sum.inl w => Sum.inl (w.rebase pre saved)
  | Sum.inr x => Sum.inr (x.1.rebase pre saved, x.2.1, x.2.2)

/-- The three `assert` statements of `SendTransaction::update`. -/
inductive Assertion
  /-- The `assert(initiator)` of line 221, before the `Invite` is sent. -/
  | invite
  /-- The `assert(!initiator)` of line 257, before the `ConfirmInvitation` is
  sent. -/
  | confirmInvitation
  /-- The `assert(initiator)` of line 290, before the `ConfirmTransaction` is
  sent. -/
  | confirmTransaction
  deriving DecidableEq, Repr

/-- The `assert` that `SendTransaction::update` evaluates after its first `if`
(lines 216-294), with the value of its condition: the branches of
`SendTransaction.updateNegotiate` and `SendTransaction.updateRegister`, with
the assertion of each branch in the place of what the branch does.  `none`
when the call passes no `assert`. -/
def SendTransaction.updateNegotiateAssert (env : Env K S P CP) (w : TxState K S P CP)
    (initiator : Bool) (blindingExcess : S) : Option (Assertion × Bool) :=
  match BaseTransaction.getParameterPoint env w.params.PublicPeerNonce,
        BaseTransaction.getParameterPoint env w.params.PublicPeerExcess with
  | some publicPeerNonce, some publicPeerExcess =>
    let r := BaseTransaction.updateCoSign env w.m_txDesc blindingExcess publicPeerNonce
      publicPeerExcess
    let kernel := r.1
    match w.params.PeerSignature with
    | none => some (Assertion.confirmInvitation, !initiator)
    | some peerSignature =>
      let peerSig : Signature S := { m_e := kernel.m_Signature.m_e, m_k := peerSignature }
      if !Signature.IsValidPartial env peerSig publicPeerNonce publicPeerExcess then none
      else
        match w.params.TransactionRegistered with
        | none =>
          match w.params.PeerInputs, w.params.PeerOutputs with
          | some _, some _ => none
          | _, _ => some (Assertion.confirmTransaction, initiator)
        | some _ => none
  | _, _ => some (Assertion.invite, initiator)

/-- The `assert` that a call of `SendTransaction::update` evaluates, with the
value of its condition; `initiator` is computed at line 129, before the first
`if`. -/
def SendTransaction.updateAssert (env : Env K S P CP) (w : TxState K S P CP) :
    Option (Assertion × Bool) :=
  match SendTransaction.updateEntry env w with
  | Sum.inl _ => none
  | Sum.inr r =>
    SendTransaction.updateNegotiateAssert env r.1 w.params.PeerOffset.isNone r.2.1

/-- Modelled from the spec: the invariant of the transport (`wallet.cpp`, not
under `src/`) on the parameters of the peer, stated on their presence in the
store.  An `Invite` populates `PeerOffset`, `PeerInputs`, `PeerOutputs`,
`PublicPeerNonce` and `PublicPeerExcess` together: where `PeerOffset` is
present the other four are.  `PublicPeerNonce` and `PublicPeerExcess` are
populated by an `Invite` or by a `ConfirmInvitation`, which populates
`PeerSignature` with them: where both are present, `PeerOffset` or
`PeerSignature` is. -/
def Transport.invariant (p : Params S P CP) : Prop :=
  (p.PeerOffset.isSome = true →
    p.PeerInputs.isSome = true ∧ p.PeerOutputs.isSome = true ∧
    p.PublicPeerNonce.isSome = true ∧ p.PublicPeerExcess.isSome = true) ∧
  (p.PublicPeerNonce.isSome = true → p.PublicPeerExcess.isSome = true →
    p.PeerOffset.isSome = true ∨ p.PeerSignature.isSome = true)

/-- The compact points of the peer that the store holds are points: `Import`
(lines 33-41) succeeds for the stored `PublicPeerNonce` and
`PublicPeerExcess`. -/
def Transport.importable (env : Env K S P CP) (p : Params S P CP) : Prop :=
  (∀ pt, p.PublicPeerNonce = some pt → (env.ecc.pointImport pt).isSome = true) ∧
  (∀ pt, p.PublicPeerExcess = some pt → (env.ecc.pointImport pt).isSome = true)

/-- The description with `m_modifyTime = t`; every other field is kept. -/
def TxDescription.atTime (d : TxDescription) (t : Nat) : TxDescription :=
  { d with m_modifyTime := t }

/-- The description that a call passes to the key chain or to the gateway,
when it passes one. -/
def Call.description : Call S P → Option TxDescription
  | .saveTx d => some d
  | .send_tx_invitation d _ => some d
  | .send_tx_confirmation d _ => some d
  | .send_tx_confirmation_tx d _ => some d
  | .send_tx_registered d => some d
  | .send_tx_failed d => some d
  | .register_tx d _ => some d
  | .confirm_kernel d _ => some d
  | .on_tx_completed d => some d
  | _ => none

/-- The call with the `m_modifyTime` of the description it passes put to `t`;
every other argument, the message included, is kept. -/
def Call.atTime (t : Nat) : Call S P → Call S P
  | .saveTx d => .saveTx (d.atTime t)
  | .send_tx_invitation d m => .send_tx_invitation (d.atTime t) m
  | .send_tx_confirmation d m => .send_tx_confirmation (d.atTime t) m
  | .send_tx_confirmation_tx d m => .send_tx_confirmation_tx (d.atTime t) m
  | .send_tx_registered d => .send_tx_registered (d.atTime t)
  | .send_tx_failed d => .send_tx_failed (d.atTime t)
  | .register_tx d tx => .register_tx (d.atTime t) tx
  | .confirm_kernel d k => .confirm_kernel (d.atTime t) k
  | .on_tx_completed d => .on_tx_completed (d.atTime t)
  | c => c

/-- The object with every `m_modifyTime` put to `t`: that of the member
`m_txDesc`, of the saved description and of the descriptions of the calls
made. -/
def TxState.atTime (w : TxState K S P CP) (t : Nat) : TxState K S P CP :=
  { w with m_txDesc := w.m_txDesc.atTime t,
           savedTx := w.savedTx.map (fun d => d.atTime t),
           calls := w.calls.map (Call.atTime t) }

/-- The environment in which the clock reads `t`; all else is kept. -/
def Env.atTime (env : Env K S P CP) (t : Nat) : Env K S P CP :=
  { env with getTimestamp := t }

/-- The result of the first `if` of an `update` with every modification time
put to `t`. -/
def TxState.atTimeResult (r : TxState K S P CP ⊕ (TxState K S P CP × S × S)) (t : Nat) :
    TxState K S P CP ⊕ (TxState K S P CP × S × S) :=
  match r with
  | Sum.inl w => Sum.inl (w.atTime t)
  | Sum.inr x => Sum.inr (x.1.atTime t, x.2.1, x.2.2)

/-- The constructor `BaseTransaction::BaseTransaction(gateway, keychain,
txDesc)` (lines 22-31): the member `m_txDesc` is a copy of `txDesc`; the key
chain and the gateway are those of the wallet, here the ledger, the parameter
store, the saved description and the calls made so far of `wallet`. -/
def BaseTransaction.construct (wallet : TxState K S P CP) (txDesc : TxDescription) :
    TxState K S P CP :=
  { wallet with m_txDesc := txDesc }

end Operations

/-! ## The typed access to the parameter store

`getParameter` and `setParameter` of `negotiator.h` (lines 94-123) and their
overloads for `Scalar::Native` and `Point::Native` of `negotiator.cpp` (lines
33-68).  The store itself, the serializer and the conversions of the ECC
library are called there and defined elsewhere. -/

section ParameterStore

/-- The two member functions of `IKeyChain` behind the parameters: the store
`St` holds byte buffers `B` per transaction and parameter identifier. -/
structure IParameterStore (St B : Type) where
  /-- `IKeyChain::getTxParameter(txID, paramID, blob)`: the blob, when there
  is one. -/
  getTxParameter : St → TxID → TxParams → Option B
  /-- `IKeyChain::setTxParameter(txID, paramID, blob)`. -/
  setTxParameter : St → TxID → TxParams → B → St

/-- The `Serializer` and the `Deserializer` on the values of a type `T`:
`s & value; s.swap_buf(b)` and `d.reset(b.data(), b.size()); d & value`. -/
structure Serialization (T B : Type) where
  encode : T → B
  decode : B → T

/-- The conversions between the native forms `S`, `P` of scalars and points
and their compact forms `CS`, `CP` in the ECC library. -/
structure NativeForms (S P CS CP : Type) where
  /-- `Scalar::Native::Export(Scalar&)`. -/
  scalarExport : S → CS
  /-- `Scalar::Native::Import(const Scalar&)`: the value it leaves; the caller
  drops what it returns. -/
  scalarImport : CS → S
  /-- `Point::Native::Export(Point&)`: the compact form when it returns
  true. -/
  pointExport : P → Option CP
  /-- `Point::Native::Import(const Point&)` on a value: what it returns and
  the value it leaves. -/
  pointImport : CP → P → Bool × P

variable {St B T S P CS CP : Type}

/-- The member template `BaseTransaction::getParameter(paramID, value)`: what
it returns and the value it leaves in `value`. -/
def BaseTransaction.getParameter (store : IParameterStore St B) (ser : Serialization T B)
    (st : St) (txId : TxID) (paramID : TxParams) (value : T) : Bool × T :=
  match store.getTxParameter st txId paramID with
  | some b => (true, ser.decode b)
  | none => (false, value)

/-- The member template `BaseTransaction::setParameter(paramID, value)`. -/
def BaseTransaction.setParameter (store : IParameterStore St B) (ser : Serialization T B)
    (st : St) (txId : TxID) (paramID : TxParams) (value : T) : St :=
  store.setTxParameter st txId paramID (ser.encode value)

/-- The overload `getParameter(TxParams, ECC::Scalar::Native&)`; `s` is the
local `ECC::Scalar s`. -/
def BaseTransaction.getParameterScalarNative (store : IParameterStore St B)
    (ser : Serialization CS B) (forms : NativeForms S P CS CP) (st : St) (txId : TxID)
    (paramID : TxParams) (s : CS) (value : S) : Bool × S :=
  let r := BaseTransaction.getParameter store ser st txId paramID s
  if r.1 then (true, forms.scalarImport r.2) else (false, value)

/-- The overload `getParameter(TxParams, ECC::Point::Native&)`; `pt` is the
local `ECC::Point pt`. -/
def BaseTransaction.getParameterPointNative (store : IParameterStore St B)
    (ser : Serialization CP B) (forms : NativeForms S P CS CP) (st : St) (txId : TxID)
    (paramID : TxParams) (pt : CP) (value : P) : Bool × P :=
  let r := BaseTransaction.getParameter store ser st txId paramID pt
  if r.1 then forms.pointImport r.2 value else (false, value)

/-- The overload `setParameter(TxParams, const ECC::Scalar::Native&)`. -/
def BaseTransaction.setParameterScalarNative (store : IParameterStore St B)
    (ser : Serialization CS B) (forms : NativeForms S P CS CP) (st : St) (txId : TxID)
    (paramID : TxParams) (value : S) : St :=
  BaseTransaction.setParameter store ser st txId paramID (forms.scalarExport value)

/-- The overload `setParameter(TxParams, const ECC::Point::Native&)`: the
value is stored if `Export` returns true. -/
def BaseTransaction.setParameterPointNative (store : IParameterStore St B)
    (ser : Serialization CP B) (forms : NativeForms S P CS CP) (st : St) (txId : TxID)
    (paramID : TxParams) (value : P) : St :=
  match forms.pointExport value with
  | some pt => BaseTransaction.setParameter store ser st txId paramID pt
  | none => st

end ParameterStore

/-! ## A small concrete wallet

Integers as scalars, pairs of integers as points (`G = (1, 0)`, `H = (0, 1)`),
and a key chain that is a list of coins.  It is the input of the examples. -/

section Concrete

/-- Modelled from the spec: `selectCoins(amount)` of the coin ledger
(`wallet/wallet_db.cpp`): walks the spendable (Confirmed) coins in order and
collects them until their sum reaches `amount`. -/
def selectGreedy : List Coin → Amount → List Coin → List Coin
  | [], _, _ => []
  | c :: rest, amount, acc =>
    if c.m_status = CoinStatus.Confirmed then
      if amount ≤ ((acc ++ [c]).map Coin.m_amount).sum then acc ++ [c]
      else selectGreedy rest amount (acc ++ [c])
    else selectGreedy rest amount acc

/-- Modelled from the spec: the coin ledger behind `IKeyChain`
(`wallet/wallet_db.cpp`) as a list of coins.  `selectCoins(amount)` "returns a
set whose sum ≥ amount, or empty if insufficient" and either leaves the coins
unreserved or, with `lock`, marks them Locked ("mark coins Locked atomically
inside `selectCoins`"); `calcKey` is a "pure function of the coin's identity";
`store` "persists a Draft coin" under a fresh identifier; `update` "writes
back mutated statuses/txIds"; `rollbackTx` makes the Draft coins created by
the transaction Cancelled and the Locked coins spent by it Confirmed again;
`visit` "iterates all coins". -/
def listKeyChain (lock : Bool) (height : Height) : IKeyChain (List Coin) Int where
  selectCoins := fun k amount =>
    (selectGreedy k amount []).map
      (fun c => if lock then { c with m_status := CoinStatus.Locked } else c)
  calcKey := fun c => 7 * (c.m_id : Int) + 3
  store := fun k c =>
    let c1 := { c with m_id := (k.map Coin.m_id).foldl max 0 + 1 }
    (k ++ [c1], c1)
  update := fun k cs =>
    k.map (fun c => match cs.find? (fun c1 => c1.m_id = c.m_id) with
      | some c1 => c1
      | none => c)
  rollbackTx := fun k txId =>
    k.map (fun c =>
      if c.m_createTxId = some txId ∧ c.m_status = CoinStatus.Draft then
        { c with m_status := CoinStatus.Cancelled }
      else if c.m_spentTxId = some txId ∧ c.m_status = CoinStatus.Locked then
        { c with m_status := CoinStatus.Confirmed, m_spentTxId := none }
      else c)
  visit := fun k => k
  getCoinsCreatedByTx := fun k txId => k.filter (fun c => c.m_createTxId = some txId)
  getCurrentHeight := fun _ => height
  getAddress := fun _ _ => none

/-- An instance of the ECC interface over the integers: `G = (1, 0)`,
`H = (0, 1)`, every pair is a point, and `splitKey` returns
`(key + offset, offset)`. -/
def intEcc : Ecc Int (Int × Int) (Int × Int) where
  G := (1, 0)
  H := (0, 1)
  pointImport := fun p => some p
  pointExport := fun p => p
  get_Hash := fun k => k.m_Fee + 2 * k.m_HeightMin + 3 * k.m_Excess.1.natAbs
  GenerateNonce := fun hv sk => (hv : Int) + 2 * sk + 1
  get_Challenge := fun r m => r.1 + (m : Int) + 2
  splitKey := fun key index => (key + ((index : Int) + 11), (index : Int) + 11)

/-- The concrete environment: the list key chain, a validator that accepts
everything, no sorting, a tip and no test mode. -/
def intEnv (lock : Bool) (height : Height) : Env (List Coin) Int (Int × Int) (Int × Int) where
  ecc := intEcc
  keychain := listKeyChain lock height
  txSort := fun t => t
  IsValid := fun _ => true
  get_tip := some 0
  IsValidProofKernel := fun _ _ _ => true
  isTestMode := false
  getTimestamp := 1000

/-- The concrete environment with another selection policy, which the
interface allows as well ("returns a set whose sum ≥ amount, or empty if
insufficient"): `selectCoins` returns the whole ledger when it covers the
amount. -/
def intEnvAll (height : Height) : Env (List Coin) Int (Int × Int) (Int × Int) :=
  { intEnv true height with
    keychain := { listKeyChain true height with
      selectCoins := fun k amount => if amount ≤ (k.map Coin.m_amount).sum then k else [] } }

/-- A confirmed coin of the ledger. -/
def confirmedCoin (id : Nat) (amount : Amount) : Coin :=
  { m_id := id, m_amount := amount, m_status := CoinStatus.Confirmed, m_height := 0,
    m_createTxId := none, m_spentTxId := none }

/-- The description of a pending transaction `txId = 1`. -/
def pendingTx (sender : Bool) (amount fee : Amount) : TxDescription :=
  { m_txId := 1, m_amount := amount, m_fee := fee, m_change := 0, m_minHeight := 0,
    m_peerId := 2, m_sender := sender, m_status := TxStatus.Pending, m_modifyTime := 0 }

/-- A fresh negotiation over a ledger: no parameter stored, no call made. -/
def freshState (d : TxDescription) (k : List Coin) :
    TxState (List Coin) Int (Int × Int) (Int × Int) :=
  { m_txDesc := d, m_keychain := k, params := Params.empty, savedTx := some d, calls := [] }

/-- A negotiation in which the own excess and offset are persisted and the
peer has delivered its offset, public nonce, public excess and a partial
signature `peerSignature`. -/
def answeredState (d : TxDescription) (k : List Coin) (peerSignature : Int) :
    TxState (List Coin) Int (Int × Int) (Int × Int) :=
  { m_txDesc := d, m_keychain := k,
    params := { (Params.empty : Params Int (Int × Int) (Int × Int)) with
      BlindingExcess := some 5, Offset := some 7, Outputs := some [],
      PeerOffset := some 2, PublicPeerNonce := some (3, 0), PublicPeerExcess := some (4, 0),
      PeerSignature := some peerSignature },
    savedTx := some d, calls := [] }

/-- The sender of the examples of the two-party run: one coin of 100, to send
40 with fee 1. -/
def senderExample : TxState (List Coin) Int (Int × Int) (Int × Int) :=
  freshState (pendingTx true 40 1) [confirmedCoin 1 100]

/-- The receiver of the examples of the two-party run, created for the
invitation of `senderExample`: amount 40, fee 1, height 5, an empty ledger. -/
def receiverExample : TxState (List Coin) Int (Int × Int) (Int × Int) :=
  freshState { pendingTx false 40 1 with m_minHeight := 5 } []

/-- A negotiation in which the own excess and offset are persisted and the
peer has delivered its offset, public nonce and public excess, and no
signature yet. -/
def invitedState (d : TxDescription) (k : List Coin) :
    TxState (List Coin) Int (Int × Int) (Int × Int) :=
  { m_txDesc := d, m_keychain := k,
    params := { (Params.empty : Params Int (Int × Int) (Int × Int)) with
      BlindingExcess := some 5, Offset := some 7, Outputs := some [],
      PeerOffset := some 2, PublicPeerNonce := some (3, 0), PublicPeerExcess := some (4, 0) },
    savedTx := some d, calls := [] }

/-- A negotiation as `answeredState` with the valid peer signature 183, the
inputs and outputs of the peer, and the given answers of the node: whether
the transaction was registered, and the kernel proof. -/
def signedState (d : TxDescription) (k : List Coin)
    (peerInputs : List (Input (Int × Int))) (peerOutputs : List (Output (Int × Int)))
    (registered : Option Bool) (kernelProof : Option MerkleProof) :
    TxState (List Coin) Int (Int × Int) (Int × Int) :=
  { m_txDesc := d, m_keychain := k,
    params := { (Params.empty : Params Int (Int × Int) (Int × Int)) with
      BlindingExcess := some 5, Offset := some 7, Outputs := some [],
      PeerOffset := some 2, PublicPeerNonce := some (3, 0), PublicPeerExcess := some (4, 0),
      PeerSignature := some 183, PeerInputs := some peerInputs,
      PeerOutputs := some peerOutputs, TransactionRegistered := registered,
      KernelProof := kernelProof },
    savedTx := some d, calls := [] }

/-- The environment `intEnv true 5` with a validator that rejects every
transaction. -/
def rejectingEnv : Env (List Coin) Int (Int × Int) (Int × Int) :=
  { intEnv true 5 with IsValid := fun _ => false }

/-- The environment `intEnv true 5` with a node that has no tip. -/
def tiplessEnv (testMode : Bool) : Env (List Coin) Int (Int × Int) (Int × Int) :=
  { intEnv true 5 with get_tip := none, isTestMode := testMode }

/-- A receiver to which the invitation of its peer was delivered, before its
first `update`: the offset, the public nonce and the public excess of the
peer, and nothing of its own. -/
def deliveredState (d : TxDescription) (k : List Coin) :
    TxState (List Coin) Int (Int × Int) (Int × Int) :=
  { m_txDesc := d, m_keychain := k,
    params := { (Params.empty : Params Int (Int × Int) (Int × Int)) with
      PeerOffset := some 2, PublicPeerNonce := some (3, 0), PublicPeerExcess := some (4, 0) },
    savedTx := some d, calls := [] }

/-- The receiver of the examples after a first `update()` that found no
parameter of its peer and failed, with the offset, the public nonce and the
public excess of the peer delivered afterwards. -/
def lateInvitation : TxState (List Coin) Int (Int × Int) (Int × Int) :=
  { ReceiveTransaction.update (intEnv true 5) receiverExample with
    params := { (ReceiveTransaction.update (intEnv true 5) receiverExample).params with
      PeerOffset := some 2, PublicPeerNonce := some (3, 0), PublicPeerExcess := some (4, 0) } }

/-- The environment of the examples with an address book in which every
identifier is an address of the wallet itself. -/
def selfEnv : Env (List Coin) Int (Int × Int) (Int × Int) :=
  { intEnv true 5 with
    keychain := { listKeyChain true 5 with
      getAddress := fun _ id => some { m_walletID := id, m_own := true } } }

/-- The sender of the examples after its invitation, with the
`ConfirmInvitation` of the receiver of the examples delivered. -/
def confirmedSender : TxState (List Coin) Int (Int × Int) (Int × Int) :=
  Transport.deliverConfirmInvitation intEcc (SendTransaction.update (intEnv true 5) senderExample)
    { m_txId := 1, m_publicPeerExcess := (-22, 0), m_publicPeerNonce := (-32, 0),
      m_peerSignature := -1770 }

/-- The environment of the examples with an ECC library in which not every
compact form is a point: `Import` fails for the compact forms whose second
component is not 0. -/
def strictEnv : Env (List Coin) Int (Int × Int) (Int × Int) :=
  { intEnv true 5 with
    ecc := { intEcc with pointImport := fun p => if p.2 = 0 then some p else none } }

/-- An invited sender whose excess and offset are persisted and to which a whole
`Invite` was delivered, with a `PublicPeerNonce` whose compact form `(3, 1)` is
no point of `strictEnv`. -/
def garbledInvite : TxState (List Coin) Int (Int × Int) (Int × Int) :=
  { m_txDesc := pendingTx true 40 1, m_keychain := [],
    params := { (Params.empty : Params Int (Int × Int) (Int × Int)) with
      BlindingExcess := some 5, Offset := some 7,
      PeerOffset := some 2, PeerInputs := some [], PeerOutputs := some [],
      PublicPeerNonce := some (3, 1), PublicPeerExcess := some (4, 0) },
    savedTx := some (pendingTx true 40 1), calls := [] }

/-- The object with a `FailureReason` in its store. -/
def withFailure (w : TxState (List Coin) Int (Int × Int) (Int × Int)) (reason : Int) :
    TxState (List Coin) Int (Int × Int) (Int × Int) :=
  { w with params := { w.params with FailureReason := some reason } }

/-- A coin of the ledger that the transaction `txId` has reserved: Locked,
with `spentTxId = txId`. -/
def lockedCoin (id : Nat) (amount : Amount) (txId : TxID) : Coin :=
  { m_id := id, m_amount := amount, m_status := CoinStatus.Locked, m_height := 0,
    m_createTxId := none, m_spentTxId := some txId }

/-- A receiver with the valid peer signature 183, one input and one output of
the peer, over a ledger with four coins: a Locked coin spent by the
transaction, a Draft coin created by it, a Draft coin created by the
transaction 2 and a Confirmed coin. -/
def mixedLedgerReceiver : TxState (List Coin) Int (Int × Int) (Int × Int) :=
  signedState (pendingTx false 40 1)
    [lockedCoin 7 100 1,
     { m_id := 8, m_amount := 59, m_status := CoinStatus.Draft, m_height := 5,
       m_createTxId := some 1, m_spentTxId := none },
     { m_id := 9, m_amount := 30, m_status := CoinStatus.Draft, m_height := 5,
       m_createTxId := some 2, m_spentTxId := none },
     confirmedCoin 10 20]
    [{ m_Commitment := (1, 1) }] [{ m_Coinbase := false, m_Commitment := (2, 2) }] none none

/-- A sender that was interrupted between the two `setParameter` calls of
lines 204 and 205: its excess is in the store, its offset is not; the coin it
had reserved is Locked, and the ledger holds another coin. -/
def halfStoredSender : TxState (List Coin) Int (Int × Int) (Int × Int) :=
  { m_txDesc := pendingTx true 40 1,
    m_keychain := [lockedCoin 1 100 1, confirmedCoin 3 100],
    params := { (Params.empty : Params Int (Int × Int) (Int × Int)) with
      BlindingExcess := some 10 },
    savedTx := some (pendingTx true 40 1), calls := [] }

/-- The environment of the examples at a later time: the clock reads 2000. -/
def laterEnv : Env (List Coin) Int (Int × Int) (Int × Int) :=
  { intEnv true 5 with getTimestamp := 2000 }

/-- The sender of the examples, constructed from the saved description in a
wallet that has made a call before. -/
def restartedSender : TxState (List Coin) Int (Int × Int) (Int × Int) :=
  BaseTransaction.construct { senderExample with calls := [Call.rollbackTx 7] }
    (pendingTx true 40 1)

/-- The sender of the examples after an `update()` towards an own address,
which has returned after `sendSelfTx()` (line 185). -/
def selfSent : TxState (List Coin) Int (Int × Int) (Int × Int) :=
  SendTransaction.update selfEnv senderExample

/-- A parameter store as a list of entries, the newest first;
`setTxParameter` adds an entry and `getTxParameter` returns the newest one
for the transaction and the identifier. -/
def listStore (B : Type) : IParameterStore (List (TxID × TxParams × B)) B where
  getTxParameter := fun st txId paramID =>
    (st.find? (fun e => decide (e.1 = txId) && decide (e.2.1 = paramID))).map (fun e => e.2.2)
  setTxParameter := fun st txId paramID b => (txId, paramID, b) :: st

/-- The serialization of the examples: the value itself. -/
def plainSerialization (T : Type) : Serialization T T where
  encode := fun v => v
  decode := fun b => b

/-- The serialization of a compact scalar of the examples into the blobs of a
store of pairs: the scalar and a zero. -/
def scalarSerialization : Serialization Int (Int × Int) where
  encode := fun v => (v, 0)
  decode := fun b => b.1

/-- The conversions of the examples: scalars and points are their own compact
forms, and the identity `(0, 0)` of the points has no compact form, as the
point at infinity of a curve has none: `Export` returns false for it. -/
def intForms : NativeForms Int (Int × Int) Int (Int × Int) where
  scalarExport := fun s => s
  scalarImport := fun s => s
  pointExport := fun p => if p = (0, 0) then none else some p
  pointImport := fun pt _ => (true, pt)

end Concrete

/-! ## Facts about the steps -/

section StepFacts

variable {K S P CP : Type}

@[simp] theorem emit_calls (w : TxState K S P CP) (c : Call S P) :
    (w.emit c).calls = w.calls ++ [c] := rfl

@[simp] theorem emit_txDesc (w : TxState K S P CP) (c : Call S P) :
    (w.emit c).m_txDesc = w.m_txDesc := rfl

@[simp] theorem emit_params (w : TxState K S P CP) (c : Call S P) :
    (w.emit c).params = w.params := rfl

@[simp] theorem emit_keychain (w : TxState K S P CP) (c : Call S P) :
    (w.emit c).m_keychain = w.m_keychain := rfl

@[simp] theorem emit_savedTx (w : TxState K S P CP) (c : Call S P) :
    (w.emit c).savedTx = w.savedTx := rfl

@[simp] theorem setMinHeight_calls (w : TxState K S P CP) (h : Height) :
    (w.setMinHeight h).calls = w.calls := rfl

@[simp] theorem setMinHeight_txDesc (w : TxState K S P CP) (h : Height) :
    (w.setMinHeight h).m_txDesc = { w.m_txDesc with m_minHeight := h } := rfl

@[simp] theorem setMinHeight_params (w : TxState K S P CP) (h : Height) :
    (w.setMinHeight h).params = w.params := rfl

@[simp] theorem setMinHeight_keychain (w : TxState K S P CP) (h : Height) :
    (w.setMinHeight h).m_keychain = w.m_keychain := rfl

@[simp] theorem setMinHeight_savedTx (w : TxState K S P CP) (h : Height) :
    (w.setMinHeight h).savedTx = w.savedTx := rfl

@[simp] theorem setChange_calls (w : TxState K S P CP) (a : Amount) :
    (w.setChange a).calls = w.calls := rfl

@[simp] theorem setChange_txDesc (w : TxState K S P CP) (a : Amount) :
    (w.setChange a).m_txDesc = { w.m_txDesc with m_change := a } := rfl

@[simp] theorem setChange_params (w : TxState K S P CP) (a : Amount) :
    (w.setChange a).params = w.params := rfl

@[simp] theorem setChange_keychain (w : TxState K S P CP) (a : Amount) :
    (w.setChange a).m_keychain = w.m_keychain := rfl

@[simp] theorem setChange_savedTx (w : TxState K S P CP) (a : Amount) :
    (w.setChange a).savedTx = w.savedTx := rfl

@[simp] theorem keychainUpdate_calls (env : Env K S P CP) (w : TxState K S P CP) (cs : List Coin) :
    (w.keychainUpdate env cs).calls = w.calls ++ [Call.update cs] := rfl

@[simp] theorem keychainUpdate_txDesc (env : Env K S P CP) (w : TxState K S P CP) (cs : List Coin) :
    (w.keychainUpdate env cs).m_txDesc = w.m_txDesc := rfl

@[simp] theorem keychainUpdate_params (env : Env K S P CP) (w : TxState K S P CP) (cs : List Coin) :
    (w.keychainUpdate env cs).params = w.params := rfl

@[simp] theorem keychainUpdate_keychain (env : Env K S P CP) (w : TxState K S P CP) (cs : List Coin) :
    (w.keychainUpdate env cs).m_keychain = env.keychain.update w.m_keychain cs := rfl

@[simp] theorem keychainUpdate_savedTx (env : Env K S P CP) (w : TxState K S P CP) (cs : List Coin) :
    (w.keychainUpdate env cs).savedTx = w.savedTx := rfl

@[simp] theorem keychainStore_calls (env : Env K S P CP) (w : TxState K S P CP) (c : Coin) :
    ((w.keychainStore env c).1).calls = w.calls ++ [Call.store c] := rfl

@[simp] theorem keychainStore_txDesc (env : Env K S P CP) (w : TxState K S P CP) (c : Coin) :
    ((w.keychainStore env c).1).m_txDesc = w.m_txDesc := rfl

@[simp] theorem keychainStore_params (env : Env K S P CP) (w : TxState K S P CP) (c : Coin) :
    ((w.keychainStore env c).1).params = w.params := rfl

@[simp] theorem keychainStore_keychain (env : Env K S P CP) (w : TxState K S P CP) (c : Coin) :
    ((w.keychainStore env c).1).m_keychain = (env.keychain.store w.m_keychain c).1 := rfl

@[simp] theorem keychainStore_savedTx (env : Env K S P CP) (w : TxState K S P CP) (c : Coin) :
    ((w.keychainStore env c).1).savedTx = w.savedTx := rfl

@[simp] theorem keychainStore_coin (env : Env K S P CP) (w : TxState K S P CP) (c : Coin) :
    (w.keychainStore env c).2 = (env.keychain.store w.m_keychain c).2 := rfl

@[simp] theorem setBlindingExcess_calls (w : TxState K S P CP) (v : S) :
    (w.setBlindingExcess v).calls = w.calls ++ [Call.setTxParameter TxParams.BlindingExcess] := rfl

@[simp] theorem setBlindingExcess_txDesc (w : TxState K S P CP) (v : S) :
    (w.setBlindingExcess v).m_txDesc = w.m_txDesc := rfl

@[simp] theorem setBlindingExcess_params (w : TxState K S P CP) (v : S) :
    (w.setBlindingExcess v).params = { w.params with BlindingExcess := some v } := rfl

@[simp] theorem setBlindingExcess_keychain (w : TxState K S P CP) (v : S) :
    (w.setBlindingExcess v).m_keychain = w.m_keychain := rfl

@[simp] theorem setBlindingExcess_savedTx (w : TxState K S P CP) (v : S) :
    (w.setBlindingExcess v).savedTx = w.savedTx := rfl

@[simp] theorem setOffset_calls (w : TxState K S P CP) (v : S) :
    (w.setOffset v).calls = w.calls ++ [Call.setTxParameter TxParams.Offset] := rfl

@[simp] theorem setOffset_txDesc (w : TxState K S P CP) (v : S) :
    (w.setOffset v).m_txDesc = w.m_txDesc := rfl

@[simp] theorem setOffset_params (w : TxState K S P CP) (v : S) :
    (w.setOffset v).params = { w.params with Offset := some v } := rfl

@[simp] theorem setOffset_keychain (w : TxState K S P CP) (v : S) :
    (w.setOffset v).m_keychain = w.m_keychain := rfl

@[simp] theorem setOffset_savedTx (w : TxState K S P CP) (v : S) :
    (w.setOffset v).savedTx = w.savedTx := rfl

@[simp] theorem setOutputs_calls (w : TxState K S P CP) (v : List (Output P)) :
    (w.setOutputs v).calls = w.calls ++ [Call.setTxParameter TxParams.Outputs] := rfl

@[simp] theorem setOutputs_txDesc (w : TxState K S P CP) (v : List (Output P)) :
    (w.setOutputs v).m_txDesc = w.m_txDesc := rfl

@[simp] theorem setOutputs_params (w : TxState K S P CP) (v : List (Output P)) :
    (w.setOutputs v).params = { w.params with Outputs := some v } := rfl

@[simp] theorem setOutputs_keychain (w : TxState K S P CP) (v : List (Output P)) :
    (w.setOutputs v).m_keychain = w.m_keychain := rfl

@[simp] theorem setOutputs_savedTx (w : TxState K S P CP) (v : List (Output P)) :
    (w.setOutputs v).savedTx = w.savedTx := rfl

@[simp] theorem updateTxDescription_calls (env : Env K S P CP) (w : TxState K S P CP) (s : TxStatus) :
    (BaseTransaction.updateTxDescription env w s).calls = w.calls ++ [Call.saveTx { w.m_txDesc with m_status := s, m_modifyTime := env.getTimestamp }] := rfl

@[simp] theorem updateTxDescription_txDesc (env : Env K S P CP) (w : TxState K S P CP) (s : TxStatus) :
    (BaseTransaction.updateTxDescription env w s).m_txDesc = { w.m_txDesc with m_status := s, m_modifyTime := env.getTimestamp } := rfl

@[simp] theorem updateTxDescription_params (env : Env K S P CP) (w : TxState K S P CP) (s : TxStatus) :
    (BaseTransaction.updateTxDescription env w s).params = w.params := rfl

@[simp] theorem updateTxDescription_keychain (env : Env K S P CP) (w : TxState K S P CP) (s : TxStatus) :
    (BaseTransaction.updateTxDescription env w s).m_keychain = w.m_keychain := rfl

@[simp] theorem updateTxDescription_savedTx (env : Env K S P CP) (w : TxState K S P CP) (s : TxStatus) :
    (BaseTransaction.updateTxDescription env w s).savedTx = some { w.m_txDesc with m_status := s, m_modifyTime := env.getTimestamp } := rfl

@[simp] theorem rollbackTx_calls (env : Env K S P CP) (w : TxState K S P CP) :
    (BaseTransaction.rollbackTx env w).calls = w.calls ++ [Call.rollbackTx w.m_txDesc.m_txId] := rfl

@[simp] theorem rollbackTx_txDesc (env : Env K S P CP) (w : TxState K S P CP) :
    (BaseTransaction.rollbackTx env w).m_txDesc = w.m_txDesc := rfl

@[simp] theorem rollbackTx_params (env : Env K S P CP) (w : TxState K S P CP) :
    (BaseTransaction.rollbackTx env w).params = w.params := rfl

@[simp] theorem rollbackTx_keychain (env : Env K S P CP) (w : TxState K S P CP) :
    (BaseTransaction.rollbackTx env w).m_keychain = env.keychain.rollbackTx w.m_keychain w.m_txDesc.m_txId := rfl

@[simp] theorem rollbackTx_savedTx (env : Env K S P CP) (w : TxState K S P CP) :
    (BaseTransaction.rollbackTx env w).savedTx = w.savedTx := rfl

theorem onFailed_calls (env : Env K S P CP) (w : TxState K S P CP) (notify : Bool) :
    (BaseTransaction.onFailed env w notify).calls =
      w.calls ++ ([Call.saveTx (failedDesc env w), Call.rollbackTx w.m_txDesc.m_txId] ++
        (if notify then [Call.send_tx_failed (failedDesc env w)] else []) ++
        [Call.on_tx_completed (failedDesc env w)]) := by
  cases notify <;> simp [BaseTransaction.onFailed, failedDesc]

theorem onFailed_txDesc (env : Env K S P CP) (w : TxState K S P CP) (notify : Bool) :
    (BaseTransaction.onFailed env w notify).m_txDesc = failedDesc env w := by
  cases notify <;> simp [BaseTransaction.onFailed, failedDesc]

theorem onFailed_params (env : Env K S P CP) (w : TxState K S P CP) (notify : Bool) :
    (BaseTransaction.onFailed env w notify).params = w.params := by
  cases notify <;> simp [BaseTransaction.onFailed]

theorem onFailed_keychain (env : Env K S P CP) (w : TxState K S P CP) (notify : Bool) :
    (BaseTransaction.onFailed env w notify).m_keychain =
      env.keychain.rollbackTx w.m_keychain w.m_txDesc.m_txId := by
  cases notify <;> simp [BaseTransaction.onFailed]

theorem onFailed_savedTx (env : Env K S P CP) (w : TxState K S P CP) (notify : Bool) :
    (BaseTransaction.onFailed env w notify).savedTx = some (failedDesc env w) := by
  cases notify <;> simp [BaseTransaction.onFailed, failedDesc]

@[simp] theorem failedDesc_status (env : Env K S P CP) (w : TxState K S P CP) :
    (failedDesc env w).m_status = TxStatus.Failed := rfl

@[simp] theorem failedDesc_txId (env : Env K S P CP) (w : TxState K S P CP) :
    (failedDesc env w).m_txId = w.m_txDesc.m_txId := rfl

@[simp] theorem persistExcess_calls (env : Env K S P CP) (w : TxState K S P CP) (be off : S) :
    (SendTransaction.persistExcess env w be off).calls = w.calls ++ [Call.setTxParameter TxParams.BlindingExcess] ++ [Call.setTxParameter TxParams.Offset] ++ [Call.saveTx { w.m_txDesc with m_status := TxStatus.InProgress, m_modifyTime := env.getTimestamp }] := rfl

@[simp] theorem persistExcess_txDesc (env : Env K S P CP) (w : TxState K S P CP) (be off : S) :
    (SendTransaction.persistExcess env w be off).m_txDesc = { w.m_txDesc with m_status := TxStatus.InProgress, m_modifyTime := env.getTimestamp } := rfl

@[simp] theorem persistExcess_params (env : Env K S P CP) (w : TxState K S P CP) (be off : S) :
    (SendTransaction.persistExcess env w be off).params = { w.params with BlindingExcess := some be, Offset := some off } := rfl

@[simp] theorem persistExcess_keychain (env : Env K S P CP) (w : TxState K S P CP) (be off : S) :
    (SendTransaction.persistExcess env w be off).m_keychain = w.m_keychain := rfl

end StepFacts

set_option linter.unusedSectionVars false

section EntryFacts

variable {K S P CP : Type} [CommRing S] [AddCommGroup P] [Module S P] [DecidableEq P]

@[simp] theorem createUtxo_calls (env : Env K S P CP) (w : TxState K S P CP) (a : Amount)
    (h : Height) (be off : S) :
    (SendTransaction.createUtxo env w a h be off).1.calls =
      w.calls ++ [Call.store (draftCoin w.m_txDesc.m_txId a h)] := rfl

@[simp] theorem createUtxo_txDesc (env : Env K S P CP) (w : TxState K S P CP) (a : Amount)
    (h : Height) (be off : S) :
    (SendTransaction.createUtxo env w a h be off).1.m_txDesc = w.m_txDesc := rfl

@[simp] theorem createUtxo_params (env : Env K S P CP) (w : TxState K S P CP) (a : Amount)
    (h : Height) (be off : S) :
    (SendTransaction.createUtxo env w a h be off).1.params = w.params := rfl

@[simp] theorem createUtxo_keychain (env : Env K S P CP) (w : TxState K S P CP) (a : Amount)
    (h : Height) (be off : S) :
    (SendTransaction.createUtxo env w a h be off).1.m_keychain =
      (env.keychain.store w.m_keychain (draftCoin w.m_txDesc.m_txId a h)).1 := rfl

/-- The calls of lines 150-178, in the order in which they are made. -/
theorem reserveCoins_calls (env : Env K S P CP) (w : TxState K S P CP) (coins : List Coin)
    (awf : Amount) (ch : Height) (be off : S) :
    (SendTransaction.reserveCoins env w coins awf ch be off).1.calls =
      w.calls ++ (Call.update (SendTransaction.markSpent w.m_txDesc.m_txId coins) ::
        (if 0 < SendTransaction.changeOf (SendTransaction.markSpent w.m_txDesc.m_txId coins) awf
          then [Call.store (draftCoin w.m_txDesc.m_txId
            (SendTransaction.changeOf (SendTransaction.markSpent w.m_txDesc.m_txId coins) awf) ch)]
          else [])) := by
  unfold SendTransaction.reserveCoins
  by_cases hc : 0 < SendTransaction.changeOf (SendTransaction.markSpent w.m_txDesc.m_txId coins) awf
  · simp [hc]
  · simp [hc]

theorem reserveCoins_params (env : Env K S P CP) (w : TxState K S P CP) (coins : List Coin)
    (awf : Amount) (ch : Height) (be off : S) :
    (SendTransaction.reserveCoins env w coins awf ch be off).1.params = w.params := by
  unfold SendTransaction.reserveCoins
  by_cases hc : 0 < SendTransaction.changeOf (SendTransaction.markSpent w.m_txDesc.m_txId coins) awf
  · simp [hc]
  · simp [hc]

theorem updateReserveCoins_calls (env : Env K S P CP) (w w1 : TxState K S P CP)
    (coins : List Coin) (awf : Amount) (ch : Height) (be0 off0 be off : S)
    (h : SendTransaction.updateReserveCoins env w coins awf ch be0 off0 = Sum.inr (w1, be, off)) :
    ∃ L, w1.calls = w.calls ++ L ∧ ∀ c ∈ L, Call.isOutbound c = false := by
  unfold SendTransaction.updateReserveCoins at h
  simp only [] at h
  split at h
  · simp at h
  · simp only [Sum.inr.injEq, Prod.mk.injEq] at h
    obtain ⟨rfl, -, -⟩ := h
    simp only [persistExcess_calls, reserveCoins_calls, List.append_assoc]
    refine ⟨_, rfl, ?_⟩
    intro c hc
    split at hc <;> simp at hc <;> rcases hc with rfl | rfl | rfl | rfl | rfl <;> rfl

theorem updateReserve_calls (env : Env K S P CP) (w w1 : TxState K S P CP)
    (i : Bool) (be0 off0 be off : S)
    (h : SendTransaction.updateReserve env w i be0 off0 = Sum.inr (w1, be, off)) :
    ∃ L, w1.calls = w.calls ++ L ∧ ∀ c ∈ L, Call.isOutbound c = false := by
  unfold SendTransaction.updateReserve at h
  by_cases hs : w.m_txDesc.m_sender = true
  · simp only [hs, if_true] at h
    split at h
    · simp at h
    · obtain ⟨L, hL, hL2⟩ := updateReserveCoins_calls env _ w1 _ _ _ _ _ _ _ h
      simp only [emit_calls, setMinHeight_calls, List.append_assoc] at hL
      refine ⟨_, hL, ?_⟩
      intro c hc
      rcases List.mem_append.mp hc with hc | hc
      · simp at hc; subst hc; rfl
      · exact hL2 c hc
  · simp only [hs] at h
    obtain ⟨rfl, -, -⟩ := h
    simp only [persistExcess_calls, createUtxo_calls, setMinHeight_calls, List.append_assoc]
    refine ⟨_, rfl, ?_⟩
    intro c hc
    simp at hc
    rcases hc with rfl | rfl | rfl | rfl <;> rfl

theorem sendEntry_calls (env : Env K S P CP) (w w1 : TxState K S P CP)
    (be off : S) (h : SendTransaction.updateEntry env w = Sum.inr (w1, be, off)) :
    ∃ L, w1.calls = w.calls ++ L ∧ ∀ c ∈ L, Call.isOutbound c = false := by
  unfold SendTransaction.updateEntry at h
  split at h
  · simp at h
  · split at h
    · simp only [Sum.inr.injEq, Prod.mk.injEq] at h
      obtain ⟨rfl, -, -⟩ := h
      exact ⟨[], by simp, by simp⟩
    · exact updateReserve_calls env w w1 _ _ _ _ _ h

theorem sendEntry_params (env : Env K S P CP) (w w1 : TxState K S P CP)
    (be off : S) (h : SendTransaction.updateEntry env w = Sum.inr (w1, be, off)) :
    Params.samePeerData w1.params w.params := by
  unfold SendTransaction.updateEntry at h
  split at h
  · simp at h
  · split at h
    · simp only [Sum.inr.injEq, Prod.mk.injEq] at h
      obtain ⟨rfl, -, -⟩ := h
      simp [Params.samePeerData]
    · unfold SendTransaction.updateReserve at h
      by_cases hs : w.m_txDesc.m_sender = true
      · simp only [hs, if_true] at h
        split at h
        · simp at h
        · unfold SendTransaction.updateReserveCoins at h
          simp only [] at h
          split at h
          · simp at h
          · simp only [Sum.inr.injEq, Prod.mk.injEq] at h
            obtain ⟨rfl, -, -⟩ := h
            simp [Params.samePeerData, reserveCoins_params]
      · simp only [hs] at h
        obtain ⟨rfl, -, -⟩ := h
        simp [Params.samePeerData]

theorem receiveCreateOutput_calls (env : Env K S P CP)
    (w : TxState K S P CP) :
    ∃ L, (ReceiveTransaction.updateCreateOutput env w).calls = w.calls ++ L ∧
      ∀ c ∈ L, Call.isOutbound c = false := by
  unfold ReceiveTransaction.updateCreateOutput
  split
  · exact ⟨[], by simp, by simp⟩
  · simp only [updateTxDescription_calls, setOffset_calls, setBlindingExcess_calls,
      setOutputs_calls, keychainStore_calls, List.append_assoc]
    refine ⟨_, rfl, ?_⟩
    intro c hc
    simp at hc
    rcases hc with rfl | rfl | rfl | rfl | rfl <;> rfl

theorem receiveCreateOutput_params (env : Env K S P CP)
    (w : TxState K S P CP) :
    Params.samePeerData (ReceiveTransaction.updateCreateOutput env w).params w.params := by
  unfold ReceiveTransaction.updateCreateOutput
  split <;> simp [Params.samePeerData]

theorem receiveEntry_calls (env : Env K S P CP) (w w1 : TxState K S P CP)
    (be off : S) (h : ReceiveTransaction.updateEntry env w = Sum.inr (w1, be, off)) :
    ∃ L, w1.calls = w.calls ++ L ∧ ∀ c ∈ L, Call.isOutbound c = false := by
  unfold ReceiveTransaction.updateEntry at h
  simp only [] at h
  split at h
  · simp only [Sum.inr.injEq, Prod.mk.injEq] at h
    obtain ⟨rfl, -, -⟩ := h
    exact receiveCreateOutput_calls env w
  · simp at h

theorem receiveEntry_params (env : Env K S P CP) (w w1 : TxState K S P CP)
    (be off : S) (h : ReceiveTransaction.updateEntry env w = Sum.inr (w1, be, off)) :
    Params.samePeerData w1.params w.params := by
  unfold ReceiveTransaction.updateEntry at h
  simp only [] at h
  split at h
  · simp only [Sum.inr.injEq, Prod.mk.injEq] at h
    obtain ⟨rfl, -, -⟩ := h
    exact receiveCreateOutput_params env w
  · simp at h

theorem reserveCoins_txDesc (env : Env K S P CP) (w : TxState K S P CP) (coins : List Coin)
    (awf : Amount) (ch : Height) (be off : S) :
    (SendTransaction.reserveCoins env w coins awf ch be off).1.m_txDesc =
      if 0 < SendTransaction.changeOf (SendTransaction.markSpent w.m_txDesc.m_txId coins) awf
      then { w.m_txDesc with m_change :=
        SendTransaction.changeOf (SendTransaction.markSpent w.m_txDesc.m_txId coins) awf }
      else w.m_txDesc := by
  unfold SendTransaction.reserveCoins
  by_cases hc : 0 < SendTransaction.changeOf (SendTransaction.markSpent w.m_txDesc.m_txId coins) awf
  · simp [hc]
  · simp [hc]

theorem reserveCoins_txId (env : Env K S P CP) (w : TxState K S P CP) (coins : List Coin)
    (awf : Amount) (ch : Height) (be off : S) :
    (SendTransaction.reserveCoins env w coins awf ch be off).1.m_txDesc.m_txId =
      w.m_txDesc.m_txId := by
  rw [reserveCoins_txDesc]; split <;> rfl

theorem sendEntry_txId (env : Env K S P CP) (w w1 : TxState K S P CP)
    (be off : S) (h : SendTransaction.updateEntry env w = Sum.inr (w1, be, off)) :
    w1.m_txDesc.m_txId = w.m_txDesc.m_txId := by
  unfold SendTransaction.updateEntry at h
  split at h
  · simp at h
  · split at h
    · simp only [Sum.inr.injEq, Prod.mk.injEq] at h
      obtain ⟨rfl, -, -⟩ := h
      rfl
    · unfold SendTransaction.updateReserve at h
      by_cases hs : w.m_txDesc.m_sender = true
      · simp only [hs, if_true] at h
        split at h
        · simp at h
        · unfold SendTransaction.updateReserveCoins at h
          simp only [] at h
          split at h
          · simp at h
          · simp only [Sum.inr.injEq, Prod.mk.injEq] at h
            obtain ⟨rfl, -, -⟩ := h
            simp [reserveCoins_txId]
      · simp only [hs] at h
        obtain ⟨rfl, -, -⟩ := h
        simp

theorem receiveEntry_txId (env : Env K S P CP) (w w1 : TxState K S P CP)
    (be off : S) (h : ReceiveTransaction.updateEntry env w = Sum.inr (w1, be, off)) :
    w1.m_txDesc.m_txId = w.m_txDesc.m_txId := by
  unfold ReceiveTransaction.updateEntry at h
  simp only [] at h
  split at h
  · simp only [Sum.inr.injEq, Prod.mk.injEq] at h
    obtain ⟨rfl, -, -⟩ := h
    unfold ReceiveTransaction.updateCreateOutput
    split <;> simp
  · simp at h

/-- The verification step of `SendTransaction::update` (lines 270-279). -/
theorem send_update_verify (env : Env K S P CP) (w w1 : TxState K S P CP)
    (be off sp : S) (Rp Pp : P)
    (hentry : SendTransaction.updateEntry env w = Sum.inr (w1, be, off))
    (hN : BaseTransaction.getParameterPoint env w.params.PublicPeerNonce = some Rp)
    (hE : BaseTransaction.getParameterPoint env w.params.PublicPeerExcess = some Pp)
    (hS : w.params.PeerSignature = some sp) :
    SendTransaction.update env w =
      if Signature.IsValidPartial env
          { m_e := (BaseTransaction.updateCoSign env w1.m_txDesc be Rp Pp).1.m_Signature.m_e,
            m_k := sp } Rp Pp = true then
        SendTransaction.updateRegister env w1 w.params.PeerOffset.isNone
          (w.params.PeerOffset.getD 0) off (signedKernel env w1.m_txDesc be sp Rp Pp)
          (BaseTransaction.updateCoSign env w1.m_txDesc be Rp Pp).2.2.2
      else BaseTransaction.onFailed env w1 true := by
  obtain ⟨h1, h2, h3, -⟩ := sendEntry_params env w w1 be off hentry
  rw [← h2] at hN
  rw [← h3] at hE
  rw [← h1] at hS
  simp only [SendTransaction.update, hentry, SendTransaction.updateNegotiate, hN, hE, hS,
    signedKernel]
  split <;> simp_all

/-- The verification step of `ReceiveTransaction::update` (lines 506-515). -/
theorem receive_update_verify (env : Env K S P CP) (w w1 : TxState K S P CP)
    (be off sp po : S) (Rp Pp : P)
    (hentry : ReceiveTransaction.updateEntry env w = Sum.inr (w1, be, off))
    (hO : w.params.PeerOffset = some po)
    (hN : BaseTransaction.getParameterPoint env w.params.PublicPeerNonce = some Rp)
    (hE : BaseTransaction.getParameterPoint env w.params.PublicPeerExcess = some Pp)
    (hS : w.params.PeerSignature = some sp) :
    ReceiveTransaction.update env w =
      if Signature.IsValidPartial env
          { m_e := (BaseTransaction.updateCoSign env w1.m_txDesc be Rp Pp).1.m_Signature.m_e,
            m_k := sp } Rp Pp = true then
        ReceiveTransaction.updateRegister env w1 po off
          (signedKernel env w1.m_txDesc be sp Rp Pp)
      else BaseTransaction.onFailed env w1 true := by
  obtain ⟨h1, h2, h3, h4, -⟩ := receiveEntry_params env w w1 be off hentry
  rw [← h2] at hN
  rw [← h3] at hE
  rw [← h1] at hS
  rw [← h4] at hO
  simp only [ReceiveTransaction.update, hentry, ReceiveTransaction.updateNegotiate, hN, hE, hS,
    hO, signedKernel]
  split <;> simp_all

end EntryFacts

/-! ## The verification of the peer signature -/

section Verification

variable {K S P CP : Type} [CommRing S] [AddCommGroup P] [Module S P] [DecidableEq P]

theorem updateCoSign_challenge (env : Env K S P CP) (d : TxDescription) (be : S) (Rp Pp : P) :
    (BaseTransaction.updateCoSign env d be Rp Pp).1.m_Signature.m_e =
      BaseTransaction.challenge env d be Rp Pp := rfl

theorem updateCoSign_publicNonce (env : Env K S P CP) (d : TxDescription) (be : S) (Rp Pp : P) :
    (BaseTransaction.updateCoSign env d be Rp Pp).2.1 =
      BaseTransaction.ownNonce env d be • env.ecc.G := rfl

theorem updateCoSign_publicExcess (env : Env K S P CP) (d : TxDescription) (be : S)
    (Rp Pp : P) : (BaseTransaction.updateCoSign env d be Rp Pp).2.2.1 = be • env.ecc.G := rfl

theorem updateCoSign_partialSignature (env : Env K S P CP) (d : TxDescription) (be : S)
    (Rp Pp : P) :
    (BaseTransaction.updateCoSign env d be Rp Pp).2.2.2 =
      BaseTransaction.ownNonce env d be + BaseTransaction.challenge env d be Rp Pp * be := rfl

theorem isValidPartial_iff (env : Env K S P CP) (e k : S) (pubNonce pk : P) :
    Signature.IsValidPartial env { m_e := e, m_k := k } pubNonce pk = true ↔
      k • env.ecc.G = pubNonce + e • pk := by
  simp [Signature.IsValidPartial]

theorem failedCalls_not_outbound_but_failed (env : Env K S P CP) (w : TxState K S P CP) :
    ∀ c ∈ failedCalls env w,
      Call.isConfirmation c = false ∧ Call.isRegisterTx c = false ∧
      Call.isConfirmKernel c = false ∧ Call.isInvitation c = false := by
  intro c hc
  simp only [failedCalls, List.mem_cons, List.mem_singleton, List.not_mem_nil, or_false] at hc
  rcases hc with rfl | rfl | rfl | rfl <;> exact ⟨rfl, rfl, rfl, rfl⟩

theorem not_outbound_kinds (c : Call S P) (h : Call.isOutbound c = false) :
    Call.isConfirmation c = false ∧ Call.isRegisterTx c = false ∧
      Call.isConfirmKernel c = false ∧ Call.isInvitation c = false ∧
      Call.isFailed c = false := by
  cases c <;> simp_all [Call.isOutbound, Call.isConfirmation, Call.isRegisterTx,
    Call.isConfirmKernel, Call.isInvitation, Call.isFailed]

theorem onFailed_true_calls (env : Env K S P CP) (w : TxState K S P CP) :
    (BaseTransaction.onFailed env w true).calls = w.calls ++ failedCalls env w := by
  rw [onFailed_calls]; rfl

/-- C1: in both `SendTransaction::update` and `ReceiveTransaction::update`, for
every persisted state in which `PeerSignature`, `PublicPeerNonce` and
`PublicPeerExcess` are present and the earlier guards pass, the received
`s_peer` is accepted iff `g·s_peer = R_peer + e·P_peer`, where `e` is the
challenge over the combined nonce and the combined excess: when the equation
holds the call goes on to the registration step with the kernel signed
`(e, s_self + s_peer)`; when it does not, the call ends with status Failed,
`rollbackTx(txId)` called and `send_tx_failed` emitted, and no
`send_tx_confirmation`, `register_tx` or `confirm_kernel` is emitted in the
call. -/
theorem C1_peer_signature_accepted_iff (env : Env K S P CP) (role : Bool)
    (w w1 : TxState K S P CP) (be off sp po : S) (Rp Pp : P)
    (hentry : (if role then SendTransaction.updateEntry env w
      else ReceiveTransaction.updateEntry env w) = Sum.inr (w1, be, off))
    (hO : role = false → w.params.PeerOffset = some po)
    (hN : BaseTransaction.getParameterPoint env w.params.PublicPeerNonce = some Rp)
    (hE : BaseTransaction.getParameterPoint env w.params.PublicPeerExcess = some Pp)
    (hS : w.params.PeerSignature = some sp) :
    (sp • env.ecc.G = Rp + BaseTransaction.challenge env w1.m_txDesc be Rp Pp • Pp →
      (if role then SendTransaction.update env w else ReceiveTransaction.update env w) =
        (if role then
          SendTransaction.updateRegister env w1 w.params.PeerOffset.isNone
            (w.params.PeerOffset.getD 0) off (signedKernel env w1.m_txDesc be sp Rp Pp)
            (BaseTransaction.ownNonce env w1.m_txDesc be +
              BaseTransaction.challenge env w1.m_txDesc be Rp Pp * be)
        else
          ReceiveTransaction.updateRegister env w1 po off
            (signedKernel env w1.m_txDesc be sp Rp Pp))) ∧
    (sp • env.ecc.G ≠ Rp + BaseTransaction.challenge env w1.m_txDesc be Rp Pp • Pp →
      ∃ L : List (Call S P),
        (if role then SendTransaction.update env w else ReceiveTransaction.update env w) =
          BaseTransaction.onFailed env w1 true ∧
        (BaseTransaction.onFailed env w1 true).m_txDesc.m_status = TxStatus.Failed ∧
        (BaseTransaction.onFailed env w1 true).savedTx = some (failedDesc env w1) ∧
        (BaseTransaction.onFailed env w1 true).m_keychain =
          env.keychain.rollbackTx w1.m_keychain w.m_txDesc.m_txId ∧
        (BaseTransaction.onFailed env w1 true).calls =
          w.calls ++ L ++ [Call.saveTx (failedDesc env w1), Call.rollbackTx w.m_txDesc.m_txId,
            Call.send_tx_failed (failedDesc env w1), Call.on_tx_completed (failedDesc env w1)] ∧
        ∀ c ∈ L ++ failedCalls env w1,
          Call.isConfirmation c = false ∧ Call.isRegisterTx c = false ∧
            Call.isConfirmKernel c = false) := by
  have hcalls : ∃ L, w1.calls = w.calls ++ L ∧ ∀ c ∈ L, Call.isOutbound c = false := by
    cases role
    · exact receiveEntry_calls env w w1 be off (by simpa using hentry)
    · exact sendEntry_calls env w w1 be off (by simpa using hentry)
  have htx : w1.m_txDesc.m_txId = w.m_txDesc.m_txId := by
    cases role
    · exact receiveEntry_txId env w w1 be off (by simpa using hentry)
    · exact sendEntry_txId env w w1 be off (by simpa using hentry)
  have hupd : (if role then SendTransaction.update env w else ReceiveTransaction.update env w) =
      if Signature.IsValidPartial env
          { m_e := BaseTransaction.challenge env w1.m_txDesc be Rp Pp, m_k := sp } Rp Pp = true
      then
        (if role then
          SendTransaction.updateRegister env w1 w.params.PeerOffset.isNone
            (w.params.PeerOffset.getD 0) off (signedKernel env w1.m_txDesc be sp Rp Pp)
            (BaseTransaction.ownNonce env w1.m_txDesc be +
              BaseTransaction.challenge env w1.m_txDesc be Rp Pp * be)
        else
          ReceiveTransaction.updateRegister env w1 po off
            (signedKernel env w1.m_txDesc be sp Rp Pp))
      else BaseTransaction.onFailed env w1 true := by
    cases role
    · simp only [Bool.false_eq_true, if_false] at hentry ⊢
      exact receive_update_verify env w w1 be off sp po Rp Pp hentry (hO rfl) hN hE hS
    · simp only [if_true] at hentry ⊢
      exact send_update_verify env w w1 be off sp Rp Pp hentry hN hE hS
  constructor
  · intro hv
    rw [hupd, if_pos ((isValidPartial_iff env _ _ _ _).mpr hv)]
  · intro hv
    obtain ⟨L, hL, hL2⟩ := hcalls
    refine ⟨L, ?_, ?_, ?_, ?_, ?_, ?_⟩
    · rw [hupd, if_neg (fun h => hv ((isValidPartial_iff env _ _ _ _).mp h))]
    · rw [onFailed_txDesc]; rfl
    · exact onFailed_savedTx env w1 true
    · rw [onFailed_keychain, htx]
    · rw [onFailed_true_calls, hL, failedCalls, htx]
    · intro c hc
      rcases List.mem_append.mp hc with hc | hc
      · obtain ⟨h1, h2, h3, -⟩ := not_outbound_kinds c (hL2 c hc)
        exact ⟨h1, h2, h3⟩
      · obtain ⟨h1, h2, h3, -⟩ := failedCalls_not_outbound_but_failed env w1 c hc
        exact ⟨h1, h2, h3⟩

/-- C1, at a sender whose peer answered with the signature 9 where 183 is the
valid one: the call fails. -/
theorem C1_peer_signature_accepted_iff_witness :
    SendTransaction.updateEntry (intEnv true 5) (answeredState (pendingTx true 40 1) [] 9) =
        Sum.inr (answeredState (pendingTx true 40 1) [] 9, 5, 7) ∧
      (9 : Int) • (intEnv true 5).ecc.G ≠
        (3, 0) + BaseTransaction.challenge (intEnv true 5) (pendingTx true 40 1) 5 (3, 0) (4, 0) •
          ((4, 0) : Int × Int) ∧
      (SendTransaction.update (intEnv true 5)
        (answeredState (pendingTx true 40 1) [] 9)).m_txDesc.m_status = TxStatus.Failed := by
  have h := C1_peer_signature_accepted_iff (intEnv true 5) true
    (answeredState (pendingTx true 40 1) [] 9) (answeredState (pendingTx true 40 1) [] 9)
    5 7 9 0 (3, 0) (4, 0) rfl (by decide) rfl rfl rfl
  refine ⟨rfl, by decide, ?_⟩
  obtain ⟨L, hu, hs, -⟩ := h.2 (by decide)
  rw [if_pos rfl] at hu
  rw [hu]
  exact hs

theorem signedKernel_valid (env : Env K S P CP) (d : TxDescription) (be sp : S) (Rp Pp : P)
    (hv : sp • env.ecc.G = Rp + BaseTransaction.challenge env d be Rp Pp • Pp) :
    (signedKernel env d be sp Rp Pp).m_Signature.m_k • env.ecc.G =
      (BaseTransaction.ownNonce env d be • env.ecc.G + Rp) +
        (signedKernel env d be sp Rp Pp).m_Signature.m_e •
          (signedKernel env d be sp Rp Pp).m_Excess := by
  have h1 : (signedKernel env d be sp Rp Pp).m_Signature.m_k =
      BaseTransaction.ownNonce env d be + BaseTransaction.challenge env d be Rp Pp * be + sp :=
    rfl
  have h2 : (signedKernel env d be sp Rp Pp).m_Signature.m_e =
      BaseTransaction.challenge env d be Rp Pp := rfl
  have h3 : (signedKernel env d be sp Rp Pp).m_Excess = be • env.ecc.G + Pp := rfl
  rw [h1, h2, h3, add_smul, add_smul, hv, mul_smul, smul_add]
  abel

/-- C2: for every own nonce and blinding excess, every peer public nonce
`R_peer` and public excess `P_peer` and the challenge `e` of the call: the own
partial signature is `s_self = r_self + e·x_self`, and if the peer's partial
signature passed verification (`g·s_peer = R_peer + e·P_peer`) then the kernel
that `update()` of either role hands to its registration step has the excess
`P = P_self + P_peer`, the signature `(e, s)` with `s = s_self + s_peer`, and
satisfies `g·s = R + e·P` for `R = R_self + R_peer`. -/
theorem C2_kernel_signature_valid (env : Env K S P CP) (role : Bool)
    (w w1 : TxState K S P CP) (be off sp po : S) (Rp Pp : P)
    (hentry : (if role then SendTransaction.updateEntry env w
      else ReceiveTransaction.updateEntry env w) = Sum.inr (w1, be, off))
    (hO : role = false → w.params.PeerOffset = some po)
    (hN : BaseTransaction.getParameterPoint env w.params.PublicPeerNonce = some Rp)
    (hE : BaseTransaction.getParameterPoint env w.params.PublicPeerExcess = some Pp)
    (hS : w.params.PeerSignature = some sp)
    (hv : sp • env.ecc.G = Rp + BaseTransaction.challenge env w1.m_txDesc be Rp Pp • Pp) :
    ∃ kernel : TxKernel S P,
      (if role then SendTransaction.update env w else ReceiveTransaction.update env w) =
        (if role then
          SendTransaction.updateRegister env w1 w.params.PeerOffset.isNone
            (w.params.PeerOffset.getD 0) off kernel
            (BaseTransaction.ownNonce env w1.m_txDesc be +
              BaseTransaction.challenge env w1.m_txDesc be Rp Pp * be)
        else ReceiveTransaction.updateRegister env w1 po off kernel) ∧
      kernel.m_Excess = be • env.ecc.G + Pp ∧
      kernel.m_Signature.m_e = BaseTransaction.challenge env w1.m_txDesc be Rp Pp ∧
      kernel.m_Signature.m_k =
        (BaseTransaction.ownNonce env w1.m_txDesc be +
          BaseTransaction.challenge env w1.m_txDesc be Rp Pp * be) + sp ∧
      kernel.m_Signature.m_k • env.ecc.G =
        (BaseTransaction.ownNonce env w1.m_txDesc be • env.ecc.G + Rp) +
          kernel.m_Signature.m_e • kernel.m_Excess := by
  refine ⟨signedKernel env w1.m_txDesc be sp Rp Pp, ?_, rfl, rfl, rfl,
    signedKernel_valid env w1.m_txDesc be sp Rp Pp hv⟩
  have hvalid : Signature.IsValidPartial env
      { m_e := (BaseTransaction.updateCoSign env w1.m_txDesc be Rp Pp).1.m_Signature.m_e,
        m_k := sp } Rp Pp = true := (isValidPartial_iff env _ _ _ _).mpr hv
  cases role
  · simp only [Bool.false_eq_true, if_false] at hentry ⊢
    rw [receive_update_verify env w w1 be off sp po Rp Pp hentry (hO rfl) hN hE hS,
      if_pos hvalid]
  · simp only [if_true] at hentry ⊢
    rw [send_update_verify env w w1 be off sp Rp Pp hentry hN hE hS, if_pos hvalid]
    rfl

/-- C2, at a receiver whose peer answered with the valid signature 183: the
kernel is signed with `s = 237 + 183`. -/
theorem C2_kernel_signature_valid_witness :
    ReceiveTransaction.updateEntry (intEnv true 5)
        (answeredState (pendingTx false 40 1) [] 183) =
        Sum.inr (answeredState (pendingTx false 40 1) [] 183, 5, 7) ∧
      (183 : Int) • (intEnv true 5).ecc.G =
        (3, 0) + BaseTransaction.challenge (intEnv true 5) (pendingTx false 40 1) 5 (3, 0) (4, 0) •
          ((4, 0) : Int × Int) ∧
      ∃ kernel : TxKernel Int (Int × Int),
        ReceiveTransaction.update (intEnv true 5) (answeredState (pendingTx false 40 1) [] 183) =
          ReceiveTransaction.updateRegister (intEnv true 5)
            (answeredState (pendingTx false 40 1) [] 183) 2 7 kernel ∧
        kernel.m_Signature.m_k = 237 + 183 := by
  refine ⟨rfl, by decide, ?_⟩
  obtain ⟨kernel, h1, -, -, h4, -⟩ := C2_kernel_signature_valid (intEnv true 5) false
    (answeredState (pendingTx false 40 1) [] 183) (answeredState (pendingTx false 40 1) [] 183)
    5 7 183 2 (3, 0) (4, 0) rfl (fun _ => rfl) rfl rfl rfl (by decide)
  refine ⟨kernel, ?_, ?_⟩
  · simpa using h1
  · rw [h4]; decide

end Verification

/-! ## The reservation of funds by the sender -/

section Reserve

variable {K S P CP : Type} [CommRing S] [AddCommGroup P] [Module S P] [DecidableEq P]

theorem callsSince_append (w w1 : TxState K S P CP) (L : List (Call S P))
    (h : w1.calls = w.calls ++ L) : w.callsSince w1 = L := by
  simp [TxState.callsSince, h]

/-- The entry of `SendTransaction::update` when the excess or the offset is
missing: the first `if` is entered with the stored excess, if any, and a zero
offset. -/
theorem sendEntry_reserve (env : Env K S P CP) (w : TxState K S P CP)
    (hF : w.params.FailureReason = none)
    (habs : w.params.BlindingExcess = none ∨ w.params.Offset = none) :
    SendTransaction.updateEntry env w =
      SendTransaction.updateReserve env w w.params.PeerOffset.isNone
        (w.params.BlindingExcess.getD 0) 0 := by
  unfold SendTransaction.updateEntry
  rw [hF]
  rcases habs with h | h
  · simp [h]
  · cases hbe : w.params.BlindingExcess <;> simp [h]

/-- The sender without funds: `update` is `onFailed(!initiator)` after the
call of `selectCoins`. -/
theorem send_update_no_funds (env : Env K S P CP) (w : TxState K S P CP)
    (hF : w.params.FailureReason = none) (hs : w.m_txDesc.m_sender = true)
    (habs : w.params.BlindingExcess = none ∨ w.params.Offset = none)
    (hsel : env.keychain.selectCoins w.m_keychain (add64 w.m_txDesc.m_amount w.m_txDesc.m_fee)
      = []) :
    SendTransaction.update env w =
      BaseTransaction.onFailed env
        ((w.setMinHeight (env.keychain.getCurrentHeight w.m_keychain)).emit
          (Call.selectCoins (add64 w.m_txDesc.m_amount w.m_txDesc.m_fee)))
        (!w.params.PeerOffset.isNone) := by
  unfold SendTransaction.update
  rw [sendEntry_reserve env w hF habs]
  unfold SendTransaction.updateReserve
  simp [hs, hsel]

theorem send_no_funds_calls (env : Env K S P CP) (w : TxState K S P CP)
    (hF : w.params.FailureReason = none) (hs : w.m_txDesc.m_sender = true)
    (habs : w.params.BlindingExcess = none ∨ w.params.Offset = none)
    (hsel : env.keychain.selectCoins w.m_keychain (add64 w.m_txDesc.m_amount w.m_txDesc.m_fee)
      = []) :
    w.callsSince (SendTransaction.update env w) =
      [Call.selectCoins (add64 w.m_txDesc.m_amount w.m_txDesc.m_fee),
        Call.saveTx { w.m_txDesc with
          m_minHeight := env.keychain.getCurrentHeight w.m_keychain,
          m_status := TxStatus.Failed, m_modifyTime := env.getTimestamp },
        Call.rollbackTx w.m_txDesc.m_txId] ++
      (if w.params.PeerOffset.isSome then
        [Call.send_tx_failed { w.m_txDesc with
          m_minHeight := env.keychain.getCurrentHeight w.m_keychain,
          m_status := TxStatus.Failed, m_modifyTime := env.getTimestamp }]
       else []) ++
      [Call.on_tx_completed { w.m_txDesc with
          m_minHeight := env.keychain.getCurrentHeight w.m_keychain,
          m_status := TxStatus.Failed, m_modifyTime := env.getTimestamp }] := by
  apply callsSince_append
  rw [send_update_no_funds env w hF hs habs hsel, onFailed_calls]
  cases hpo : w.params.PeerOffset <;> simp [failedDesc]

/-- C5 as amended: for every sender transaction with `BlindingExcess` or
`Offset` absent and `FailureReason` absent, if `selectCoins(amount+fee)`
returns the empty list then `SendTransaction::update` ends with status Failed
(saved with `saveTx`), emits no `send_tx_invitation`, makes no ledger
`store()` or `update()` call, calls `setTxParameter` for no parameter and
leaves the parameter store as it was, so that neither `BlindingExcess` nor
`Offset` is persisted; the one ledger call it makes is `rollbackTx(txId)`, and
the ledger it leaves is the one that `rollbackTx(txId)` returns. -/
theorem C5_no_funds_no_invite (env : Env K S P CP) (w : TxState K S P CP)
    (hF : w.params.FailureReason = none) (hs : w.m_txDesc.m_sender = true)
    (habs : w.params.BlindingExcess = none ∨ w.params.Offset = none)
    (hsel : env.keychain.selectCoins w.m_keychain (add64 w.m_txDesc.m_amount w.m_txDesc.m_fee)
      = []) :
    (SendTransaction.update env w).m_txDesc.m_status = TxStatus.Failed ∧
    (SendTransaction.update env w).savedTx = some (SendTransaction.update env w).m_txDesc ∧
    (SendTransaction.update env w).params = w.params ∧
    (SendTransaction.update env w).m_keychain =
      env.keychain.rollbackTx w.m_keychain w.m_txDesc.m_txId ∧
    ∀ c ∈ w.callsSince (SendTransaction.update env w),
      Call.isInvitation c = false ∧ Call.isStoreOrUpdate c = false ∧
        Call.isSetParameter c = false := by
  refine ⟨?_, ?_, ?_, ?_, ?_⟩
  · rw [send_update_no_funds env w hF hs habs hsel, onFailed_txDesc]; rfl
  · rw [send_update_no_funds env w hF hs habs hsel, onFailed_txDesc, onFailed_savedTx]
  · rw [send_update_no_funds env w hF hs habs hsel, onFailed_params]; rfl
  · rw [send_update_no_funds env w hF hs habs hsel, onFailed_keychain]; rfl
  · intro c hc
    rw [send_no_funds_calls env w hF hs habs hsel] at hc
    cases hpo : w.params.PeerOffset <;> simp [hpo] at hc <;>
      rcases hc with rfl | rfl | rfl | rfl | rfl <;> exact ⟨rfl, rfl, rfl⟩

/-- C5, at a sender that owns one coin of 10 and sends 20 with fee 1: the
call ends with the status Failed, an empty parameter store and the coin as it
was, after the calls `selectCoins(21)`, `saveTx`, `rollbackTx(1)` and
`on_tx_completed`. -/
theorem C5_no_funds_no_invite_witness :
    (SendTransaction.update (intEnv false 5)
      (freshState (pendingTx true 20 1) [confirmedCoin 1 10])).m_txDesc.m_status =
        TxStatus.Failed ∧
    (SendTransaction.update (intEnv false 5)
      (freshState (pendingTx true 20 1) [confirmedCoin 1 10])).params = Params.empty ∧
    (SendTransaction.update (intEnv false 5)
      (freshState (pendingTx true 20 1) [confirmedCoin 1 10])).m_keychain =
        [confirmedCoin 1 10] ∧
    (SendTransaction.update (intEnv false 5)
      (freshState (pendingTx true 20 1) [confirmedCoin 1 10])).calls =
      [Call.selectCoins 21,
       Call.saveTx { pendingTx true 20 1 with m_minHeight := 5, m_status := TxStatus.Failed,
                                              m_modifyTime := 1000 },
       Call.rollbackTx 1,
       Call.on_tx_completed { pendingTx true 20 1 with m_minHeight := 5,
                                                       m_status := TxStatus.Failed,
                                                       m_modifyTime := 1000 }] :=
  have h := C5_no_funds_no_invite (intEnv false 5)
    (freshState (pendingTx true 20 1) [confirmedCoin 1 10]) rfl rfl (Or.inl rfl) (by decide)
  ⟨h.1, h.2.2.1, by decide, by decide⟩

/-- C5 as stated fails in its clause that no coin is mutated: the failing call
ends in `onFailed`, which calls `rollbackTx(txId)`.  A sender whose only coin
of 100 is Locked for the transaction itself, with nothing persisted, finds no
coin to select for 40 + 1 and fails, and the coin is Confirmed and unreserved
in the ledger that the call leaves. -/
theorem C5_counterexample :
    (freshState (pendingTx true 40 1) [lockedCoin 1 100 1]).m_txDesc.m_sender = true ∧
    (freshState (pendingTx true 40 1) [lockedCoin 1 100 1]).params.BlindingExcess = none ∧
    (freshState (pendingTx true 40 1) [lockedCoin 1 100 1]).params.FailureReason = none ∧
    (intEnv true 5).keychain.selectCoins [lockedCoin 1 100 1] (add64 40 1) = [] ∧
    (SendTransaction.update (intEnv true 5)
      (freshState (pendingTx true 40 1) [lockedCoin 1 100 1])).m_txDesc.m_status =
      TxStatus.Failed ∧
    (freshState (pendingTx true 40 1) [lockedCoin 1 100 1]).m_keychain =
      [{ m_id := 1, m_amount := 100, m_status := CoinStatus.Locked, m_height := 0,
         m_createTxId := none, m_spentTxId := some 1 }] ∧
    (SendTransaction.update (intEnv true 5)
      (freshState (pendingTx true 40 1) [lockedCoin 1 100 1])).m_keychain =
      [{ m_id := 1, m_amount := 100, m_status := CoinStatus.Confirmed, m_height := 0,
         m_createTxId := none, m_spentTxId := none }] := by
  decide

/-- C6: when `SendTransaction::update` fails because `selectCoins` returned
the empty list, `send_tx_failed` is emitted if and only if the wallet is not
the initiator, that is iff the parameter `PeerOffset` is present; an initiator
fails locally: its calls are `selectCoins`, `saveTx` with status Failed,
`rollbackTx` and `on_tx_completed`, none of them to the peer. -/
theorem C6_no_funds_notify_iff_invited (env : Env K S P CP) (w : TxState K S P CP)
    (hF : w.params.FailureReason = none) (hs : w.m_txDesc.m_sender = true)
    (habs : w.params.BlindingExcess = none ∨ w.params.Offset = none)
    (hsel : env.keychain.selectCoins w.m_keychain (add64 w.m_txDesc.m_amount w.m_txDesc.m_fee)
      = []) :
    ((∃ c ∈ w.callsSince (SendTransaction.update env w), Call.isFailed c = true) ↔
      w.params.PeerOffset.isSome = true) ∧
    (w.params.PeerOffset = none →
      (SendTransaction.update env w).m_txDesc.m_status = TxStatus.Failed ∧
      ∀ c ∈ w.callsSince (SendTransaction.update env w), Call.isOutbound c = false) := by
  have hcalls := send_no_funds_calls env w hF hs habs hsel
  constructor
  · rw [hcalls]
    cases hpo : w.params.PeerOffset <;> simp [Call.isFailed]
  · intro hpo
    constructor
    · rw [send_update_no_funds env w hF hs habs hsel, onFailed_txDesc]; rfl
    · intro c hc
      rw [hcalls] at hc
      simp [hpo] at hc
      rcases hc with rfl | rfl | rfl | rfl <;> rfl

/-- C6, at an invited sender (the peer offset is stored) that owns one coin
of 10 and is to send 20 with fee 1: the peer is notified. -/
theorem C6_no_funds_notify_iff_invited_witness :
    ∃ c ∈ (freshState (pendingTx true 20 1) [confirmedCoin 1 10]).callsSince
        (SendTransaction.update (intEnv false 5)
          { freshState (pendingTx true 20 1) [confirmedCoin 1 10] with
            params := { (Params.empty : Params Int (Int × Int) (Int × Int)) with
              PeerOffset := some 2 } }),
      Call.isFailed c = true :=
  (C6_no_funds_notify_iff_invited (intEnv false 5)
    { freshState (pendingTx true 20 1) [confirmedCoin 1 10] with
      params := { (Params.empty : Params Int (Int × Int) (Int × Int)) with
        PeerOffset := some 2 } } rfl rfl (Or.inl rfl) (by decide)).1.mpr rfl

theorem addKeys_eq_sum (env : Env K S P CP) (b : S) (coins : List Coin) :
    addKeys env b coins = b + (coins.map env.keychain.calcKey).sum := by
  unfold addKeys
  induction coins generalizing b with
  | nil => simp
  | cons c cs ih => simp only [List.foldl_cons, ih, List.map_cons, List.sum_cons]; abel

theorem reserved_excess (env : Env K S P CP) (w : TxState K S P CP) (be off : S) :
    (SendTransaction.reserved env w be off).2.1 =
      be + ((SendTransaction.selection env w).map env.keychain.calcKey).sum +
        (if 0 < SendTransaction.change env w then
          -(env.ecc.splitKey (env.keychain.calcKey (SendTransaction.changeCoin env w))
              (SendTransaction.changeCoin env w).m_id).1
         else 0) := by
  unfold SendTransaction.reserved SendTransaction.reserveCoins
  by_cases hc : 0 < SendTransaction.change env w
  · have hc1 := hc
    unfold SendTransaction.change at hc1
    simp only [emit_txDesc, setMinHeight_txDesc, if_pos hc1, if_pos hc, addKeys_eq_sum]
    rfl
  · have hc1 := hc
    unfold SendTransaction.change at hc1
    simp only [emit_txDesc, setMinHeight_txDesc, if_neg hc1, if_neg hc, addKeys_eq_sum,
      add_zero]

theorem reserved_offset (env : Env K S P CP) (w : TxState K S P CP) (be off : S) :
    (SendTransaction.reserved env w be off).2.2 =
      off + (if 0 < SendTransaction.change env w then
          (env.ecc.splitKey (env.keychain.calcKey (SendTransaction.changeCoin env w))
              (SendTransaction.changeCoin env w).m_id).2
         else 0) := by
  unfold SendTransaction.reserved SendTransaction.reserveCoins
  by_cases hc : 0 < SendTransaction.change env w
  · have hc1 := hc
    unfold SendTransaction.change at hc1
    simp only [emit_txDesc, setMinHeight_txDesc, if_pos hc1, if_pos hc]
    rfl
  · have hc1 := hc
    unfold SendTransaction.change at hc1
    simp only [emit_txDesc, setMinHeight_txDesc, if_neg hc1, if_neg hc, add_zero]

/-- The entry of `SendTransaction::update` of a sender with funds whose peer
is not an own address: the reservation is persisted. -/
theorem sendEntry_reserved (env : Env K S P CP) (w : TxState K S P CP)
    (hF : w.params.FailureReason = none) (hs : w.m_txDesc.m_sender = true)
    (habs : w.params.BlindingExcess = none ∨ w.params.Offset = none)
    (hsel : SendTransaction.selection env w ≠ [])
    (hown : SendTransaction.peerIsOwn env
      (SendTransaction.reserved env w (w.params.BlindingExcess.getD 0) 0).1 = false) :
    SendTransaction.updateEntry env w =
      Sum.inr (SendTransaction.persistExcess env
          (SendTransaction.reserved env w (w.params.BlindingExcess.getD 0) 0).1
          (SendTransaction.reserved env w (w.params.BlindingExcess.getD 0) 0).2.1
          (SendTransaction.reserved env w (w.params.BlindingExcess.getD 0) 0).2.2,
        (SendTransaction.reserved env w (w.params.BlindingExcess.getD 0) 0).2.1,
        (SendTransaction.reserved env w (w.params.BlindingExcess.getD 0) 0).2.2) := by
  rw [sendEntry_reserve env w hF habs]
  unfold SendTransaction.updateReserve
  have hne : (env.keychain.selectCoins w.m_keychain
      (add64 w.m_txDesc.m_amount w.m_txDesc.m_fee)).isEmpty = false := by
    cases h : env.keychain.selectCoins w.m_keychain (add64 w.m_txDesc.m_amount w.m_txDesc.m_fee)
    · exact absurd h hsel
    · rfl
  simp only [hs, if_true, setMinHeight_txDesc, setMinHeight_keychain, hne,
    Bool.false_eq_true, if_false]
  unfold SendTransaction.updateReserveCoins
  unfold SendTransaction.reserved SendTransaction.selection at hown
  simp only [hown, Bool.false_eq_true, if_false]
  rfl

theorem confirmKernel_params (env : Env K S P CP) (w : TxState K S P CP)
    (kernel : TxKernel S P) : (BaseTransaction.confirmKernel env w kernel).params = w.params :=
  rfl

theorem completeTx_params (env : Env K S P CP) (w : TxState K S P CP) :
    (BaseTransaction.completeTx env w).params = w.params := rfl

theorem updateFinish_params (env : Env K S P CP) (w : TxState K S P CP)
    (kernel : TxKernel S P) (proof : MerkleProof) :
    (BaseTransaction.updateFinish env w kernel proof).params = w.params := by
  unfold BaseTransaction.updateFinish
  simp only []
  split <;> simp [completeTx_params]

theorem sendRegister_params (env : Env K S P CP) (w : TxState K S P CP) (i : Bool)
    (po off : S) (kernel : TxKernel S P) (ps : S) :
    (SendTransaction.updateRegister env w i po off kernel ps).params = w.params := by
  unfold SendTransaction.updateRegister
  split
  · split
    · simp only []
      split <;> simp [onFailed_params]
    · rfl
  · split
    · exact onFailed_params env w true
    · split
      · rw [confirmKernel_params]; split <;> rfl
      · exact updateFinish_params env w kernel _

theorem receiveRegister_params (env : Env K S P CP) (w : TxState K S P CP)
    (po off : S) (kernel : TxKernel S P) :
    (ReceiveTransaction.updateRegister env w po off kernel).params = w.params := by
  unfold ReceiveTransaction.updateRegister
  split
  · simp only []
    split <;> simp [onFailed_params]
  · split
    · exact onFailed_params env w true
    · split
      · rw [confirmKernel_params]; rfl
      · exact updateFinish_params env w kernel _

/-- The steps of `SendTransaction::update` after the first `if` write no
parameter. -/
theorem sendNegotiate_params (env : Env K S P CP) (w : TxState K S P CP) (i : Bool)
    (po be off : S) :
    (SendTransaction.updateNegotiate env w i po be off).params = w.params := by
  unfold SendTransaction.updateNegotiate
  split
  · simp only []
    split
    · rfl
    · split
      · exact onFailed_params env w true
      · exact sendRegister_params env w i po off _ _
  · rfl

/-- The steps of `ReceiveTransaction::update` after the reading of the excess
write no parameter. -/
theorem receiveNegotiate_params (env : Env K S P CP) (w : TxState K S P CP) (be off : S) :
    (ReceiveTransaction.updateNegotiate env w be off).params = w.params := by
  unfold ReceiveTransaction.updateNegotiate
  split
  · simp only []
    split
    · rfl
    · split
      · exact onFailed_params env w true
      · exact receiveRegister_params env w _ off _
  · exact onFailed_params env w true

/-- As long as the peer signature has not arrived the steps of
`SendTransaction::update` after the first `if` leave the description as it
is. -/
theorem sendNegotiate_txDesc (env : Env K S P CP) (w : TxState K S P CP) (i : Bool)
    (po be off : S) (hS : w.params.PeerSignature = none) :
    (SendTransaction.updateNegotiate env w i po be off).m_txDesc = w.m_txDesc := by
  unfold SendTransaction.updateNegotiate
  split
  · simp only [hS]; rfl
  · rfl

/-- The call of `SendTransaction::update` that reserves the funds goes on
with the steps after the first `if` on the persisted reservation. -/
theorem send_update_reserved (env : Env K S P CP) (w : TxState K S P CP)
    (hF : w.params.FailureReason = none) (hs : w.m_txDesc.m_sender = true)
    (hbe : w.params.BlindingExcess = none)
    (hsel : SendTransaction.selection env w ≠ [])
    (hown : SendTransaction.peerIsOwn env (SendTransaction.reserved env w 0 0).1 = false) :
    SendTransaction.updateEntry env w =
      Sum.inr (SendTransaction.persistExcess env (SendTransaction.reserved env w 0 0).1
          (SendTransaction.reserved env w 0 0).2.1 (SendTransaction.reserved env w 0 0).2.2,
        (SendTransaction.reserved env w 0 0).2.1, (SendTransaction.reserved env w 0 0).2.2) ∧
    SendTransaction.update env w =
      SendTransaction.updateNegotiate env
        (SendTransaction.persistExcess env (SendTransaction.reserved env w 0 0).1
          (SendTransaction.reserved env w 0 0).2.1 (SendTransaction.reserved env w 0 0).2.2)
        w.params.PeerOffset.isNone (w.params.PeerOffset.getD 0)
        (SendTransaction.reserved env w 0 0).2.1 (SendTransaction.reserved env w 0 0).2.2 := by
  have hown1 : SendTransaction.peerIsOwn env
      (SendTransaction.reserved env w (w.params.BlindingExcess.getD 0) 0).1 = false := by
    rw [hbe]; exact hown
  have hentry := sendEntry_reserved env w hF hs (Or.inl hbe) hsel hown1
  rw [hbe] at hentry
  simp only [Option.getD_none] at hentry
  refine ⟨hentry, ?_⟩
  unfold SendTransaction.update
  rw [hentry]

theorem reserved_params (env : Env K S P CP) (w : TxState K S P CP) (be off : S) :
    (SendTransaction.reserved env w be off).1.params = w.params := by
  unfold SendTransaction.reserved
  rw [reserveCoins_params]; rfl

/-- The excess and the offset that the reserving call of
`SendTransaction::update` persists. -/
theorem send_update_persisted (env : Env K S P CP) (w : TxState K S P CP)
    (hF : w.params.FailureReason = none) (hs : w.m_txDesc.m_sender = true)
    (hbe : w.params.BlindingExcess = none)
    (hsel : SendTransaction.selection env w ≠ [])
    (hown : SendTransaction.peerIsOwn env (SendTransaction.reserved env w 0 0).1 = false) :
    (SendTransaction.update env w).params.BlindingExcess =
      some (((SendTransaction.selection env w).map env.keychain.calcKey).sum -
        (if 0 < SendTransaction.change env w then
          (env.ecc.splitKey (env.keychain.calcKey (SendTransaction.changeCoin env w))
            (SendTransaction.changeCoin env w).m_id).1
         else 0)) ∧
    (SendTransaction.update env w).params.Offset =
      some (if 0 < SendTransaction.change env w then
          (env.ecc.splitKey (env.keychain.calcKey (SendTransaction.changeCoin env w))
            (SendTransaction.changeCoin env w).m_id).2
         else 0) := by
  obtain ⟨-, hupd⟩ := send_update_reserved env w hF hs hbe hsel hown
  constructor
  · rw [hupd, sendNegotiate_params, persistExcess_params, reserved_excess]
    simp only [zero_add]
    split <;> simp [sub_eq_add_neg]
  · rw [hupd, sendNegotiate_params, persistExcess_params, reserved_offset]
    simp only [zero_add]

/-- C7: for every sender transaction that enters the reservation (no
`FailureReason`) with `BlindingExcess` absent (and `Offset` absent or not;
it is not read then) and a non-empty selection
`coins = selectCoins(amount+fee)`, whose peer is not an own address: after
`SendTransaction::update` the persisted `BlindingExcess` is `Σ calcKey(coin)`
over the selected coins minus `privateExcess` of the change coin (just the sum
when no change coin is created), the persisted `Offset` is `newOffset` of the
change coin (zero when there is none), where
`(privateExcess, newOffset) = splitKey(calcKey(change), change.id)`; the
reservation ends with status InProgress, saved with `saveTx`, and that is the
status at the end of the call unless a peer signature is already stored. -/
theorem C7_sender_persists_excess_and_offset (env : Env K S P CP) (w : TxState K S P CP)
    (hF : w.params.FailureReason = none) (hs : w.m_txDesc.m_sender = true)
    (hbe : w.params.BlindingExcess = none)
    (hsel : SendTransaction.selection env w ≠ [])
    (hown : SendTransaction.peerIsOwn env (SendTransaction.reserved env w 0 0).1 = false) :
    (SendTransaction.update env w).params.BlindingExcess =
      some (((SendTransaction.selection env w).map env.keychain.calcKey).sum -
        (if 0 < SendTransaction.change env w then
          (env.ecc.splitKey (env.keychain.calcKey (SendTransaction.changeCoin env w))
            (SendTransaction.changeCoin env w).m_id).1
         else 0)) ∧
    (SendTransaction.update env w).params.Offset =
      some (if 0 < SendTransaction.change env w then
          (env.ecc.splitKey (env.keychain.calcKey (SendTransaction.changeCoin env w))
            (SendTransaction.changeCoin env w).m_id).2
         else 0) ∧
    (∃ w1 be off, SendTransaction.updateEntry env w = Sum.inr (w1, be, off) ∧
      w1.m_txDesc.m_status = TxStatus.InProgress ∧ w1.savedTx = some w1.m_txDesc ∧
      w1.params.BlindingExcess = some be ∧ w1.params.Offset = some off) ∧
    (w.params.PeerSignature = none →
      (SendTransaction.update env w).m_txDesc.m_status = TxStatus.InProgress) := by
  obtain ⟨hentry, hupd⟩ := send_update_reserved env w hF hs hbe hsel hown
  obtain ⟨h1, h2⟩ := send_update_persisted env w hF hs hbe hsel hown
  refine ⟨h1, h2, ⟨_, _, _, hentry, rfl, rfl, rfl, rfl⟩, ?_⟩
  intro hS
  rw [hupd, sendNegotiate_txDesc]
  · rfl
  · rw [persistExcess_params]
    simp only [reserved_params, hS]

/-- C7, at a sender that owns one coin of 100 and sends 40 with fee 1: the
key of the coin is 10, the change coin of 59 gets the key 17 and
`splitKey` gives `(30, 13)`. -/
theorem C7_sender_persists_excess_and_offset_witness :
    SendTransaction.selection (intEnv true 5)
        (freshState (pendingTx true 40 1) [confirmedCoin 1 100]) ≠ [] ∧
    (SendTransaction.update (intEnv true 5)
      (freshState (pendingTx true 40 1) [confirmedCoin 1 100])).params.BlindingExcess =
        some (10 - 30) ∧
    (SendTransaction.update (intEnv true 5)
      (freshState (pendingTx true 40 1) [confirmedCoin 1 100])).params.Offset = some 13 ∧
    (SendTransaction.update (intEnv true 5)
      (freshState (pendingTx true 40 1) [confirmedCoin 1 100])).m_txDesc.m_status =
        TxStatus.InProgress := by
  have h := C7_sender_persists_excess_and_offset (intEnv true 5)
    (freshState (pendingTx true 40 1) [confirmedCoin 1 100]) rfl rfl rfl (by decide)
    (by decide)
  refine ⟨by decide, ?_, ?_, h.2.2.2 rfl⟩
  · rw [h.1]; decide
  · rw [h.2.1]; decide

/-- The excess and the offset that `ReceiveTransaction::update` persists when
it creates its output. -/
theorem receive_update_persisted (env : Env K S P CP) (w : TxState K S P CP)
    (hO : w.params.Outputs = none) :
    (ReceiveTransaction.update env w).params.BlindingExcess =
      some (-(env.ecc.splitKey (env.keychain.calcKey (ReceiveTransaction.outputCoin env w))
        (ReceiveTransaction.outputCoin env w).m_id).1) ∧
    (ReceiveTransaction.update env w).params.Offset =
      some (env.ecc.splitKey (env.keychain.calcKey (ReceiveTransaction.outputCoin env w))
        (ReceiveTransaction.outputCoin env w).m_id).2 := by
  have hc : (ReceiveTransaction.updateCreateOutput env w).params.BlindingExcess =
      some (-(env.ecc.splitKey (env.keychain.calcKey (ReceiveTransaction.outputCoin env w))
        (ReceiveTransaction.outputCoin env w).m_id).1) ∧
      (ReceiveTransaction.updateCreateOutput env w).params.Offset =
      some (env.ecc.splitKey (env.keychain.calcKey (ReceiveTransaction.outputCoin env w))
        (ReceiveTransaction.outputCoin env w).m_id).2 := by
    unfold ReceiveTransaction.updateCreateOutput
    simp only [hO, updateTxDescription_params, setOffset_params, setBlindingExcess_params,
      zero_add]
    exact ⟨rfl, rfl⟩
  unfold ReceiveTransaction.update ReceiveTransaction.updateEntry
  simp only [hc.1, hc.2, receiveNegotiate_params]
  exact ⟨trivial, trivial⟩

/-- C8 as amended: the blinding excess each party persists is the sum of the
keys of its own inputs minus the `privateExcess` parts of its own outputs: for
the sender after S1, `BlindingExcess = Σ calcKey(selected input coins) −
privateExcess(change output)` (no subtrahend without a change coin); for the
receiver after R1, `BlindingExcess = 0 − privateExcess(its output)`. -/
theorem C8_excess_is_inputs_minus_outputs (env : Env K S P CP) (ws wr : TxState K S P CP)
    (hF : ws.params.FailureReason = none) (hs : ws.m_txDesc.m_sender = true)
    (hbe : ws.params.BlindingExcess = none)
    (hsel : SendTransaction.selection env ws ≠ [])
    (hown : SendTransaction.peerIsOwn env (SendTransaction.reserved env ws 0 0).1 = false)
    (hO : wr.params.Outputs = none) :
    (SendTransaction.update env ws).params.BlindingExcess =
      some (((SendTransaction.selection env ws).map env.keychain.calcKey).sum -
        (if 0 < SendTransaction.change env ws then
          (env.ecc.splitKey (env.keychain.calcKey (SendTransaction.changeCoin env ws))
            (SendTransaction.changeCoin env ws).m_id).1
         else 0)) ∧
    (ReceiveTransaction.update env wr).params.BlindingExcess =
      some (0 - (env.ecc.splitKey (env.keychain.calcKey (ReceiveTransaction.outputCoin env wr))
        (ReceiveTransaction.outputCoin env wr).m_id).1) := by
  refine ⟨(send_update_persisted env ws hF hs hbe hsel hown).1, ?_⟩
  rw [(receive_update_persisted env wr hO).1, zero_sub]

/-- C8 as amended, at a sender that owns one coin of 100 (key 10) and sends 40
with fee 1 (change coin: key 17, `privateExcess` 30) and at a receiver of 40
(output coin: key 10, `privateExcess` 22). -/
theorem C8_excess_is_inputs_minus_outputs_witness :
    (SendTransaction.update (intEnv true 5)
      (freshState (pendingTx true 40 1) [confirmedCoin 1 100])).params.BlindingExcess =
        some (10 - 30) ∧
    (ReceiveTransaction.update (intEnv true 5)
      (freshState (pendingTx false 40 1) [])).params.BlindingExcess = some (0 - 22) := by
  have h := C8_excess_is_inputs_minus_outputs (intEnv true 5)
    (freshState (pendingTx true 40 1) [confirmedCoin 1 100])
    (freshState (pendingTx false 40 1) []) rfl rfl rfl (by decide) (by decide) rfl
  refine ⟨?_, ?_⟩
  · rw [h.1]; decide
  · rw [h.2]; decide

/-- C8 as stated fails: the sender that owns one coin of 100 (key 10) and
sends 40 with fee 1 (change coin: key 17, `privateExcess` 30) persists
`BlindingExcess = 10 - 30 = -20`, which is not the blinding contribution of
the change output minus the keys of the inputs, be that contribution its
`privateExcess` (`30 - 10`), its key (`17 - 10`) or the term `-privateExcess`
that the code adds (`-30 - 10`); the receiver of 40 (output: key 10,
`privateExcess` 22) persists `-22`, not `22 - 0` nor `10 - 0`. -/
theorem C8_counterexample :
    (SendTransaction.update (intEnv true 5)
      (freshState (pendingTx true 40 1) [confirmedCoin 1 100])).params.BlindingExcess =
        some (-20) ∧
    ((SendTransaction.selection (intEnv true 5)
      (freshState (pendingTx true 40 1) [confirmedCoin 1 100])).map
        (intEnv true 5).keychain.calcKey).sum = 10 ∧
    (intEnv true 5).keychain.calcKey (SendTransaction.changeCoin (intEnv true 5)
      (freshState (pendingTx true 40 1) [confirmedCoin 1 100])) = 17 ∧
    ((intEnv true 5).ecc.splitKey 17 (SendTransaction.changeCoin (intEnv true 5)
      (freshState (pendingTx true 40 1) [confirmedCoin 1 100])).m_id).1 = 30 ∧
    (-20 : Int) ≠ 30 - 10 ∧ (-20 : Int) ≠ 17 - 10 ∧ (-20 : Int) ≠ -30 - 10 ∧
    (ReceiveTransaction.update (intEnv true 5)
      (freshState (pendingTx false 40 1) [])).params.BlindingExcess = some (-22) ∧
    ((intEnv true 5).ecc.splitKey 10 (ReceiveTransaction.outputCoin (intEnv true 5)
      (freshState (pendingTx false 40 1) [])).m_id).1 = 22 ∧
    (-22 : Int) ≠ 22 - 0 ∧ (-22 : Int) ≠ 10 - 0 := by
  decide

end Reserve

/-! ## The calls and the description through the later steps -/

section LateSteps

variable {K S P CP : Type} [CommRing S] [AddCommGroup P] [Module S P] [DecidableEq P]

theorem extendsBy_refl (f : Call S P → Bool) (w : TxState K S P CP) :
    TxState.extendsBy f w w := ⟨[], by simp, by simp⟩

theorem extendsBy_trans (f : Call S P → Bool) (w w1 w2 : TxState K S P CP)
    (h1 : TxState.extendsBy f w w1) (h2 : TxState.extendsBy f w1 w2) :
    TxState.extendsBy f w w2 := by
  obtain ⟨L1, hL1, hf1⟩ := h1
  obtain ⟨L2, hL2, hf2⟩ := h2
  refine ⟨L1 ++ L2, by rw [hL2, hL1, List.append_assoc], ?_⟩
  intro c hc
  rcases List.mem_append.mp hc with hc | hc
  · exact hf1 c hc
  · exact hf2 c hc

theorem extendsBy_emit (f : Call S P → Bool) (w : TxState K S P CP) (c : Call S P)
    (hc : f c = true) : TxState.extendsBy f w (w.emit c) :=
  ⟨[c], rfl, by simpa using hc⟩

theorem sameButStatus_refl (d : TxDescription) : TxDescription.sameButStatus d d := rfl

theorem sameButStatus_trans (d d1 d2 : TxDescription) (h1 : TxDescription.sameButStatus d d1)
    (h2 : TxDescription.sameButStatus d1 d2) : TxDescription.sameButStatus d d2 := by
  unfold TxDescription.sameButStatus at *
  rw [h2, h1]

theorem onFailed_late (env : Env K S P CP) (w : TxState K S P CP) (notify : Bool) :
    TxState.extendsBy Call.isLate w (BaseTransaction.onFailed env w notify) := by
  refine ⟨_, onFailed_calls env w notify, ?_⟩
  intro c hc
  cases notify <;> simp at hc <;> rcases hc with rfl | rfl | rfl | rfl <;> rfl

theorem onFailed_sameButStatus (env : Env K S P CP) (w : TxState K S P CP) (notify : Bool) :
    TxDescription.sameButStatus w.m_txDesc (BaseTransaction.onFailed env w notify).m_txDesc := by
  rw [onFailed_txDesc]; rfl

theorem updateTxDescription_late (env : Env K S P CP) (w : TxState K S P CP) (s : TxStatus) :
    TxState.extendsBy Call.isLate w (BaseTransaction.updateTxDescription env w s) :=
  ⟨[Call.saveTx { w.m_txDesc with m_status := s, m_modifyTime := env.getTimestamp }], rfl,
    by simp [Call.isLate]⟩

theorem keychainUpdate_late (env : Env K S P CP) (w : TxState K S P CP) (cs : List Coin) :
    TxState.extendsBy Call.isLate w (w.keychainUpdate env cs) :=
  ⟨[Call.update cs], rfl, by simp [Call.isLate]⟩

theorem confirmKernel_late (env : Env K S P CP) (w : TxState K S P CP)
    (kernel : TxKernel S P) :
    TxState.extendsBy Call.isLate w (BaseTransaction.confirmKernel env w kernel) := by
  unfold BaseTransaction.confirmKernel
  exact extendsBy_trans _ _ _ _ (updateTxDescription_late env w _)
    (extendsBy_trans _ _ _ _ (keychainUpdate_late env _ _) (extendsBy_emit _ _ _ rfl))

theorem completeTx_late (env : Env K S P CP) (w : TxState K S P CP) :
    TxState.extendsBy Call.isLate w (BaseTransaction.completeTx env w) := by
  unfold BaseTransaction.completeTx
  exact extendsBy_trans _ _ _ _ (updateTxDescription_late env w _) (extendsBy_emit _ _ _ rfl)

theorem updateFinish_late (env : Env K S P CP) (w : TxState K S P CP)
    (kernel : TxKernel S P) (proof : MerkleProof) :
    TxState.extendsBy Call.isLate w (BaseTransaction.updateFinish env w kernel proof) := by
  unfold BaseTransaction.updateFinish
  simp only []
  split
  · exact extendsBy_refl _ w
  · exact completeTx_late env w

theorem updateFinish_sameButStatus (env : Env K S P CP) (w : TxState K S P CP)
    (kernel : TxKernel S P) (proof : MerkleProof) :
    TxDescription.sameButStatus w.m_txDesc
      (BaseTransaction.updateFinish env w kernel proof).m_txDesc := by
  unfold BaseTransaction.updateFinish
  simp only []
  split <;> rfl

theorem sendRegister_late (env : Env K S P CP) (w : TxState K S P CP) (i : Bool)
    (po off : S) (kernel : TxKernel S P) (ps : S) :
    TxState.extendsBy Call.isLate w
      (SendTransaction.updateRegister env w i po off kernel ps) := by
  unfold SendTransaction.updateRegister
  split
  · split
    · simp only []
      split
      · exact onFailed_late env w true
      · exact extendsBy_emit _ w _ rfl
    · exact extendsBy_emit _ w _ rfl
  · split
    · exact onFailed_late env w true
    · split
      · refine extendsBy_trans _ w _ _ ?_ (confirmKernel_late env _ kernel)
        split
        · exact extendsBy_emit _ w _ rfl
        · exact extendsBy_refl _ w
      · exact updateFinish_late env w kernel _

theorem sendRegister_sameButStatus (env : Env K S P CP) (w : TxState K S P CP) (i : Bool)
    (po off : S) (kernel : TxKernel S P) (ps : S) :
    TxDescription.sameButStatus w.m_txDesc
      (SendTransaction.updateRegister env w i po off kernel ps).m_txDesc := by
  unfold SendTransaction.updateRegister
  split
  · split
    · simp only []
      split
      · exact onFailed_sameButStatus env w true
      · rfl
    · rfl
  · split
    · exact onFailed_sameButStatus env w true
    · split
      · split <;> rfl
      · exact updateFinish_sameButStatus env w kernel _

/-- The steps of `SendTransaction::update` after the first `if` only add calls
that are none of `selectCoins`, `store`, `setTxParameter`, `deleteTx`. -/
theorem sendNegotiate_late (env : Env K S P CP) (w : TxState K S P CP) (i : Bool)
    (po be off : S) :
    TxState.extendsBy Call.isLate w (SendTransaction.updateNegotiate env w i po be off) := by
  unfold SendTransaction.updateNegotiate
  split
  · simp only []
    split
    · exact extendsBy_emit _ w _ rfl
    · split
      · exact onFailed_late env w true
      · exact sendRegister_late env w i po off _ _
  · exact extendsBy_emit _ w _ rfl

/-- The steps of `SendTransaction::update` after the first `if` change the
description in its status and time of modification only. -/
theorem sendNegotiate_sameButStatus (env : Env K S P CP) (w : TxState K S P CP) (i : Bool)
    (po be off : S) :
    TxDescription.sameButStatus w.m_txDesc
      (SendTransaction.updateNegotiate env w i po be off).m_txDesc := by
  unfold SendTransaction.updateNegotiate
  split
  · simp only []
    split
    · rfl
    · split
      · exact onFailed_sameButStatus env w true
      · exact sendRegister_sameButStatus env w i po off _ _
  · rfl

theorem reserved_calls (env : Env K S P CP) (w : TxState K S P CP) (be off : S) :
    (SendTransaction.reserved env w be off).1.calls =
      w.calls ++ (Call.selectCoins (add64 w.m_txDesc.m_amount w.m_txDesc.m_fee) ::
        Call.update (SendTransaction.markSpent w.m_txDesc.m_txId
          (SendTransaction.selection env w)) ::
        (if 0 < SendTransaction.change env w then
          [Call.store (draftCoin w.m_txDesc.m_txId (SendTransaction.change env w)
            (env.keychain.getCurrentHeight w.m_keychain))]
         else [])) := by
  unfold SendTransaction.reserved
  rw [reserveCoins_calls]
  simp only [emit_calls, emit_txDesc, setMinHeight_calls, setMinHeight_txDesc,
    List.append_assoc, List.singleton_append]
  rfl

theorem reserved_txDesc (env : Env K S P CP) (w : TxState K S P CP) (be off : S) :
    (SendTransaction.reserved env w be off).1.m_txDesc =
      if 0 < SendTransaction.change env w then
        { w.m_txDesc with m_minHeight := env.keychain.getCurrentHeight w.m_keychain,
                          m_change := SendTransaction.change env w }
      else { w.m_txDesc with m_minHeight := env.keychain.getCurrentHeight w.m_keychain } := by
  unfold SendTransaction.reserved
  rw [reserveCoins_txDesc]
  rfl

/-- The sender with funds: what `update` returns, by the address of the
peer. -/
theorem send_update_with_funds (env : Env K S P CP) (w : TxState K S P CP)
    (hF : w.params.FailureReason = none) (hs : w.m_txDesc.m_sender = true)
    (habs : w.params.BlindingExcess = none ∨ w.params.Offset = none)
    (hsel : SendTransaction.selection env w ≠ []) :
    SendTransaction.update env w =
      if SendTransaction.peerIsOwn env
          (SendTransaction.reserved env w (w.params.BlindingExcess.getD 0) 0).1 then
        (SendTransaction.reserved env w (w.params.BlindingExcess.getD 0) 0).1
      else
        SendTransaction.updateNegotiate env
          (SendTransaction.persistExcess env
            (SendTransaction.reserved env w (w.params.BlindingExcess.getD 0) 0).1
            (SendTransaction.reserved env w (w.params.BlindingExcess.getD 0) 0).2.1
            (SendTransaction.reserved env w (w.params.BlindingExcess.getD 0) 0).2.2)
          w.params.PeerOffset.isNone (w.params.PeerOffset.getD 0)
          (SendTransaction.reserved env w (w.params.BlindingExcess.getD 0) 0).2.1
          (SendTransaction.reserved env w (w.params.BlindingExcess.getD 0) 0).2.2 := by
  by_cases hown : SendTransaction.peerIsOwn env
      (SendTransaction.reserved env w (w.params.BlindingExcess.getD 0) 0).1 = true
  · rw [if_pos hown]
    unfold SendTransaction.update
    rw [sendEntry_reserve env w hF habs]
    unfold SendTransaction.updateReserve
    have hne : (env.keychain.selectCoins w.m_keychain
        (add64 w.m_txDesc.m_amount w.m_txDesc.m_fee)).isEmpty = false := by
      cases h : env.keychain.selectCoins w.m_keychain
          (add64 w.m_txDesc.m_amount w.m_txDesc.m_fee)
      · exact absurd h hsel
      · rfl
    simp only [hs, if_true, setMinHeight_txDesc, setMinHeight_keychain, hne,
      Bool.false_eq_true, if_false]
    unfold SendTransaction.updateReserveCoins
    unfold SendTransaction.reserved SendTransaction.selection at hown
    simp only [hown, if_true]
    rfl
  · have hown1 : SendTransaction.peerIsOwn env
        (SendTransaction.reserved env w (w.params.BlindingExcess.getD 0) 0).1 = false := by
      simpa using hown
    rw [if_neg hown]
    unfold SendTransaction.update
    rw [sendEntry_reserved env w hF hs habs hsel hown1]

/-- The calls of the call of `SendTransaction::update` in which the sender
reserves funds: `selectCoins`, `update` of the marked selection, `store` of
the change coin when there is change, and then no further `store`. -/
theorem send_update_reserve_calls (env : Env K S P CP) (w : TxState K S P CP)
    (hF : w.params.FailureReason = none) (hs : w.m_txDesc.m_sender = true)
    (habs : w.params.BlindingExcess = none ∨ w.params.Offset = none)
    (hsel : SendTransaction.selection env w ≠ []) :
    ∃ L, w.callsSince (SendTransaction.update env w) =
      (Call.selectCoins (add64 w.m_txDesc.m_amount w.m_txDesc.m_fee) ::
        Call.update (SendTransaction.markSpent w.m_txDesc.m_txId
          (SendTransaction.selection env w)) ::
        (if 0 < SendTransaction.change env w then
          [Call.store (draftCoin w.m_txDesc.m_txId (SendTransaction.change env w)
            (env.keychain.getCurrentHeight w.m_keychain))]
         else [])) ++ L ∧
      ∀ c ∈ L, Call.isStore c = false := by
  rw [send_update_with_funds env w hF hs habs hsel]
  split
  · refine ⟨[], ?_, by simp⟩
    apply callsSince_append
    rw [reserved_calls]; simp
  · obtain ⟨L, hL, hL2⟩ := sendNegotiate_late env
      (SendTransaction.persistExcess env
        (SendTransaction.reserved env w (w.params.BlindingExcess.getD 0) 0).1
        (SendTransaction.reserved env w (w.params.BlindingExcess.getD 0) 0).2.1
        (SendTransaction.reserved env w (w.params.BlindingExcess.getD 0) 0).2.2)
      w.params.PeerOffset.isNone (w.params.PeerOffset.getD 0)
      (SendTransaction.reserved env w (w.params.BlindingExcess.getD 0) 0).2.1
      (SendTransaction.reserved env w (w.params.BlindingExcess.getD 0) 0).2.2
    refine ⟨Call.setTxParameter TxParams.BlindingExcess :: Call.setTxParameter TxParams.Offset ::
      Call.saveTx { (SendTransaction.reserved env w (w.params.BlindingExcess.getD 0) 0).1.m_txDesc
        with m_status := TxStatus.InProgress, m_modifyTime := env.getTimestamp } :: L, ?_, ?_⟩
    · apply callsSince_append
      rw [hL, persistExcess_calls, reserved_calls]
      simp only [List.append_assoc, List.cons_append, List.nil_append]
    · intro c hc
      simp only [List.mem_cons] at hc
      rcases hc with rfl | rfl | rfl | hc
      · rfl
      · rfl
      · rfl
      · have := hL2 c hc
        cases c <;> simp_all [Call.isLate, Call.isStore]

theorem foldl_add64 (coins : List Coin) (acc : Nat) :
    coins.foldl (fun change coin => add64 change coin.m_amount) (acc % 2 ^ 64) =
      (acc + (coins.map Coin.m_amount).sum) % 2 ^ 64 := by
  induction coins generalizing acc with
  | nil => simp
  | cons c cs ih =>
    have h : add64 (acc % 2 ^ 64) c.m_amount = (acc + c.m_amount) % 2 ^ 64 := by
      unfold add64 u64
      omega
    simp only [List.foldl_cons, List.map_cons, List.sum_cons, h, ih, Nat.add_assoc]

theorem sumAmounts64_eq (coins : List Coin) :
    sumAmounts64 coins = (coins.map Coin.m_amount).sum % 2 ^ 64 := by
  have h := foldl_add64 coins 0
  simpa [sumAmounts64] using h

theorem markSpent_amounts (txId : TxID) (coins : List Coin) :
    (SendTransaction.markSpent txId coins).map Coin.m_amount = coins.map Coin.m_amount := by
  simp [SendTransaction.markSpent, Function.comp_def]

theorem sub64_mod (t awf : Nat) (hge : awf ≤ t) (hlt : t - awf < 2 ^ 64) :
    sub64 (t % 2 ^ 64) awf = t - awf := by
  unfold sub64 u64
  have h64 : (2 : Nat) ^ 64 = 18446744073709551616 := by norm_num
  rw [h64] at hlt ⊢
  omega

theorem changeOf_eq (txId : TxID) (coins : List Coin) (awf : Nat)
    (hge : awf ≤ (coins.map Coin.m_amount).sum)
    (hlt : (coins.map Coin.m_amount).sum - awf < 2 ^ 64) :
    SendTransaction.changeOf (SendTransaction.markSpent txId coins) awf =
      (coins.map Coin.m_amount).sum - awf := by
  unfold SendTransaction.changeOf
  rw [sumAmounts64_eq, markSpent_amounts]
  exact sub64_mod _ _ hge hlt

/-- C9: for every sender transaction whose `selectCoins(amount+fee)` result is
non-empty, S1 of `SendTransaction::update` writes back to the ledger
(`IKeyChain::update`, its first ledger call) every selected coin with
`spentTxId = txId` and status Locked, and changes no other field of those
coins.  The coins are Locked as `selectCoins` returns them: S1 assigns
`m_spentTxId` only (lines 150-155), and the status Locked, for which
`getTxInputs` looks (line 853), is set by no line of `negotiator.cpp`. -/
theorem C9_selection_written_back (env : Env K S P CP) (w : TxState K S P CP)
    (hF : w.params.FailureReason = none) (hs : w.m_txDesc.m_sender = true)
    (habs : w.params.BlindingExcess = none ∨ w.params.Offset = none)
    (hsel : SendTransaction.selection env w ≠ [])
    (hlock : ∀ c ∈ SendTransaction.selection env w, c.m_status = CoinStatus.Locked) :
    ∃ (written : List Coin) (L : List (Call S P)),
      w.callsSince (SendTransaction.update env w) =
        Call.selectCoins (add64 w.m_txDesc.m_amount w.m_txDesc.m_fee) ::
          Call.update written :: L ∧
      written =
        (SendTransaction.selection env w).map (fun c =>
          { m_id := c.m_id, m_amount := c.m_amount, m_status := CoinStatus.Locked,
            m_height := c.m_height, m_createTxId := c.m_createTxId,
            m_spentTxId := some w.m_txDesc.m_txId }) ∧
      written.length = (SendTransaction.selection env w).length ∧
      ∀ c ∈ written, c.m_spentTxId = some w.m_txDesc.m_txId ∧
        c.m_status = CoinStatus.Locked := by
  obtain ⟨L, hL, -⟩ := send_update_reserve_calls env w hF hs habs hsel
  have hw : SendTransaction.markSpent w.m_txDesc.m_txId (SendTransaction.selection env w) =
      (SendTransaction.selection env w).map (fun c =>
        { m_id := c.m_id, m_amount := c.m_amount, m_status := CoinStatus.Locked,
          m_height := c.m_height, m_createTxId := c.m_createTxId,
          m_spentTxId := some w.m_txDesc.m_txId }) := by
    unfold SendTransaction.markSpent
    apply List.map_congr_left
    intro c hc
    rw [← hlock c hc]
  refine ⟨_, _, hL, hw, ?_, ?_⟩
  · rw [hw, List.length_map]
  · intro c hc
    rw [hw] at hc
    obtain ⟨c0, -, rfl⟩ := List.mem_map.mp hc
    exact ⟨rfl, rfl⟩

/-- C9, at a sender that owns one coin of 100 and sends 40 with fee 1: the
coin is selected Locked and written back Locked with `spentTxId = 1`. -/
theorem C9_selection_written_back_witness :
    SendTransaction.selection (intEnv true 5)
        (freshState (pendingTx true 40 1) [confirmedCoin 1 100]) =
      [{ m_id := 1, m_amount := 100, m_status := CoinStatus.Locked, m_height := 0,
         m_createTxId := none, m_spentTxId := none }] ∧
    ∃ (written : List Coin) (L : List (Call Int (Int × Int))),
      (freshState (pendingTx true 40 1) [confirmedCoin 1 100]).callsSince
        (SendTransaction.update (intEnv true 5)
          (freshState (pendingTx true 40 1) [confirmedCoin 1 100])) =
        Call.selectCoins 41 :: Call.update written :: L ∧
      written = [{ m_id := 1, m_amount := 100, m_status := CoinStatus.Locked, m_height := 0,
                   m_createTxId := none, m_spentTxId := some 1 }] := by
  obtain ⟨written, L, h1, h2, -⟩ := C9_selection_written_back (intEnv true 5)
    (freshState (pendingTx true 40 1) [confirmedCoin 1 100]) rfl rfl (Or.inl rfl)
    (by decide) (by decide)
  exact ⟨by decide, written, L, h1, by rw [h2]; decide⟩

/-- S1 leaves the status of the selected coins as it is.  With a
`selectCoins` that returns the coins as they are in the ledger (Confirmed),
the sender that owns one coin of 100 and sends 40 with fee 1 writes the coin
back with `spentTxId = txId` and status Confirmed; the ledger then holds no
Locked coin of the transaction and `getTxInputs` finds no input. -/
theorem selection_written_back_unlocked :
    ((freshState (pendingTx true 40 1) [confirmedCoin 1 100]).callsSince
        (SendTransaction.update (intEnv false 5)
          (freshState (pendingTx true 40 1) [confirmedCoin 1 100]))).take 2 =
      [Call.selectCoins 41,
        Call.update [{ m_id := 1, m_amount := 100, m_status := CoinStatus.Confirmed,
                       m_height := 0, m_createTxId := none, m_spentTxId := some 1 }]] ∧
    BaseTransaction.getTxInputs (intEnv false 5)
      (SendTransaction.update (intEnv false 5)
        (freshState (pendingTx true 40 1) [confirmedCoin 1 100])).m_keychain 1 = [] := by
  decide

theorem sameButStatus_change (d d1 : TxDescription) (h : TxDescription.sameButStatus d d1) :
    d1.m_change = d.m_change := by
  unfold TxDescription.sameButStatus at h
  rw [h]

/-- The change recorded in the description at the end of the call of
`SendTransaction::update` that reserves funds is the one that the reservation
recorded. -/
theorem send_update_change (env : Env K S P CP) (w : TxState K S P CP)
    (hF : w.params.FailureReason = none) (hs : w.m_txDesc.m_sender = true)
    (habs : w.params.BlindingExcess = none ∨ w.params.Offset = none)
    (hsel : SendTransaction.selection env w ≠ []) :
    (SendTransaction.update env w).m_txDesc.m_change =
      if 0 < SendTransaction.change env w then SendTransaction.change env w
      else w.m_txDesc.m_change := by
  have hres : (SendTransaction.reserved env w (w.params.BlindingExcess.getD 0) 0).1.m_txDesc.m_change
      = if 0 < SendTransaction.change env w then SendTransaction.change env w
        else w.m_txDesc.m_change := by
    rw [reserved_txDesc]; split <;> rfl
  rw [send_update_with_funds env w hF hs habs hsel]
  split
  · exact hres
  · rw [sameButStatus_change _ _ (sendNegotiate_sameButStatus env _ _ _ _ _)]
    exact hres

/-- C10 as amended: for every non-empty selection with
`Σ coin amounts ≥ amount + fee`, no 64-bit overflow in `amount + fee` and
`Σ coin amounts − (amount + fee) < 2^64`: S1 stores a change coin iff
`Σ coin amounts > amount + fee`; when stored it is a Draft coin with
`createTxId = txId` and amount exactly `Σ coin amounts − amount − fee`, and
`txDesc.change` is set to that value; when `Σ coin amounts = amount + fee` no
coin is stored and `txDesc.change` is unchanged.  Hence
`Σ selected input amounts = amount + fee + change` for the change that S1
computes. -/
theorem C10_change_coin (env : Env K S P CP) (w : TxState K S P CP)
    (hF : w.params.FailureReason = none) (hs : w.m_txDesc.m_sender = true)
    (habs : w.params.BlindingExcess = none ∨ w.params.Offset = none)
    (hsel : SendTransaction.selection env w ≠ [])
    (hno : w.m_txDesc.m_amount + w.m_txDesc.m_fee < 2 ^ 64)
    (hge : w.m_txDesc.m_amount + w.m_txDesc.m_fee ≤
      ((SendTransaction.selection env w).map Coin.m_amount).sum)
    (hlt : ((SendTransaction.selection env w).map Coin.m_amount).sum -
      (w.m_txDesc.m_amount + w.m_txDesc.m_fee) < 2 ^ 64) :
    SendTransaction.change env w =
      ((SendTransaction.selection env w).map Coin.m_amount).sum - w.m_txDesc.m_amount -
        w.m_txDesc.m_fee ∧
    ((SendTransaction.selection env w).map Coin.m_amount).sum =
      w.m_txDesc.m_amount + w.m_txDesc.m_fee + SendTransaction.change env w ∧
    (∃ L, w.callsSince (SendTransaction.update env w) =
      (Call.selectCoins (w.m_txDesc.m_amount + w.m_txDesc.m_fee) ::
        Call.update (SendTransaction.markSpent w.m_txDesc.m_txId
          (SendTransaction.selection env w)) ::
        (if w.m_txDesc.m_amount + w.m_txDesc.m_fee <
            ((SendTransaction.selection env w).map Coin.m_amount).sum then
          [Call.store
            { m_id := 0,
              m_amount := ((SendTransaction.selection env w).map Coin.m_amount).sum -
                w.m_txDesc.m_amount - w.m_txDesc.m_fee,
              m_status := CoinStatus.Draft,
              m_height := env.keychain.getCurrentHeight w.m_keychain,
              m_createTxId := some w.m_txDesc.m_txId, m_spentTxId := none }]
         else [])) ++ L ∧
      ∀ c ∈ L, Call.isStore c = false) ∧
    (SendTransaction.update env w).m_txDesc.m_change =
      (if w.m_txDesc.m_amount + w.m_txDesc.m_fee <
          ((SendTransaction.selection env w).map Coin.m_amount).sum then
        ((SendTransaction.selection env w).map Coin.m_amount).sum - w.m_txDesc.m_amount -
          w.m_txDesc.m_fee
       else w.m_txDesc.m_change) := by
  have hawf : add64 w.m_txDesc.m_amount w.m_txDesc.m_fee =
      w.m_txDesc.m_amount + w.m_txDesc.m_fee := by
    unfold add64 u64
    exact Nat.mod_eq_of_lt hno
  have hchange : SendTransaction.change env w =
      ((SendTransaction.selection env w).map Coin.m_amount).sum -
        (w.m_txDesc.m_amount + w.m_txDesc.m_fee) := by
    unfold SendTransaction.change
    rw [hawf]
    exact changeOf_eq _ _ _ hge hlt
  have hcalls := send_update_reserve_calls env w hF hs habs hsel
  have hfinal := send_update_change env w hF hs habs hsel
  rw [hawf] at hcalls
  generalize SendTransaction.change env w = ch at hchange hcalls hfinal ⊢
  generalize ((SendTransaction.selection env w).map Coin.m_amount).sum = total at *
  generalize w.m_txDesc.m_amount = amount at *
  generalize w.m_txDesc.m_fee = fee at *
  have h3 : ch = (total : Nat) - amount - fee := by rw [hchange]; exact (Nat.sub_sub _ _ _).symm
  have hpos : (0 < ch) ↔ amount + fee < (total : Nat) := by
    rw [hchange]; exact Nat.sub_pos_iff_lt
  refine ⟨h3, ?_, ?_, ?_⟩
  · rw [hchange]; exact (Nat.add_sub_cancel' hge).symm
  · obtain ⟨L, hL, hL2⟩ := hcalls
    refine ⟨L, ?_, hL2⟩
    rw [hL]
    by_cases hc : 0 < ch
    · rw [if_pos hc, if_pos (hpos.mp hc), ← h3]
      rfl
    · rw [if_neg hc, if_neg (fun h => hc (hpos.mpr h))]
  · rw [hfinal]
    by_cases hc : 0 < ch
    · rw [if_pos hc, if_pos (hpos.mp hc), h3]
    · rw [if_neg hc, if_neg (fun h => hc (hpos.mpr h))]

/-- C10 as amended, at the two examples of the spec: one coin of 100, amount
40 and fee 1 give the change 59; the coins 30 and 10, amount 39 and fee 1
give no change. -/
theorem C10_change_coin_witness :
    SendTransaction.change (intEnv true 5)
        (freshState (pendingTx true 40 1) [confirmedCoin 1 100]) = 59 ∧
    (SendTransaction.update (intEnv true 5)
        (freshState (pendingTx true 40 1) [confirmedCoin 1 100])).m_txDesc.m_change = 59 ∧
    SendTransaction.change (intEnv true 5)
        (freshState (pendingTx true 39 1) [confirmedCoin 1 30, confirmedCoin 2 10]) = 0 := by
  have h1 := C10_change_coin (intEnv true 5)
    (freshState (pendingTx true 40 1) [confirmedCoin 1 100]) rfl rfl (Or.inl rfl) (by decide)
    (by decide) (by decide) (by decide)
  have h2 := C10_change_coin (intEnv true 5)
    (freshState (pendingTx true 39 1) [confirmedCoin 1 30, confirmedCoin 2 10]) rfl rfl
    (Or.inl rfl) (by decide) (by decide) (by decide) (by decide)
  refine ⟨?_, ?_, ?_⟩
  · rw [h1.1]; decide
  · rw [h1.2.2.2]; decide
  · rw [h2.1]; decide

/-- C10 as stated fails when the selection exceeds `amount + fee` by `2^64` or
more.  With a `selectCoins` that returns the whole ledger, amount 1 and fee 0:
for the coins `2^63, 2^63, 1` the sum `2^64 + 1` is above `amount + fee`, yet
the 64-bit change is 0 and no coin is stored; for the coins `2^63, 2^63, 5`
the change coin is stored with amount 4, not `2^64 + 4`. -/
theorem C10_counterexample :
    ((SendTransaction.selection (intEnvAll 5)
        (freshState (pendingTx true 1 0)
          [confirmedCoin 1 (2 ^ 63), confirmedCoin 2 (2 ^ 63), confirmedCoin 3 1])).map
      Coin.m_amount).sum = 2 ^ 64 + 1 ∧
    (1 : Nat) + 0 < 2 ^ 64 + 1 ∧
    ((freshState (pendingTx true 1 0)
        [confirmedCoin 1 (2 ^ 63), confirmedCoin 2 (2 ^ 63), confirmedCoin 3 1]).callsSince
      (SendTransaction.update (intEnvAll 5)
        (freshState (pendingTx true 1 0)
          [confirmedCoin 1 (2 ^ 63), confirmedCoin 2 (2 ^ 63), confirmedCoin 3 1]))).filter
      Call.isStore = [] ∧
    ((SendTransaction.selection (intEnvAll 5)
        (freshState (pendingTx true 1 0)
          [confirmedCoin 1 (2 ^ 63), confirmedCoin 2 (2 ^ 63), confirmedCoin 3 5])).map
      Coin.m_amount).sum = 2 ^ 64 + 5 ∧
    ((freshState (pendingTx true 1 0)
        [confirmedCoin 1 (2 ^ 63), confirmedCoin 2 (2 ^ 63), confirmedCoin 3 5]).callsSince
      (SendTransaction.update (intEnvAll 5)
        (freshState (pendingTx true 1 0)
          [confirmedCoin 1 (2 ^ 63), confirmedCoin 2 (2 ^ 63), confirmedCoin 3 5]))).filter
      Call.isStore =
      [Call.store { m_id := 0, m_amount := 4, m_status := CoinStatus.Draft, m_height := 5,
                    m_createTxId := some 1, m_spentTxId := none }] ∧
    (4 : Nat) ≠ 2 ^ 64 + 5 - 1 - 0 := by
  decide

end LateSteps

/-! ## The honest run and the conservation of value -/

section HonestRun

variable {K S P CP : Type} [CommRing S] [AddCommGroup P] [Module S P] [DecidableEq P]

theorem getLast_emit (w : TxState K S P CP) (c : Call S P) :
    (w.emit c).calls.getLast? = some c := by
  simp

/-- Without the public nonce or the public excess of the peer the sender
sends the invitation. -/
theorem sendNegotiate_invite (env : Env K S P CP) (w : TxState K S P CP) (i : Bool)
    (po be off : S)
    (h : BaseTransaction.getParameterPoint env w.params.PublicPeerNonce = none ∨
      BaseTransaction.getParameterPoint env w.params.PublicPeerExcess = none) :
    SendTransaction.updateNegotiate env w i po be off =
      w.emit (Call.send_tx_invitation w.m_txDesc
        { m_txId := w.m_txDesc.m_txId, m_amount := w.m_txDesc.m_amount,
          m_fee := w.m_txDesc.m_fee, m_height := w.m_txDesc.m_minHeight,
          m_send := w.m_txDesc.m_sender,
          m_inputs := BaseTransaction.getTxInputs env w.m_keychain w.m_txDesc.m_txId,
          m_outputs := BaseTransaction.getTxOutputs env w.m_keychain w.m_txDesc.m_txId,
          m_publicPeerExcess := be • env.ecc.G,
          m_publicPeerNonce := BaseTransaction.ownNonce env w.m_txDesc be • env.ecc.G,
          m_offset := off }) := by
  unfold SendTransaction.updateNegotiate
  split
  · rename_i h1 h2
    rcases h with h | h
    · rw [h] at h1; cases h1
    · rw [h] at h2; cases h2
  · rfl

/-- The first call of the honest sender: the reservation and the
invitation. -/
theorem honest_invite (envS envR : Env K S P CP) (ws wr : TxState K S P CP)
    (h : Negotiation.Honest envS envR ws wr) :
    SendTransaction.update envS ws =
      (Negotiation.senderReserved envS ws).emit
        (Call.send_tx_invitation (Negotiation.senderReserved envS ws).m_txDesc
          (Negotiation.invite envS ws)) := by
  have hF : ws.params.FailureReason = none := by rw [h.s_fresh]; rfl
  have hbe : ws.params.BlindingExcess = none := by rw [h.s_fresh]; rfl
  obtain ⟨-, hupd⟩ := send_update_reserved envS ws hF h.s_sender hbe h.s_funds h.s_notOwn
  rw [hupd, sendNegotiate_invite]
  · rfl
  · left
    rw [persistExcess_params, reserved_params, h.s_fresh]
    rfl

theorem createOutput_params (env : Env K S P CP) (w : TxState K S P CP)
    (hO : w.params.Outputs = none) :
    (ReceiveTransaction.updateCreateOutput env w).params =
      { w.params with
        Outputs := some (BaseTransaction.getTxOutputs env
          (env.keychain.store w.m_keychain
            (draftCoin w.m_txDesc.m_txId w.m_txDesc.m_amount w.m_txDesc.m_minHeight)).1
          w.m_txDesc.m_txId),
        BlindingExcess := some (-(env.ecc.splitKey
          (env.keychain.calcKey (ReceiveTransaction.outputCoin env w))
          (ReceiveTransaction.outputCoin env w).m_id).1),
        Offset := some (env.ecc.splitKey
          (env.keychain.calcKey (ReceiveTransaction.outputCoin env w))
          (ReceiveTransaction.outputCoin env w).m_id).2 } := by
  unfold ReceiveTransaction.updateCreateOutput
  simp only [hO, updateTxDescription_params, setOffset_params, setBlindingExcess_params,
    setOutputs_params, zero_add]
  rfl

theorem createOutput_txDesc (env : Env K S P CP) (w : TxState K S P CP)
    (hO : w.params.Outputs = none) :
    (ReceiveTransaction.updateCreateOutput env w).m_txDesc =
      { w.m_txDesc with m_status := TxStatus.InProgress, m_modifyTime := env.getTimestamp } := by
  unfold ReceiveTransaction.updateCreateOutput
  simp only [hO]
  rfl

theorem createOutput_keychain (env : Env K S P CP) (w : TxState K S P CP)
    (hO : w.params.Outputs = none) :
    (ReceiveTransaction.updateCreateOutput env w).m_keychain =
      (env.keychain.store w.m_keychain
        (draftCoin w.m_txDesc.m_txId w.m_txDesc.m_amount w.m_txDesc.m_minHeight)).1 := by
  unfold ReceiveTransaction.updateCreateOutput
  simp only [hO]
  rfl

/-- With the data of the peer and no peer signature the receiver sends its
confirmation. -/
theorem receiveNegotiate_confirm (env : Env K S P CP) (w : TxState K S P CP)
    (be off po : S) (Rp Pp : P)
    (hO : w.params.PeerOffset = some po)
    (hN : BaseTransaction.getParameterPoint env w.params.PublicPeerNonce = some Rp)
    (hE : BaseTransaction.getParameterPoint env w.params.PublicPeerExcess = some Pp)
    (hS : w.params.PeerSignature = none) :
    ReceiveTransaction.updateNegotiate env w be off =
      w.emit (Call.send_tx_confirmation w.m_txDesc
        { m_txId := w.m_txDesc.m_txId, m_publicPeerExcess := be • env.ecc.G,
          m_peerSignature := BaseTransaction.ownNonce env w.m_txDesc be +
            BaseTransaction.challenge env w.m_txDesc be Rp Pp * be,
          m_publicPeerNonce := BaseTransaction.ownNonce env w.m_txDesc be • env.ecc.G }) := by
  unfold ReceiveTransaction.updateNegotiate
  simp only [hO, hN, hE, hS]
  rfl

/-- The first call of the honest receiver: the output and the
confirmation. -/
theorem honest_confirm (envS envR : Env K S P CP) (ws wr : TxState K S P CP)
    (h : Negotiation.Honest envS envR ws wr) :
    ReceiveTransaction.update envR
        (Transport.deliverInvite envR.ecc wr (Negotiation.invite envS ws)) =
      (Negotiation.receiverCreated envS envR ws wr).emit
        (Call.send_tx_confirmation (Negotiation.receiverCreated envS envR ws wr).m_txDesc
          (Negotiation.confirmation envS envR ws wr)) := by
  have hO : (Transport.deliverInvite envR.ecc wr (Negotiation.invite envS ws)).params.Outputs
      = none := by
    unfold Transport.deliverInvite
    simp only [h.r_fresh]
    rfl
  have hp := createOutput_params envR
    (Transport.deliverInvite envR.ecc wr (Negotiation.invite envS ws)) hO
  have himp : ∀ p : P, envR.ecc.pointImport (envR.ecc.pointExport p) = some p := by
    rw [h.ecc_eq]; exact h.import_export
  unfold ReceiveTransaction.update ReceiveTransaction.updateEntry
  simp only [hp]
  rw [receiveNegotiate_confirm envR _ _ _ (Negotiation.invite envS ws).m_offset
    (Negotiation.invite envS ws).m_publicPeerNonce
    (Negotiation.invite envS ws).m_publicPeerExcess]
  · rfl
  · rw [hp]; rfl
  · rw [hp]; exact himp _
  · rw [hp]; exact himp _
  · rw [hp]
    unfold Transport.deliverInvite
    simp only [h.r_fresh]
    rfl

theorem challenge_comm (envS envR : Env K S P CP) (hecc : envR.ecc = envS.ecc)
    (dS dR : TxDescription) (hfee : dR.m_fee = dS.m_fee)
    (hmin : dR.m_minHeight = dS.m_minHeight) (bs br : S) :
    BaseTransaction.challenge envR dR br (BaseTransaction.ownNonce envS dS bs • envS.ecc.G)
        (bs • envS.ecc.G) =
      BaseTransaction.challenge envS dS bs (BaseTransaction.ownNonce envR dR br • envR.ecc.G)
        (br • envR.ecc.G) := by
  unfold BaseTransaction.challenge BaseTransaction.ownNonce
  rw [hecc, hfee, hmin, add_comm (bs • envS.ecc.G), add_comm (_ • envS.ecc.G)]

theorem partial_signature_valid (G : P) (n e x : S) :
    (n + e * x) • G = n • G + e • x • G := by
  rw [add_smul, mul_smul]

theorem senderReserved_fee (envS : Env K S P CP) (ws : TxState K S P CP) :
    (Negotiation.senderReserved envS ws).m_txDesc.m_fee = ws.m_txDesc.m_fee := by
  unfold Negotiation.senderReserved
  rw [persistExcess_txDesc, reserved_txDesc]
  split <;> rfl

theorem senderReserved_amount (envS : Env K S P CP) (ws : TxState K S P CP) :
    (Negotiation.senderReserved envS ws).m_txDesc.m_amount = ws.m_txDesc.m_amount := by
  unfold Negotiation.senderReserved
  rw [persistExcess_txDesc, reserved_txDesc]
  split <;> rfl

theorem senderReserved_txId (envS : Env K S P CP) (ws : TxState K S P CP) :
    (Negotiation.senderReserved envS ws).m_txDesc.m_txId = ws.m_txDesc.m_txId := by
  unfold Negotiation.senderReserved
  rw [persistExcess_txDesc, reserved_txDesc]
  split <;> rfl

theorem senderReserved_minHeight (envS : Env K S P CP) (ws : TxState K S P CP) :
    (Negotiation.senderReserved envS ws).m_txDesc.m_minHeight =
      envS.keychain.getCurrentHeight ws.m_keychain := by
  unfold Negotiation.senderReserved
  rw [persistExcess_txDesc, reserved_txDesc]
  split <;> rfl

theorem senderReserved_params (envS : Env K S P CP) (ws : TxState K S P CP) :
    (Negotiation.senderReserved envS ws).params =
      { ws.params with BlindingExcess := some (SendTransaction.reserved envS ws 0 0).2.1,
                       Offset := some (SendTransaction.reserved envS ws 0 0).2.2 } := by
  unfold Negotiation.senderReserved
  rw [persistExcess_params, reserved_params]

theorem receiverCreated_params (envS envR : Env K S P CP) (ws wr : TxState K S P CP)
    (h : Negotiation.Honest envS envR ws wr) :
    (Negotiation.receiverCreated envS envR ws wr).params =
      { (Params.empty : Params S P CP) with
        Amount := some (Negotiation.invite envS ws).m_amount,
        Fee := some (Negotiation.invite envS ws).m_fee,
        MinHeight := some (Negotiation.invite envS ws).m_height,
        PeerInputs := some (Negotiation.invite envS ws).m_inputs,
        PeerOutputs := some (Negotiation.invite envS ws).m_outputs,
        PublicPeerNonce :=
          some (envR.ecc.pointExport (Negotiation.invite envS ws).m_publicPeerNonce),
        PublicPeerExcess :=
          some (envR.ecc.pointExport (Negotiation.invite envS ws).m_publicPeerExcess),
        PeerOffset := some (Negotiation.invite envS ws).m_offset,
        Outputs := some (BaseTransaction.getTxOutputs envR
          (envR.keychain.store wr.m_keychain
            (draftCoin wr.m_txDesc.m_txId wr.m_txDesc.m_amount wr.m_txDesc.m_minHeight)).1
          wr.m_txDesc.m_txId),
        BlindingExcess := some (Negotiation.receiverExcess envR wr),
        Offset := some (Negotiation.receiverOffset envR wr) } := by
  unfold Negotiation.receiverCreated
  rw [createOutput_params]
  · unfold Transport.deliverInvite
    simp only [h.r_fresh]
    rfl
  · unfold Transport.deliverInvite
    simp only [h.r_fresh]
    rfl

theorem receiverCreated_txDesc (envS envR : Env K S P CP) (ws wr : TxState K S P CP)
    (h : Negotiation.Honest envS envR ws wr) :
    (Negotiation.receiverCreated envS envR ws wr).m_txDesc =
      { wr.m_txDesc with m_status := TxStatus.InProgress,
                         m_modifyTime := envR.getTimestamp } := by
  unfold Negotiation.receiverCreated
  rw [createOutput_txDesc]
  · rfl
  · unfold Transport.deliverInvite
    simp only [h.r_fresh]
    rfl

theorem receiverCreated_keychain (envS envR : Env K S P CP) (ws wr : TxState K S P CP)
    (h : Negotiation.Honest envS envR ws wr) :
    (Negotiation.receiverCreated envS envR ws wr).m_keychain =
      (envR.keychain.store wr.m_keychain
        (draftCoin wr.m_txDesc.m_txId wr.m_txDesc.m_amount wr.m_txDesc.m_minHeight)).1 := by
  unfold Negotiation.receiverCreated
  rw [createOutput_keychain]
  · rfl
  · unfold Transport.deliverInvite
    simp only [h.r_fresh]
    rfl

/-- In an honest run both parties compute the same challenge. -/
theorem honest_challenge (envS envR : Env K S P CP) (ws wr : TxState K S P CP)
    (h : Negotiation.Honest envS envR ws wr) :
    BaseTransaction.challenge envR (Negotiation.receiverCreated envS envR ws wr).m_txDesc
        (Negotiation.receiverExcess envR wr) (Negotiation.invite envS ws).m_publicPeerNonce
        (Negotiation.invite envS ws).m_publicPeerExcess =
      BaseTransaction.challenge envS (Negotiation.senderReserved envS ws).m_txDesc
        (SendTransaction.reserved envS ws 0 0).2.1
        (Negotiation.confirmation envS envR ws wr).m_publicPeerNonce
        (Negotiation.confirmation envS envR ws wr).m_publicPeerExcess := by
  apply challenge_comm envS envR h.ecc_eq
  · rw [receiverCreated_txDesc envS envR ws wr h, senderReserved_fee]
    exact h.r_fee
  · rw [receiverCreated_txDesc envS envR ws wr h, senderReserved_minHeight]
    exact h.r_height

/-- The second call of the honest sender: the confirmation of the receiver
verifies and the sender answers with its own partial signature. -/
theorem honest_sender_signs (envS envR : Env K S P CP) (ws wr : TxState K S P CP)
    (h : Negotiation.Honest envS envR ws wr) :
    (SendTransaction.update envS
      (Transport.deliverConfirmInvitation envS.ecc (SendTransaction.update envS ws)
        (Negotiation.confirmation envS envR ws wr))).calls.getLast? =
      some (Call.send_tx_confirmation_tx (Negotiation.senderReserved envS ws).m_txDesc
        { m_txId := (Negotiation.senderReserved envS ws).m_txDesc.m_txId,
          m_peerSignature := Negotiation.senderSignature envS envR ws wr }) := by
  have hparams : (Transport.deliverConfirmInvitation envS.ecc (SendTransaction.update envS ws)
      (Negotiation.confirmation envS envR ws wr)).params =
      { (Params.empty : Params S P CP) with
        BlindingExcess := some (SendTransaction.reserved envS ws 0 0).2.1,
        Offset := some (SendTransaction.reserved envS ws 0 0).2.2,
        PublicPeerNonce := some (envS.ecc.pointExport
          (Negotiation.confirmation envS envR ws wr).m_publicPeerNonce),
        PublicPeerExcess := some (envS.ecc.pointExport
          (Negotiation.confirmation envS envR ws wr).m_publicPeerExcess),
        PeerSignature := some (Negotiation.confirmation envS envR ws wr).m_peerSignature } := by
    unfold Transport.deliverConfirmInvitation
    simp only [honest_invite envS envR ws wr h, emit_params, senderReserved_params, h.s_fresh]
  have hdesc : (Transport.deliverConfirmInvitation envS.ecc (SendTransaction.update envS ws)
      (Negotiation.confirmation envS envR ws wr)).m_txDesc =
      (Negotiation.senderReserved envS ws).m_txDesc := by
    unfold Transport.deliverConfirmInvitation
    simp only [honest_invite envS envR ws wr h, emit_txDesc]
  have hentry : SendTransaction.updateEntry envS
      (Transport.deliverConfirmInvitation envS.ecc (SendTransaction.update envS ws)
        (Negotiation.confirmation envS envR ws wr)) =
      Sum.inr (Transport.deliverConfirmInvitation envS.ecc (SendTransaction.update envS ws)
        (Negotiation.confirmation envS envR ws wr),
        (SendTransaction.reserved envS ws 0 0).2.1,
        (SendTransaction.reserved envS ws 0 0).2.2) := by
    unfold SendTransaction.updateEntry
    simp only [hparams, Params.empty]
  have hvalid : Signature.IsValidPartial envS
      { m_e := (BaseTransaction.updateCoSign envS
          (Transport.deliverConfirmInvitation envS.ecc (SendTransaction.update envS ws)
            (Negotiation.confirmation envS envR ws wr)).m_txDesc
          (SendTransaction.reserved envS ws 0 0).2.1
          (Negotiation.confirmation envS envR ws wr).m_publicPeerNonce
          (Negotiation.confirmation envS envR ws wr).m_publicPeerExcess).1.m_Signature.m_e,
        m_k := (Negotiation.confirmation envS envR ws wr).m_peerSignature }
      (Negotiation.confirmation envS envR ws wr).m_publicPeerNonce
      (Negotiation.confirmation envS envR ws wr).m_publicPeerExcess = true := by
    rw [isValidPartial_iff, updateCoSign_challenge, hdesc,
      ← honest_challenge envS envR ws wr h]
    unfold Negotiation.confirmation
    simp only []
    rw [← h.ecc_eq]
    exact partial_signature_valid _ _ _ _
  rw [send_update_verify envS _ _ _ _ _ _ _ hentry
    (by rw [hparams]; exact h.import_export _) (by rw [hparams]; exact h.import_export _)
    (by rw [hparams]), if_pos hvalid]
  unfold SendTransaction.updateRegister
  simp only [hparams, Params.empty]
  unfold SendTransaction.sendConfirmTransaction
  rw [getLast_emit, hdesc, updateCoSign_partialSignature]
  rfl

/-- The honest run reaches the call in which the receiver assembles the
transaction. -/
theorem honest_run_reaches (envS envR : Env K S P CP) (ws wr : TxState K S P CP)
    (h : Negotiation.Honest envS envR ws wr) :
    Negotiation.honestRun envS envR ws wr =
      some (Negotiation.receiverSigned envS envR ws wr) := by
  have h1 : (SendTransaction.update envS ws).calls.getLast? =
      some (Call.send_tx_invitation (Negotiation.senderReserved envS ws).m_txDesc
        (Negotiation.invite envS ws)) := by
    rw [honest_invite envS envR ws wr h, getLast_emit]
  have h2 : (ReceiveTransaction.update envR
      (Transport.deliverInvite envR.ecc wr (Negotiation.invite envS ws))).calls.getLast? =
      some (Call.send_tx_confirmation (Negotiation.receiverCreated envS envR ws wr).m_txDesc
        (Negotiation.confirmation envS envR ws wr)) := by
    rw [honest_confirm envS envR ws wr h, getLast_emit]
  unfold Negotiation.honestRun
  simp only [h1, h2, honest_sender_signs envS envR ws wr h]
  rw [honest_confirm envS envR ws wr h]
  rfl

/-- The assembling call of `ReceiveTransaction::update`: with the output
created before, all data of the peer stored, a peer signature that verifies
and no `TransactionRegistered`, the call validates the assembled transaction
and registers it. -/
theorem receive_update_assembles (env : Env K S P CP) (w : TxState K S P CP)
    (be off po sp : S) (Rp Pp : P) (outs : List (Output P))
    (hOut : w.params.Outputs = some outs)
    (hBE : w.params.BlindingExcess = some be) (hOff : w.params.Offset = some off)
    (hPO : w.params.PeerOffset = some po)
    (hN : BaseTransaction.getParameterPoint env w.params.PublicPeerNonce = some Rp)
    (hE : BaseTransaction.getParameterPoint env w.params.PublicPeerExcess = some Pp)
    (hS : w.params.PeerSignature = some sp)
    (hT : w.params.TransactionRegistered = none)
    (hv : sp • env.ecc.G = Rp + BaseTransaction.challenge env w.m_txDesc be Rp Pp • Pp) :
    ReceiveTransaction.assembled env w =
      some (env.txSort (BaseTransaction.assemble env w (signedKernel env w.m_txDesc be sp Rp Pp)
        po off (w.params.PeerInputs.getD []) (w.params.PeerOutputs.getD []))) ∧
    ReceiveTransaction.update env w =
      if env.IsValid (env.txSort (BaseTransaction.assemble env w
          (signedKernel env w.m_txDesc be sp Rp Pp) po off (w.params.PeerInputs.getD [])
          (w.params.PeerOutputs.getD []))) = true then
        w.emit (Call.register_tx w.m_txDesc (env.txSort (BaseTransaction.assemble env w
          (signedKernel env w.m_txDesc be sp Rp Pp) po off (w.params.PeerInputs.getD [])
          (w.params.PeerOutputs.getD []))))
      else BaseTransaction.onFailed env w true := by
  constructor
  · unfold ReceiveTransaction.assembled
    simp only [hBE, hOff, hPO, hN, hE, hS]
  · have hentry : ReceiveTransaction.updateEntry env w = Sum.inr (w, be, off) := by
      unfold ReceiveTransaction.updateEntry ReceiveTransaction.updateCreateOutput
      simp only [hOut, hBE, hOff]
    have hvalid : Signature.IsValidPartial env
        { m_e := (BaseTransaction.updateCoSign env w.m_txDesc be Rp Pp).1.m_Signature.m_e,
          m_k := sp } Rp Pp = true := by
      rw [isValidPartial_iff, updateCoSign_challenge]; exact hv
    rw [receive_update_verify env w w be off sp po Rp Pp hentry hPO hN hE hS, if_pos hvalid]
    unfold ReceiveTransaction.updateRegister
    simp only [hT]
    split <;> simp_all

theorem receiverSigned_params (envS envR : Env K S P CP) (ws wr : TxState K S P CP) :
    (Negotiation.receiverSigned envS envR ws wr).params =
      { (Negotiation.receiverCreated envS envR ws wr).params with
        PeerSignature := some (Negotiation.senderSignature envS envR ws wr) } := rfl

theorem receiverSigned_txDesc (envS envR : Env K S P CP) (ws wr : TxState K S P CP) :
    (Negotiation.receiverSigned envS envR ws wr).m_txDesc =
      (Negotiation.receiverCreated envS envR ws wr).m_txDesc := rfl

theorem receiverSigned_keychain (envS envR : Env K S P CP) (ws wr : TxState K S P CP) :
    (Negotiation.receiverSigned envS envR ws wr).m_keychain =
      (Negotiation.receiverCreated envS envR ws wr).m_keychain := rfl

/-- The last call of the honest receiver assembles `Negotiation.transaction`,
validates it and registers it. -/
theorem honest_assembles (envS envR : Env K S P CP) (ws wr : TxState K S P CP)
    (h : Negotiation.Honest envS envR ws wr) :
    ReceiveTransaction.assembled envR (Negotiation.receiverSigned envS envR ws wr) =
      some (Negotiation.transaction envS envR ws wr) ∧
    ReceiveTransaction.update envR (Negotiation.receiverSigned envS envR ws wr) =
      if envR.IsValid (Negotiation.transaction envS envR ws wr) = true then
        (Negotiation.receiverSigned envS envR ws wr).emit
          (Call.register_tx (Negotiation.receiverSigned envS envR ws wr).m_txDesc
            (Negotiation.transaction envS envR ws wr))
      else BaseTransaction.onFailed envR (Negotiation.receiverSigned envS envR ws wr) true := by
  have hp := receiverCreated_params envS envR ws wr h
  have himp : ∀ p : P, envR.ecc.pointImport (envR.ecc.pointExport p) = some p := by
    rw [h.ecc_eq]; exact h.import_export
  have hv : Negotiation.senderSignature envS envR ws wr • envR.ecc.G =
      (Negotiation.invite envS ws).m_publicPeerNonce +
        BaseTransaction.challenge envR (Negotiation.receiverSigned envS envR ws wr).m_txDesc
          (Negotiation.receiverExcess envR wr) (Negotiation.invite envS ws).m_publicPeerNonce
          (Negotiation.invite envS ws).m_publicPeerExcess •
        (Negotiation.invite envS ws).m_publicPeerExcess := by
    rw [receiverSigned_txDesc, honest_challenge envS envR ws wr h, h.ecc_eq]
    exact partial_signature_valid _ _ _ _
  have hmain := receive_update_assembles envR (Negotiation.receiverSigned envS envR ws wr)
    (Negotiation.receiverExcess envR wr) (Negotiation.receiverOffset envR wr)
    (Negotiation.invite envS ws).m_offset (Negotiation.senderSignature envS envR ws wr)
    (Negotiation.invite envS ws).m_publicPeerNonce
    (Negotiation.invite envS ws).m_publicPeerExcess _
    (by rw [receiverSigned_params, hp])
    (by rw [receiverSigned_params, hp])
    (by rw [receiverSigned_params, hp])
    (by rw [receiverSigned_params, hp])
    (by rw [receiverSigned_params, hp]; exact himp _)
    (by rw [receiverSigned_params, hp]; exact himp _)
    (by rw [receiverSigned_params])
    (by rw [receiverSigned_params, hp]; rfl) hv
  have hin : (Negotiation.receiverSigned envS envR ws wr).params.PeerInputs.getD [] =
      (Negotiation.invite envS ws).m_inputs := by
    rw [receiverSigned_params, hp]; rfl
  have hout : (Negotiation.receiverSigned envS envR ws wr).params.PeerOutputs.getD [] =
      (Negotiation.invite envS ws).m_outputs := by
    rw [receiverSigned_params, hp]; rfl
  rw [hin, hout] at hmain
  exact hmain

theorem sum_input_commitments (env : Env K S P CP) (coins : List Coin) (key : Coin → S) :
    ((coins.map (fun c =>
        ({ m_Commitment := Commitment env (key c) c.m_amount } : Input P))).map
      Input.m_Commitment).sum =
      (coins.map key).sum • env.ecc.G + (coins.map Coin.m_amount).sum • env.ecc.H := by
  induction coins with
  | nil => simp
  | cons c cs ih =>
    simp only [List.map_cons, List.sum_cons]
    rw [ih]
    simp only [Commitment, add_smul, add_nsmul]
    abel

theorem transaction_sumInputs (envS envR : Env K S P CP) (ws wr : TxState K S P CP)
    (h : Negotiation.Honest envS envR ws wr) :
    (Negotiation.transaction envS envR ws wr).sumInputs =
      ((SendTransaction.selection envS ws).map envS.keychain.calcKey).sum • envS.ecc.G +
        ((SendTransaction.selection envS ws).map Coin.m_amount).sum • envS.ecc.H := by
  unfold Transaction.sumInputs Negotiation.transaction
  rw [((h.sort_inputs _).map Input.m_Commitment).sum_eq]
  unfold BaseTransaction.assemble
  simp only [receiverSigned_keychain, receiverSigned_txDesc,
    receiverCreated_keychain envS envR ws wr h, receiverCreated_txDesc envS envR ws wr h,
    h.r_inputs, List.append_nil]
  have hinv : (Negotiation.invite envS ws).m_inputs =
      (SendTransaction.selection envS ws).map
        (fun c => { m_Commitment := Commitment envS (envS.keychain.calcKey c) c.m_amount }) := by
    unfold Negotiation.invite
    simp only [senderReserved_txId]
    exact h.s_inputs
  rw [hinv, sum_input_commitments]

theorem transaction_sumOutputs (envS envR : Env K S P CP) (ws wr : TxState K S P CP)
    (h : Negotiation.Honest envS envR ws wr) :
    (Negotiation.transaction envS envR ws wr).sumOutputs =
      (if 0 < SendTransaction.change envS ws then
        Commitment envS (envS.keychain.calcKey (SendTransaction.changeCoin envS ws))
          (SendTransaction.change envS ws)
       else 0) +
      Commitment envR (envR.keychain.calcKey (ReceiveTransaction.outputCoin envR wr))
        wr.m_txDesc.m_amount := by
  unfold Transaction.sumOutputs Negotiation.transaction
  rw [((h.sort_outputs _).map Output.m_Commitment).sum_eq]
  unfold BaseTransaction.assemble
  simp only [receiverSigned_keychain, receiverSigned_txDesc,
    receiverCreated_keychain envS envR ws wr h, receiverCreated_txDesc envS envR ws wr h,
    h.r_outputs]
  have hinv : (Negotiation.invite envS ws).m_outputs =
      if 0 < SendTransaction.change envS ws then
        [{ m_Coinbase := false,
           m_Commitment := Commitment envS
             (envS.keychain.calcKey (SendTransaction.changeCoin envS ws))
             (SendTransaction.change envS ws) }]
      else [] := by
    unfold Negotiation.invite
    simp only [senderReserved_txId]
    exact h.s_outputs
  rw [hinv]
  split <;> simp

theorem transaction_excess (envS envR : Env K S P CP) (ws wr : TxState K S P CP)
    (h : Negotiation.Honest envS envR ws wr) :
    (Negotiation.transaction envS envR ws wr).excess =
      (Negotiation.receiverExcess envR wr + (SendTransaction.reserved envS ws 0 0).2.1) •
        envS.ecc.G := by
  unfold Transaction.excess Negotiation.transaction
  rw [((h.sort_kernels _).map TxKernel.m_Excess).sum_eq]
  unfold BaseTransaction.assemble
  simp only [List.map_cons, List.map_nil, List.sum_cons, List.sum_nil, add_zero]
  show Negotiation.receiverExcess envR wr • envR.ecc.G +
    (Negotiation.invite envS ws).m_publicPeerExcess = _
  rw [h.ecc_eq, add_smul]
  rfl

theorem transaction_fee (envS envR : Env K S P CP) (ws wr : TxState K S P CP)
    (h : Negotiation.Honest envS envR ws wr) :
    (Negotiation.transaction envS envR ws wr).fee = ws.m_txDesc.m_fee := by
  unfold Transaction.fee Negotiation.transaction
  rw [((h.sort_kernels _).map TxKernel.m_Fee).sum_eq]
  unfold BaseTransaction.assemble
  simp only [List.map_cons, List.map_nil, List.sum_cons, List.sum_nil, add_zero]
  show (Negotiation.receiverSigned envS envR ws wr).m_txDesc.m_fee = _
  rw [receiverSigned_txDesc, receiverCreated_txDesc envS envR ws wr h]
  exact h.r_fee

theorem transaction_offset (envS envR : Env K S P CP) (ws wr : TxState K S P CP)
    (h : Negotiation.Honest envS envR ws wr) :
    (Negotiation.transaction envS envR ws wr).m_Offset =
      (SendTransaction.reserved envS ws 0 0).2.2 + Negotiation.receiverOffset envR wr := by
  unfold Negotiation.transaction
  rw [h.sort_offset]
  rfl

/-- The amounts of the selection are the amount, the fee and the change. -/
theorem honest_amounts (envS envR : Env K S P CP) (ws wr : TxState K S P CP)
    (h : Negotiation.Honest envS envR ws wr) :
    ((SendTransaction.selection envS ws).map Coin.m_amount).sum =
      ws.m_txDesc.m_amount + ws.m_txDesc.m_fee + SendTransaction.change envS ws := by
  have hawf : add64 ws.m_txDesc.m_amount ws.m_txDesc.m_fee =
      ws.m_txDesc.m_amount + ws.m_txDesc.m_fee := by
    unfold add64 u64
    exact Nat.mod_eq_of_lt h.s_noWrap
  have hchange : SendTransaction.change envS ws =
      ((SendTransaction.selection envS ws).map Coin.m_amount).sum -
        (ws.m_txDesc.m_amount + ws.m_txDesc.m_fee) := by
    unfold SendTransaction.change
    rw [hawf]
    exact changeOf_eq _ _ _ h.s_covered h.s_bounded
  rw [hchange]
  exact (Nat.add_sub_cancel' h.s_covered).symm

/-- The law of the assembled transaction: the inputs minus the outputs are
the kernel excess plus `fee·H` plus `G` times the sum over the created
outputs of `privateExcess − key`. -/
theorem honest_conservation (envS envR : Env K S P CP) (ws wr : TxState K S P CP)
    (h : Negotiation.Honest envS envR ws wr) :
    (Negotiation.transaction envS envR ws wr).sumInputs -
        (Negotiation.transaction envS envR ws wr).sumOutputs =
      (Negotiation.transaction envS envR ws wr).excess +
        (Negotiation.transaction envS envR ws wr).fee • envS.ecc.H +
        Negotiation.excessOverKeys envS envR ws wr • envS.ecc.G := by
  rw [transaction_sumInputs envS envR ws wr h, transaction_sumOutputs envS envR ws wr h,
    transaction_excess envS envR ws wr h, transaction_fee envS envR ws wr h,
    honest_amounts envS envR ws wr h, reserved_excess, h.r_amount]
  unfold Negotiation.excessOverKeys Negotiation.receiverExcess Commitment
  rw [h.ecc_eq]
  by_cases hc : 0 < SendTransaction.change envS ws
  · simp only [if_pos hc, zero_add, add_smul, sub_smul, neg_smul, add_nsmul]
    abel
  · have h0 : SendTransaction.change envS ws = 0 := Nat.eq_zero_of_not_pos hc
    rw [if_neg hc, if_neg hc, if_neg hc, h0]
    simp only [zero_add, add_zero, add_smul, sub_smul, neg_smul, add_nsmul, zero_smul]
    abel

/-- The examples `senderExample` and `receiverExample` make an honest run. -/
theorem example_honest :
    Negotiation.Honest (intEnv true 5) (intEnv true 9) senderExample receiverExample where
  ecc_eq := rfl
  import_export := fun _ => rfl
  sort_inputs := fun _ => List.Perm.refl _
  sort_outputs := fun _ => List.Perm.refl _
  sort_kernels := fun _ => List.Perm.refl _
  sort_offset := fun _ => rfl
  s_fresh := rfl
  s_sender := rfl
  s_funds := by decide
  s_notOwn := by decide
  s_noWrap := by decide
  s_covered := by decide
  s_bounded := by decide
  s_inputs := by decide
  s_outputs := by decide
  r_fresh := rfl
  r_amount := rfl
  r_fee := rfl
  r_height := rfl
  r_inputs := by decide
  r_outputs := by decide

/-- C3 as amended: in every honest two-party run (the sender executes S1 and
invites, the receiver executes R1 and confirms, the sender signs, and the
receiver assembles the transaction), the run reaches the assembling call, the
kernel excess is `g·(blindingExcess_sender + blindingExcess_receiver)` for the
two persisted excesses, and the assembled transaction satisfies
`Σ(input commitments) − Σ(output commitments) = excess + fee·H + g·d`, where
`d` is the sum over the outputs created by the two parties of
`privateExcess − key` (the part of each key that `splitKey` moves to the
offsets) and commitments are `g·key + H·amount`. -/
theorem C3_conservation_with_split_term (envS envR : Env K S P CP)
    (ws wr : TxState K S P CP) (h : Negotiation.Honest envS envR ws wr) :
    Negotiation.honestRun envS envR ws wr =
      some (Negotiation.receiverSigned envS envR ws wr) ∧
    ReceiveTransaction.assembled envR (Negotiation.receiverSigned envS envR ws wr) =
      some (Negotiation.transaction envS envR ws wr) ∧
    (SendTransaction.update envS ws).params.BlindingExcess =
      some (SendTransaction.reserved envS ws 0 0).2.1 ∧
    (Negotiation.receiverSigned envS envR ws wr).params.BlindingExcess =
      some (Negotiation.receiverExcess envR wr) ∧
    (Negotiation.transaction envS envR ws wr).excess =
      ((SendTransaction.reserved envS ws 0 0).2.1 + Negotiation.receiverExcess envR wr) •
        envS.ecc.G ∧
    (Negotiation.transaction envS envR ws wr).sumInputs -
        (Negotiation.transaction envS envR ws wr).sumOutputs =
      (Negotiation.transaction envS envR ws wr).excess +
        (Negotiation.transaction envS envR ws wr).fee • envS.ecc.H +
        Negotiation.excessOverKeys envS envR ws wr • envS.ecc.G := by
  refine ⟨honest_run_reaches envS envR ws wr h, (honest_assembles envS envR ws wr h).1, ?_, ?_,
    ?_, honest_conservation envS envR ws wr h⟩
  · rw [honest_invite envS envR ws wr h, emit_params, senderReserved_params]
  · rw [receiverSigned_params, receiverCreated_params envS envR ws wr h]
  · rw [transaction_excess envS envR ws wr h, add_comm]

/-- C3 as amended, at the run of `senderExample` with `receiverExample`: the
inputs minus the outputs are `(-17, 1)`, the excess plus `fee·H` is
`(-42, 1)`, and the keys exceed the `privateExcess` parts by `25`. -/
theorem C3_conservation_with_split_term_witness :
    (Negotiation.transaction (intEnv true 5) (intEnv true 9) senderExample
        receiverExample).sumInputs -
      (Negotiation.transaction (intEnv true 5) (intEnv true 9) senderExample
        receiverExample).sumOutputs =
    (Negotiation.transaction (intEnv true 5) (intEnv true 9) senderExample
        receiverExample).excess +
      (Negotiation.transaction (intEnv true 5) (intEnv true 9) senderExample
        receiverExample).fee • (intEnv true 5).ecc.H +
      Negotiation.excessOverKeys (intEnv true 5) (intEnv true 9) senderExample
        receiverExample • (intEnv true 5).ecc.G :=
  (C3_conservation_with_split_term (intEnv true 5) (intEnv true 9) senderExample
    receiverExample example_honest).2.2.2.2.2

/-- C3 as stated fails: in the honest run of `senderExample` (one coin of 100,
key 10; sends 40 with fee 1; change coin of 59 with key 17) with
`receiverExample` (output coin of 40 with key 10), where `splitKey` moves 13
and 12 to the offsets, the receiver assembles a transaction with
`Σ inputs − Σ outputs = (-17, 1)` whereas `excess + fee·H = (-42, 1)`: the
two differ by `g·offset = (25, 0)`. -/
theorem C3_counterexample :
    (((Negotiation.honestRun (intEnv true 5) (intEnv true 9) senderExample
        receiverExample).bind
      (ReceiveTransaction.assembled (intEnv true 9))).map
      (fun t => (t.sumInputs - t.sumOutputs, t.excess + t.fee • (intEnv true 9).ecc.H,
        t.m_Offset • (intEnv true 9).ecc.G))) =
      some ((-17, 1), (-42, 1), (25, 0)) ∧
    ((-17, 1) : Int × Int) ≠ (-42, 1) := by
  decide

/-- When `splitKey` returns `privateExcess = key + offset`, the keys exceed the
`privateExcess` parts of the outputs of the run by the offset of the
transaction. -/
theorem excessOverKeys_eq_offset (envS envR : Env K S P CP) (ws wr : TxState K S P CP)
    (h : Negotiation.Honest envS envR ws wr)
    (hsplit : ∀ (key : S) (index : Nat),
      (envS.ecc.splitKey key index).1 = key + (envS.ecc.splitKey key index).2) :
    Negotiation.excessOverKeys envS envR ws wr =
      (Negotiation.transaction envS envR ws wr).m_Offset := by
  rw [transaction_offset envS envR ws wr h, reserved_offset]
  unfold Negotiation.excessOverKeys Negotiation.receiverOffset
  rw [h.ecc_eq, hsplit, hsplit]
  split <;> simp

/-- C4 as amended: in every honest run, where `splitKey` returns
`(privateExcess, offset)` with `privateExcess = key + offset`, the transaction
assembled by the invited party (offset = peerOffset + ownOffset, kernel excess
= publicExcess + publicPeerExcess, inputs and outputs of both parties)
satisfies `Σ input_commitments = Σ output_commitments + g·offset +
kernel.excess + fee·H`: the fee is on the side of the outputs. -/
theorem C4_conservation_with_offset (envS envR : Env K S P CP)
    (ws wr : TxState K S P CP) (h : Negotiation.Honest envS envR ws wr)
    (hsplit : ∀ (key : S) (index : Nat),
      (envS.ecc.splitKey key index).1 = key + (envS.ecc.splitKey key index).2) :
    Negotiation.honestRun envS envR ws wr =
      some (Negotiation.receiverSigned envS envR ws wr) ∧
    (ReceiveTransaction.update envR (Negotiation.receiverSigned envS envR ws wr) =
      if envR.IsValid (Negotiation.transaction envS envR ws wr) = true then
        (Negotiation.receiverSigned envS envR ws wr).emit
          (Call.register_tx (Negotiation.receiverSigned envS envR ws wr).m_txDesc
            (Negotiation.transaction envS envR ws wr))
      else BaseTransaction.onFailed envR (Negotiation.receiverSigned envS envR ws wr) true) ∧
    (Negotiation.transaction envS envR ws wr).m_Offset =
      (Negotiation.invite envS ws).m_offset + Negotiation.receiverOffset envR wr ∧
    (Negotiation.transaction envS envR ws wr).excess =
      Negotiation.receiverExcess envR wr • envS.ecc.G +
        (Negotiation.invite envS ws).m_publicPeerExcess ∧
    (Negotiation.transaction envS envR ws wr).sumInputs =
      (Negotiation.transaction envS envR ws wr).sumOutputs +
        (Negotiation.transaction envS envR ws wr).m_Offset • envS.ecc.G +
        (Negotiation.transaction envS envR ws wr).excess +
        (Negotiation.transaction envS envR ws wr).fee • envS.ecc.H := by
  refine ⟨honest_run_reaches envS envR ws wr h, (honest_assembles envS envR ws wr h).2,
    transaction_offset envS envR ws wr h, ?_, ?_⟩
  · rw [transaction_excess envS envR ws wr h, add_smul]
    rfl
  · have hlaw := honest_conservation envS envR ws wr h
    rw [excessOverKeys_eq_offset envS envR ws wr h hsplit] at hlaw
    rw [sub_eq_iff_eq_add] at hlaw
    rw [hlaw]
    abel

/-- C4 as amended, at the run of `senderExample` with `receiverExample`, whose
`splitKey` returns `(key + offset, offset)`: `Σ inputs = (10, 100)`. -/
theorem C4_conservation_with_offset_witness :
    (Negotiation.transaction (intEnv true 5) (intEnv true 9) senderExample
        receiverExample).sumInputs = (10, 100) ∧
    (Negotiation.transaction (intEnv true 5) (intEnv true 9) senderExample
        receiverExample).sumInputs =
      (Negotiation.transaction (intEnv true 5) (intEnv true 9) senderExample
        receiverExample).sumOutputs +
      (Negotiation.transaction (intEnv true 5) (intEnv true 9) senderExample
        receiverExample).m_Offset • (intEnv true 5).ecc.G +
      (Negotiation.transaction (intEnv true 5) (intEnv true 9) senderExample
        receiverExample).excess +
      (Negotiation.transaction (intEnv true 5) (intEnv true 9) senderExample
        receiverExample).fee • (intEnv true 5).ecc.H :=
  ⟨by decide,
    (C4_conservation_with_offset (intEnv true 5) (intEnv true 9) senderExample
      receiverExample example_honest (fun _ _ => rfl)).2.2.2.2⟩

/-- C4 as stated fails: in the honest run of `senderExample` (one coin of 100;
sends 40 with fee 1; change 59) with `receiverExample`, where `splitKey`
returns `(key + offset, offset)`, the receiver assembles a transaction with
`Σ inputs + fee·H = (10, 101)` whereas
`Σ outputs + g·offset + excess = (10, 99)`: the two sides differ by
`2·fee·H`, the fee being on the wrong side. -/
theorem C4_counterexample :
    (((Negotiation.honestRun (intEnv true 5) (intEnv true 9) senderExample
        receiverExample).bind
      (ReceiveTransaction.assembled (intEnv true 9))).map
      (fun t => (t.sumInputs + t.fee • (intEnv true 9).ecc.H,
        t.sumOutputs + t.m_Offset • (intEnv true 9).ecc.G + t.excess))) =
      some ((10, 101), (10, 99)) ∧
    ((10, 101) : Int × Int) ≠ (10, 99) := by
  decide

end HonestRun

/-! ## Failure and cancellation -/

section Lifecycle

variable {K S P CP : Type} [CommRing S] [AddCommGroup P] [Module S P] [DecidableEq P]

/-- C20: `BaseTransaction::onFailed(notify)` performs, in this order: the
status is set to Failed and the description saved; `rollbackTx(txId)`;
`send_tx_failed` iff `notify` is true; `on_tx_completed`, once.  It writes no
parameter (no `setTxParameter` call, the store is unchanged) and the ledger
after it is the one that `rollbackTx` returns. -/
theorem C20_onFailed_sequence (env : Env K S P CP) (w : TxState K S P CP) (notify : Bool) :
    w.callsSince (BaseTransaction.onFailed env w notify) =
      [Call.saveTx { w.m_txDesc with m_status := TxStatus.Failed,
                                     m_modifyTime := env.getTimestamp },
        Call.rollbackTx w.m_txDesc.m_txId] ++
      (if notify then
        [Call.send_tx_failed { w.m_txDesc with m_status := TxStatus.Failed,
                                               m_modifyTime := env.getTimestamp }]
       else []) ++
      [Call.on_tx_completed { w.m_txDesc with m_status := TxStatus.Failed,
                                              m_modifyTime := env.getTimestamp }] ∧
    (BaseTransaction.onFailed env w notify).m_txDesc =
      { w.m_txDesc with m_status := TxStatus.Failed, m_modifyTime := env.getTimestamp } ∧
    (BaseTransaction.onFailed env w notify).savedTx =
      some { w.m_txDesc with m_status := TxStatus.Failed, m_modifyTime := env.getTimestamp } ∧
    (BaseTransaction.onFailed env w notify).params = w.params ∧
    (BaseTransaction.onFailed env w notify).m_keychain =
      env.keychain.rollbackTx w.m_keychain w.m_txDesc.m_txId ∧
    (∀ c ∈ w.callsSince (BaseTransaction.onFailed env w notify),
      Call.isSetParameter c = false ∧ Call.isStoreOrUpdate c = false) := by
  have hcalls : w.callsSince (BaseTransaction.onFailed env w notify) =
      [Call.saveTx { w.m_txDesc with m_status := TxStatus.Failed,
                                     m_modifyTime := env.getTimestamp },
        Call.rollbackTx w.m_txDesc.m_txId] ++
      (if notify then
        [Call.send_tx_failed { w.m_txDesc with m_status := TxStatus.Failed,
                                               m_modifyTime := env.getTimestamp }]
       else []) ++
      [Call.on_tx_completed { w.m_txDesc with m_status := TxStatus.Failed,
                                              m_modifyTime := env.getTimestamp }] := by
    apply callsSince_append
    rw [onFailed_calls]
    rfl
  refine ⟨hcalls, onFailed_txDesc env w notify, onFailed_savedTx env w notify,
    onFailed_params env w notify, onFailed_keychain env w notify, ?_⟩
  intro c hc
  rw [hcalls] at hc
  cases notify <;> simp at hc <;> rcases hc with rfl | rfl | rfl | rfl <;> exact ⟨rfl, rfl⟩

theorem cancel_calls (env : Env K S P CP) (w : TxState K S P CP) :
    w.callsSince (BaseTransaction.cancel env w) =
      if w.m_txDesc.m_status = TxStatus.Pending then [Call.deleteTx w.m_txDesc.m_txId]
      else [Call.saveTx (cancelledDesc env w), Call.rollbackTx w.m_txDesc.m_txId,
        Call.send_tx_failed (cancelledDesc env w)] := by
  apply callsSince_append
  unfold BaseTransaction.cancel
  split
  · rfl
  · simp only [emit_calls, rollbackTx_calls, updateTxDescription_calls, List.append_assoc]
    rfl

/-- C19 as amended: `BaseTransaction::cancel()`: if the status is Pending it
calls `deleteTx(txId)` and does nothing else (no status write, no
`rollbackTx`, no `send_tx_failed`); for every other status (InProgress and
Registered, and Completed, Cancelled and Failed as well) it sets the status
to Cancelled and saves it, calls `rollbackTx(txId)` and emits
`send_tx_failed`. -/
theorem C19_cancel (env : Env K S P CP) (w : TxState K S P CP) :
    w.callsSince (BaseTransaction.cancel env w) =
      (if w.m_txDesc.m_status = TxStatus.Pending then [Call.deleteTx w.m_txDesc.m_txId]
       else [Call.saveTx { w.m_txDesc with m_status := TxStatus.Cancelled,
                                           m_modifyTime := env.getTimestamp },
         Call.rollbackTx w.m_txDesc.m_txId,
         Call.send_tx_failed { w.m_txDesc with m_status := TxStatus.Cancelled,
                                               m_modifyTime := env.getTimestamp }]) ∧
    (BaseTransaction.cancel env w).m_txDesc =
      (if w.m_txDesc.m_status = TxStatus.Pending then w.m_txDesc
       else { w.m_txDesc with m_status := TxStatus.Cancelled,
                              m_modifyTime := env.getTimestamp }) ∧
    (BaseTransaction.cancel env w).m_keychain =
      (if w.m_txDesc.m_status = TxStatus.Pending then w.m_keychain
       else env.keychain.rollbackTx w.m_keychain w.m_txDesc.m_txId) ∧
    (BaseTransaction.cancel env w).params = w.params := by
  refine ⟨cancel_calls env w, ?_, ?_, ?_⟩
  · unfold BaseTransaction.cancel
    split <;> rfl
  · unfold BaseTransaction.cancel
    split <;> rfl
  · unfold BaseTransaction.cancel
    split <;> rfl

/-- C19 as stated fails for the terminal states: `cancel()` on a Completed
transaction sets the status to Cancelled, calls `rollbackTx` and emits
`send_tx_failed`; so it does on a Failed and on a Cancelled one. -/
theorem C19_counterexample :
    (BaseTransaction.cancel (intEnv true 5)
      (freshState { pendingTx true 40 1 with m_status := TxStatus.Completed }
        [])).m_txDesc.m_status = TxStatus.Cancelled ∧
    (BaseTransaction.cancel (intEnv true 5)
      (freshState { pendingTx true 40 1 with m_status := TxStatus.Completed } [])).calls =
      [Call.saveTx { pendingTx true 40 1 with m_status := TxStatus.Cancelled,
                                              m_modifyTime := 1000 },
        Call.rollbackTx 1,
        Call.send_tx_failed { pendingTx true 40 1 with m_status := TxStatus.Cancelled,
                                                       m_modifyTime := 1000 }] ∧
    (BaseTransaction.cancel (intEnv true 5)
      (freshState { pendingTx true 40 1 with m_status := TxStatus.Failed } [])).calls =
      [Call.saveTx { pendingTx true 40 1 with m_status := TxStatus.Cancelled,
                                              m_modifyTime := 1000 },
        Call.rollbackTx 1,
        Call.send_tx_failed { pendingTx true 40 1 with m_status := TxStatus.Cancelled,
                                                       m_modifyTime := 1000 }] ∧
    (BaseTransaction.cancel (intEnv true 5)
      (freshState { pendingTx true 40 1 with m_status := TxStatus.Cancelled } [])).calls ≠
      [] := by
  decide

end Lifecycle

/-! ## What the start of an update leaves behind -/

section EntryResults

variable {K S P CP : Type} [CommRing S] [AddCommGroup P] [Module S P] [DecidableEq P]

theorem entryCall_kinds (c : Call S P) (h : Call.isEntryCall c = true) :
    Call.isGateway c = false ∧ Call.isOutbound c = false := by
  cases c <;> simp_all [Call.isEntryCall, Call.isGateway, Call.isOutbound]

theorem afterEntry_kinds (c : Call S P) (h : Call.isAfterEntry c = true) :
    Call.isStore c = false ∧ Call.isSetParameter c = false ∧
      ∀ d, c = Call.saveTx d → d.m_status ≠ TxStatus.InProgress := by
  cases c <;> simp_all [Call.isAfterEntry, Call.isStore, Call.isSetParameter]
  rename_i d
  rcases h with h | h | h <;> rw [h] <;> decide

theorem sameTx_refl (d : TxDescription) : TxDescription.sameTx d d :=
  ⟨rfl, rfl, rfl, rfl, rfl⟩

/-- The call of `S1` on a sender with funds leaves the excess and the offset
in the store and the transaction what it was. -/
theorem sendReserveCoins_result (env : Env K S P CP) (w w1 : TxState K S P CP)
    (coins : List Coin) (awf : Amount) (ch : Height) (be0 off0 be off : S)
    (h : SendTransaction.updateReserveCoins env w coins awf ch be0 off0 = Sum.inr (w1, be, off)) :
    TxState.extendsBy Call.isEntryCall w w1 ∧ TxDescription.sameTx w.m_txDesc w1.m_txDesc ∧
      w1.params.BlindingExcess = some be ∧ w1.params.Offset = some off := by
  unfold SendTransaction.updateReserveCoins at h
  simp only [] at h
  split at h
  · simp at h
  · simp only [Sum.inr.injEq, Prod.mk.injEq] at h
    obtain ⟨rfl, rfl, rfl⟩ := h
    refine ⟨?_, ?_, rfl, rfl⟩
    · simp only [TxState.extendsBy, persistExcess_calls, reserveCoins_calls, List.append_assoc]
      refine ⟨_, rfl, ?_⟩
      intro c hc
      split at hc <;> simp at hc <;> rcases hc with rfl | rfl | rfl | rfl | rfl <;> rfl
    · rw [persistExcess_txDesc, reserveCoins_txDesc]
      split <;> exact ⟨rfl, rfl, rfl, rfl, rfl⟩

/-- When the start of `SendTransaction::update` carries on, its calls are
calls on the ledger and the store, the excess and the offset are stored and
the transaction is what it was. -/
theorem sendEntry_result (env : Env K S P CP) (w w1 : TxState K S P CP) (be off : S)
    (h : SendTransaction.updateEntry env w = Sum.inr (w1, be, off)) :
    TxState.extendsBy Call.isEntryCall w w1 ∧ TxDescription.sameTx w.m_txDesc w1.m_txDesc ∧
      w1.params.BlindingExcess = some be ∧ w1.params.Offset = some off := by
  unfold SendTransaction.updateEntry at h
  split at h
  · simp at h
  · split at h
    · rename_i hbe hoff
      simp only [Sum.inr.injEq, Prod.mk.injEq] at h
      obtain ⟨rfl, rfl, rfl⟩ := h
      exact ⟨extendsBy_refl _ _, sameTx_refl _, hbe, hoff⟩
    · unfold SendTransaction.updateReserve at h
      by_cases hs : w.m_txDesc.m_sender = true
      · simp only [hs, if_true] at h
        split at h
        · simp at h
        · obtain ⟨h1, h2, h3, h4⟩ := sendReserveCoins_result env _ w1 _ _ _ _ _ _ _ h
          refine ⟨?_, ?_, h3, h4⟩
          · refine extendsBy_trans _ w _ w1 ⟨[Call.selectCoins _], rfl, ?_⟩ h1
            intro c hc
            simp only [List.mem_singleton] at hc
            subst hc
            rfl
          · exact h2
      · simp only [hs] at h
        obtain ⟨rfl, rfl, rfl⟩ := h
        refine ⟨?_, ⟨rfl, rfl, rfl, rfl, rfl⟩, rfl, rfl⟩
        simp only [TxState.extendsBy, persistExcess_calls, createUtxo_calls,
          setMinHeight_calls, List.append_assoc]
        refine ⟨_, rfl, ?_⟩
        intro c hc
        simp at hc
        rcases hc with rfl | rfl | rfl | rfl <;> rfl

/-- With the excess and the offset stored and no failure reason, the start of
`SendTransaction::update` changes nothing. -/
theorem sendEntry_stored (env : Env K S P CP) (w : TxState K S P CP) (be off : S)
    (hF : w.params.FailureReason = none) (hbe : w.params.BlindingExcess = some be)
    (hoff : w.params.Offset = some off) :
    SendTransaction.updateEntry env w = Sum.inr (w, be, off) := by
  unfold SendTransaction.updateEntry
  simp only [hF, hbe, hoff]

theorem createOutput_entryCalls (env : Env K S P CP) (w : TxState K S P CP) :
    TxState.extendsBy Call.isEntryCall w (ReceiveTransaction.updateCreateOutput env w) ∧
      TxDescription.sameTx w.m_txDesc (ReceiveTransaction.updateCreateOutput env w).m_txDesc := by
  unfold ReceiveTransaction.updateCreateOutput
  split
  · exact ⟨extendsBy_refl _ _, sameTx_refl _⟩
  · refine ⟨?_, ⟨rfl, rfl, rfl, rfl, rfl⟩⟩
    simp only [TxState.extendsBy, updateTxDescription_calls, setOffset_calls,
      setBlindingExcess_calls, setOutputs_calls, keychainStore_calls, List.append_assoc]
    refine ⟨_, rfl, ?_⟩
    intro c hc
    simp at hc
    rcases hc with rfl | rfl | rfl | rfl | rfl <;> rfl

/-- When the start of `ReceiveTransaction::update` carries on, it is the
state after the first `if` that carries on, with the stored excess and
offset. -/
theorem receiveEntry_result (env : Env K S P CP) (w w1 : TxState K S P CP) (be off : S)
    (h : ReceiveTransaction.updateEntry env w = Sum.inr (w1, be, off)) :
    w1 = ReceiveTransaction.updateCreateOutput env w ∧
      TxState.extendsBy Call.isEntryCall w w1 ∧ TxDescription.sameTx w.m_txDesc w1.m_txDesc ∧
      w1.params.BlindingExcess = some be ∧ w1.params.Offset = some off := by
  unfold ReceiveTransaction.updateEntry at h
  simp only [] at h
  split at h
  · rename_i hbe hoff
    simp only [Sum.inr.injEq, Prod.mk.injEq] at h
    obtain ⟨rfl, rfl, rfl⟩ := h
    exact ⟨rfl, (createOutput_entryCalls env w).1, (createOutput_entryCalls env w).2, hbe, hoff⟩
  · simp at h

/-- With the outputs, the excess and the offset stored, the start of
`ReceiveTransaction::update` changes nothing. -/
theorem receiveEntry_stored (env : Env K S P CP) (w : TxState K S P CP) (be off : S)
    (outs : List (Output P)) (hO : w.params.Outputs = some outs)
    (hbe : w.params.BlindingExcess = some be) (hoff : w.params.Offset = some off) :
    ReceiveTransaction.updateEntry env w = Sum.inr (w, be, off) := by
  unfold ReceiveTransaction.updateEntry ReceiveTransaction.updateCreateOutput
  simp only [hO, hbe, hoff]

theorem onFailed_afterEntry (env : Env K S P CP) (w : TxState K S P CP) (notify : Bool) :
    TxState.extendsBy Call.isAfterEntry w (BaseTransaction.onFailed env w notify) := by
  refine ⟨_, onFailed_calls env w notify, ?_⟩
  intro c hc
  cases notify <;> simp at hc <;> rcases hc with rfl | rfl | rfl | rfl <;> rfl

theorem confirmKernel_afterEntry (env : Env K S P CP) (w : TxState K S P CP)
    (kernel : TxKernel S P) :
    TxState.extendsBy Call.isAfterEntry w (BaseTransaction.confirmKernel env w kernel) := by
  unfold BaseTransaction.confirmKernel
  refine extendsBy_trans _ _ _ _ ⟨[Call.saveTx _], rfl, ?_⟩
    (extendsBy_trans _ _ _ _ ⟨[Call.update _], rfl, ?_⟩ (extendsBy_emit _ _ _ rfl))
  · intro c hc
    simp only [List.mem_singleton] at hc
    subst hc
    rfl
  · intro c hc
    simp only [List.mem_singleton] at hc
    subst hc
    rfl

theorem completeTx_afterEntry (env : Env K S P CP) (w : TxState K S P CP) :
    TxState.extendsBy Call.isAfterEntry w (BaseTransaction.completeTx env w) := by
  unfold BaseTransaction.completeTx
  refine extendsBy_trans _ _ _ _ ⟨[Call.saveTx _], rfl, ?_⟩ (extendsBy_emit _ _ _ rfl)
  intro c hc
  simp only [List.mem_singleton] at hc
  subst hc
  rfl

theorem updateFinish_afterEntry (env : Env K S P CP) (w : TxState K S P CP)
    (kernel : TxKernel S P) (proof : MerkleProof) :
    TxState.extendsBy Call.isAfterEntry w (BaseTransaction.updateFinish env w kernel proof) := by
  unfold BaseTransaction.updateFinish
  simp only []
  split
  · exact extendsBy_refl _ w
  · exact completeTx_afterEntry env w

theorem sendRegister_afterEntry (env : Env K S P CP) (w : TxState K S P CP) (i : Bool)
    (po off : S) (kernel : TxKernel S P) (ps : S) :
    TxState.extendsBy Call.isAfterEntry w
      (SendTransaction.updateRegister env w i po off kernel ps) := by
  unfold SendTransaction.updateRegister
  split
  · split
    · simp only []
      split
      · exact onFailed_afterEntry env w true
      · exact extendsBy_emit _ w _ rfl
    · exact extendsBy_emit _ w _ rfl
  · split
    · exact onFailed_afterEntry env w true
    · split
      · refine extendsBy_trans _ w _ _ ?_ (confirmKernel_afterEntry env _ kernel)
        split
        · exact extendsBy_emit _ w _ rfl
        · exact extendsBy_refl _ w
      · exact updateFinish_afterEntry env w kernel _

theorem receiveRegister_afterEntry (env : Env K S P CP) (w : TxState K S P CP)
    (po off : S) (kernel : TxKernel S P) :
    TxState.extendsBy Call.isAfterEntry w
      (ReceiveTransaction.updateRegister env w po off kernel) := by
  unfold ReceiveTransaction.updateRegister
  split
  · simp only []
    split
    · exact onFailed_afterEntry env w true
    · exact extendsBy_emit _ w _ rfl
  · split
    · exact onFailed_afterEntry env w true
    · split
      · refine extendsBy_trans _ w _ _ ?_ (confirmKernel_afterEntry env _ kernel)
        exact extendsBy_emit _ w _ rfl
      · exact updateFinish_afterEntry env w kernel _

/-- The steps of `SendTransaction::update` after the first `if` make no call
of `selectCoins`, `store`, `setTxParameter` or `deleteTx`, and save no status
but Failed, Registered and Completed. -/
theorem sendNegotiate_afterEntry (env : Env K S P CP) (w : TxState K S P CP) (i : Bool)
    (po be off : S) :
    TxState.extendsBy Call.isAfterEntry w
      (SendTransaction.updateNegotiate env w i po be off) := by
  unfold SendTransaction.updateNegotiate
  split
  · simp only []
    split
    · exact extendsBy_emit _ w _ rfl
    · split
      · exact onFailed_afterEntry env w true
      · exact sendRegister_afterEntry env w i po off _ _
  · exact extendsBy_emit _ w _ rfl

/-- The steps of `ReceiveTransaction::update` after the reading of the excess
make no call of `selectCoins`, `store`, `setTxParameter` or `deleteTx`, and
save no status but Failed, Registered and Completed. -/
theorem receiveNegotiate_afterEntry (env : Env K S P CP) (w : TxState K S P CP)
    (be off : S) :
    TxState.extendsBy Call.isAfterEntry w (ReceiveTransaction.updateNegotiate env w be off) := by
  unfold ReceiveTransaction.updateNegotiate
  split
  · simp only []
    split
    · exact extendsBy_emit _ w _ rfl
    · split
      · exact onFailed_afterEntry env w true
      · exact receiveRegister_afterEntry env w _ off _
  · exact onFailed_afterEntry env w true

end EntryResults

/-! ## The steps of the negotiation -/

section NegotiationSteps

variable {K S P CP : Type} [CommRing S] [AddCommGroup P] [Module S P] [DecidableEq P]

theorem callsSince_emit (w w1 : TxState K S P CP) (L : List (Call S P)) (c : Call S P)
    (h : w1.calls = w.calls ++ L) : w.callsSince (w1.emit c) = L ++ [c] := by
  apply callsSince_append
  rw [emit_calls, h, List.append_assoc]

theorem filter_gateway_entry (L : List (Call S P)) (c : Call S P)
    (hL : ∀ x ∈ L, Call.isEntryCall x = true) (hc : Call.isGateway c = true) :
    (L ++ [c]).filter Call.isGateway = [c] := by
  have h1 : L.filter Call.isGateway = [] := by
    rw [List.filter_eq_nil_iff]
    intro x hx
    rw [(entryCall_kinds x (hL x hx)).1]
    decide
  rw [List.filter_append, h1]
  simp [List.filter, hc]

/-- When the start of an `update` carries on and finds its values in the
store, it has changed nothing. -/
theorem entry_unchanged (env : Env K S P CP) (role : Bool) (w w1 : TxState K S P CP)
    (be off : S)
    (hentry : (if role then SendTransaction.updateEntry env w
      else ReceiveTransaction.updateEntry env w) = Sum.inr (w1, be, off))
    (hs : role = true → w.params.BlindingExcess.isSome = true ∧ w.params.Offset.isSome = true)
    (hr : role = false → w.params.Outputs.isSome = true) : w1 = w := by
  cases role
  · simp only [Bool.false_eq_true, if_false] at hentry
    obtain ⟨h1, -⟩ := receiveEntry_result env w w1 be off hentry
    rw [h1]
    unfold ReceiveTransaction.updateCreateOutput
    have h := hr rfl
    cases hO : w.params.Outputs with
    | none => rw [hO] at h; cases h
    | some outs => rfl
  · simp only [if_true] at hentry
    obtain ⟨h1, h2⟩ := hs rfl
    cases hbe : w.params.BlindingExcess with
    | none => rw [hbe] at h1; cases h1
    | some be1 =>
      cases hoff : w.params.Offset with
      | none => rw [hoff] at h2; cases h2
      | some off1 =>
        cases hF : w.params.FailureReason with
        | some r =>
          unfold SendTransaction.updateEntry at hentry
          simp only [hF] at hentry
          cases hentry
        | none =>
          rw [sendEntry_stored env w be1 off1 hF hbe hoff] at hentry
          simp only [Sum.inr.injEq, Prod.mk.injEq] at hentry
          exact hentry.1.symm

/-- The entry of either role: the calls are those of the first `if`, the
transaction is the same, the peer data are untouched and the excess and the
offset are in the store. -/
theorem entry_result (env : Env K S P CP) (role : Bool) (w w1 : TxState K S P CP)
    (be off : S)
    (hentry : (if role then SendTransaction.updateEntry env w
      else ReceiveTransaction.updateEntry env w) = Sum.inr (w1, be, off)) :
    TxState.extendsBy Call.isEntryCall w w1 ∧ TxDescription.sameTx w.m_txDesc w1.m_txDesc ∧
      w1.params.BlindingExcess = some be ∧ w1.params.Offset = some off ∧
      Params.samePeerData w1.params w.params := by
  cases role
  · simp only [Bool.false_eq_true, if_false] at hentry
    obtain ⟨-, h2, h3, h4, h5⟩ := receiveEntry_result env w w1 be off hentry
    exact ⟨h2, h3, h4, h5, receiveEntry_params env w w1 be off hentry⟩
  · simp only [if_true] at hentry
    obtain ⟨h2, h3, h4, h5⟩ := sendEntry_result env w w1 be off hentry
    exact ⟨h2, h3, h4, h5, sendEntry_params env w w1 be off hentry⟩

/-- Without the offset, the public nonce or the public excess of the peer the
receiver fails. -/
theorem receiveNegotiate_fails (env : Env K S P CP) (w : TxState K S P CP) (be off : S)
    (h : w.params.PeerOffset = none ∨
      BaseTransaction.getParameterPoint env w.params.PublicPeerNonce = none ∨
      BaseTransaction.getParameterPoint env w.params.PublicPeerExcess = none) :
    ReceiveTransaction.updateNegotiate env w be off = BaseTransaction.onFailed env w true := by
  unfold ReceiveTransaction.updateNegotiate
  split
  · rename_i h1 h2 h3
    rcases h with h | h | h
    · rw [h] at h1; cases h1
    · rw [h] at h2; cases h2
    · rw [h] at h3; cases h3
  · rfl

theorem receive_update_fails (env : Env K S P CP) (w : TxState K S P CP)
    (h : w.params.PeerOffset = none ∨
      BaseTransaction.getParameterPoint env w.params.PublicPeerNonce = none ∨
      BaseTransaction.getParameterPoint env w.params.PublicPeerExcess = none) :
    ReceiveTransaction.update env w =
      BaseTransaction.onFailed env (ReceiveTransaction.updateCreateOutput env w) true := by
  obtain ⟨-, h2, h3, h4, -⟩ := receiveCreateOutput_params env w
  rw [← h4, ← h2, ← h3] at h
  unfold ReceiveTransaction.update ReceiveTransaction.updateEntry
  simp only []
  cases hbe : (ReceiveTransaction.updateCreateOutput env w).params.BlindingExcess with
  | none => rfl
  | some be =>
    cases hoff : (ReceiveTransaction.updateCreateOutput env w).params.Offset with
    | none => rfl
    | some off => exact receiveNegotiate_fails env _ be off h

/-- C14: for every receiver state in which any of `PeerOffset`,
`PublicPeerNonce`, `PublicPeerExcess` is absent (or the stored point cannot be
imported), `ReceiveTransaction::update` ends in `onFailed(true)`: the status
is Failed, `rollbackTx(txId)` is called and `send_tx_failed` emitted after the
calls of the first `if`, and the call emits no `send_tx_invitation`, no
`send_tx_confirmation` and no `register_tx`. -/
theorem C14_receiver_cannot_initiate (env : Env K S P CP) (w : TxState K S P CP)
    (h : w.params.PeerOffset = none ∨
      BaseTransaction.getParameterPoint env w.params.PublicPeerNonce = none ∨
      BaseTransaction.getParameterPoint env w.params.PublicPeerExcess = none) :
    ReceiveTransaction.update env w =
        BaseTransaction.onFailed env (ReceiveTransaction.updateCreateOutput env w) true ∧
      (ReceiveTransaction.update env w).m_txDesc.m_status = TxStatus.Failed ∧
      (ReceiveTransaction.update env w).m_keychain =
        env.keychain.rollbackTx (ReceiveTransaction.updateCreateOutput env w).m_keychain
          w.m_txDesc.m_txId ∧
      (∃ (L : List (Call S P)) (d : TxDescription),
        w.callsSince (ReceiveTransaction.update env w) =
          L ++ [Call.saveTx d, Call.rollbackTx w.m_txDesc.m_txId, Call.send_tx_failed d,
            Call.on_tx_completed d] ∧
        d.m_status = TxStatus.Failed ∧ ∀ c ∈ L, Call.isEntryCall c = true) ∧
      ∀ c ∈ w.callsSince (ReceiveTransaction.update env w),
        Call.isInvitation c = false ∧ Call.isConfirmation c = false ∧
          Call.isRegisterTx c = false := by
  have hu := receive_update_fails env w h
  obtain ⟨⟨L, hL, hL2⟩, htx⟩ := createOutput_entryCalls env w
  have hcalls : w.callsSince (ReceiveTransaction.update env w) =
      L ++ [Call.saveTx (failedDesc env (ReceiveTransaction.updateCreateOutput env w)),
        Call.rollbackTx w.m_txDesc.m_txId,
        Call.send_tx_failed (failedDesc env (ReceiveTransaction.updateCreateOutput env w)),
        Call.on_tx_completed (failedDesc env (ReceiveTransaction.updateCreateOutput env w))] := by
    apply callsSince_append
    rw [hu, onFailed_calls, hL, htx.1]
    simp
  refine ⟨hu, ?_, ?_, ⟨L, _, hcalls, rfl, hL2⟩, ?_⟩
  · rw [hu, onFailed_txDesc]; rfl
  · rw [hu, onFailed_keychain, htx.1]
  · intro c hc
    rw [hcalls] at hc
    rcases List.mem_append.mp hc with hc | hc
    · obtain ⟨h1, h2, -, h4, -⟩ := not_outbound_kinds c (entryCall_kinds c (hL2 c hc)).2
      exact ⟨h4, h1, h2⟩
    · simp only [List.mem_cons, List.mem_singleton, List.not_mem_nil, or_false] at hc
      rcases hc with rfl | rfl | rfl | rfl <;> exact ⟨rfl, rfl, rfl⟩

/-- C14, at a receiver that was started without any data of the peer: the
call creates the output and fails. -/
theorem C14_receiver_cannot_initiate_witness :
    (freshState (pendingTx false 40 1) []).params.PeerOffset = none ∧
      (ReceiveTransaction.update (intEnv true 5)
        (freshState (pendingTx false 40 1) [])).m_txDesc.m_status = TxStatus.Failed ∧
      ((freshState (pendingTx false 40 1) []).callsSince
        (ReceiveTransaction.update (intEnv true 5)
          (freshState (pendingTx false 40 1) []))).map Call.isFailed =
        [false, false, false, false, false, false, false, true, false] :=
  ⟨rfl, (C14_receiver_cannot_initiate (intEnv true 5) (freshState (pendingTx false 40 1) [])
    (Or.inl rfl)).2.1, by decide⟩

/-- With the data of the peer and no peer signature the sender, too, sends
its confirmation. -/
theorem sendNegotiate_confirm (env : Env K S P CP) (w : TxState K S P CP) (i : Bool)
    (po be off : S) (Rp Pp : P)
    (hN : BaseTransaction.getParameterPoint env w.params.PublicPeerNonce = some Rp)
    (hE : BaseTransaction.getParameterPoint env w.params.PublicPeerExcess = some Pp)
    (hS : w.params.PeerSignature = none) :
    SendTransaction.updateNegotiate env w i po be off =
      w.emit (Call.send_tx_confirmation w.m_txDesc
        { m_txId := w.m_txDesc.m_txId, m_publicPeerExcess := be • env.ecc.G,
          m_peerSignature := BaseTransaction.ownNonce env w.m_txDesc be +
            BaseTransaction.challenge env w.m_txDesc be Rp Pp * be,
          m_publicPeerNonce := BaseTransaction.ownNonce env w.m_txDesc be • env.ecc.G }) := by
  unfold SendTransaction.updateNegotiate
  simp only [hN, hE, hS]
  rfl

/-- C11: for every sender transaction (`sender = true`) that passes the first
`if` of `SendTransaction::update` with the excess `be` and the offset `off`
(in the store after it), and whose `PublicPeerNonce` or `PublicPeerExcess` is
absent: the call emits exactly one gateway call, `send_tx_invitation`, whose
`Invite` has the txId, amount, fee and minHeight of the description, `send =
true`, `publicPeerExcess = G·be`, `publicPeerNonce = G·nonce` (the nonce of
the kernel without excess and `be`), `offset = off`, as inputs one commitment
per ledger coin with `spentTxId = txId` and status Locked, as outputs one
output per ledger coin with `createTxId = txId` and status Draft; it then
returns without writing a parameter, and when the excess and the offset were
in the store before the call the invitation is its only call. -/
theorem C11_sender_invites (env : Env K S P CP) (w w1 : TxState K S P CP) (be off : S)
    (hentry : SendTransaction.updateEntry env w = Sum.inr (w1, be, off))
    (hs : w.m_txDesc.m_sender = true)
    (hN : BaseTransaction.getParameterPoint env w.params.PublicPeerNonce = none ∨
      BaseTransaction.getParameterPoint env w.params.PublicPeerExcess = none) :
    ∃ inviteMsg : Invite S P,
      inviteMsg =
        { m_txId := w.m_txDesc.m_txId, m_amount := w.m_txDesc.m_amount,
          m_fee := w.m_txDesc.m_fee, m_height := w1.m_txDesc.m_minHeight, m_send := true,
          m_inputs :=
            ((env.keychain.visit w1.m_keychain).filter
              (fun c => decide (c.m_spentTxId = some w.m_txDesc.m_txId) &&
                decide (c.m_status = CoinStatus.Locked))).map
              (fun c =>
                { m_Commitment := env.keychain.calcKey c • env.ecc.G + c.m_amount • env.ecc.H }),
          m_outputs :=
            ((env.keychain.visit w1.m_keychain).filter
              (fun c => decide (c.m_createTxId = some w.m_txDesc.m_txId) &&
                decide (c.m_status = CoinStatus.Draft))).map
              (fun c =>
                { m_Coinbase := false,
                  m_Commitment :=
                    env.keychain.calcKey c • env.ecc.G + c.m_amount • env.ecc.H }),
          m_publicPeerExcess := be • env.ecc.G,
          m_publicPeerNonce :=
            env.ecc.GenerateNonce
              (env.ecc.get_Hash
                (BaseTransaction.createKernel w1.m_txDesc.m_fee w1.m_txDesc.m_minHeight :
                  TxKernel S P)) be • env.ecc.G,
          m_offset := off } ∧
      SendTransaction.update env w = w1.emit (Call.send_tx_invitation w1.m_txDesc inviteMsg) ∧
      w1.params.BlindingExcess = some be ∧ w1.params.Offset = some off ∧
      (SendTransaction.update env w).params = w1.params ∧
      (w.callsSince (SendTransaction.update env w)).filter Call.isGateway =
        [Call.send_tx_invitation w1.m_txDesc inviteMsg] ∧
      (w.params.BlindingExcess.isSome = true → w.params.Offset.isSome = true →
        w1 = w ∧
        w.callsSince (SendTransaction.update env w) =
          [Call.send_tx_invitation w.m_txDesc inviteMsg]) := by
  obtain ⟨⟨L, hL, hL2⟩, htx, hbe, hoff⟩ := sendEntry_result env w w1 be off hentry
  obtain ⟨-, h2, h3, -⟩ := sendEntry_params env w w1 be off hentry
  rw [← h2, ← h3] at hN
  have hu := sendNegotiate_invite env w1 w.params.PeerOffset.isNone
    (w.params.PeerOffset.getD 0) be off hN
  have hupd : SendTransaction.update env w =
      SendTransaction.updateNegotiate env w1 w.params.PeerOffset.isNone
        (w.params.PeerOffset.getD 0) be off := by
    simp only [SendTransaction.update, hentry]
  rw [← hupd] at hu
  obtain ⟨t1, t2, t3, -, t5⟩ := htx
  rw [t1, t2, t3, t5, hs] at hu
  refine ⟨_, rfl, ?_, hbe, hoff, ?_, ?_, ?_⟩
  · rw [hu]
    rfl
  · rw [hu]
    rfl
  · rw [hu, callsSince_emit w w1 L _ hL]
    exact filter_gateway_entry L _ hL2 rfl
  · intro h1 h2
    have hw : w1 = w := entry_unchanged env true w w1 be off (by simpa using hentry)
      (fun _ => ⟨h1, h2⟩) (fun h => by cases h)
    refine ⟨hw, ?_⟩
    apply callsSince_append
    rw [hu, hw]
    rfl

/-- C11, at the sender of the examples, which reserves its coin of 100 and
invites in the same call: the invitation is the only gateway call, and it
carries the Locked coin as input and the change coin as output. -/
theorem C11_sender_invites_witness :
    senderExample.m_txDesc.m_sender = true ∧
      ((senderExample.callsSince (SendTransaction.update (intEnv true 5) senderExample)).filter
          Call.isGateway).map Call.isInvitation = [true] ∧
      (senderExample.callsSince (SendTransaction.update (intEnv true 5) senderExample)).filter
          Call.isGateway =
        ([Call.send_tx_invitation
          { pendingTx true 40 1 with m_minHeight := 5, m_change := 59,
                                     m_status := TxStatus.InProgress, m_modifyTime := 1000 }
          { m_txId := 1, m_amount := 40, m_fee := 1, m_height := 5, m_send := true,
            m_inputs := [{ m_Commitment := (10, 100) }],
            m_outputs := [{ m_Coinbase := false, m_Commitment := (17, 59) }],
            m_publicPeerExcess := (10 - 30, 0),
            m_publicPeerNonce := (11 + 2 * (10 - 30) + 1, 0), m_offset := 13 }] :
          List (Call Int (Int × Int))) := by
  obtain ⟨m, -, -, -, -, -, h, -⟩ := C11_sender_invites (intEnv true 5) senderExample _ _ _
    (sendEntry_reserved (intEnv true 5) senderExample rfl rfl (Or.inl rfl) (by decide)
      (by decide))
    rfl (Or.inl rfl)
  refine ⟨rfl, ?_, by decide⟩
  rw [h]
  rfl

/-- C12: for both roles, when the start of `update` carries on with the own
excess `be`, `PublicPeerNonce` and `PublicPeerExcess` are present (for the
receiver `PeerOffset` as well) and `PeerSignature` is absent, `update` emits
exactly one gateway call, `send_tx_confirmation`, carrying
`ConfirmInvitation { txId, publicPeerExcess = G·be, publicPeerNonce =
G·r_self, peerSignature = s_self }` with `s_self = r_self + e·be`, where `e`
is the challenge over `R = G·r_self + PublicPeerNonce` and the hash of the
kernel with the excess `G·be + PublicPeerExcess`; then it returns, without
writing a parameter. -/
theorem C12_confirmation (env : Env K S P CP) (role : Bool) (w w1 : TxState K S P CP)
    (be off po : S) (Rp Pp : P)
    (hentry : (if role then SendTransaction.updateEntry env w
      else ReceiveTransaction.updateEntry env w) = Sum.inr (w1, be, off))
    (hO : role = false → w.params.PeerOffset = some po)
    (hN : BaseTransaction.getParameterPoint env w.params.PublicPeerNonce = some Rp)
    (hE : BaseTransaction.getParameterPoint env w.params.PublicPeerExcess = some Pp)
    (hS : w.params.PeerSignature = none) :
    ∃ (r e : S) (confirmMsg : ConfirmInvitation S P),
      r = env.ecc.GenerateNonce
        (env.ecc.get_Hash
          (BaseTransaction.createKernel w1.m_txDesc.m_fee w1.m_txDesc.m_minHeight :
            TxKernel S P)) be ∧
      e = env.ecc.get_Challenge (r • env.ecc.G + Rp)
        (env.ecc.get_Hash
          { (BaseTransaction.createKernel w1.m_txDesc.m_fee w1.m_txDesc.m_minHeight :
              TxKernel S P) with m_Excess := be • env.ecc.G + Pp }) ∧
      confirmMsg =
        { m_txId := w.m_txDesc.m_txId, m_publicPeerExcess := be • env.ecc.G,
          m_publicPeerNonce := r • env.ecc.G, m_peerSignature := r + e * be } ∧
      (if role then SendTransaction.update env w else ReceiveTransaction.update env w) =
        w1.emit (Call.send_tx_confirmation w1.m_txDesc confirmMsg) ∧
      w1.params.BlindingExcess = some be ∧
      (if role then SendTransaction.update env w
        else ReceiveTransaction.update env w).params = w1.params ∧
      (w.callsSince (if role then SendTransaction.update env w
        else ReceiveTransaction.update env w)).filter Call.isGateway =
        [Call.send_tx_confirmation w1.m_txDesc confirmMsg] := by
  obtain ⟨⟨L, hL, hL2⟩, htx, hbe, -, hp⟩ := entry_result env role w w1 be off hentry
  obtain ⟨p1, p2, p3, p4, -⟩ := hp
  rw [← p2] at hN
  rw [← p3] at hE
  rw [← p1] at hS
  have hu : (if role then SendTransaction.update env w else ReceiveTransaction.update env w) =
      w1.emit (Call.send_tx_confirmation w1.m_txDesc
        { m_txId := w.m_txDesc.m_txId, m_publicPeerExcess := be • env.ecc.G,
          m_publicPeerNonce := BaseTransaction.ownNonce env w1.m_txDesc be • env.ecc.G,
          m_peerSignature := BaseTransaction.ownNonce env w1.m_txDesc be +
            BaseTransaction.challenge env w1.m_txDesc be Rp Pp * be }) := by
    rw [← htx.1]
    cases role
    · simp only [Bool.false_eq_true, if_false] at hentry ⊢
      have hO1 := hO rfl
      rw [← p4] at hO1
      simp only [ReceiveTransaction.update, hentry]
      exact receiveNegotiate_confirm env w1 be off po Rp Pp hO1 hN hE hS
    · simp only [if_true] at hentry ⊢
      simp only [SendTransaction.update, hentry]
      exact sendNegotiate_confirm env w1 _ _ be off Rp Pp hN hE hS
  refine ⟨_, _, _, rfl, rfl, rfl, hu, hbe, ?_, ?_⟩
  · rw [hu]
    rfl
  · rw [hu, callsSince_emit w w1 L _ hL]
    exact filter_gateway_entry L _ hL2 rfl

/-- C12, at a receiver that holds the invitation of its peer and no peer
signature yet: the one call is the confirmation with the partial signature
`r + e·5`, for the own nonce `r = 12` and the challenge `e = 45`. -/
theorem C12_confirmation_witness :
    ReceiveTransaction.updateEntry (intEnv true 5) (invitedState (pendingTx false 40 1) []) =
        Sum.inr (invitedState (pendingTx false 40 1) [], 5, 7) ∧
      (ReceiveTransaction.update (intEnv true 5)
        (invitedState (pendingTx false 40 1) [])).params =
        (invitedState (pendingTx false 40 1) []).params ∧
      (ReceiveTransaction.update (intEnv true 5) (invitedState (pendingTx false 40 1) [])).calls =
        ([Call.send_tx_confirmation (pendingTx false 40 1)
          { m_txId := 1, m_publicPeerExcess := (5, 0), m_publicPeerNonce := (12, 0),
            m_peerSignature := 12 + 45 * 5 }] : List (Call Int (Int × Int))) := by
  obtain ⟨r, e, m, -, -, -, -, -, hp, -⟩ := C12_confirmation (intEnv true 5) false
    (invitedState (pendingTx false 40 1) []) (invitedState (pendingTx false 40 1) [])
    5 7 2 (3, 0) (4, 0) rfl (fun _ => rfl) rfl rfl rfl
  exact ⟨rfl, hp, by decide⟩

/-- What `ReceiveTransaction::update` does after its first `if`: it makes
late calls only and writes no parameter. -/
theorem receive_update_afterEntry (env : Env K S P CP) (w : TxState K S P CP) :
    TxState.extendsBy Call.isAfterEntry (ReceiveTransaction.updateCreateOutput env w)
        (ReceiveTransaction.update env w) ∧
      (ReceiveTransaction.update env w).params =
        (ReceiveTransaction.updateCreateOutput env w).params := by
  unfold ReceiveTransaction.update ReceiveTransaction.updateEntry
  simp only []
  cases hbe : (ReceiveTransaction.updateCreateOutput env w).params.BlindingExcess with
  | none => exact ⟨onFailed_afterEntry env _ true, onFailed_params env _ true⟩
  | some be =>
    cases hoff : (ReceiveTransaction.updateCreateOutput env w).params.Offset with
    | none => exact ⟨onFailed_afterEntry env _ true, onFailed_params env _ true⟩
    | some off =>
      exact ⟨receiveNegotiate_afterEntry env _ be off, receiveNegotiate_params env _ be off⟩

theorem createOutput_calls (env : Env K S P CP) (w : TxState K S P CP) :
    (ReceiveTransaction.updateCreateOutput env w).calls =
      w.calls ++
        (if w.params.Outputs.isNone then
          [Call.store (draftCoin w.m_txDesc.m_txId w.m_txDesc.m_amount w.m_txDesc.m_minHeight),
            Call.setTxParameter TxParams.Outputs, Call.setTxParameter TxParams.BlindingExcess,
            Call.setTxParameter TxParams.Offset,
            Call.saveTx { w.m_txDesc with m_status := TxStatus.InProgress,
                                          m_modifyTime := env.getTimestamp }]
        else []) := by
  unfold ReceiveTransaction.updateCreateOutput
  cases hO : w.params.Outputs with
  | some outs => simp
  | none =>
    simp only [updateTxDescription_calls, setOffset_calls, setBlindingExcess_calls,
      setOutputs_calls, keychainStore_calls, List.append_assoc, Option.isNone_none, if_true]
    rfl

/-- C13: for every receiver transaction with the `Outputs` parameter absent,
`ReceiveTransaction::update` starts with: `store` of one Draft coin of value
`amount` with `createTxId = txId`, `setTxParameter` of `Outputs` (the outputs
of the Draft coins created by `txId` in the ledger after the `store`), of
`BlindingExcess = −privateExcess` and of `Offset = offset`, where
`(privateExcess, offset) = splitKey(calcKey(coin), coin.id)` for the coin as
`store` returned it, and `saveTx` with the status InProgress; the rest of the
call stores no coin, writes no parameter and saves no status InProgress.
When `Outputs` is present the call makes none of these writes: the parameters
are unchanged and no `store`, no `setTxParameter` and no `saveTx` with
InProgress is called. -/
theorem C13_receiver_creates_output (env : Env K S P CP) (w : TxState K S P CP) :
    (draftCoin w.m_txDesc.m_txId w.m_txDesc.m_amount w.m_txDesc.m_minHeight).m_status =
        CoinStatus.Draft ∧
      (draftCoin w.m_txDesc.m_txId w.m_txDesc.m_amount w.m_txDesc.m_minHeight).m_amount =
        w.m_txDesc.m_amount ∧
      (draftCoin w.m_txDesc.m_txId w.m_txDesc.m_amount w.m_txDesc.m_minHeight).m_createTxId =
        some w.m_txDesc.m_txId ∧
      (∃ L : List (Call S P),
        w.callsSince (ReceiveTransaction.update env w) =
          (if w.params.Outputs.isNone then
            [Call.store
                (draftCoin w.m_txDesc.m_txId w.m_txDesc.m_amount w.m_txDesc.m_minHeight),
              Call.setTxParameter TxParams.Outputs,
              Call.setTxParameter TxParams.BlindingExcess,
              Call.setTxParameter TxParams.Offset,
              Call.saveTx { w.m_txDesc with m_status := TxStatus.InProgress,
                                            m_modifyTime := env.getTimestamp }]
          else []) ++ L ∧
        ∀ c ∈ L, Call.isStore c = false ∧ Call.isSetParameter c = false ∧
          ∀ d, c = Call.saveTx d → d.m_status ≠ TxStatus.InProgress) ∧
      (ReceiveTransaction.update env w).params =
        (if w.params.Outputs.isNone then
          { w.params with
            Outputs := some
              (((env.keychain.visit (env.keychain.store w.m_keychain
                  (draftCoin w.m_txDesc.m_txId w.m_txDesc.m_amount
                    w.m_txDesc.m_minHeight)).1).filter
                (fun c => decide (c.m_createTxId = some w.m_txDesc.m_txId) &&
                  decide (c.m_status = CoinStatus.Draft))).map
                (fun c =>
                  { m_Coinbase := false,
                    m_Commitment :=
                      env.keychain.calcKey c • env.ecc.G + c.m_amount • env.ecc.H })),
            BlindingExcess := some (-(env.ecc.splitKey
              (env.keychain.calcKey
                (env.keychain.store w.m_keychain
                  (draftCoin w.m_txDesc.m_txId w.m_txDesc.m_amount w.m_txDesc.m_minHeight)).2)
              (env.keychain.store w.m_keychain
                (draftCoin w.m_txDesc.m_txId w.m_txDesc.m_amount
                  w.m_txDesc.m_minHeight)).2.m_id).1),
            Offset := some (env.ecc.splitKey
              (env.keychain.calcKey
                (env.keychain.store w.m_keychain
                  (draftCoin w.m_txDesc.m_txId w.m_txDesc.m_amount w.m_txDesc.m_minHeight)).2)
              (env.keychain.store w.m_keychain
                (draftCoin w.m_txDesc.m_txId w.m_txDesc.m_amount
                  w.m_txDesc.m_minHeight)).2.m_id).2 }
        else w.params) := by
  obtain ⟨⟨L, hL, hL2⟩, hp⟩ := receive_update_afterEntry env w
  refine ⟨rfl, rfl, rfl, ⟨L, ?_, fun c hc => afterEntry_kinds c (hL2 c hc)⟩, ?_⟩
  · apply callsSince_append
    rw [hL, createOutput_calls, List.append_assoc]
  · rw [hp]
    cases hO : w.params.Outputs with
    | none =>
      rw [createOutput_params env w hO]
      rfl
    | some outs =>
      unfold ReceiveTransaction.updateCreateOutput
      simp only [hO]
      rfl

/-- C13, at a receiver over an empty ledger that holds the invitation of its
peer: the first five calls of its first `update` are the `store` of the Draft
coin of 40, the three parameter writes and `saveTx` with InProgress, and the excess and the offset in the
store are those of `splitKey` on the key of the stored coin; the ledger holds
the Draft coin and `Outputs` holds its output. -/
theorem C13_receiver_creates_output_witness :
    (deliveredState (pendingTx false 40 1) []).params.Outputs = none ∧
      ((deliveredState (pendingTx false 40 1) []).callsSince
        (ReceiveTransaction.update (intEnv true 5)
          (deliveredState (pendingTx false 40 1) []))).take 5 =
        ([Call.store { m_id := 0, m_amount := 40, m_status := CoinStatus.Draft, m_height := 0,
                       m_createTxId := some 1, m_spentTxId := none },
          Call.setTxParameter TxParams.Outputs, Call.setTxParameter TxParams.BlindingExcess,
          Call.setTxParameter TxParams.Offset,
          Call.saveTx { pendingTx false 40 1 with m_status := TxStatus.InProgress,
                                                  m_modifyTime := 1000 }] :
          List (Call Int (Int × Int))) ∧
      (ReceiveTransaction.update (intEnv true 5)
        (deliveredState (pendingTx false 40 1) [])).m_keychain =
        [{ m_id := 1, m_amount := 40, m_status := CoinStatus.Draft, m_height := 0,
           m_createTxId := some 1, m_spentTxId := none }] ∧
      (ReceiveTransaction.update (intEnv true 5)
        (deliveredState (pendingTx false 40 1) [])).params.Outputs =
        some [{ m_Coinbase := false, m_Commitment := (10, 40) }] ∧
      (ReceiveTransaction.update (intEnv true 5)
        (deliveredState (pendingTx false 40 1) [])).params.BlindingExcess = some (-(10 + 12)) ∧
      (ReceiveTransaction.update (intEnv true 5)
        (deliveredState (pendingTx false 40 1) [])).params.Offset = some 12 := by
  have h := (C13_receiver_creates_output (intEnv true 5)
    (deliveredState (pendingTx false 40 1) [])).2.2.2.2
  refine ⟨rfl, by decide, by decide, ?_, ?_, ?_⟩
  · rw [h]; decide
  · rw [h]; decide
  · rw [h]; decide

end NegotiationSteps

/-! ## Registration, confirmation and completion -/

section Registration

variable {K S P CP : Type} [CommRing S] [AddCommGroup P] [Module S P] [DecidableEq P]

/-- With a peer signature that verifies, `update` of either role reaches its
registration step with the signed kernel. -/
theorem update_accepted (env : Env K S P CP) (role : Bool) (w w1 : TxState K S P CP)
    (be off sp po : S) (Rp Pp : P)
    (hentry : (if role then SendTransaction.updateEntry env w
      else ReceiveTransaction.updateEntry env w) = Sum.inr (w1, be, off))
    (hO : role = false → w.params.PeerOffset = some po)
    (hN : BaseTransaction.getParameterPoint env w.params.PublicPeerNonce = some Rp)
    (hE : BaseTransaction.getParameterPoint env w.params.PublicPeerExcess = some Pp)
    (hS : w.params.PeerSignature = some sp)
    (hv : sp • env.ecc.G = Rp + BaseTransaction.challenge env w1.m_txDesc be Rp Pp • Pp) :
    (if role then SendTransaction.update env w else ReceiveTransaction.update env w) =
      (if role then
        SendTransaction.updateRegister env w1 w.params.PeerOffset.isNone
          (w.params.PeerOffset.getD 0) off (signedKernel env w1.m_txDesc be sp Rp Pp)
          (BaseTransaction.ownNonce env w1.m_txDesc be +
            BaseTransaction.challenge env w1.m_txDesc be Rp Pp * be)
      else
        ReceiveTransaction.updateRegister env w1 po off
          (signedKernel env w1.m_txDesc be sp Rp Pp)) := by
  have hvalid : Signature.IsValidPartial env
      { m_e := (BaseTransaction.updateCoSign env w1.m_txDesc be Rp Pp).1.m_Signature.m_e,
        m_k := sp } Rp Pp = true := (isValidPartial_iff env _ _ _ _).mpr hv
  cases role
  · simp only [Bool.false_eq_true, if_false] at hentry ⊢
    rw [receive_update_verify env w w1 be off sp po Rp Pp hentry (hO rfl) hN hE hS,
      if_pos hvalid]
  · simp only [if_true] at hentry ⊢
    rw [send_update_verify env w w1 be off sp Rp Pp hentry hN hE hS, if_pos hvalid]
    rfl

/-- The assembling step of either role (lines 295-323 and 517-545). -/
theorem update_assembles (env : Env K S P CP) (role : Bool) (w w1 : TxState K S P CP)
    (be off sp po : S) (Rp Pp : P)
    (hentry : (if role then SendTransaction.updateEntry env w
      else ReceiveTransaction.updateEntry env w) = Sum.inr (w1, be, off))
    (hO : w.params.PeerOffset = some po)
    (hN : BaseTransaction.getParameterPoint env w.params.PublicPeerNonce = some Rp)
    (hE : BaseTransaction.getParameterPoint env w.params.PublicPeerExcess = some Pp)
    (hS : w.params.PeerSignature = some sp)
    (hv : sp • env.ecc.G = Rp + BaseTransaction.challenge env w1.m_txDesc be Rp Pp • Pp)
    (hT : w.params.TransactionRegistered = none)
    (hI : role = true →
      w.params.PeerInputs.isSome = true ∧ w.params.PeerOutputs.isSome = true) :
    (if role then SendTransaction.update env w else ReceiveTransaction.update env w) =
      if env.IsValid (env.txSort (BaseTransaction.assemble env w1
          (signedKernel env w1.m_txDesc be sp Rp Pp) po off (w.params.PeerInputs.getD [])
          (w.params.PeerOutputs.getD []))) = true then
        w1.emit (Call.register_tx w1.m_txDesc (env.txSort (BaseTransaction.assemble env w1
          (signedKernel env w1.m_txDesc be sp Rp Pp) po off (w.params.PeerInputs.getD [])
          (w.params.PeerOutputs.getD []))))
      else BaseTransaction.onFailed env w1 true := by
  rw [update_accepted env role w w1 be off sp po Rp Pp hentry (fun _ => hO) hN hE hS hv]
  obtain ⟨-, -, -, -, hp⟩ := entry_result env role w w1 be off hentry
  obtain ⟨-, -, -, -, q5, q6, q7, -⟩ := hp
  rw [← q7] at hT
  cases role
  · simp only [Bool.false_eq_true, if_false]
    unfold ReceiveTransaction.updateRegister
    simp only [hT, q5, q6]
    split <;> simp_all
  · simp only [if_true]
    obtain ⟨i1, i2⟩ := hI rfl
    rw [← q5] at i1
    rw [← q6] at i2
    obtain ⟨ins, hins⟩ := Option.isSome_iff_exists.mp i1
    obtain ⟨outs, houts⟩ := Option.isSome_iff_exists.mp i2
    unfold SendTransaction.updateRegister
    simp only [hT, hins, houts, hO, Option.getD_some, ← q5, ← q6]
    split <;> simp_all

/-- C15: when the peer signature verifies and `TransactionRegistered` is
absent, the invited party (`ReceiveTransaction::update`, and
`SendTransaction::update` when `PeerInputs` and `PeerOutputs` are present)
assembles a transaction with exactly one kernel (the fee and the min height
of the description, excess `G·be + PublicPeerExcess`, signature `(e, s_self +
s_peer)`), offset `PeerOffset + Offset`, as inputs `PeerInputs` followed by
the own inputs (one commitment per ledger coin with `spentTxId = txId` and
status Locked) and as outputs `PeerOutputs` followed by the own outputs (one
output per ledger coin with `createTxId = txId` and status Draft); it sorts it
and hands it to `IsValid`.  With a `Sort` that permutes the inputs and the
outputs, the inputs and the outputs of the sorted transaction are, as
multisets, those of the two parties together. -/
theorem C15_assembled_transaction (env : Env K S P CP) (role : Bool)
    (w w1 : TxState K S P CP) (be off sp po : S) (Rp Pp : P)
    (hentry : (if role then SendTransaction.updateEntry env w
      else ReceiveTransaction.updateEntry env w) = Sum.inr (w1, be, off))
    (hO : w.params.PeerOffset = some po)
    (hN : BaseTransaction.getParameterPoint env w.params.PublicPeerNonce = some Rp)
    (hE : BaseTransaction.getParameterPoint env w.params.PublicPeerExcess = some Pp)
    (hS : w.params.PeerSignature = some sp)
    (hv : sp • env.ecc.G = Rp + BaseTransaction.challenge env w1.m_txDesc be Rp Pp • Pp)
    (hT : w.params.TransactionRegistered = none)
    (hI : role = true →
      w.params.PeerInputs.isSome = true ∧ w.params.PeerOutputs.isSome = true)
    (hsortI : ∀ t, (env.txSort t).m_vInputs.Perm t.m_vInputs)
    (hsortO : ∀ t, (env.txSort t).m_vOutputs.Perm t.m_vOutputs) :
    ∃ (kernel : TxKernel S P) (ownInputs : List (Input P)) (ownOutputs : List (Output P))
        (t : Transaction S P),
      kernel.m_Fee = w.m_txDesc.m_fee ∧ kernel.m_HeightMin = w1.m_txDesc.m_minHeight ∧
      kernel.m_Excess = be • env.ecc.G + Pp ∧
      kernel.m_Signature.m_e = BaseTransaction.challenge env w1.m_txDesc be Rp Pp ∧
      kernel.m_Signature.m_k =
        (BaseTransaction.ownNonce env w1.m_txDesc be +
          BaseTransaction.challenge env w1.m_txDesc be Rp Pp * be) + sp ∧
      ownInputs =
        ((env.keychain.visit w1.m_keychain).filter
          (fun c => decide (c.m_spentTxId = some w.m_txDesc.m_txId) &&
            decide (c.m_status = CoinStatus.Locked))).map
          (fun c =>
            { m_Commitment := env.keychain.calcKey c • env.ecc.G + c.m_amount • env.ecc.H }) ∧
      ownOutputs =
        ((env.keychain.visit w1.m_keychain).filter
          (fun c => decide (c.m_createTxId = some w.m_txDesc.m_txId) &&
            decide (c.m_status = CoinStatus.Draft))).map
          (fun c =>
            { m_Coinbase := false,
              m_Commitment :=
                env.keychain.calcKey c • env.ecc.G + c.m_amount • env.ecc.H }) ∧
      t = { m_vKernelsOutput := [kernel], m_Offset := po + off,
            m_vInputs := w.params.PeerInputs.getD [] ++ ownInputs,
            m_vOutputs := w.params.PeerOutputs.getD [] ++ ownOutputs } ∧
      (if role then SendTransaction.update env w else ReceiveTransaction.update env w) =
        (if env.IsValid (env.txSort t) = true then
          w1.emit (Call.register_tx w1.m_txDesc (env.txSort t))
        else BaseTransaction.onFailed env w1 true) ∧
      (env.txSort t).m_vInputs.Perm (w.params.PeerInputs.getD [] ++ ownInputs) ∧
      (env.txSort t).m_vOutputs.Perm (w.params.PeerOutputs.getD [] ++ ownOutputs) := by
  obtain ⟨-, htx, -⟩ := entry_result env role w w1 be off hentry
  have hu := update_assembles env role w w1 be off sp po Rp Pp hentry hO hN hE hS hv hT hI
  have ht : BaseTransaction.assemble env w1 (signedKernel env w1.m_txDesc be sp Rp Pp) po off
      (w.params.PeerInputs.getD []) (w.params.PeerOutputs.getD []) =
      { m_vKernelsOutput := [signedKernel env w1.m_txDesc be sp Rp Pp], m_Offset := po + off,
        m_vInputs := w.params.PeerInputs.getD [] ++
          ((env.keychain.visit w1.m_keychain).filter
            (fun c => decide (c.m_spentTxId = some w.m_txDesc.m_txId) &&
              decide (c.m_status = CoinStatus.Locked))).map
            (fun c =>
              { m_Commitment :=
                  env.keychain.calcKey c • env.ecc.G + c.m_amount • env.ecc.H }),
        m_vOutputs := w.params.PeerOutputs.getD [] ++
          ((env.keychain.visit w1.m_keychain).filter
            (fun c => decide (c.m_createTxId = some w.m_txDesc.m_txId) &&
              decide (c.m_status = CoinStatus.Draft))).map
            (fun c =>
              { m_Coinbase := false,
                m_Commitment :=
                  env.keychain.calcKey c • env.ecc.G + c.m_amount • env.ecc.H }) } := by
    unfold BaseTransaction.assemble
    rw [htx.1]
    rfl
  rw [ht] at hu
  refine ⟨signedKernel env w1.m_txDesc be sp Rp Pp, _, _, _, ?_, rfl, rfl, rfl, rfl, rfl, rfl,
    rfl, hu, hsortI _, hsortO _⟩
  exact htx.2.2.1

/-- C15, at a receiver whose peer sent one input and one output and the
valid signature 183, over a ledger that holds a Locked coin spent by the
transaction, a Draft coin created by it, a Draft coin of another transaction
and a Confirmed coin: the transaction handed to the node has the kernel signed
`237 + 183`, the offset `2 + 7`, the input of the peer followed by the
commitment of the Locked coin, and the output of the peer followed by the
output of the Draft coin of the transaction. -/
theorem C15_assembled_transaction_witness :
    ReceiveTransaction.updateEntry (intEnv true 5) mixedLedgerReceiver =
      Sum.inr (mixedLedgerReceiver, 5, 7) ∧
      (ReceiveTransaction.update (intEnv true 5) mixedLedgerReceiver).calls =
        ([Call.register_tx (pendingTx false 40 1)
          { m_vKernelsOutput :=
              [{ m_Fee := 1, m_HeightMin := 0, m_HeightMax := 2 ^ 64 - 1, m_Excess := (5 + 4, 0),
                 m_Signature := { m_e := 45, m_k := 237 + 183 } }],
            m_Offset := 2 + 7,
            m_vInputs := [{ m_Commitment := (1, 1) }, { m_Commitment := (52, 100) }],
            m_vOutputs := [{ m_Coinbase := false, m_Commitment := (2, 2) },
              { m_Coinbase := false, m_Commitment := (59, 59) }] }] :
          List (Call Int (Int × Int))) := by
  obtain ⟨kernel, ownInputs, ownOutputs, t, -, -, -, -, -, -, -, ht, hu, -⟩ :=
    C15_assembled_transaction (intEnv true 5) false mixedLedgerReceiver mixedLedgerReceiver
      5 7 183 2 (3, 0) (4, 0) rfl rfl rfl rfl rfl (by decide) rfl (fun h => by cases h)
      (fun _ => List.Perm.refl _) (fun _ => List.Perm.refl _)
  exact ⟨rfl, by decide⟩

/-- C16: in the assembling step of either role, `register_tx` is emitted if
and only if the assembled and sorted transaction passes `IsValid`; when
`IsValid` fails the call ends in `onFailed(true)`: the status is Failed,
`rollbackTx(txId)` is called and `send_tx_failed` emitted, and `register_tx`
is not emitted. -/
theorem C16_register_iff_valid (env : Env K S P CP) (role : Bool)
    (w w1 : TxState K S P CP) (be off sp po : S) (Rp Pp : P)
    (hentry : (if role then SendTransaction.updateEntry env w
      else ReceiveTransaction.updateEntry env w) = Sum.inr (w1, be, off))
    (hO : w.params.PeerOffset = some po)
    (hN : BaseTransaction.getParameterPoint env w.params.PublicPeerNonce = some Rp)
    (hE : BaseTransaction.getParameterPoint env w.params.PublicPeerExcess = some Pp)
    (hS : w.params.PeerSignature = some sp)
    (hv : sp • env.ecc.G = Rp + BaseTransaction.challenge env w1.m_txDesc be Rp Pp • Pp)
    (hT : w.params.TransactionRegistered = none)
    (hI : role = true →
      w.params.PeerInputs.isSome = true ∧ w.params.PeerOutputs.isSome = true) :
    ∃ transaction : Transaction S P,
      transaction = env.txSort (BaseTransaction.assemble env w1
        (signedKernel env w1.m_txDesc be sp Rp Pp) po off (w.params.PeerInputs.getD [])
        (w.params.PeerOutputs.getD [])) ∧
      (env.IsValid transaction = true →
        (if role then SendTransaction.update env w else ReceiveTransaction.update env w) =
          w1.emit (Call.register_tx w1.m_txDesc transaction)) ∧
      (env.IsValid transaction = false →
        (if role then SendTransaction.update env w else ReceiveTransaction.update env w) =
          BaseTransaction.onFailed env w1 true ∧
        (if role then SendTransaction.update env w
          else ReceiveTransaction.update env w).m_txDesc.m_status = TxStatus.Failed ∧
        (if role then SendTransaction.update env w
          else ReceiveTransaction.update env w).m_keychain =
            env.keychain.rollbackTx w1.m_keychain w.m_txDesc.m_txId ∧
        w1.callsSince (if role then SendTransaction.update env w
          else ReceiveTransaction.update env w) =
          [Call.saveTx (failedDesc env w1), Call.rollbackTx w.m_txDesc.m_txId,
            Call.send_tx_failed (failedDesc env w1),
            Call.on_tx_completed (failedDesc env w1)]) ∧
      ((∃ c ∈ w.callsSince (if role then SendTransaction.update env w
          else ReceiveTransaction.update env w), Call.isRegisterTx c = true) ↔
        env.IsValid transaction = true) := by
  obtain ⟨⟨L, hL, hL2⟩, htx, -⟩ := entry_result env role w w1 be off hentry
  have hu := update_assembles env role w w1 be off sp po Rp Pp hentry hO hN hE hS hv hT hI
  have hLr : ∀ c ∈ L, Call.isRegisterTx c = false := fun c hc =>
    (not_outbound_kinds c (entryCall_kinds c (hL2 c hc)).2).2.1
  refine ⟨_, rfl, ?_, ?_, ?_⟩
  · intro hval
    rw [hu, if_pos hval]
  · intro hval
    have hu1 : (if role then SendTransaction.update env w
        else ReceiveTransaction.update env w) = BaseTransaction.onFailed env w1 true := by
      rw [hu, if_neg (by rw [hval]; decide)]
    refine ⟨hu1, ?_, ?_, ?_⟩
    · rw [hu1, onFailed_txDesc]; rfl
    · rw [hu1, onFailed_keychain, htx.1]
    · apply callsSince_append
      rw [hu1, onFailed_calls, htx.1]
      rfl
  · constructor
    · rintro ⟨c, hc, hreg⟩
      by_contra hval
      rw [hu, if_neg hval, callsSince_append w _ (L ++ failedCalls env w1)
        (by rw [onFailed_true_calls, hL, List.append_assoc])] at hc
      rcases List.mem_append.mp hc with hc | hc
      · rw [hLr c hc] at hreg
        cases hreg
      · rw [(failedCalls_not_outbound_but_failed env w1 c hc).2.1] at hreg
        cases hreg
    · intro hval
      rw [hu, if_pos hval, callsSince_emit w w1 L _ hL]
      exact ⟨_, List.mem_append_right L (List.mem_singleton.mpr rfl), rfl⟩

/-- C16, at a receiver with the valid peer signature whose validator rejects
every transaction: the call fails and hands nothing to the node. -/
theorem C16_register_iff_valid_witness :
    ReceiveTransaction.updateEntry rejectingEnv
        (signedState (pendingTx false 40 1) [] [] [] none none) =
      Sum.inr (signedState (pendingTx false 40 1) [] [] [] none none, 5, 7) ∧
      (ReceiveTransaction.update rejectingEnv
        (signedState (pendingTx false 40 1) [] [] [] none none)).m_txDesc.m_status =
        TxStatus.Failed ∧
      (ReceiveTransaction.update (intEnv true 5)
        (signedState (pendingTx false 40 1) [] [] [] none none)).calls.map Call.isRegisterTx =
        [true] := by
  obtain ⟨t, -, -, h, -⟩ := C16_register_iff_valid rejectingEnv false
    (signedState (pendingTx false 40 1) [] [] [] none none)
    (signedState (pendingTx false 40 1) [] [] [] none none)
    5 7 183 2 (3, 0) (4, 0) rfl rfl rfl rfl rfl (by decide) rfl (fun h => by cases h)
  exact ⟨rfl, (h rfl).2.1, by decide⟩

/-- The steps of either role once the node has answered that the transaction
is registered (lines 326-354 and 548-572). -/
theorem update_registered (env : Env K S P CP) (role : Bool) (w w1 : TxState K S P CP)
    (be off sp po : S) (Rp Pp : P)
    (hentry : (if role then SendTransaction.updateEntry env w
      else ReceiveTransaction.updateEntry env w) = Sum.inr (w1, be, off))
    (hO : role = false → w.params.PeerOffset = some po)
    (hN : BaseTransaction.getParameterPoint env w.params.PublicPeerNonce = some Rp)
    (hE : BaseTransaction.getParameterPoint env w.params.PublicPeerExcess = some Pp)
    (hS : w.params.PeerSignature = some sp)
    (hv : sp • env.ecc.G = Rp + BaseTransaction.challenge env w1.m_txDesc be Rp Pp • Pp)
    (hT : w.params.TransactionRegistered = some true) :
    (if role then SendTransaction.update env w else ReceiveTransaction.update env w) =
      match w.params.KernelProof with
      | none =>
        BaseTransaction.confirmKernel env
          (if role && w.params.PeerOffset.isNone then w1
            else w1.emit (Call.send_tx_registered w1.m_txDesc))
          (signedKernel env w1.m_txDesc be sp Rp Pp)
      | some kernelProof =>
        BaseTransaction.updateFinish env w1 (signedKernel env w1.m_txDesc be sp Rp Pp)
          kernelProof := by
  rw [update_accepted env role w w1 be off sp po Rp Pp hentry hO hN hE hS hv]
  obtain ⟨-, -, -, -, hp⟩ := entry_result env role w w1 be off hentry
  obtain ⟨-, -, -, -, -, -, q7, q8, -⟩ := hp
  rw [← q7] at hT
  rw [← q8]
  cases role
  · simp only [Bool.false_eq_true, if_false, Bool.false_and]
    unfold ReceiveTransaction.updateRegister
    simp only [hT]
    rfl
  · simp only [if_true, Bool.true_and]
    unfold SendTransaction.updateRegister
    simp only [hT]
    cases w1.params.KernelProof with
    | none =>
      cases w.params.PeerOffset.isNone <;> rfl
    | some proof => rfl

/-- C17: for both roles, when the peer signature verifies,
`TransactionRegistered` is present and true, and `KernelProof` is absent:
`update` sets the status to Registered and saves it, writes back with
`IKeyChain::update` exactly the coins that `getCoinsCreatedByTx(txId)`
returns, each with status Unconfirmed, and emits `confirm_kernel` with the
co-signed kernel; the receiver, and a sender that is not the initiator
(`PeerOffset` present), emits `send_tx_registered` before these, and an
initiator sender does not.  No parameter is written. -/
theorem C17_confirm_kernel (env : Env K S P CP) (role : Bool) (w w1 : TxState K S P CP)
    (be off sp po : S) (Rp Pp : P)
    (hentry : (if role then SendTransaction.updateEntry env w
      else ReceiveTransaction.updateEntry env w) = Sum.inr (w1, be, off))
    (hO : role = false → w.params.PeerOffset = some po)
    (hN : BaseTransaction.getParameterPoint env w.params.PublicPeerNonce = some Rp)
    (hE : BaseTransaction.getParameterPoint env w.params.PublicPeerExcess = some Pp)
    (hS : w.params.PeerSignature = some sp)
    (hv : sp • env.ecc.G = Rp + BaseTransaction.challenge env w1.m_txDesc be Rp Pp • Pp)
    (hT : w.params.TransactionRegistered = some true)
    (hK : w.params.KernelProof = none) :
    ∃ (d : TxDescription) (coins : List Coin) (kernel : TxKernel S P),
      d = { w1.m_txDesc with m_status := TxStatus.Registered,
                             m_modifyTime := env.getTimestamp } ∧
      coins = (env.keychain.getCoinsCreatedByTx w1.m_keychain w.m_txDesc.m_txId).map
        (fun coin => { coin with m_status := CoinStatus.Unconfirmed }) ∧
      kernel.m_Excess = be • env.ecc.G + Pp ∧
      kernel.m_Signature.m_e = BaseTransaction.challenge env w1.m_txDesc be Rp Pp ∧
      kernel.m_Signature.m_k =
        (BaseTransaction.ownNonce env w1.m_txDesc be +
          BaseTransaction.challenge env w1.m_txDesc be Rp Pp * be) + sp ∧
      (if role then SendTransaction.update env w
        else ReceiveTransaction.update env w).m_txDesc = d ∧
      (if role then SendTransaction.update env w
        else ReceiveTransaction.update env w).savedTx = some d ∧
      (if role then SendTransaction.update env w
        else ReceiveTransaction.update env w).m_keychain =
          env.keychain.update w1.m_keychain coins ∧
      (if role then SendTransaction.update env w
        else ReceiveTransaction.update env w).params = w1.params ∧
      w1.callsSince (if role then SendTransaction.update env w
        else ReceiveTransaction.update env w) =
        (if role && w.params.PeerOffset.isNone then []
          else [Call.send_tx_registered w1.m_txDesc]) ++
        [Call.saveTx d, Call.update coins, Call.confirm_kernel d kernel] := by
  obtain ⟨-, htx, -⟩ := entry_result env role w w1 be off hentry
  have hu := update_registered env role w w1 be off sp po Rp Pp hentry hO hN hE hS hv hT
  rw [hK] at hu
  simp only [] at hu
  refine ⟨_, _, signedKernel env w1.m_txDesc be sp Rp Pp, rfl, rfl, rfl, rfl, rfl, ?_, ?_, ?_,
    ?_, ?_⟩
  · rw [hu]
    cases (role && w.params.PeerOffset.isNone) <;> rfl
  · rw [hu]
    cases (role && w.params.PeerOffset.isNone) <;> rfl
  · rw [hu, ← htx.1]
    cases (role && w.params.PeerOffset.isNone) <;> rfl
  · rw [hu]
    cases (role && w.params.PeerOffset.isNone) <;> rfl
  · apply callsSince_append
    rw [hu, ← htx.1]
    cases (role && w.params.PeerOffset.isNone) <;>
      simp [BaseTransaction.confirmKernel, List.append_assoc]

/-- C17, at a receiver whose transaction the node has registered: the call
tells the peer, saves Registered, writes back the coin the transaction
created as Unconfirmed and asks for the kernel proof. -/
theorem C17_confirm_kernel_witness :
    ReceiveTransaction.updateEntry (intEnv true 5)
        (signedState (pendingTx false 40 1)
          [{ m_id := 3, m_amount := 40, m_status := CoinStatus.Draft, m_height := 0,
             m_createTxId := some 1, m_spentTxId := none }] [] [] (some true) none) =
      Sum.inr (signedState (pendingTx false 40 1)
          [{ m_id := 3, m_amount := 40, m_status := CoinStatus.Draft, m_height := 0,
             m_createTxId := some 1, m_spentTxId := none }] [] [] (some true) none, 5, 7) ∧
      (ReceiveTransaction.update (intEnv true 5)
        (signedState (pendingTx false 40 1)
          [{ m_id := 3, m_amount := 40, m_status := CoinStatus.Draft, m_height := 0,
             m_createTxId := some 1, m_spentTxId := none }] [] [] (some true)
          none)).m_txDesc.m_status = TxStatus.Registered ∧
      (ReceiveTransaction.update (intEnv true 5)
        (signedState (pendingTx false 40 1)
          [{ m_id := 3, m_amount := 40, m_status := CoinStatus.Draft, m_height := 0,
             m_createTxId := some 1, m_spentTxId := none }] [] [] (some true) none)).calls.take 3 =
        ([Call.send_tx_registered (pendingTx false 40 1),
          Call.saveTx { pendingTx false 40 1 with m_status := TxStatus.Registered,
                                                  m_modifyTime := 1000 },
          Call.update [{ m_id := 3, m_amount := 40, m_status := CoinStatus.Unconfirmed,
                         m_height := 0, m_createTxId := some 1, m_spentTxId := none }]] :
          List (Call Int (Int × Int))) := by
  obtain ⟨d, coins, kernel, hd, -, -, -, -, h, -⟩ := C17_confirm_kernel (intEnv true 5) false
    (signedState (pendingTx false 40 1)
      [{ m_id := 3, m_amount := 40, m_status := CoinStatus.Draft, m_height := 0,
         m_createTxId := some 1, m_spentTxId := none }] [] [] (some true) none)
    (signedState (pendingTx false 40 1)
      [{ m_id := 3, m_amount := 40, m_status := CoinStatus.Draft, m_height := 0,
         m_createTxId := some 1, m_spentTxId := none }] [] [] (some true) none)
    5 7 183 2 (3, 0) (4, 0) rfl (fun _ => rfl) rfl rfl rfl (by decide) rfl rfl
  refine ⟨rfl, ?_, by decide⟩
  simp only [Bool.false_eq_true, if_false] at h
  rw [h, hd]

/-- C18: for both roles, when the peer signature verifies,
`TransactionRegistered` is present and true and `KernelProof` is present: if
`get_tip` gives a tip and the proof is valid for the co-signed kernel against
it, or if the gateway is in test mode, `update` sets the status to Completed,
saves it and emits `on_tx_completed`, and makes no other call after its first
`if`; if `get_tip` gives no tip or the proof is invalid, then outside test
mode `update` returns right after its first `if`: the status, the parameters
and the ledger are those before the call and no call is made when the own
values were in the store. -/
theorem C18_completion (env : Env K S P CP) (role : Bool) (w w1 : TxState K S P CP)
    (be off sp po : S) (Rp Pp : P) (kernelProof : MerkleProof)
    (hentry : (if role then SendTransaction.updateEntry env w
      else ReceiveTransaction.updateEntry env w) = Sum.inr (w1, be, off))
    (hO : role = false → w.params.PeerOffset = some po)
    (hN : BaseTransaction.getParameterPoint env w.params.PublicPeerNonce = some Rp)
    (hE : BaseTransaction.getParameterPoint env w.params.PublicPeerExcess = some Pp)
    (hS : w.params.PeerSignature = some sp)
    (hv : sp • env.ecc.G = Rp + BaseTransaction.challenge env w1.m_txDesc be Rp Pp • Pp)
    (hT : w.params.TransactionRegistered = some true)
    (hK : w.params.KernelProof = some kernelProof) :
    ∃ proofOk : Bool,
      proofOk =
        (match env.get_tip with
         | some state =>
           env.IsValidProofKernel state (signedKernel env w1.m_txDesc be sp Rp Pp) kernelProof
         | none => false) ∧
      (proofOk = true ∨ env.isTestMode = true →
        (if role then SendTransaction.update env w
          else ReceiveTransaction.update env w).m_txDesc =
          { w1.m_txDesc with m_status := TxStatus.Completed,
                             m_modifyTime := env.getTimestamp } ∧
        (if role then SendTransaction.update env w
          else ReceiveTransaction.update env w).savedTx =
          some { w1.m_txDesc with m_status := TxStatus.Completed,
                                  m_modifyTime := env.getTimestamp } ∧
        (if role then SendTransaction.update env w
          else ReceiveTransaction.update env w).params = w1.params ∧
        (if role then SendTransaction.update env w
          else ReceiveTransaction.update env w).m_keychain = w1.m_keychain ∧
        w1.callsSince (if role then SendTransaction.update env w
          else ReceiveTransaction.update env w) =
          [Call.saveTx { w1.m_txDesc with m_status := TxStatus.Completed,
                                          m_modifyTime := env.getTimestamp },
            Call.on_tx_completed { w1.m_txDesc with m_status := TxStatus.Completed,
                                                    m_modifyTime := env.getTimestamp }]) ∧
      (proofOk = false → env.isTestMode = false →
        (if role then SendTransaction.update env w else ReceiveTransaction.update env w) = w1 ∧
        ((role = true →
            w.params.BlindingExcess.isSome = true ∧ w.params.Offset.isSome = true) →
          (role = false → w.params.Outputs.isSome = true) →
          (if role then SendTransaction.update env w else ReceiveTransaction.update env w) =
            w)) := by
  have hu := update_registered env role w w1 be off sp po Rp Pp hentry hO hN hE hS hv hT
  rw [hK] at hu
  simp only [] at hu
  refine ⟨_, rfl, ?_, ?_⟩
  · intro hok
    have hc : (if role then SendTransaction.update env w
        else ReceiveTransaction.update env w) = BaseTransaction.completeTx env w1 := by
      rw [hu]
      unfold BaseTransaction.updateFinish
      simp only []
      rcases hok with hok | hok
      · rw [hok]; rfl
      · rw [hok]
        simp
    rw [hc]
    refine ⟨rfl, rfl, rfl, rfl, ?_⟩
    apply callsSince_append
    simp [BaseTransaction.completeTx]
  · intro hok htest
    have hc : (if role then SendTransaction.update env w
        else ReceiveTransaction.update env w) = w1 := by
      rw [hu]
      unfold BaseTransaction.updateFinish
      simp only []
      rw [hok, htest]
      rfl
    refine ⟨hc, ?_⟩
    intro hs hr
    rw [hc]
    exact entry_unchanged env role w w1 be off hentry hs hr

/-- C18, at a receiver that holds a kernel proof: with a tip and a valid proof
the call completes the transaction; without a tip and outside test mode it
changes nothing; without a tip in test mode it completes. -/
theorem C18_completion_witness :
    ReceiveTransaction.updateEntry (intEnv true 5)
        (signedState (pendingTx false 40 1) [] [] [] (some true) (some [])) =
      Sum.inr (signedState (pendingTx false 40 1) [] [] [] (some true) (some []), 5, 7) ∧
      (ReceiveTransaction.update (intEnv true 5)
        (signedState (pendingTx false 40 1) [] [] [] (some true) (some []))).m_txDesc.m_status =
        TxStatus.Completed ∧
      (ReceiveTransaction.update (tiplessEnv false)
        (signedState (pendingTx false 40 1) [] [] [] (some true) (some []))).calls = [] ∧
      (ReceiveTransaction.update (tiplessEnv true)
        (signedState (pendingTx false 40 1) [] [] [] (some true) (some []))).m_txDesc.m_status =
        TxStatus.Completed := by
  obtain ⟨ok, hok, h1, -⟩ := C18_completion (intEnv true 5) false
    (signedState (pendingTx false 40 1) [] [] [] (some true) (some []))
    (signedState (pendingTx false 40 1) [] [] [] (some true) (some []))
    5 7 183 2 (3, 0) (4, 0) [] rfl (fun _ => rfl) rfl rfl rfl (by decide) rfl rfl
  refine ⟨rfl, ?_, by decide, by decide⟩
  have h := (h1 (Or.inl (by rw [hok]; rfl))).1
  simp only [Bool.false_eq_true, if_false] at h
  rw [h]

end Registration

/-! ## The shape of an update -/

section Shape

variable {K S P CP : Type} [CommRing S] [AddCommGroup P] [Module S P] [DecidableEq P]

theorem sameButOwn_refl (p : Params S P CP) : Params.sameButOwn p p := by
  cases p
  rfl

theorem sameButOwn_trans (p q r : Params S P CP) (h1 : Params.sameButOwn q p)
    (h2 : Params.sameButOwn r q) : Params.sameButOwn r p := by
  unfold Params.sameButOwn at *
  cases p
  cases q
  cases r
  simp only [Params.mk.injEq] at *
  obtain ⟨a1, a2, a3, -, a5, -, -, a8, a9, a10, a11, a12, a13, a14, a15, a16⟩ := h1
  obtain ⟨b1, b2, b3, -, b5, -, -, b8, b9, b10, b11, b12, b13, b14, b15, b16⟩ := h2
  exact ⟨b1.trans a1, b2.trans a2, b3.trans a3, trivial, b5.trans a5, trivial, trivial,
    b8.trans a8, b9.trans a9, b10.trans a10, b11.trans a11, b12.trans a12, b13.trans a13,
    b14.trans a14, b15.trans a15, b16.trans a16⟩

theorem stepOne_refl (w : TxState K S P CP) : StepOne w w :=
  ⟨extendsBy_refl _ w, rfl, Or.inl rfl, sameButOwn_refl _⟩

theorem stepOne_trans (w w1 w2 : TxState K S P CP) (h1 : StepOne w w1) (h2 : StepOne w1 w2) :
    StepOne w w2 := by
  obtain ⟨a1, a2, a3, a4⟩ := h1
  obtain ⟨b1, b2, b3, b4⟩ := h2
  refine ⟨extendsBy_trans _ w w1 w2 a1 b1, b2.trans a2, ?_, sameButOwn_trans _ _ _ a4 b4⟩
  rcases b3 with b3 | b3
  · rcases a3 with a3 | a3
    · exact Or.inl (b3.trans a3)
    · exact Or.inr (b3.trans a3)
  · exact Or.inr b3

theorem stepOne_emit (w : TxState K S P CP) (c : Call S P) (hc : Call.isStepOne c = true) :
    StepOne w (w.emit c) :=
  ⟨extendsBy_emit _ w c hc, rfl, Or.inl rfl, sameButOwn_refl _⟩

theorem stepOne_setMinHeight (w : TxState K S P CP) (h : Height) :
    StepOne w (w.setMinHeight h) :=
  ⟨⟨[], by simp, by simp⟩, rfl, Or.inl rfl, sameButOwn_refl _⟩

theorem stepOne_setChange (w : TxState K S P CP) (a : Amount) : StepOne w (w.setChange a) :=
  ⟨⟨[], by simp, by simp⟩, rfl, Or.inl rfl, sameButOwn_refl _⟩

theorem stepOne_keychainUpdate (env : Env K S P CP) (w : TxState K S P CP) (cs : List Coin) :
    StepOne w (w.keychainUpdate env cs) :=
  ⟨⟨[Call.update cs], rfl, by simp [Call.isStepOne]⟩, rfl, Or.inl rfl, sameButOwn_refl _⟩

theorem stepOne_keychainStore (env : Env K S P CP) (w : TxState K S P CP) (c : Coin) :
    StepOne w (w.keychainStore env c).1 :=
  ⟨⟨[Call.store c], rfl, by simp [Call.isStepOne]⟩, rfl, Or.inl rfl, sameButOwn_refl _⟩

theorem stepOne_setBlindingExcess (w : TxState K S P CP) (v : S) :
    StepOne w (w.setBlindingExcess v) :=
  ⟨⟨[Call.setTxParameter TxParams.BlindingExcess], rfl, by simp [Call.isStepOne]⟩, rfl,
    Or.inl rfl, rfl⟩

theorem stepOne_setOffset (w : TxState K S P CP) (v : S) : StepOne w (w.setOffset v) :=
  ⟨⟨[Call.setTxParameter TxParams.Offset], rfl, by simp [Call.isStepOne]⟩, rfl, Or.inl rfl,
    rfl⟩

theorem stepOne_setOutputs (w : TxState K S P CP) (v : List (Output P)) :
    StepOne w (w.setOutputs v) :=
  ⟨⟨[Call.setTxParameter TxParams.Outputs], rfl, by simp [Call.isStepOne]⟩, rfl, Or.inl rfl,
    rfl⟩

theorem stepOne_inProgress (env : Env K S P CP) (w : TxState K S P CP) :
    StepOne w (BaseTransaction.updateTxDescription env w TxStatus.InProgress) :=
  ⟨⟨[Call.saveTx _], rfl, by simp [Call.isStepOne]⟩, rfl, Or.inr rfl, sameButOwn_refl _⟩

theorem stepOne_persistExcess (env : Env K S P CP) (w : TxState K S P CP) (be off : S) :
    StepOne w (SendTransaction.persistExcess env w be off) := by
  unfold SendTransaction.persistExcess
  exact stepOne_trans _ _ _ (stepOne_trans _ _ _ (stepOne_setBlindingExcess w be)
    (stepOne_setOffset _ off)) (stepOne_inProgress env _)

theorem stepOne_createUtxo (env : Env K S P CP) (w : TxState K S P CP) (a : Amount)
    (h : Height) (be off : S) : StepOne w (SendTransaction.createUtxo env w a h be off).1 := by
  unfold SendTransaction.createUtxo
  exact stepOne_keychainStore env w _

theorem stepOne_reserveCoins (env : Env K S P CP) (w : TxState K S P CP) (coins : List Coin)
    (awf : Amount) (ch : Height) (be off : S) :
    StepOne w (SendTransaction.reserveCoins env w coins awf ch be off).1 := by
  unfold SendTransaction.reserveCoins
  simp only []
  split
  · exact stepOne_trans _ _ _ (stepOne_keychainUpdate env w _)
      (stepOne_trans _ _ _ (stepOne_createUtxo env _ _ _ _ _) (stepOne_setChange _ _))
  · exact stepOne_keychainUpdate env w _

theorem stepOne_createOutput (env : Env K S P CP) (w : TxState K S P CP) :
    StepOne w (ReceiveTransaction.updateCreateOutput env w) := by
  unfold ReceiveTransaction.updateCreateOutput
  split
  · exact stepOne_refl w
  · exact stepOne_trans _ _ _ (stepOne_keychainStore env w _)
      (stepOne_trans _ _ _ (stepOne_setOutputs _ _)
        (stepOne_trans _ _ _ (stepOne_setBlindingExcess _ _)
          (stepOne_trans _ _ _ (stepOne_setOffset _ _) (stepOne_inProgress env _))))

theorem stepOne_select (w : TxState K S P CP) (h : Height) (a : Amount) :
    StepOne w ((w.setMinHeight h).emit (Call.selectCoins a)) :=
  stepOne_trans _ _ _ (stepOne_setMinHeight w h) (stepOne_emit _ (Call.selectCoins a) rfl)

/-- The first `if` of `SendTransaction::update`, on every path: the call
returns from it (after `sendSelfTx`, or failing for lack of funds or for a
`FailureReason`), or carries on. -/
theorem sendEntry_shape (env : Env K S P CP) (w : TxState K S P CP) :
    (∃ w1 r, StepOne w w1 ∧ SendTransaction.updateEntry env w = Sum.inl r ∧
      (r = w1 ∨ ∃ notify, r = BaseTransaction.onFailed env w1 notify)) ∨
    (∃ w1 be off, StepOne w w1 ∧ SendTransaction.updateEntry env w = Sum.inr (w1, be, off)) := by
  unfold SendTransaction.updateEntry
  split
  · exact Or.inl ⟨w, _, stepOne_refl w, rfl, Or.inr ⟨false, rfl⟩⟩
  · split
    · exact Or.inr ⟨w, _, _, stepOne_refl w, rfl⟩
    · unfold SendTransaction.updateReserve
      by_cases hs : w.m_txDesc.m_sender = true
      · simp only [hs, if_true]
        split
        · refine Or.inl ⟨_, _, ?_, rfl, Or.inr ⟨_, rfl⟩⟩
          exact stepOne_select w _ _
        · unfold SendTransaction.updateReserveCoins
          simp only []
          split
          · refine Or.inl ⟨_, _, ?_, rfl, Or.inl rfl⟩
            unfold SendTransaction.sendSelfTx
            exact stepOne_trans _ _ _
              (stepOne_select w _ _)
              (stepOne_reserveCoins env _ _ _ _ _ _)
          · refine Or.inr ⟨_, _, _, ?_, rfl⟩
            exact stepOne_trans _ _ _
              (stepOne_trans _ _ _
                (stepOne_select w _ _)
                (stepOne_reserveCoins env _ _ _ _ _ _))
              (stepOne_persistExcess env _ _ _)
      · simp only [hs]
        refine Or.inr ⟨_, _, _, ?_, rfl⟩
        exact stepOne_trans _ _ _
          (stepOne_trans _ _ _ (stepOne_setMinHeight w _) (stepOne_createUtxo env _ _ _ _ _))
          (stepOne_persistExcess env _ _ _)

theorem ending_idle (env : Env K S P CP) (w : TxState K S P CP) : UpdateEnding env w w :=
  Or.inl rfl

theorem ending_single (env : Env K S P CP) (w : TxState K S P CP) (c : Call S P)
    (hc : Call.isSingle c = true) : UpdateEnding env w (w.emit c) :=
  Or.inr (Or.inl ⟨c, hc, rfl⟩)

theorem ending_failed (env : Env K S P CP) (w : TxState K S P CP) (notify : Bool) :
    UpdateEnding env w (BaseTransaction.onFailed env w notify) :=
  Or.inr (Or.inr (Or.inl ⟨notify, rfl⟩))

theorem ending_confirm (env : Env K S P CP) (w : TxState K S P CP) (told : Bool)
    (kernel : TxKernel S P) :
    UpdateEnding env w (BaseTransaction.confirmKernel env
      (if told then w.emit (Call.send_tx_registered w.m_txDesc) else w) kernel) :=
  Or.inr (Or.inr (Or.inr (Or.inl ⟨told, kernel, rfl⟩)))

theorem ending_complete (env : Env K S P CP) (w : TxState K S P CP) :
    UpdateEnding env w (BaseTransaction.completeTx env w) :=
  Or.inr (Or.inr (Or.inr (Or.inr rfl)))

theorem updateFinish_ending (env : Env K S P CP) (w : TxState K S P CP)
    (kernel : TxKernel S P) (proof : MerkleProof) :
    UpdateEnding env w (BaseTransaction.updateFinish env w kernel proof) := by
  unfold BaseTransaction.updateFinish
  simp only []
  split
  · exact ending_idle env w
  · exact ending_complete env w

theorem sendRegister_ending (env : Env K S P CP) (w : TxState K S P CP) (i : Bool)
    (po off : S) (kernel : TxKernel S P) (ps : S) :
    UpdateEnding env w (SendTransaction.updateRegister env w i po off kernel ps) := by
  unfold SendTransaction.updateRegister
  split
  · split
    · simp only []
      split
      · exact ending_failed env w true
      · exact ending_single env w _ rfl
    · exact ending_single env w _ rfl
  · split
    · exact ending_failed env w true
    · split
      · cases i
        · exact ending_confirm env w true kernel
        · exact ending_confirm env w false kernel
      · exact updateFinish_ending env w kernel _

theorem receiveRegister_ending (env : Env K S P CP) (w : TxState K S P CP)
    (po off : S) (kernel : TxKernel S P) :
    UpdateEnding env w (ReceiveTransaction.updateRegister env w po off kernel) := by
  unfold ReceiveTransaction.updateRegister
  split
  · simp only []
    split
    · exact ending_failed env w true
    · exact ending_single env w _ rfl
  · split
    · exact ending_failed env w true
    · split
      · exact ending_confirm env w true kernel
      · exact updateFinish_ending env w kernel _

theorem sendNegotiate_ending (env : Env K S P CP) (w : TxState K S P CP) (i : Bool)
    (po be off : S) :
    UpdateEnding env w (SendTransaction.updateNegotiate env w i po be off) := by
  unfold SendTransaction.updateNegotiate
  split
  · simp only []
    split
    · exact ending_single env w _ rfl
    · split
      · exact ending_failed env w true
      · exact sendRegister_ending env w i po off _ _
  · exact ending_single env w _ rfl

theorem receiveNegotiate_ending (env : Env K S P CP) (w : TxState K S P CP) (be off : S) :
    UpdateEnding env w (ReceiveTransaction.updateNegotiate env w be off) := by
  unfold ReceiveTransaction.updateNegotiate
  split
  · simp only []
    split
    · exact ending_single env w _ rfl
    · split
      · exact ending_failed env w true
      · exact receiveRegister_ending env w _ off _
  · exact ending_failed env w true

/-- The shape of every call of `update`, of either role: the calls of the
first `if`, then one of the endings. -/
theorem update_shape (env : Env K S P CP) (role : Bool) (w : TxState K S P CP) :
    ∃ w1, StepOne w w1 ∧ UpdateEnding env w1 (BaseTransaction.update env role w) := by
  cases role
  · simp only [BaseTransaction.update, Bool.false_eq_true, if_false]
    refine ⟨ReceiveTransaction.updateCreateOutput env w, stepOne_createOutput env w, ?_⟩
    unfold ReceiveTransaction.update ReceiveTransaction.updateEntry
    simp only []
    cases (ReceiveTransaction.updateCreateOutput env w).params.BlindingExcess with
    | none => exact ending_failed env _ true
    | some be =>
      cases (ReceiveTransaction.updateCreateOutput env w).params.Offset with
      | none => exact ending_failed env _ true
      | some off => exact receiveNegotiate_ending env _ be off
  · simp only [BaseTransaction.update, if_true]
    rcases sendEntry_shape env w with ⟨w1, r, h1, h2, h3⟩ | ⟨w1, be, off, h1, h2⟩
    · refine ⟨w1, h1, ?_⟩
      simp only [SendTransaction.update, h2]
      rcases h3 with rfl | ⟨n, rfl⟩
      · exact ending_idle env _
      · exact ending_failed env w1 n
    · refine ⟨w1, h1, ?_⟩
      simp only [SendTransaction.update, h2]
      exact sendNegotiate_ending env w1 _ _ be off

/-- What an ending does: the calls it makes, the status and the ledger it
leaves; no ending writes a parameter. -/
theorem ending_facts (env : Env K S P CP) (w1 r : TxState K S P CP)
    (h : UpdateEnding env w1 r) :
    r.params = w1.params ∧ r.m_txDesc.m_txId = w1.m_txDesc.m_txId ∧
    ∃ T : List (Call S P), r.calls = w1.calls ++ T ∧
      ((T = [] ∧ r.m_txDesc = w1.m_txDesc ∧ r.m_keychain = w1.m_keychain) ∨
       (∃ c, Call.isSingle c = true ∧ T = [c] ∧ r.m_txDesc = w1.m_txDesc ∧
          r.m_keychain = w1.m_keychain) ∨
       (∃ notify : Bool,
          T = [Call.saveTx (failedDesc env w1), Call.rollbackTx w1.m_txDesc.m_txId] ++
            (if notify then [Call.send_tx_failed (failedDesc env w1)] else []) ++
            [Call.on_tx_completed (failedDesc env w1)] ∧
          r = BaseTransaction.onFailed env w1 notify ∧
          r.m_txDesc.m_status = TxStatus.Failed ∧
          r.m_keychain = env.keychain.rollbackTx w1.m_keychain w1.m_txDesc.m_txId) ∨
       (∃ (told : Bool) (kernel : TxKernel S P),
          T = (if told then [Call.send_tx_registered w1.m_txDesc] else []) ++
            [Call.saveTx (registeredDesc env w1), Call.update (unconfirmedCoins env w1),
              Call.confirm_kernel (registeredDesc env w1) kernel] ∧
          r.m_txDesc.m_status = TxStatus.Registered) ∨
       (T = [Call.saveTx (completedDesc env w1), Call.on_tx_completed (completedDesc env w1)] ∧
          r.m_txDesc.m_status = TxStatus.Completed ∧ r.m_keychain = w1.m_keychain)) := by
  rcases h with rfl | ⟨c, hc, rfl⟩ | ⟨n, rfl⟩ | ⟨told, kernel, rfl⟩ | rfl
  · exact ⟨rfl, rfl, [], by simp, Or.inl ⟨rfl, rfl, rfl⟩⟩
  · exact ⟨rfl, rfl, [c], rfl, Or.inr (Or.inl ⟨c, hc, rfl, rfl, rfl⟩)⟩
  · refine ⟨onFailed_params env w1 n, ?_, _, onFailed_calls env w1 n,
      Or.inr (Or.inr (Or.inl ⟨n, rfl, rfl, ?_, onFailed_keychain env w1 n⟩))⟩
    · rw [onFailed_txDesc]; rfl
    · rw [onFailed_txDesc]; rfl
  · refine ⟨?_, ?_, (if told then [Call.send_tx_registered w1.m_txDesc] else []) ++
      [Call.saveTx (registeredDesc env w1), Call.update (unconfirmedCoins env w1),
        Call.confirm_kernel (registeredDesc env w1) kernel], ?_,
      Or.inr (Or.inr (Or.inr (Or.inl ⟨told, kernel, rfl, ?_⟩)))⟩
    · cases told <;> rfl
    · cases told <;> rfl
    · cases told <;>
        simp [BaseTransaction.confirmKernel, registeredDesc, unconfirmedCoins]
    · cases told <;> rfl
  · refine ⟨rfl, rfl, _, ?_, Or.inr (Or.inr (Or.inr (Or.inr ⟨rfl, rfl, rfl⟩)))⟩
    simp [BaseTransaction.completeTx, completedDesc]

theorem stepOne_kinds (c : Call S P) (h : Call.isStepOne c = true) :
    Call.isPeerMessage c = false ∧ Call.isNodeRequest c = false ∧ Call.isRollback c = false ∧
      Call.isGateway c = false ∧
      (∀ s, Call.savedStatus c = some s → s = TxStatus.InProgress) ∧
      (∀ p, Call.written c = some p →
        p = TxParams.BlindingExcess ∨ p = TxParams.Offset ∨ p = TxParams.Outputs) := by
  cases c <;>
    simp_all [Call.isStepOne, Call.isPeerMessage, Call.isNodeRequest, Call.isRollback,
      Call.isGateway, Call.savedStatus, Call.written]

/-- The update of either role writes no parameter but `BlindingExcess`,
`Offset` and `Outputs`, and keeps the identifier of the transaction. -/
theorem update_sameButOwn (env : Env K S P CP) (role : Bool) (w : TxState K S P CP) :
    Params.sameButOwn (BaseTransaction.update env role w).params w.params ∧
      (BaseTransaction.update env role w).m_txDesc.m_txId = w.m_txDesc.m_txId := by
  obtain ⟨w1, ⟨-, h2, -, h4⟩, he⟩ := update_shape env role w
  obtain ⟨e1, e2, -⟩ := ending_facts env w1 _ he
  rw [e1, e2]
  exact ⟨h4, h2⟩

/-- Every call of `update`, of either role, split into the calls of the first
`if` and the calls of the ending. -/
theorem update_split (env : Env K S P CP) (role : Bool) (w : TxState K S P CP) :
    ∃ (w1 : TxState K S P CP) (L T : List (Call S P)),
      StepOne w w1 ∧ UpdateEnding env w1 (BaseTransaction.update env role w) ∧
      w1.calls = w.calls ++ L ∧ (∀ c ∈ L, Call.isStepOne c = true) ∧
      (BaseTransaction.update env role w).calls = w1.calls ++ T ∧
      w.callsSince (BaseTransaction.update env role w) = L ++ T := by
  obtain ⟨w1, h1, he⟩ := update_shape env role w
  obtain ⟨L, hL, hL2⟩ := h1.1
  obtain ⟨-, -, T, hT, -⟩ := ending_facts env w1 _ he
  refine ⟨w1, L, T, h1, he, hL, hL2, hT, ?_⟩
  apply callsSince_append
  rw [hT, hL, List.append_assoc]

/-- The calls of an ending write no parameter and are no calls of the first
`if`. -/
theorem ending_written (env : Env K S P CP) (w1 r : TxState K S P CP)
    (T : List (Call S P)) (he : UpdateEnding env w1 r) (hT : r.calls = w1.calls ++ T) :
    ∀ c ∈ T, Call.written c = none ∧ Call.isStore c = false ∧
      c ≠ Call.selectCoins (add64 w1.m_txDesc.m_amount w1.m_txDesc.m_fee) := by
  obtain ⟨-, -, T1, hT1, hcase⟩ := ending_facts env w1 r he
  have hTT : T = T1 := List.append_cancel_left (hT.symm.trans hT1)
  subst hTT
  intro c hc
  rcases hcase with ⟨rfl, -⟩ | ⟨c1, h1, rfl, -⟩ | ⟨n, rfl, -⟩ | ⟨told, kernel, rfl, -⟩ | ⟨rfl, -⟩
  · cases hc
  · simp only [List.mem_singleton] at hc
    subst hc
    cases c <;> simp_all [Call.isSingle, Call.written, Call.isStore]
  · cases n <;> simp at hc <;> rcases hc with rfl | rfl | rfl | rfl <;>
      simp [Call.written, Call.isStore]
  · cases told <;> simp at hc <;> rcases hc with rfl | rfl | rfl | rfl <;>
      simp [Call.written, Call.isStore]
  · simp at hc
    rcases hc with rfl | rfl <;> simp [Call.written, Call.isStore]

end Shape

/-! ## Failures -/

section Failures

variable {K S P CP : Type} [CommRing S] [AddCommGroup P] [Module S P] [DecidableEq P]

/-- C21: for every persisted state in which the `FailureReason` parameter is
present, `SendTransaction::update` is `onFailed()` and nothing else, whatever
other parameters are present: it saves the status Failed, calls
`rollbackTx(txId)` and `on_tx_completed`, and no `send_tx_failed`; it makes no
`selectCoins`, `store` or `update` call on the ledger, writes no parameter and
emits no invitation, confirmation, `register_tx` or `confirm_kernel`. -/
theorem C21_failure_reason_terminates (env : Env K S P CP) (w : TxState K S P CP)
    (reason : Int) (hF : w.params.FailureReason = some reason) :
    SendTransaction.update env w = BaseTransaction.onFailed env w false ∧
      (SendTransaction.update env w).m_txDesc.m_status = TxStatus.Failed ∧
      (SendTransaction.update env w).params = w.params ∧
      (SendTransaction.update env w).m_keychain =
        env.keychain.rollbackTx w.m_keychain w.m_txDesc.m_txId ∧
      w.callsSince (SendTransaction.update env w) =
        [Call.saveTx { w.m_txDesc with m_status := TxStatus.Failed,
                                       m_modifyTime := env.getTimestamp },
          Call.rollbackTx w.m_txDesc.m_txId,
          Call.on_tx_completed { w.m_txDesc with m_status := TxStatus.Failed,
                                                 m_modifyTime := env.getTimestamp }] := by
  have hu : SendTransaction.update env w = BaseTransaction.onFailed env w false := by
    simp only [SendTransaction.update, SendTransaction.updateEntry, hF]
  refine ⟨hu, ?_, ?_, ?_, ?_⟩
  · rw [hu, onFailed_txDesc]; rfl
  · rw [hu, onFailed_params]
  · rw [hu, onFailed_keychain]
  · apply callsSince_append
    rw [hu, onFailed_calls]
    rfl

/-- C21, at a sender that holds the valid signature of its peer and a
`FailureReason`: the call fails without telling the peer. -/
theorem C21_failure_reason_terminates_witness :
    (withFailure (answeredState (pendingTx true 40 1) [confirmedCoin 1 100] 183)
        7).params.FailureReason = some 7 ∧
      (SendTransaction.update (intEnv true 5)
        (withFailure (answeredState (pendingTx true 40 1) [confirmedCoin 1 100] 183) 7)).calls =
        ([Call.saveTx { pendingTx true 40 1 with m_status := TxStatus.Failed,
                                                 m_modifyTime := 1000 },
          Call.rollbackTx 1,
          Call.on_tx_completed { pendingTx true 40 1 with m_status := TxStatus.Failed,
                                                          m_modifyTime := 1000 }] :
          List (Call Int (Int × Int))) :=
  ⟨rfl, (C21_failure_reason_terminates (intEnv true 5)
    (withFailure (answeredState (pendingTx true 40 1) [confirmedCoin 1 100] 183) 7) 7 rfl).2.2.2.2⟩

/-- C22 as amended: no `update()` path, of either role, writes the
`FailureReason` parameter: its value after every call, the failing ones
included, is its value before, and no `setTxParameter` call is made for it.
So the failures that `update()` detects itself are not recorded in the store;
a `FailureReason` that is present (delivered from outside) terminates
`SendTransaction::update`: the call is `onFailed()` and the status Failed. -/
theorem C22_failure_reason_not_written (env : Env K S P CP) (role : Bool)
    (w : TxState K S P CP) :
    (BaseTransaction.update env role w).params.FailureReason = w.params.FailureReason ∧
      (∀ c ∈ w.callsSince (BaseTransaction.update env role w),
        Call.written c ≠ some TxParams.FailureReason) ∧
      (∀ reason : Int, w.params.FailureReason = some reason →
        BaseTransaction.update env true w = BaseTransaction.onFailed env w false ∧
        (BaseTransaction.update env true w).m_txDesc.m_status = TxStatus.Failed) := by
  refine ⟨?_, ?_, ?_⟩
  · have h := (update_sameButOwn env role w).1
    unfold Params.sameButOwn at h
    rw [h]
  · obtain ⟨w1, L, T, -, he, -, hL2, hT, hc⟩ := update_split env role w
    intro c hmem
    rw [hc] at hmem
    rcases List.mem_append.mp hmem with hm | hm
    · intro hw
      rcases (stepOne_kinds c (hL2 c hm)).2.2.2.2.2 _ hw with h | h | h <;> cases h
    · rw [(ending_written env w1 _ T he hT c hm).1]
      simp
  · intro reason hF
    have hu : BaseTransaction.update env true w = BaseTransaction.onFailed env w false := by
      simp only [BaseTransaction.update, if_true, SendTransaction.update,
        SendTransaction.updateEntry, hF]
    refine ⟨hu, ?_⟩
    rw [hu, onFailed_txDesc]; rfl

/-- C22 as stated fails in both parts.  (a) A receiver with a `FailureReason`
in its store and the invitation of its peer creates its output coin and sends
its confirmation; the status is InProgress, not Failed.  (b) A receiver
without the data of its peer fails (status Failed), and `FailureReason` is
absent from the store afterwards. -/
theorem C22_counterexample :
    (withFailure (deliveredState (pendingTx false 40 1) []) 7).params.FailureReason = some 7 ∧
    (ReceiveTransaction.update (intEnv true 5)
      (withFailure (deliveredState (pendingTx false 40 1) []) 7)).m_txDesc.m_status =
      TxStatus.InProgress ∧
    (ReceiveTransaction.update (intEnv true 5)
      (withFailure (deliveredState (pendingTx false 40 1) []) 7)).calls.map
        (fun c => (Call.isStore c, Call.isConfirmation c)) =
      [(true, false), (false, false), (false, false), (false, false), (false, false),
        (false, true)] ∧
    (ReceiveTransaction.update (intEnv true 5)
      (freshState (pendingTx false 40 1) [])).m_txDesc.m_status = TxStatus.Failed ∧
    (ReceiveTransaction.update (intEnv true 5)
      (freshState (pendingTx false 40 1) [])).params.FailureReason = none := by
  decide

theorem sendEntry_noFailure (env : Env K S P CP) (w w1 : TxState K S P CP) (be off : S)
    (h : SendTransaction.updateEntry env w = Sum.inr (w1, be, off)) :
    w.params.FailureReason = none := by
  cases hF : w.params.FailureReason with
  | none => rfl
  | some r =>
    unfold SendTransaction.updateEntry at h
    simp only [hF] at h
    cases h

theorem createOutput_outputs (env : Env K S P CP) (w : TxState K S P CP) :
    (ReceiveTransaction.updateCreateOutput env w).params.Outputs.isSome = true := by
  cases hO : w.params.Outputs with
  | none => rw [createOutput_params env w hO]; rfl
  | some outs =>
    unfold ReceiveTransaction.updateCreateOutput
    simp only [hO]
    rfl

/-- After the first `if` of either role there is nothing left for it to do:
the own values are in the store. -/
theorem entry_done (env : Env K S P CP) (role : Bool) (w w1 : TxState K S P CP) (be off : S)
    (hentry : (if role then SendTransaction.updateEntry env w
      else ReceiveTransaction.updateEntry env w) = Sum.inr (w1, be, off))
    (x : TxState K S P CP) (hx : x.params = w1.params) :
    (if role then SendTransaction.updateEntry env x
      else ReceiveTransaction.updateEntry env x) = Sum.inr (x, be, off) ∧
      firstIfDone role x := by
  obtain ⟨-, -, hbe, hoff, hp⟩ := entry_result env role w w1 be off hentry
  rw [← hx] at hbe hoff
  cases role
  · simp only [Bool.false_eq_true, if_false] at hentry ⊢
    obtain ⟨h1, -⟩ := receiveEntry_result env w w1 be off hentry
    have hO : x.params.Outputs.isSome = true := by
      rw [hx, h1]
      exact createOutput_outputs env w
    obtain ⟨outs, hOuts⟩ := Option.isSome_iff_exists.mp hO
    exact ⟨receiveEntry_stored env x be off outs hOuts hbe hoff,
      ⟨fun h => (by cases h), fun _ => hO⟩⟩
  · simp only [if_true] at hentry ⊢
    have hF : x.params.FailureReason = none := by
      rw [hx, hp.2.2.2.2.2.2.2.2]
      exact sendEntry_noFailure env w w1 be off hentry
    refine ⟨sendEntry_stored env x be off hF hbe hoff, ⟨fun _ => Or.inr ?_, fun h => by cases h⟩⟩
    rw [hbe, hoff]
    exact ⟨rfl, rfl⟩

/-- A failure decided on the store: the call ends in `onFailed`, and the
object it leaves fails on the store again, with nothing left for the first
`if`. -/
theorem fails_step (env : Env K S P CP) (role : Bool) (w : TxState K S P CP)
    (h : failsOnStore env role w) :
    ∃ w1, (firstIfDone role w → w1 = w) ∧
      BaseTransaction.update env role w =
        BaseTransaction.onFailed env w1 (!(role && w.params.FailureReason.isSome)) ∧
      failsOnStore env role (BaseTransaction.update env role w) ∧
      firstIfDone role (BaseTransaction.update env role w) ∧
      (BaseTransaction.update env role w).params.FailureReason = w.params.FailureReason := by
  rcases h with ⟨rfl, hF⟩ | ⟨rfl, hO, hbo⟩ | ⟨w1, be, off, hentry, hcause⟩
  · obtain ⟨reason, hr⟩ := Option.isSome_iff_exists.mp hF
    have hu : BaseTransaction.update env true w = BaseTransaction.onFailed env w false := by
      simp only [BaseTransaction.update, if_true, SendTransaction.update,
        SendTransaction.updateEntry, hr]
    have hp : (BaseTransaction.update env true w).params = w.params := by
      rw [hu, onFailed_params]
    refine ⟨w, fun _ => rfl, ?_, Or.inl ⟨rfl, ?_⟩, ⟨fun _ => Or.inl ?_, fun h => by cases h⟩, ?_⟩
    · rw [hu, hF]; rfl
    · rw [hp]; exact hF
    · rw [hp]; exact hF
    · rw [hp]
  · obtain ⟨outs, hOuts⟩ := Option.isSome_iff_exists.mp hO
    have hc : ReceiveTransaction.updateCreateOutput env w = w := by
      unfold ReceiveTransaction.updateCreateOutput
      simp only [hOuts]
    have hu : BaseTransaction.update env false w = BaseTransaction.onFailed env w true := by
      simp only [BaseTransaction.update, Bool.false_eq_true, if_false, ReceiveTransaction.update,
        ReceiveTransaction.updateEntry, hc]
      rcases hbo with hb | hb
      · simp only [hb]
      · cases hbe : w.params.BlindingExcess <;> simp only [hb]
    have hp : (BaseTransaction.update env false w).params = w.params := by
      rw [hu, onFailed_params]
    refine ⟨w, fun _ => rfl, ?_, Or.inr (Or.inl ⟨rfl, ?_, ?_⟩),
      ⟨fun h => (by cases h), fun _ => ?_⟩, ?_⟩
    · rw [hu]; rfl
    · rw [hp]; exact hO
    · rw [hp]; exact hbo
    · rw [hp]; exact hO
    · rw [hp]
  · obtain ⟨-, -, hbe, hoff, hp⟩ := entry_result env role w w1 be off hentry
    obtain ⟨p1, p2, p3, p4, -, -, p7, -, p9⟩ := hp
    have hFn : (role && w.params.FailureReason.isSome) = false := by
      cases role
      · rfl
      · simp only [if_true] at hentry
        rw [sendEntry_noFailure env w w1 be off hentry]
        rfl
    have hu : BaseTransaction.update env role w = BaseTransaction.onFailed env w1 true := by
      rcases hcause with ⟨rfl, hmiss⟩ | ⟨sp, Rp, Pp, hO, hN, hE, hS, hbad⟩
      · simp only [Bool.false_eq_true, if_false] at hentry
        simp only [BaseTransaction.update, Bool.false_eq_true, if_false]
        rw [receive_update_fails env w hmiss, (receiveEntry_result env w w1 be off hentry).1]
      · have hpo : role = false → w.params.PeerOffset = some (w.params.PeerOffset.getD 0) := by
          intro hr
          obtain ⟨po, hpo⟩ := Option.isSome_iff_exists.mp (hO hr)
          rw [hpo]; rfl
        by_cases hv : sp • env.ecc.G =
            Rp + BaseTransaction.challenge env w1.m_txDesc be Rp Pp • Pp
        · have hT : w.params.TransactionRegistered = some false := by
            rcases hbad with hb | hb
            · exact absurd hv hb
            · exact hb
          unfold BaseTransaction.update
          rw [update_accepted env role w w1 be off sp _ Rp Pp hentry hpo hN hE hS hv]
          rw [← p7] at hT
          cases role
          · simp only [Bool.false_eq_true, if_false]
            unfold ReceiveTransaction.updateRegister
            simp only [hT]
            rfl
          · simp only [if_true]
            unfold SendTransaction.updateRegister
            simp only [hT]
            rfl
        · have hnv : ¬ Signature.IsValidPartial env
              { m_e := (BaseTransaction.updateCoSign env w1.m_txDesc be Rp Pp).1.m_Signature.m_e,
                m_k := sp } Rp Pp = true :=
            fun hval => hv ((isValidPartial_iff env _ _ _ _).mp hval)
          unfold BaseTransaction.update
          cases role
          · simp only [Bool.false_eq_true, if_false] at hentry ⊢
            rw [receive_update_verify env w w1 be off sp _ Rp Pp hentry (hpo rfl) hN hE hS,
              if_neg hnv]
          · simp only [if_true] at hentry ⊢
            rw [send_update_verify env w w1 be off sp Rp Pp hentry hN hE hS, if_neg hnv]
    have hpar : (BaseTransaction.update env role w).params = w1.params := by
      rw [hu, onFailed_params]
    obtain ⟨hentry2, hdone⟩ := entry_done env role w w1 be off hentry _ hpar
    refine ⟨w1, fun hq => entry_unchanged env role w w1 be off hentry ?_ hq.2, ?_,
      Or.inr (Or.inr ⟨_, be, off, hentry2, ?_⟩), hdone, ?_⟩
    · intro hr
      rcases hq.1 hr with hF | hb
      · subst hr
        simp only [if_true] at hentry
        rw [sendEntry_noFailure env w w1 be off hentry] at hF
        cases hF
      · exact hb
    · rw [hu, hFn]; rfl
    · rw [hpar, p1, p2, p3, p4, p7]
      rcases hcause with ⟨hr, hmiss⟩ | ⟨sp, Rp, Pp, hO, hN, hE, hS, hbad⟩
      · exact Or.inl ⟨hr, hmiss⟩
      · refine Or.inr ⟨sp, Rp, Pp, hO, hN, hE, hS, ?_⟩
        rw [hu, onFailed_txDesc]
        exact hbad
    · rw [hpar, p9]

theorem fails_iterate (env : Env K S P CP) (role : Bool) (w : TxState K S P CP)
    (h : failsOnStore env role w) (n : Nat) :
    failsOnStore env role ((BaseTransaction.update env role)^[n + 1] w) ∧
      firstIfDone role ((BaseTransaction.update env role)^[n + 1] w) ∧
      ((BaseTransaction.update env role)^[n + 1] w).params.FailureReason =
        w.params.FailureReason ∧
      ((BaseTransaction.update env role)^[n + 1] w).m_txDesc.m_status = TxStatus.Failed := by
  induction n with
  | zero =>
    obtain ⟨w1, -, hu, h1, h2, h3⟩ := fails_step env role w h
    refine ⟨h1, h2, h3, ?_⟩
    simp only [zero_add, Function.iterate_one]
    rw [hu, onFailed_txDesc]
    rfl
  | succ n ih =>
    obtain ⟨i1, i2, i3, -⟩ := ih
    obtain ⟨w1, -, hu, h1, h2, h3⟩ := fails_step env role _ i1
    rw [Function.iterate_succ_apply']
    refine ⟨h1, h2, h3.trans i3, ?_⟩
    rw [hu, onFailed_txDesc]
    rfl

/-- What a call leaves that is `onFailed` on the object `x` itself or on the
object after the calls `pre` of its first `if`, which left the ledger and the
parameters as they were. -/
theorem failed_step_facts (env : Env K S P CP) (x y : TxState K S P CP)
    (pre : List (Call S P)) (notify : Bool) (hc : y.calls = x.calls ++ pre)
    (hk : y.m_keychain = x.m_keychain) (hp : y.params = x.params)
    (hid : y.m_txDesc.m_txId = x.m_txDesc.m_txId) :
    (BaseTransaction.onFailed env y notify).m_txDesc.m_status = TxStatus.Failed ∧
    (BaseTransaction.onFailed env y notify).params = x.params ∧
    (BaseTransaction.onFailed env y notify).m_keychain =
      env.keychain.rollbackTx x.m_keychain x.m_txDesc.m_txId ∧
    x.callsSince (BaseTransaction.onFailed env y notify) =
      pre ++ [Call.saveTx (failedDesc env y), Call.rollbackTx x.m_txDesc.m_txId] ++
        (if notify then [Call.send_tx_failed (failedDesc env y)] else []) ++
        [Call.on_tx_completed (failedDesc env y)] := by
  refine ⟨?_, ?_, ?_, ?_⟩
  · rw [onFailed_txDesc]; rfl
  · rw [onFailed_params, hp]
  · rw [onFailed_keychain, hk, hid]
  · apply callsSince_append
    rw [onFailed_calls, hc, hid]
    simp only [List.append_assoc]

/-- The sender without funds fails, and on a ledger on which `selectCoins`
stays empty it is without funds again. -/
theorem funds_step (env : Env K S P CP) (w : TxState K S P CP)
    (h : failsForFunds env true w) :
    SendTransaction.update env w =
      BaseTransaction.onFailed env
        ((w.setMinHeight (env.keychain.getCurrentHeight w.m_keychain)).emit
          (Call.selectCoins (add64 w.m_txDesc.m_amount w.m_txDesc.m_fee)))
        (!w.params.PeerOffset.isNone) ∧
    failsForFunds env true (SendTransaction.update env w) ∧
    (SendTransaction.update env w).m_txDesc.m_txId = w.m_txDesc.m_txId ∧
    (SendTransaction.update env w).m_txDesc.m_amount = w.m_txDesc.m_amount ∧
    (SendTransaction.update env w).m_txDesc.m_fee = w.m_txDesc.m_fee ∧
    (SendTransaction.update env w).params.PeerOffset = w.params.PeerOffset := by
  obtain ⟨-, hs, hF, habs, hsel⟩ := h
  have hu := send_update_no_funds env w hF hs habs (hsel 0)
  have e1 : (SendTransaction.update env w).m_txDesc.m_txId = w.m_txDesc.m_txId := by
    rw [hu, onFailed_txDesc]; rfl
  have e2 : (SendTransaction.update env w).m_txDesc.m_amount = w.m_txDesc.m_amount := by
    rw [hu, onFailed_txDesc]; rfl
  have e3 : (SendTransaction.update env w).m_txDesc.m_fee = w.m_txDesc.m_fee := by
    rw [hu, onFailed_txDesc]; rfl
  have e4 : (SendTransaction.update env w).m_keychain =
      env.keychain.rollbackTx w.m_keychain w.m_txDesc.m_txId := by
    rw [hu, onFailed_keychain]; rfl
  have e5 : (SendTransaction.update env w).params = w.params := by
    rw [hu, onFailed_params]; rfl
  have e6 : (SendTransaction.update env w).m_txDesc.m_sender = w.m_txDesc.m_sender := by
    rw [hu, onFailed_txDesc]; rfl
  refine ⟨hu, ⟨rfl, ?_, ?_, ?_, ?_⟩, e1, e2, e3, by rw [e5]⟩
  · rw [e6]; exact hs
  · rw [e5]; exact hF
  · rw [e5]; exact habs
  · intro n
    rw [e1, e2, e3, e4, ← Function.iterate_succ_apply]
    exact hsel (n + 1)

/-- The invited party whose assembled transaction is rejected fails, and on
ledgers on which the rejection persists the object it leaves is rejected
again, with nothing left for its first `if`. -/
theorem validation_step (env : Env K S P CP) (role : Bool) (w w1 : TxState K S P CP)
    (h : failsOnValidationVia env role w w1) :
    BaseTransaction.update env role w = BaseTransaction.onFailed env w1 true ∧
    failsOnValidationVia env role (BaseTransaction.update env role w)
      (BaseTransaction.update env role w) := by
  obtain ⟨be, off, sp, po, Rp, Pp, hentry, hO, hN, hE, hS, hv, hT, hI, hval⟩ := h
  have hu : BaseTransaction.update env role w = BaseTransaction.onFailed env w1 true := by
    have ha := update_assembles env role w w1 be off sp po Rp Pp hentry hO hN hE hS hv hT hI
    have h0 := hval 0
    simp only [Function.iterate_zero, id_eq] at h0
    have h1 : env.IsValid (env.txSort (BaseTransaction.assemble env w1
        (signedKernel env w1.m_txDesc be sp Rp Pp) po off (w.params.PeerInputs.getD [])
        (w.params.PeerOutputs.getD []))) = false := h0
    unfold BaseTransaction.update
    rw [ha, h1]
    simp
  obtain ⟨-, -, -, -, hp⟩ := entry_result env role w w1 be off hentry
  obtain ⟨p1, p2, p3, p4, p5, p6, p7, -, -⟩ := hp
  have hpar : (BaseTransaction.update env role w).params = w1.params := by
    rw [hu, onFailed_params]
  obtain ⟨hentry2, -⟩ := entry_done env role w w1 be off hentry _ hpar
  refine ⟨hu, be, off, sp, po, Rp, Pp, hentry2, ?_, ?_, ?_, ?_, ?_, ?_, ?_, ?_⟩
  · rw [hpar, p4]; exact hO
  · rw [hpar, p2]; exact hN
  · rw [hpar, p3]; exact hE
  · rw [hpar, p1]; exact hS
  · rw [hu, onFailed_txDesc]; exact hv
  · rw [hpar, p7]; exact hT
  · rw [hpar, p5, p6]; exact hI
  · intro n
    have hn := hval (n + 1)
    rw [Function.iterate_succ_apply] at hn
    rw [hpar, p5, p6]
    rw [← hn]
    rw [hu]
    rfl

/-- A failure that is decided on the parameter store repeats: every further
call is `onFailed` on the object as it is. -/
theorem stored_failure_terminal (env : Env K S P CP) (role : Bool)
    (w : TxState K S P CP) (h : failsOnStore env role w) (n : Nat) :
    ((BaseTransaction.update env role)^[n + 1] w).m_txDesc.m_status = TxStatus.Failed ∧
    (BaseTransaction.update env role)^[n + 2] w =
      BaseTransaction.onFailed env ((BaseTransaction.update env role)^[n + 1] w)
        (!(role && w.params.FailureReason.isSome)) ∧
    ((BaseTransaction.update env role)^[n + 2] w).m_txDesc.m_status = TxStatus.Failed ∧
    ((BaseTransaction.update env role)^[n + 2] w).params =
      ((BaseTransaction.update env role)^[n + 1] w).params ∧
    ((BaseTransaction.update env role)^[n + 1] w).callsSince
        ((BaseTransaction.update env role)^[n + 2] w) =
      [Call.saveTx (failedDesc env ((BaseTransaction.update env role)^[n + 1] w)),
        Call.rollbackTx w.m_txDesc.m_txId] ++
      (if !(role && w.params.FailureReason.isSome) then
        [Call.send_tx_failed (failedDesc env ((BaseTransaction.update env role)^[n + 1] w))]
       else []) ++
      [Call.on_tx_completed (failedDesc env ((BaseTransaction.update env role)^[n + 1] w))] := by
  obtain ⟨i1, i2, i3, i4⟩ := fails_iterate env role w h n
  obtain ⟨w1, hw1, hu, -, -, -⟩ := fails_step env role _ i1
  rw [hw1 i2, i3] at hu
  have hid : ∀ k : Nat,
      ((BaseTransaction.update env role)^[k] w).m_txDesc.m_txId = w.m_txDesc.m_txId := by
    intro k
    induction k with
    | zero => rfl
    | succ k ih =>
      rw [Function.iterate_succ_apply', (update_sameButOwn env role _).2, ih]
  have hstep : (BaseTransaction.update env role)^[n + 2] w =
      BaseTransaction.onFailed env ((BaseTransaction.update env role)^[n + 1] w)
        (!(role && w.params.FailureReason.isSome)) := by
    rw [Function.iterate_succ_apply']
    exact hu
  refine ⟨i4, hstep, ?_, ?_, ?_⟩
  · rw [hstep, onFailed_txDesc]; rfl
  · rw [hstep, onFailed_params]
  · apply callsSince_append
    rw [hstep, onFailed_calls, hid]

theorem iterate_txId (env : Env K S P CP) (role : Bool) (w : TxState K S P CP) (k : Nat) :
    ((BaseTransaction.update env role)^[k] w).m_txDesc.m_txId = w.m_txDesc.m_txId := by
  induction k with
  | zero => rfl
  | succ k ih =>
    rw [Function.iterate_succ_apply', (update_sameButOwn env role _).2, ih]

/-- The lack of funds that persists, along the calls. -/
theorem funds_iterate (env : Env K S P CP) (w : TxState K S P CP)
    (h : failsForFunds env true w) (n : Nat) :
    failsForFunds env true ((BaseTransaction.update env true)^[n] w) ∧
    ((BaseTransaction.update env true)^[n] w).m_txDesc.m_amount = w.m_txDesc.m_amount ∧
    ((BaseTransaction.update env true)^[n] w).m_txDesc.m_fee = w.m_txDesc.m_fee := by
  induction n with
  | zero => exact ⟨h, rfl, rfl⟩
  | succ n ih =>
    obtain ⟨i1, i2, i3⟩ := ih
    obtain ⟨-, h1, -, h3, h4, -⟩ := funds_step env _ i1
    rw [Function.iterate_succ_apply']
    exact ⟨h1, h3.trans i2, h4.trans i3⟩

/-- The rejection by `IsValid` that persists, along the calls: after the
first call the object is rejected as it is. -/
theorem validation_iterate (env : Env K S P CP) (role : Bool) (w w1 : TxState K S P CP)
    (h : failsOnValidationVia env role w w1) (n : Nat) :
    failsOnValidationVia env role ((BaseTransaction.update env role)^[n + 1] w)
      ((BaseTransaction.update env role)^[n + 1] w) := by
  induction n with
  | zero => exact (validation_step env role w w1 h).2
  | succ n ih =>
    rw [Function.iterate_succ_apply']
    exact (validation_step env role _ _ ih).2

/-- The calls of a failing call hold no `store` or `update` and no invitation,
confirmation or `register_tx`. -/
theorem failed_calls_kinds (pre : List (Call S P)) (d : TxDescription) (txId : TxID)
    (a : Amount) (notify : Bool) (hpre : pre = [] ∨ pre = [Call.selectCoins a])
    (c : Call S P)
    (hc : c ∈ pre ++ [Call.saveTx d, Call.rollbackTx txId] ++
      (if notify then [Call.send_tx_failed d] else []) ++ [Call.on_tx_completed d]) :
    Call.isStoreOrUpdate c = false ∧ Call.isInvitation c = false ∧
      Call.isConfirmation c = false ∧ Call.isRegisterTx c = false := by
  rcases hpre with rfl | rfl <;> cases notify <;> simp at hc <;>
    rcases hc with rfl | rfl | rfl | rfl | rfl <;> exact ⟨rfl, rfl, rfl, rfl⟩

/-- C23 as amended: a failure is terminal where the guard that failed still
fails on the ledger that `rollbackTx(txId)` leaves.  For every state in which
`update()` fails for a present `FailureReason` (sender), for own or peer data
that are absent (receiver), for a peer signature that does not verify, for the
answer that the transaction is not registered, or for a `selectCoins` that
returns the empty list or an `IsValid` that rejects the assembled transaction
and that still do so on every ledger that `rollbackTx(txId)` makes of the
ledger: the state that the failing call leaves has status Failed, and every
further `update()` call on it, with no new parameter delivered, is `onFailed`
again.  It leaves the status Failed, the parameters as they are and the
ledger that `rollbackTx(txId)` returns; its calls are `selectCoins` (when the
failure is the lack of funds), `saveTx` (Failed), `rollbackTx(txId)`,
`send_tx_failed` (when it notifies) and `on_tx_completed`: no `store` or
`update`, no invitation, confirmation or `register_tx`. -/
theorem C23_failure_terminal (env : Env K S P CP) (role : Bool)
    (w : TxState K S P CP) (h : failsAgain env role w) (n : Nat) :
    ((BaseTransaction.update env role)^[n + 1] w).m_txDesc.m_status = TxStatus.Failed ∧
    ((BaseTransaction.update env role)^[n + 2] w).m_txDesc.m_status = TxStatus.Failed ∧
    ((BaseTransaction.update env role)^[n + 2] w).params =
      ((BaseTransaction.update env role)^[n + 1] w).params ∧
    ((BaseTransaction.update env role)^[n + 2] w).m_keychain =
      env.keychain.rollbackTx ((BaseTransaction.update env role)^[n + 1] w).m_keychain
        w.m_txDesc.m_txId ∧
    (∃ (pre : List (Call S P)) (d : TxDescription) (notify : Bool),
      ((BaseTransaction.update env role)^[n + 1] w).callsSince
          ((BaseTransaction.update env role)^[n + 2] w) =
        pre ++ [Call.saveTx d, Call.rollbackTx w.m_txDesc.m_txId] ++
          (if notify then [Call.send_tx_failed d] else []) ++ [Call.on_tx_completed d] ∧
      d.m_status = TxStatus.Failed ∧
      (pre = [] ∨
        pre = [Call.selectCoins (add64 w.m_txDesc.m_amount w.m_txDesc.m_fee)])) ∧
    ∀ c ∈ ((BaseTransaction.update env role)^[n + 1] w).callsSince
        ((BaseTransaction.update env role)^[n + 2] w),
      Call.isStoreOrUpdate c = false ∧ Call.isInvitation c = false ∧
        Call.isConfirmation c = false ∧ Call.isRegisterTx c = false := by
  have hid := iterate_txId env role w (n + 1)
  suffices hs : ∃ (y : TxState K S P CP) (pre : List (Call S P)) (notify : Bool),
      ((BaseTransaction.update env role)^[n + 1] w).m_txDesc.m_status = TxStatus.Failed ∧
      (BaseTransaction.update env role)^[n + 2] w = BaseTransaction.onFailed env y notify ∧
      y.calls = ((BaseTransaction.update env role)^[n + 1] w).calls ++ pre ∧
      y.m_keychain = ((BaseTransaction.update env role)^[n + 1] w).m_keychain ∧
      y.params = ((BaseTransaction.update env role)^[n + 1] w).params ∧
      y.m_txDesc.m_txId = ((BaseTransaction.update env role)^[n + 1] w).m_txDesc.m_txId ∧
      (pre = [] ∨
        pre = [Call.selectCoins (add64 w.m_txDesc.m_amount w.m_txDesc.m_fee)]) by
    obtain ⟨y, pre, notify, hst, hu, hc, hk, hp, hy, hpre⟩ := hs
    obtain ⟨f1, f2, f3, f4⟩ := failed_step_facts env _ y pre notify hc hk hp hy
    rw [← hu, hid] at f3 f4
    rw [← hu] at f1 f2
    exact ⟨hst, f1, f2, f3, ⟨pre, failedDesc env y, notify, f4, rfl, hpre⟩,
      fun c hc1 => failed_calls_kinds pre _ _ _ notify hpre c (by rw [← f4]; exact hc1)⟩
  rcases h with h | h | ⟨w1, h⟩
  · obtain ⟨s1, s2, -, -, -⟩ := stored_failure_terminal env role w h n
    exact ⟨_, [], _, s1, s2, by simp, rfl, rfl, rfl, Or.inl rfl⟩
  · obtain ⟨rfl, -⟩ := id h
    obtain ⟨i1, i2, i3⟩ := funds_iterate env w h (n + 1)
    obtain ⟨j1, -, -⟩ := funds_iterate env w h n
    have hst : ((BaseTransaction.update env true)^[n + 1] w).m_txDesc.m_status =
        TxStatus.Failed := by
      rw [Function.iterate_succ_apply']
      have := (funds_step env _ j1).1
      have e : BaseTransaction.update env true ((BaseTransaction.update env true)^[n] w) =
          SendTransaction.update env ((BaseTransaction.update env true)^[n] w) := rfl
      rw [e, this, onFailed_txDesc]
      rfl
    have hu := (funds_step env _ i1).1
    have e : (BaseTransaction.update env true)^[n + 2] w =
        SendTransaction.update env ((BaseTransaction.update env true)^[n + 1] w) := by
      rw [Function.iterate_succ_apply']
      rfl
    rw [← e] at hu
    exact ⟨_, [Call.selectCoins (add64
        ((BaseTransaction.update env true)^[n + 1] w).m_txDesc.m_amount
        ((BaseTransaction.update env true)^[n + 1] w).m_txDesc.m_fee)], _, hst, hu, rfl, rfl, rfl,
      rfl, Or.inr (by rw [i2, i3])⟩
  · have i1 := validation_iterate env role w w1 h n
    have hst : ((BaseTransaction.update env role)^[n + 1] w).m_txDesc.m_status =
        TxStatus.Failed := by
      cases n with
      | zero =>
        simp only [zero_add, Function.iterate_one]
        rw [(validation_step env role w w1 h).1, onFailed_txDesc]
        rfl
      | succ m =>
        rw [Function.iterate_succ_apply',
          (validation_step env role _ _ (validation_iterate env role w w1 h m)).1,
          onFailed_txDesc]
        rfl
    have hu := (validation_step env role _ _ i1).1
    rw [← Function.iterate_succ_apply' (BaseTransaction.update env role) (n + 1) w] at hu
    exact ⟨_, [], _, hst, hu, by simp, rfl, rfl, rfl, Or.inl rfl⟩

/-- C23, at a sender whose peer answered with a signature that does not
verify, at a sender that owns one coin of 10 and is to send 20 with fee 1, and
at a receiver whose assembled transaction the validator rejects: the first
call fails, and so do the second and the third, without a call on the ledger
but `selectCoins` and `rollbackTx`. -/
theorem C23_failure_terminal_witness :
    failsAgain (intEnv true 5) true (answeredState (pendingTx true 40 1) [] 9) ∧
      ((BaseTransaction.update (intEnv true 5) true)^[3]
        (answeredState (pendingTx true 40 1) [] 9)).m_txDesc.m_status = TxStatus.Failed ∧
      ((BaseTransaction.update (intEnv true 5) true)^[3]
        (answeredState (pendingTx true 40 1) [] 9)).calls.map Call.isStoreOrUpdate =
        [false, false, false, false, false, false, false, false, false, false, false, false] ∧
    failsAgain (intEnv true 5) true (freshState (pendingTx true 20 1) [confirmedCoin 1 10]) ∧
      ((BaseTransaction.update (intEnv true 5) true)^[3]
        (freshState (pendingTx true 20 1) [confirmedCoin 1 10])).m_txDesc.m_status =
        TxStatus.Failed ∧
      ((BaseTransaction.update (intEnv true 5) true)^[3]
        (freshState (pendingTx true 20 1) [confirmedCoin 1 10])).calls.map
          (fun c => (Call.isStoreOrUpdate c, Call.isInvitation c)) =
        [(false, false), (false, false), (false, false), (false, false),
         (false, false), (false, false), (false, false), (false, false),
         (false, false), (false, false), (false, false), (false, false)] ∧
    failsAgain rejectingEnv false (signedState (pendingTx false 40 1) [] [] [] none none) ∧
      ((BaseTransaction.update rejectingEnv false)^[3]
        (signedState (pendingTx false 40 1) [] [] [] none none)).m_txDesc.m_status =
        TxStatus.Failed ∧
      ((BaseTransaction.update rejectingEnv false)^[3]
        (signedState (pendingTx false 40 1) [] [] [] none none)).calls.map
          (fun c => (Call.isStoreOrUpdate c, Call.isRegisterTx c)) =
        [(false, false), (false, false), (false, false), (false, false),
         (false, false), (false, false), (false, false), (false, false),
         (false, false), (false, false), (false, false), (false, false)] := by
  have hf : failsAgain (intEnv true 5) true (answeredState (pendingTx true 40 1) [] 9) :=
    Or.inl (Or.inr (Or.inr ⟨answeredState (pendingTx true 40 1) [] 9, 5, 7, rfl,
      Or.inr ⟨9, (3, 0), (4, 0), fun h => (by cases h), rfl, rfl, rfl, Or.inl (by decide)⟩⟩))
  have hg : failsAgain (intEnv true 5) true
      (freshState (pendingTx true 20 1) [confirmedCoin 1 10]) :=
    Or.inr (Or.inl ⟨rfl, rfl, rfl, Or.inl rfl, fun n => by
      have hk : ∀ m : Nat, (fun k => (intEnv true 5).keychain.rollbackTx k
          (freshState (pendingTx true 20 1) [confirmedCoin 1 10]).m_txDesc.m_txId)^[m]
          (freshState (pendingTx true 20 1) [confirmedCoin 1 10]).m_keychain =
          [confirmedCoin 1 10] := by
        intro m
        induction m with
        | zero => rfl
        | succ m ih => rw [Function.iterate_succ_apply', ih]; rfl
      rw [hk n]
      rfl⟩)
  have hr : failsAgain rejectingEnv false
      (signedState (pendingTx false 40 1) [] [] [] none none) :=
    Or.inr (Or.inr ⟨signedState (pendingTx false 40 1) [] [] [] none none, 5, 7, 183, 2,
      (3, 0), (4, 0), rfl, rfl, rfl, rfl, rfl, by decide, rfl, fun h => (by cases h),
      fun _ => rfl⟩)
  exact ⟨hf, (C23_failure_terminal (intEnv true 5) true
      (answeredState (pendingTx true 40 1) [] 9) hf 1).2.1, by decide,
    hg, (C23_failure_terminal (intEnv true 5) true
      (freshState (pendingTx true 20 1) [confirmedCoin 1 10]) hg 1).2.1, by decide,
    hr, (C23_failure_terminal rejectingEnv false
      (signedState (pendingTx false 40 1) [] [] [] none none) hr 1).2.1, by decide⟩

/-- C23 as stated fails for a failure that is decided on the ledger.  A
sender whose only coin the transaction itself has reserved (a call that was
interrupted after `update(coins)`, before the excess was stored) fails for
lack of funds and `rollbackTx` releases the coin; the next `update()` on that
state selects the coin, reserves it, stores the change coin, sets the status
to InProgress and sends the invitation. -/
theorem C23_counterexample :
    (SendTransaction.update (intEnv true 5)
      (freshState (pendingTx true 40 1) [lockedCoin 1 100 1])).m_txDesc.m_status =
      TxStatus.Failed ∧
    (SendTransaction.update (intEnv true 5)
      (SendTransaction.update (intEnv true 5)
        (freshState (pendingTx true 40 1) [lockedCoin 1 100 1]))).m_txDesc.m_status =
      TxStatus.InProgress ∧
    ((SendTransaction.update (intEnv true 5)
        (freshState (pendingTx true 40 1) [lockedCoin 1 100 1])).callsSince
      (SendTransaction.update (intEnv true 5)
        (SendTransaction.update (intEnv true 5)
          (freshState (pendingTx true 40 1) [lockedCoin 1 100 1])))).map
        (fun c => (Call.isStoreOrUpdate c, Call.isInvitation c)) =
      [(false, false), (true, false), (true, false), (false, false), (false, false),
        (false, false), (false, true)] := by
  decide

end Failures

/-! ## The past of an object does not matter -/

section Frame

variable {K S P CP : Type} [CommRing S] [AddCommGroup P] [Module S P] [DecidableEq P]

@[simp] theorem rebase_txDesc (w : TxState K S P CP) (pre : List (Call S P))
    (s : Option TxDescription) : (w.rebase pre s).m_txDesc = w.m_txDesc := rfl

@[simp] theorem rebase_keychain (w : TxState K S P CP) (pre : List (Call S P))
    (s : Option TxDescription) : (w.rebase pre s).m_keychain = w.m_keychain := rfl

@[simp] theorem rebase_params (w : TxState K S P CP) (pre : List (Call S P))
    (s : Option TxDescription) : (w.rebase pre s).params = w.params := rfl

@[simp] theorem rebase_calls (w : TxState K S P CP) (pre : List (Call S P))
    (s : Option TxDescription) : (w.rebase pre s).calls = pre ++ w.calls := rfl

theorem emit_rebase (w : TxState K S P CP) (pre : List (Call S P))
    (s : Option TxDescription) (c : Call S P) :
    (w.rebase pre s).emit c = (w.emit c).rebase pre s := by
  simp [TxState.rebase, TxState.emit]

theorem setMinHeight_rebase (w : TxState K S P CP) (pre : List (Call S P))
    (s : Option TxDescription) (h : Height) :
    (w.rebase pre s).setMinHeight h = (w.setMinHeight h).rebase pre s := rfl

theorem setChange_rebase (w : TxState K S P CP) (pre : List (Call S P))
    (s : Option TxDescription) (a : Amount) :
    (w.rebase pre s).setChange a = (w.setChange a).rebase pre s := rfl

theorem keychainUpdate_rebase (env : Env K S P CP) (w : TxState K S P CP)
    (pre : List (Call S P)) (s : Option TxDescription) (cs : List Coin) :
    (w.rebase pre s).keychainUpdate env cs = (w.keychainUpdate env cs).rebase pre s := by
  simp [TxState.rebase, TxState.keychainUpdate]

theorem keychainStore_rebase (env : Env K S P CP) (w : TxState K S P CP)
    (pre : List (Call S P)) (s : Option TxDescription) (c : Coin) :
    (w.rebase pre s).keychainStore env c =
      ((w.keychainStore env c).1.rebase pre s, (w.keychainStore env c).2) := by
  simp [TxState.rebase, TxState.keychainStore]

theorem setBlindingExcess_rebase (w : TxState K S P CP) (pre : List (Call S P))
    (s : Option TxDescription) (v : S) :
    (w.rebase pre s).setBlindingExcess v = (w.setBlindingExcess v).rebase pre s := by
  simp [TxState.rebase, TxState.setBlindingExcess]

theorem setOffset_rebase (w : TxState K S P CP) (pre : List (Call S P))
    (s : Option TxDescription) (v : S) :
    (w.rebase pre s).setOffset v = (w.setOffset v).rebase pre s := by
  simp [TxState.rebase, TxState.setOffset]

theorem setOutputs_rebase (w : TxState K S P CP) (pre : List (Call S P))
    (s : Option TxDescription) (v : List (Output P)) :
    (w.rebase pre s).setOutputs v = (w.setOutputs v).rebase pre s := by
  simp [TxState.rebase, TxState.setOutputs]

theorem updateTxDescription_rebase (env : Env K S P CP) (w : TxState K S P CP)
    (pre : List (Call S P)) (s : Option TxDescription) (st : TxStatus) :
    BaseTransaction.updateTxDescription env (w.rebase pre s) st =
      (BaseTransaction.updateTxDescription env w st).rebase pre s := by
  simp [TxState.rebase, BaseTransaction.updateTxDescription]

theorem rollbackTx_rebase (env : Env K S P CP) (w : TxState K S P CP)
    (pre : List (Call S P)) (s : Option TxDescription) :
    BaseTransaction.rollbackTx env (w.rebase pre s) =
      (BaseTransaction.rollbackTx env w).rebase pre s := by
  simp [TxState.rebase, BaseTransaction.rollbackTx]

theorem onFailed_rebase (env : Env K S P CP) (w : TxState K S P CP)
    (pre : List (Call S P)) (s : Option TxDescription) (notify : Bool) :
    BaseTransaction.onFailed env (w.rebase pre s) notify =
      (BaseTransaction.onFailed env w notify).rebase pre s := by
  unfold BaseTransaction.onFailed
  cases notify <;>
    simp only [updateTxDescription_rebase, rollbackTx_rebase, emit_rebase, rebase_txDesc,
      Bool.false_eq_true, if_false, if_true]

theorem confirmKernel_rebase (env : Env K S P CP) (w : TxState K S P CP)
    (pre : List (Call S P)) (s : Option TxDescription) (kernel : TxKernel S P) :
    BaseTransaction.confirmKernel env (w.rebase pre s) kernel =
      (BaseTransaction.confirmKernel env w kernel).rebase pre s := by
  unfold BaseTransaction.confirmKernel
  simp only [updateTxDescription_rebase, keychainUpdate_rebase, emit_rebase, rebase_txDesc,
    rebase_keychain]

theorem completeTx_rebase (env : Env K S P CP) (w : TxState K S P CP)
    (pre : List (Call S P)) (s : Option TxDescription) :
    BaseTransaction.completeTx env (w.rebase pre s) =
      (BaseTransaction.completeTx env w).rebase pre s := by
  unfold BaseTransaction.completeTx
  simp only [updateTxDescription_rebase, emit_rebase, rebase_txDesc]

theorem updateFinish_rebase (env : Env K S P CP) (w : TxState K S P CP)
    (pre : List (Call S P)) (s : Option TxDescription) (kernel : TxKernel S P)
    (proof : MerkleProof) :
    BaseTransaction.updateFinish env (w.rebase pre s) kernel proof =
      (BaseTransaction.updateFinish env w kernel proof).rebase pre s := by
  unfold BaseTransaction.updateFinish
  simp only [completeTx_rebase]
  split <;> rfl

theorem sendConfirmTransaction_rebase (w : TxState K S P CP)
    (pre : List (Call S P)) (s : Option TxDescription) (sig : S) :
    SendTransaction.sendConfirmTransaction (w.rebase pre s) sig =
      (SendTransaction.sendConfirmTransaction w sig).rebase pre s := by
  unfold SendTransaction.sendConfirmTransaction
  simp only [emit_rebase, rebase_txDesc]

theorem persistExcess_rebase (env : Env K S P CP) (w : TxState K S P CP)
    (pre : List (Call S P)) (s : Option TxDescription) (be off : S) :
    SendTransaction.persistExcess env (w.rebase pre s) be off =
      (SendTransaction.persistExcess env w be off).rebase pre s := by
  unfold SendTransaction.persistExcess
  simp only [setBlindingExcess_rebase, setOffset_rebase, updateTxDescription_rebase]

theorem createUtxo_rebase (env : Env K S P CP) (w : TxState K S P CP)
    (pre : List (Call S P)) (s : Option TxDescription) (a : Amount) (h : Height) (be off : S) :
    SendTransaction.createUtxo env (w.rebase pre s) a h be off =
      ((SendTransaction.createUtxo env w a h be off).1.rebase pre s,
        (SendTransaction.createUtxo env w a h be off).2) := by
  unfold SendTransaction.createUtxo
  simp only [keychainStore_rebase, rebase_txDesc]

theorem reserveCoins_rebase (env : Env K S P CP) (w : TxState K S P CP)
    (pre : List (Call S P)) (s : Option TxDescription) (coins : List Coin) (awf : Amount)
    (ch : Height) (be off : S) :
    SendTransaction.reserveCoins env (w.rebase pre s) coins awf ch be off =
      ((SendTransaction.reserveCoins env w coins awf ch be off).1.rebase pre s,
        (SendTransaction.reserveCoins env w coins awf ch be off).2) := by
  unfold SendTransaction.reserveCoins
  simp only [keychainUpdate_rebase, createUtxo_rebase, setChange_rebase, rebase_txDesc]
  split <;> rfl

theorem peerIsOwn_rebase (env : Env K S P CP) (w : TxState K S P CP)
    (pre : List (Call S P)) (s : Option TxDescription) :
    SendTransaction.peerIsOwn env (w.rebase pre s) = SendTransaction.peerIsOwn env w := rfl

theorem updateReserveCoins_rebase (env : Env K S P CP) (w : TxState K S P CP)
    (pre : List (Call S P)) (s : Option TxDescription) (coins : List Coin) (awf : Amount)
    (ch : Height) (be off : S) :
    SendTransaction.updateReserveCoins env (w.rebase pre s) coins awf ch be off =
      TxState.rebaseResult (SendTransaction.updateReserveCoins env w coins awf ch be off) pre s := by
  unfold SendTransaction.updateReserveCoins
  simp only [reserveCoins_rebase, peerIsOwn_rebase, persistExcess_rebase]
  split <;> rfl

theorem updateReserve_rebase (env : Env K S P CP) (w : TxState K S P CP)
    (pre : List (Call S P)) (s : Option TxDescription) (i : Bool) (be off : S) :
    SendTransaction.updateReserve env (w.rebase pre s) i be off =
      TxState.rebaseResult (SendTransaction.updateReserve env w i be off) pre s := by
  unfold SendTransaction.updateReserve
  simp only [rebase_txDesc, rebase_keychain, setMinHeight_rebase, emit_rebase, onFailed_rebase,
    updateReserveCoins_rebase, createUtxo_rebase, persistExcess_rebase]
  split
  · split <;> rfl
  · rfl

theorem sendEntry_rebase (env : Env K S P CP) (w : TxState K S P CP)
    (pre : List (Call S P)) (s : Option TxDescription) :
    SendTransaction.updateEntry env (w.rebase pre s) =
      TxState.rebaseResult (SendTransaction.updateEntry env w) pre s := by
  unfold SendTransaction.updateEntry
  simp only [rebase_params, onFailed_rebase, updateReserve_rebase]
  split
  · rfl
  · split <;> rfl

theorem sendRegister_rebase (env : Env K S P CP) (w : TxState K S P CP)
    (pre : List (Call S P)) (s : Option TxDescription) (i : Bool) (po off : S)
    (kernel : TxKernel S P) (ps : S) :
    SendTransaction.updateRegister env (w.rebase pre s) i po off kernel ps =
      (SendTransaction.updateRegister env w i po off kernel ps).rebase pre s := by
  unfold SendTransaction.updateRegister BaseTransaction.assemble
  simp only [rebase_params, rebase_txDesc, rebase_keychain, onFailed_rebase, emit_rebase,
    sendConfirmTransaction_rebase, confirmKernel_rebase, updateFinish_rebase]
  split
  · split
    · split <;> rfl
    · rfl
  · split
    · rfl
    · split
      · cases i <;> simp only [Bool.not_true, Bool.not_false, Bool.false_eq_true, if_false,
          if_true, confirmKernel_rebase]
      · rfl

theorem sendNegotiate_rebase (env : Env K S P CP) (w : TxState K S P CP)
    (pre : List (Call S P)) (s : Option TxDescription) (i : Bool) (po be off : S) :
    SendTransaction.updateNegotiate env (w.rebase pre s) i po be off =
      (SendTransaction.updateNegotiate env w i po be off).rebase pre s := by
  unfold SendTransaction.updateNegotiate
  simp only [rebase_params, rebase_txDesc, rebase_keychain, onFailed_rebase, emit_rebase,
    sendRegister_rebase]
  split
  · split
    · rfl
    · split <;> rfl
  · rfl

theorem send_update_rebase (env : Env K S P CP) (w : TxState K S P CP)
    (pre : List (Call S P)) (s : Option TxDescription) :
    SendTransaction.update env (w.rebase pre s) =
      (SendTransaction.update env w).rebase pre s := by
  unfold SendTransaction.update
  rw [sendEntry_rebase]
  cases SendTransaction.updateEntry env w with
  | inl r => rfl
  | inr r =>
    simp only [TxState.rebaseResult, rebase_params]
    exact sendNegotiate_rebase env r.1 pre s _ _ _ _

theorem createOutput_rebase (env : Env K S P CP) (w : TxState K S P CP)
    (pre : List (Call S P)) (s : Option TxDescription) :
    ReceiveTransaction.updateCreateOutput env (w.rebase pre s) =
      (ReceiveTransaction.updateCreateOutput env w).rebase pre s := by
  unfold ReceiveTransaction.updateCreateOutput
  simp only [rebase_params, rebase_txDesc, rebase_keychain, keychainStore_rebase,
    setOutputs_rebase, setBlindingExcess_rebase, setOffset_rebase, updateTxDescription_rebase]
  split <;> rfl

theorem receiveRegister_rebase (env : Env K S P CP) (w : TxState K S P CP)
    (pre : List (Call S P)) (s : Option TxDescription) (po off : S) (kernel : TxKernel S P) :
    ReceiveTransaction.updateRegister env (w.rebase pre s) po off kernel =
      (ReceiveTransaction.updateRegister env w po off kernel).rebase pre s := by
  unfold ReceiveTransaction.updateRegister BaseTransaction.assemble
  simp only [rebase_params, rebase_txDesc, rebase_keychain, onFailed_rebase, emit_rebase,
    confirmKernel_rebase, updateFinish_rebase]
  split
  · split <;> rfl
  · split
    · rfl
    · split <;> rfl

theorem receiveNegotiate_rebase (env : Env K S P CP) (w : TxState K S P CP)
    (pre : List (Call S P)) (s : Option TxDescription) (be off : S) :
    ReceiveTransaction.updateNegotiate env (w.rebase pre s) be off =
      (ReceiveTransaction.updateNegotiate env w be off).rebase pre s := by
  unfold ReceiveTransaction.updateNegotiate
  simp only [rebase_params, rebase_txDesc, rebase_keychain, onFailed_rebase, emit_rebase,
    receiveRegister_rebase]
  split
  · split
    · rfl
    · split <;> rfl
  · rfl

theorem receive_update_rebase (env : Env K S P CP) (w : TxState K S P CP)
    (pre : List (Call S P)) (s : Option TxDescription) :
    ReceiveTransaction.update env (w.rebase pre s) =
      (ReceiveTransaction.update env w).rebase pre s := by
  unfold ReceiveTransaction.update ReceiveTransaction.updateEntry
  simp only [createOutput_rebase, rebase_params, onFailed_rebase]
  cases (ReceiveTransaction.updateCreateOutput env w).params.BlindingExcess with
  | none => rfl
  | some be =>
    cases (ReceiveTransaction.updateCreateOutput env w).params.Offset with
    | none => rfl
    | some off => exact receiveNegotiate_rebase env _ pre s be off

/-- The update of either role on an object with another past: the same
result with that past. -/
theorem update_rebase (env : Env K S P CP) (role : Bool) (w : TxState K S P CP)
    (pre : List (Call S P)) (s : Option TxDescription) :
    BaseTransaction.update env role (w.rebase pre s) =
      (BaseTransaction.update env role w).rebase pre s := by
  cases role
  · exact receive_update_rebase env w pre s
  · exact send_update_rebase env w pre s

theorem rebase_core (w : TxState K S P CP) : w.core.rebase w.calls w.savedTx = w := by
  cases w
  simp [TxState.core, TxState.rebase]

theorem core_eq_of_samePersisted (w w1 : TxState K S P CP) (h : TxState.samePersisted w w1) :
    w.core = w1.core := by
  obtain ⟨h1, h2, h3⟩ := h
  cases w
  cases w1
  simp only [TxState.core, TxState.mk.injEq] at *
  exact ⟨h1, h2, h3, trivial, trivial⟩

/-- The effects of an update depend on the description, the ledger and the
parameters of the object alone. -/
theorem update_frame (env : Env K S P CP) (role : Bool) (w w1 : TxState K S P CP)
    (h : TxState.samePersisted w w1) :
    TxState.samePersisted (BaseTransaction.update env role w)
        (BaseTransaction.update env role w1) ∧
      w.callsSince (BaseTransaction.update env role w) =
        w1.callsSince (BaseTransaction.update env role w1) := by
  have h1 : BaseTransaction.update env role w =
      (BaseTransaction.update env role w.core).rebase w.calls w.savedTx := by
    rw [← update_rebase, rebase_core]
  have h2 : BaseTransaction.update env role w1 =
      (BaseTransaction.update env role w.core).rebase w1.calls w1.savedTx := by
    rw [core_eq_of_samePersisted w w1 h, ← update_rebase, rebase_core]
  rw [h1, h2]
  refine ⟨⟨rfl, rfl, rfl⟩, ?_⟩
  simp [TxState.callsSince]

/-- On the object that the first `if` has left, the update is the rest of the
update. -/
theorem update_after_entry (env : Env K S P CP) (role : Bool) (w w1 : TxState K S P CP)
    (be off : S)
    (hentry : (if role then SendTransaction.updateEntry env w
      else ReceiveTransaction.updateEntry env w) = Sum.inr (w1, be, off)) :
    BaseTransaction.update env role w1 = BaseTransaction.update env role w := by
  obtain ⟨h1, -⟩ := entry_done env role w w1 be off hentry w1 rfl
  obtain ⟨-, -, -, -, hp⟩ := entry_result env role w w1 be off hentry
  cases role
  · simp only [Bool.false_eq_true, if_false] at hentry h1
    simp only [BaseTransaction.update, Bool.false_eq_true, if_false, ReceiveTransaction.update,
      hentry, h1]
  · simp only [if_true] at hentry h1
    simp only [BaseTransaction.update, if_true, SendTransaction.update, hentry, h1,
      hp.2.2.2.1]

/-- C24 as amended: re-invoking `update()` repeats the step.  For every
persisted state on which `update()` passes its first `if` and then returns at
once or after one message or `register_tx`, a second invocation with no
parameter added in between makes exactly the calls that the first made after
its first `if`: the same gateway call again, if there was one, and no call on
the coin ledger or the parameter store; it leaves the description, the ledger
and the parameters as they are. -/
theorem C24_reinvocation_repeats (env : Env K S P CP) (role : Bool)
    (w w1 : TxState K S P CP) (be off : S)
    (hentry : (if role then SendTransaction.updateEntry env w
      else ReceiveTransaction.updateEntry env w) = Sum.inr (w1, be, off))
    (hend : BaseTransaction.update env role w = w1 ∨
      ∃ c, Call.isSingle c = true ∧ BaseTransaction.update env role w = w1.emit c) :
    (BaseTransaction.update env role w).callsSince
        (BaseTransaction.update env role (BaseTransaction.update env role w)) =
      w1.callsSince (BaseTransaction.update env role w) ∧
    (BaseTransaction.update env role w = w1 →
      (BaseTransaction.update env role w).callsSince
        (BaseTransaction.update env role (BaseTransaction.update env role w)) = []) ∧
    (∀ c, BaseTransaction.update env role w = w1.emit c →
      (BaseTransaction.update env role w).callsSince
        (BaseTransaction.update env role (BaseTransaction.update env role w)) = [c]) ∧
    TxState.samePersisted (BaseTransaction.update env role w)
      (BaseTransaction.update env role (BaseTransaction.update env role w)) := by
  have hsame : TxState.samePersisted w1 (BaseTransaction.update env role w) := by
    rcases hend with h | ⟨c, -, h⟩ <;> rw [h] <;> exact ⟨rfl, rfl, rfl⟩
  obtain ⟨f1, f2⟩ := update_frame env role w1 _ hsame
  rw [update_after_entry env role w w1 be off hentry] at f1 f2
  refine ⟨f2.symm, ?_, ?_, f1⟩
  · intro h
    rw [← f2]
    rw [h]
    simp [TxState.callsSince]
  · intro c h
    rw [← f2]
    rw [h]
    simp [TxState.callsSince]

/-- C24, at a receiver that holds the invitation of its peer and no peer
signature: the first `update()` sends the confirmation, and a second one
sends the same confirmation again. -/
theorem C24_reinvocation_repeats_witness :
    ReceiveTransaction.updateEntry (intEnv true 5) (invitedState (pendingTx false 40 1) []) =
        Sum.inr (invitedState (pendingTx false 40 1) [], 5, 7) ∧
    (BaseTransaction.update (intEnv true 5) false
        (invitedState (pendingTx false 40 1) [])).callsSince
      (BaseTransaction.update (intEnv true 5) false
        (BaseTransaction.update (intEnv true 5) false
          (invitedState (pendingTx false 40 1) []))) =
      ([Call.send_tx_confirmation (pendingTx false 40 1)
        { m_txId := 1, m_publicPeerExcess := (5, 0), m_publicPeerNonce := (12, 0),
          m_peerSignature := 237 }] : List (Call Int (Int × Int))) :=
  ⟨rfl, (C24_reinvocation_repeats (intEnv true 5) false
    (invitedState (pendingTx false 40 1) []) (invitedState (pendingTx false 40 1) []) 5 7 rfl
    (Or.inr ⟨Call.send_tx_confirmation (pendingTx false 40 1)
      { m_txId := 1, m_publicPeerExcess := (5, 0), m_publicPeerNonce := (12, 0),
        m_peerSignature := 237 }, rfl, rfl⟩)).2.2.1 _ rfl⟩

/-- C24 as stated fails: the sender of the examples sends its invitation in
the first `update()`; a second `update()`, with nothing added to the store,
calls the gateway again (`send_tx_invitation`), though it makes no call on the
ledger. -/
theorem C24_counterexample :
    ((SendTransaction.update (intEnv true 5) senderExample).callsSince
      (SendTransaction.update (intEnv true 5)
        (SendTransaction.update (intEnv true 5) senderExample))).map
        (fun c => (Call.isGateway c, Call.isInvitation c, Call.isLedgerWrite c)) =
      [(true, true, false)] ∧
    (SendTransaction.update (intEnv true 5)
        (SendTransaction.update (intEnv true 5) senderExample)).params =
      (SendTransaction.update (intEnv true 5) senderExample).params := by
  decide

end Frame

/-! ## Invariants of an update -/

section Invariants

variable {K S P CP : Type} [CommRing S] [AddCommGroup P] [Module S P] [DecidableEq P]

/-- With nothing left for the first `if`, the update is an ending on the
object as it is. -/
theorem update_done_ending (env : Env K S P CP) (role : Bool) (w : TxState K S P CP)
    (h : firstIfDone role w) : UpdateEnding env w (BaseTransaction.update env role w) := by
  cases role
  · obtain ⟨outs, hO⟩ := Option.isSome_iff_exists.mp (h.2 rfl)
    have hc : ReceiveTransaction.updateCreateOutput env w = w := by
      unfold ReceiveTransaction.updateCreateOutput
      simp only [hO]
    simp only [BaseTransaction.update, Bool.false_eq_true, if_false, ReceiveTransaction.update,
      ReceiveTransaction.updateEntry, hc]
    cases w.params.BlindingExcess with
    | none => exact ending_failed env w true
    | some be =>
      cases w.params.Offset with
      | none => exact ending_failed env w true
      | some off => exact receiveNegotiate_ending env w be off
  · simp only [BaseTransaction.update, if_true]
    cases hF : w.params.FailureReason with
    | some reason =>
      simp only [SendTransaction.update, SendTransaction.updateEntry, hF]
      exact ending_failed env w false
    | none =>
      rcases h.1 rfl with h1 | ⟨h1, h2⟩
      · rw [hF] at h1
        cases h1
      · obtain ⟨be, hbe⟩ := Option.isSome_iff_exists.mp h1
        obtain ⟨off, hoff⟩ := Option.isSome_iff_exists.mp h2
        simp only [SendTransaction.update, sendEntry_stored env w be off hF hbe hoff]
        exact sendNegotiate_ending env w _ _ be off

/-- C25 as amended: `update()` of either role writes no parameter but
`BlindingExcess`, `Offset` and `Outputs`: every other parameter has at exit
the value it had at entry and no `setParameter` is called for it.
`SendTransaction::update` entered with `BlindingExcess` and `Offset` both
present, and `ReceiveTransaction::update` entered with `Outputs` present, call
`setParameter` for no parameter at all and leave the whole store as it is. -/
theorem C25_parameters_kept (env : Env K S P CP) (role : Bool) (w : TxState K S P CP) :
    (BaseTransaction.update env role w).params =
      { w.params with
        BlindingExcess := (BaseTransaction.update env role w).params.BlindingExcess,
        Offset := (BaseTransaction.update env role w).params.Offset,
        Outputs := (BaseTransaction.update env role w).params.Outputs } ∧
    (∀ c ∈ w.callsSince (BaseTransaction.update env role w), ∀ p,
      c = Call.setTxParameter p →
        p = TxParams.BlindingExcess ∨ p = TxParams.Offset ∨ p = TxParams.Outputs) ∧
    (((role = true ∧ w.params.BlindingExcess.isSome = true ∧ w.params.Offset.isSome = true) ∨
        (role = false ∧ w.params.Outputs.isSome = true)) →
      (BaseTransaction.update env role w).params = w.params ∧
      ∀ c ∈ w.callsSince (BaseTransaction.update env role w), ∀ p,
        c ≠ Call.setTxParameter p) := by
  refine ⟨(update_sameButOwn env role w).1, ?_, ?_⟩
  · obtain ⟨w1, L, T, -, he, -, hL2, hT, hc⟩ := update_split env role w
    intro c hmem p hp
    rw [hc] at hmem
    rcases List.mem_append.mp hmem with hm | hm
    · exact (stepOne_kinds c (hL2 c hm)).2.2.2.2.2 p (by rw [hp]; rfl)
    · have h := (ending_written env w1 _ T he hT c hm).1
      rw [hp] at h
      cases h
  · intro hdone
    have hd : firstIfDone role w := by
      rcases hdone with ⟨rfl, h1, h2⟩ | ⟨rfl, h1⟩
      · exact ⟨fun _ => Or.inr ⟨h1, h2⟩, fun h => (by cases h)⟩
      · exact ⟨fun h => (by cases h), fun _ => h1⟩
    have he := update_done_ending env role w hd
    obtain ⟨e1, -, T, hT, -⟩ := ending_facts env w _ he
    refine ⟨e1, ?_⟩
    intro c hmem p hp
    rw [callsSince_append w _ T hT] at hmem
    have h := (ending_written env w _ T he hT c hmem).1
    rw [hp] at h
    cases h

/-- C25 as stated fails: a sender whose `BlindingExcess` is present at entry
and whose `Offset` is absent runs its first `if`, and `setParameter` is called
for `BlindingExcess` (and for `Offset`) during the call. -/
theorem C25_counterexample :
    halfStoredSender.params.BlindingExcess = some 10 ∧
    (halfStoredSender.callsSince
      (SendTransaction.update (intEnv true 5) halfStoredSender)).map Call.written =
      [none, none, none, some TxParams.BlindingExcess, some TxParams.Offset, none, none] := by
  decide

theorem outbound_kinds (c : Call S P) :
    Call.isPeerMessage c = (Call.isOutbound c && !Call.isNodeRequest c) ∧
      Call.isNodeRequest c = (Call.isOutbound c && !Call.isPeerMessage c) := by
  cases c <;> exact ⟨rfl, rfl⟩

theorem filter_stepOne (L : List (Call S P)) (hL : ∀ c ∈ L, Call.isStepOne c = true) :
    L.filter Call.isOutbound = [] := by
  rw [List.filter_eq_nil_iff]
  intro c hc
  have h := hL c hc
  cases c <;> simp_all [Call.isStepOne, Call.isOutbound]

/-- The outbound calls of an update, of either role: none, one, or
`send_tx_registered` followed by `confirm_kernel`. -/
theorem update_outbound (env : Env K S P CP) (role : Bool) (w : TxState K S P CP) :
    (w.callsSince (BaseTransaction.update env role w)).filter Call.isOutbound = [] ∨
    (∃ c, (w.callsSince (BaseTransaction.update env role w)).filter Call.isOutbound = [c]) ∨
    (∃ d d1 kernel,
      (w.callsSince (BaseTransaction.update env role w)).filter Call.isOutbound =
        [Call.send_tx_registered d, Call.confirm_kernel d1 kernel]) := by
  obtain ⟨w1, L, T, -, he, -, hL2, hT, hc⟩ := update_split env role w
  obtain ⟨-, -, T1, hT1, hcase⟩ := ending_facts env w1 _ he
  have hTT : T = T1 := List.append_cancel_left (hT.symm.trans hT1)
  subst hTT
  rw [hc, List.filter_append, filter_stepOne L hL2, List.nil_append]
  rcases hcase with ⟨rfl, -⟩ | ⟨c1, h1, rfl, -⟩ | ⟨n, rfl, -⟩ | ⟨told, kernel, rfl, -⟩ | ⟨rfl, -⟩
  · exact Or.inl rfl
  · refine Or.inr (Or.inl ⟨c1, ?_⟩)
    cases c1 <;> simp_all [Call.isSingle, Call.isOutbound]
  · cases n
    · exact Or.inl (by simp [Call.isOutbound])
    · exact Or.inr (Or.inl ⟨Call.send_tx_failed (failedDesc env w1),
        by simp [Call.isOutbound]⟩)
  · cases told
    · exact Or.inr (Or.inl ⟨Call.confirm_kernel (registeredDesc env w1) kernel,
        by simp [Call.isOutbound]⟩)
    · exact Or.inr (Or.inr ⟨w1.m_txDesc, registeredDesc env w1, kernel,
        by simp [Call.isOutbound]⟩)
  · exact Or.inl (by simp [Call.isOutbound])

/-- C26 as amended: for every persisted state, a single invocation of
`SendTransaction::update` or `ReceiveTransaction::update` emits at most one
message to the peer (`send_tx_invitation`, `send_tx_confirmation`,
`send_tx_registered`, `send_tx_failed`) and at most one request to the node
(`register_tx`, `confirm_kernel`); its outbound calls are none, one, or the
two calls `send_tx_registered` and `confirm_kernel`, in this order. -/
theorem C26_outbound_calls (env : Env K S P CP) (role : Bool) (w : TxState K S P CP) :
    ((w.callsSince (BaseTransaction.update env role w)).filter Call.isPeerMessage).length ≤ 1 ∧
    ((w.callsSince (BaseTransaction.update env role w)).filter Call.isNodeRequest).length ≤ 1 ∧
    ((w.callsSince (BaseTransaction.update env role w)).filter Call.isOutbound = [] ∨
      (∃ c, (w.callsSince (BaseTransaction.update env role w)).filter Call.isOutbound = [c]) ∨
      (∃ d d1 kernel,
        (w.callsSince (BaseTransaction.update env role w)).filter Call.isOutbound =
          [Call.send_tx_registered d, Call.confirm_kernel d1 kernel])) := by
  have hp : ∀ l : List (Call S P),
      l.filter Call.isPeerMessage = (l.filter Call.isOutbound).filter
        (fun c => !Call.isNodeRequest c) := by
    intro l
    rw [List.filter_filter]
    congr 1
    funext c
    rw [(outbound_kinds c).1, Bool.and_comm]
  have hn : ∀ l : List (Call S P),
      l.filter Call.isNodeRequest = (l.filter Call.isOutbound).filter
        (fun c => !Call.isPeerMessage c) := by
    intro l
    rw [List.filter_filter]
    congr 1
    funext c
    rw [(outbound_kinds c).2, Bool.and_comm]
  have h := update_outbound env role w
  refine ⟨?_, ?_, h⟩
  · rw [hp]
    rcases h with h | ⟨c, h⟩ | ⟨d, d1, kernel, h⟩ <;> rw [h]
    · simp
    · exact (List.length_filter_le _ _).trans (by simp)
    · simp [Call.isNodeRequest]
  · rw [hn]
    rcases h with h | ⟨c, h⟩ | ⟨d, d1, kernel, h⟩ <;> rw [h]
    · simp
    · exact (List.length_filter_le _ _).trans (by simp)
    · simp [Call.isPeerMessage]

/-- C26 as stated fails: a receiver whose transaction the node has registered
emits two outbound calls in one `update()`, `send_tx_registered` to the peer
and `confirm_kernel` to the node. -/
theorem C26_counterexample :
    ((ReceiveTransaction.update (intEnv true 5)
      (signedState (pendingTx false 40 1) [] [] [] (some true) none)).calls.filter
        Call.isOutbound).map (fun c => (Call.isRegistered c, Call.isConfirmKernel c)) =
      [(true, false), (false, true)] := by
  decide

/-- C27 as amended: the statuses that `update()` and `cancel()` write.  Every
`update()` call, from any starting status, saves the status InProgress only
among the calls of its first `if`, and after them it saves at most one status,
which is Failed, Registered or Completed; the status it leaves is the status
before the call or one of InProgress, Registered, Completed and Failed.
`cancel()` leaves a Pending transaction Pending (it deletes it) and sets every
other status to Cancelled.  The status before the call is not tested, apart
from the test for Pending in `cancel()`. -/
theorem C27_statuses_written (env : Env K S P CP) (role : Bool) (w : TxState K S P CP) :
    (∃ L T : List (Call S P),
      w.callsSince (BaseTransaction.update env role w) = L ++ T ∧
      (∀ c ∈ L, ∀ s, Call.savedStatus c = some s → s = TxStatus.InProgress) ∧
      (T.filterMap Call.savedStatus = [] ∨ T.filterMap Call.savedStatus = [TxStatus.Failed] ∨
        T.filterMap Call.savedStatus = [TxStatus.Registered] ∨
        T.filterMap Call.savedStatus = [TxStatus.Completed]) ∧
      (T.filterMap Call.savedStatus = [] →
        (BaseTransaction.update env role w).m_txDesc.m_status = w.m_txDesc.m_status ∨
        (BaseTransaction.update env role w).m_txDesc.m_status = TxStatus.InProgress) ∧
      (∀ s, T.filterMap Call.savedStatus = [s] →
        (BaseTransaction.update env role w).m_txDesc.m_status = s)) ∧
    ((BaseTransaction.update env role w).m_txDesc.m_status = w.m_txDesc.m_status ∨
      (BaseTransaction.update env role w).m_txDesc.m_status = TxStatus.InProgress ∨
      (BaseTransaction.update env role w).m_txDesc.m_status = TxStatus.Registered ∨
      (BaseTransaction.update env role w).m_txDesc.m_status = TxStatus.Completed ∨
      (BaseTransaction.update env role w).m_txDesc.m_status = TxStatus.Failed) ∧
    (BaseTransaction.cancel env w).m_txDesc.m_status =
      (if w.m_txDesc.m_status = TxStatus.Pending then TxStatus.Pending
       else TxStatus.Cancelled) := by
  obtain ⟨w1, L, T, hs, he, -, hL2, hT, hc⟩ := update_split env role w
  obtain ⟨-, -, T1, hT1, hcase⟩ := ending_facts env w1 _ he
  have hTT : T = T1 := List.append_cancel_left (hT.symm.trans hT1)
  subst hTT
  have hw1 := hs.2.2.1
  have hidle : (BaseTransaction.update env role w).m_txDesc = w1.m_txDesc →
      (BaseTransaction.update env role w).m_txDesc.m_status = w.m_txDesc.m_status ∨
      (BaseTransaction.update env role w).m_txDesc.m_status = TxStatus.InProgress := by
    intro h
    rw [h]
    exact hw1
  refine ⟨⟨L, T, hc, fun c hm => (stepOne_kinds c (hL2 c hm)).2.2.2.2.1, ?_⟩, ?_, ?_⟩
  · rcases hcase with ⟨rfl, h, -⟩ | ⟨c1, h1, rfl, h, -⟩ | ⟨n, rfl, -, h, -⟩ |
        ⟨told, kernel, rfl, h⟩ | ⟨rfl, h, -⟩
    · exact ⟨Or.inl rfl, fun _ => hidle h, fun s hs => by simp at hs⟩
    · have hn : ([c1] : List (Call S P)).filterMap Call.savedStatus = [] := by
        cases c1 <;> simp_all [Call.isSingle, Call.savedStatus]
      rw [hn]
      exact ⟨Or.inl rfl, fun _ => hidle h, fun s hs => by simp at hs⟩
    · have hn : (([Call.saveTx (failedDesc env w1), Call.rollbackTx w1.m_txDesc.m_txId] ++
          (if n = true then [Call.send_tx_failed (failedDesc env w1)] else []) ++
          [Call.on_tx_completed (failedDesc env w1)] : List (Call S P))).filterMap
            Call.savedStatus = [TxStatus.Failed] := by
        cases n <;> simp [Call.savedStatus, failedDesc]
      rw [hn]
      refine ⟨Or.inr (Or.inl rfl), fun hs => by simp at hs, fun s hs => ?_⟩
      simp only [List.cons.injEq, and_true] at hs
      rw [← hs]
      exact h
    · have hn : (((if told = true then [Call.send_tx_registered w1.m_txDesc] else []) ++
          [Call.saveTx (registeredDesc env w1), Call.update (unconfirmedCoins env w1),
            Call.confirm_kernel (registeredDesc env w1) kernel] : List (Call S P))).filterMap
            Call.savedStatus = [TxStatus.Registered] := by
        cases told <;> simp [Call.savedStatus, registeredDesc]
      rw [hn]
      refine ⟨Or.inr (Or.inr (Or.inl rfl)), fun hs => by simp at hs, fun s hs => ?_⟩
      simp only [List.cons.injEq, and_true] at hs
      rw [← hs]
      exact h
    · have hn : ([Call.saveTx (completedDesc env w1),
          Call.on_tx_completed (completedDesc env w1)] : List (Call S P)).filterMap
            Call.savedStatus = [TxStatus.Completed] := by
        simp [Call.savedStatus, completedDesc]
      rw [hn]
      refine ⟨Or.inr (Or.inr (Or.inr rfl)), fun hs => by simp at hs, fun s hs => ?_⟩
      simp only [List.cons.injEq, and_true] at hs
      rw [← hs]
      exact h
  · rcases hcase with ⟨-, h, -⟩ | ⟨c1, -, -, h, -⟩ | ⟨n, -, -, h, -⟩ |
        ⟨told, kernel, -, h⟩ | ⟨-, h, -⟩
    · rcases hidle h with h1 | h1
      · exact Or.inl h1
      · exact Or.inr (Or.inl h1)
    · rcases hidle h with h1 | h1
      · exact Or.inl h1
      · exact Or.inr (Or.inl h1)
    · exact Or.inr (Or.inr (Or.inr (Or.inr h)))
    · exact Or.inr (Or.inr (Or.inl h))
    · exact Or.inr (Or.inr (Or.inr (Or.inl h)))
  · unfold BaseTransaction.cancel
    split <;> rename_i h
    · simp only [h]
    · rfl

/-- C27 as stated fails.  `update()` changes the status of a Completed
transaction to Registered when the store says that the transaction is
registered and holds no kernel proof; it takes a Pending transaction to
Completed in one call when the store holds everything; and it takes a Failed
transaction to InProgress when funds are there.  `cancel()` changes the
status of a Failed transaction to Cancelled. -/
theorem C27_counterexample :
    (ReceiveTransaction.update (intEnv true 5)
      (signedState { pendingTx false 40 1 with m_status := TxStatus.Completed } [] [] []
        (some true) none)).m_txDesc.m_status = TxStatus.Registered ∧
    (ReceiveTransaction.update (intEnv true 5)
      (signedState (pendingTx false 40 1) [] [] [] (some true)
        (some []))).m_txDesc.m_status = TxStatus.Completed ∧
    (SendTransaction.update (intEnv true 5)
      (freshState { pendingTx true 40 1 with m_status := TxStatus.Failed }
        [confirmedCoin 1 100])).m_txDesc.m_status = TxStatus.InProgress ∧
    (BaseTransaction.cancel (intEnv true 5)
      (freshState { pendingTx true 40 1 with m_status := TxStatus.Failed }
        [])).m_txDesc.m_status = TxStatus.Cancelled := by
  decide

/-- C30 as stated fails: an `update()` call that finds the status Failed and
does not fail itself leaves the status Failed and calls no `rollbackTx`.  The
receiver of the examples fails in its first `update()` for the absent
parameters of its peer; when they are delivered, its next `update()` sends the
confirmation, which is its only call, and leaves the status Failed. -/
theorem C30_counterexample :
    (ReceiveTransaction.update (intEnv true 5) receiverExample).m_txDesc.m_status =
      TxStatus.Failed ∧
    lateInvitation.m_txDesc.m_status = TxStatus.Failed ∧
    (ReceiveTransaction.update (intEnv true 5) lateInvitation).m_txDesc.m_status =
      TxStatus.Failed ∧
    (lateInvitation.callsSince (ReceiveTransaction.update (intEnv true 5) lateInvitation)).map
        (fun c => (Call.isRollback c, Call.isConfirmation c)) = [(false, true)] := by
  decide

/-- C30 as amended: the rollback invariant.  Every `update()` call that sets
the status Failed (it leaves the status Failed, and the status was not Failed
before or a Failed description is saved in the call) ends with `saveTx` (Failed),
`rollbackTx(txId)`, `send_tx_failed` when it notifies, and `on_tx_completed`:
`rollbackTx(txId)` is called in the same invocation and no `store` or
`update` follows it, so the ledger it leaves is the one that
`rollbackTx(txId)` returned; `update()` never sets the status Cancelled.
Every `cancel()` call that leaves the status Cancelled is `saveTx`
(Cancelled), `rollbackTx(txId)`, `send_tx_failed`, and leaves the ledger that
`rollbackTx(txId)` returned.  Hence, when `rollbackTx(txId)` returns ledgers
in which no coin that carries `txId` in `createTxId` or `spentTxId` is Draft
or Locked, no such coin is left. -/
theorem C30_rollback_invariant (env : Env K S P CP) (role : Bool) (w : TxState K S P CP) :
    ((BaseTransaction.update env role w).m_txDesc.m_status = TxStatus.Failed →
      (w.m_txDesc.m_status ≠ TxStatus.Failed ∨
        ∃ d, d.m_status = TxStatus.Failed ∧
          Call.saveTx d ∈ w.callsSince (BaseTransaction.update env role w)) →
      ∃ (L : List (Call S P)) (d : TxDescription) (notify : Bool) (k : K),
        w.callsSince (BaseTransaction.update env role w) =
          L ++ ([Call.saveTx d, Call.rollbackTx w.m_txDesc.m_txId] ++
            (if notify then [Call.send_tx_failed d] else []) ++ [Call.on_tx_completed d]) ∧
        (∀ c ∈ L, Call.isStepOne c = true) ∧
        (BaseTransaction.update env role w).m_keychain =
          env.keychain.rollbackTx k w.m_txDesc.m_txId ∧
        ((∀ c ∈ env.keychain.visit (env.keychain.rollbackTx k w.m_txDesc.m_txId),
            c.m_createTxId = some w.m_txDesc.m_txId ∨ c.m_spentTxId = some w.m_txDesc.m_txId →
            c.m_status ≠ CoinStatus.Draft ∧ c.m_status ≠ CoinStatus.Locked) →
          ∀ c ∈ env.keychain.visit (BaseTransaction.update env role w).m_keychain,
            c.m_createTxId = some w.m_txDesc.m_txId ∨ c.m_spentTxId = some w.m_txDesc.m_txId →
            c.m_status ≠ CoinStatus.Draft ∧ c.m_status ≠ CoinStatus.Locked)) ∧
    ((BaseTransaction.update env role w).m_txDesc.m_status = TxStatus.Cancelled →
      w.m_txDesc.m_status = TxStatus.Cancelled) ∧
    ((BaseTransaction.cancel env w).m_txDesc.m_status = TxStatus.Cancelled ∨
        (BaseTransaction.cancel env w).m_txDesc.m_status = TxStatus.Failed →
      w.callsSince (BaseTransaction.cancel env w) =
        [Call.saveTx (cancelledDesc env w), Call.rollbackTx w.m_txDesc.m_txId,
          Call.send_tx_failed (cancelledDesc env w)] ∧
      (BaseTransaction.cancel env w).m_txDesc.m_status = TxStatus.Cancelled ∧
      (BaseTransaction.cancel env w).m_keychain =
        env.keychain.rollbackTx w.m_keychain w.m_txDesc.m_txId ∧
      ((∀ c ∈ env.keychain.visit (env.keychain.rollbackTx w.m_keychain w.m_txDesc.m_txId),
          c.m_createTxId = some w.m_txDesc.m_txId ∨ c.m_spentTxId = some w.m_txDesc.m_txId →
          c.m_status ≠ CoinStatus.Draft ∧ c.m_status ≠ CoinStatus.Locked) →
        ∀ c ∈ env.keychain.visit (BaseTransaction.cancel env w).m_keychain,
          c.m_createTxId = some w.m_txDesc.m_txId ∨ c.m_spentTxId = some w.m_txDesc.m_txId →
          c.m_status ≠ CoinStatus.Draft ∧ c.m_status ≠ CoinStatus.Locked)) := by
  obtain ⟨w1, L, T, hs, he, -, hL2, hT, hc⟩ := update_split env role w
  obtain ⟨-, -, T1, hT1, hcase⟩ := ending_facts env w1 _ he
  have hTT : T = T1 := List.append_cancel_left (hT.symm.trans hT1)
  subst hTT
  have hw1 := hs.2.2.1
  have hid := hs.2.1
  refine ⟨?_, ?_, ?_⟩
  · intro hfail hset
    have hidle : (BaseTransaction.update env role w).m_txDesc = w1.m_txDesc →
        ∀ T0 : List (Call S P), T = T0 → (∀ c ∈ T0, Call.savedStatus c = none) → False := by
      intro h T0 hT0 hno
      rw [h] at hfail
      rcases hset with h1 | ⟨d, hd, hmem⟩
      · rcases hw1 with h2 | h2
        · exact h1 (h2.symm.trans hfail)
        · rw [h2] at hfail
          cases hfail
      · rw [hc] at hmem
        rcases List.mem_append.mp hmem with hm | hm
        · have h3 := (stepOne_kinds _ (hL2 _ hm)).2.2.2.2.1 d.m_status rfl
          rw [hd] at h3
          cases h3
        · rw [hT0] at hm
          have h3 := hno _ hm
          cases h3
    rcases hcase with ⟨hT0, h, -⟩ | ⟨c1, h1, hT0, h, -⟩ | ⟨n, hT0, -, -, hk⟩ |
        ⟨told, kernel, hT0, h⟩ | ⟨hT0, h, -⟩
    · exact (hidle h [] hT0 (by simp)).elim
    · refine (hidle h [c1] hT0 ?_).elim
      intro c hm
      simp only [List.mem_singleton] at hm
      subst hm
      cases c <;> simp_all [Call.isSingle, Call.savedStatus]
    · refine ⟨L, failedDesc env w1, n, w1.m_keychain, ?_, hL2, ?_, ?_⟩
      · rw [hc, hT0, hid]
      · rw [hk, hid]
      · intro hroll
        rw [hk, hid]
        exact hroll
    · rw [h] at hfail
      cases hfail
    · rw [h] at hfail
      cases hfail
  · intro hcan
    rcases hcase with ⟨-, h, -⟩ | ⟨c1, -, -, h, -⟩ | ⟨n, -, -, h, -⟩ |
        ⟨told, kernel, -, h⟩ | ⟨-, h, -⟩
    · rw [h] at hcan
      rcases hw1 with h2 | h2
      · exact h2.symm.trans hcan
      · rw [h2] at hcan
        cases hcan
    · rw [h] at hcan
      rcases hw1 with h2 | h2
      · exact h2.symm.trans hcan
      · rw [h2] at hcan
        cases hcan
    · rw [h] at hcan
      cases hcan
    · rw [h] at hcan
      cases hcan
    · rw [h] at hcan
      cases hcan
  · intro hcan
    have hnp : ¬ w.m_txDesc.m_status = TxStatus.Pending := by
      intro hp
      have h1 : (BaseTransaction.cancel env w).m_txDesc.m_status = TxStatus.Pending := by
        unfold BaseTransaction.cancel
        simp only [hp, if_true]
      rw [h1] at hcan
      rcases hcan with h | h <;> cases h
    have hcalls := cancel_calls env w
    rw [if_neg hnp] at hcalls
    have hk : (BaseTransaction.cancel env w).m_keychain =
        env.keychain.rollbackTx w.m_keychain w.m_txDesc.m_txId := by
      unfold BaseTransaction.cancel
      simp only [if_neg hnp]
      rfl
    refine ⟨hcalls, ?_, hk, ?_⟩
    · unfold BaseTransaction.cancel
      simp only [if_neg hnp]
      rfl
    · intro hroll
      rw [hk]
      exact hroll

/-- C30, at a receiver that has created its output coin and fails for a peer
signature that does not verify: the call ends with `rollbackTx(1)` and leaves
the output coin Cancelled. -/
theorem C30_rollback_invariant_witness :
    (ReceiveTransaction.update (intEnv true 5)
      (answeredState (pendingTx false 40 1)
        [{ m_id := 3, m_amount := 40, m_status := CoinStatus.Draft, m_height := 0,
           m_createTxId := some 1, m_spentTxId := none }] 9)).m_txDesc.m_status =
      TxStatus.Failed ∧
    (ReceiveTransaction.update (intEnv true 5)
      (answeredState (pendingTx false 40 1)
        [{ m_id := 3, m_amount := 40, m_status := CoinStatus.Draft, m_height := 0,
           m_createTxId := some 1, m_spentTxId := none }] 9)).m_keychain =
      [{ m_id := 3, m_amount := 40, m_status := CoinStatus.Cancelled, m_height := 0,
         m_createTxId := some 1, m_spentTxId := none }] ∧
    ∃ (L : List (Call Int (Int × Int))) (d : TxDescription) (notify : Bool),
      (answeredState (pendingTx false 40 1)
        [{ m_id := 3, m_amount := 40, m_status := CoinStatus.Draft, m_height := 0,
           m_createTxId := some 1, m_spentTxId := none }] 9).callsSince
        (BaseTransaction.update (intEnv true 5) false
          (answeredState (pendingTx false 40 1)
            [{ m_id := 3, m_amount := 40, m_status := CoinStatus.Draft, m_height := 0,
               m_createTxId := some 1, m_spentTxId := none }] 9)) =
        L ++ ([Call.saveTx d, Call.rollbackTx 1] ++
          (if notify then [Call.send_tx_failed d] else []) ++ [Call.on_tx_completed d]) := by
  refine ⟨by decide, by decide, ?_⟩
  obtain ⟨L, d, notify, k, h, -⟩ := (C30_rollback_invariant (intEnv true 5) false
    (answeredState (pendingTx false 40 1)
      [{ m_id := 3, m_amount := 40, m_status := CoinStatus.Draft, m_height := 0,
         m_createTxId := some 1, m_spentTxId := none }] 9)).1 (by decide)
    (Or.inl (by decide))
  exact ⟨L, d, notify, h⟩

end Invariants

/-! ## Resumption -/

section Resumption

variable {K S P CP : Type} [CommRing S] [AddCommGroup P] [Module S P] [DecidableEq P]

theorem onFailed_saved (env : Env K S P CP) (w : TxState K S P CP) (notify : Bool) :
    (BaseTransaction.onFailed env w notify).savedTx =
      some (BaseTransaction.onFailed env w notify).m_txDesc := by
  rw [onFailed_savedTx, onFailed_txDesc]

/-- An ending leaves the description of the object saved, if it was. -/
theorem ending_saved (env : Env K S P CP) (w1 r : TxState K S P CP)
    (he : UpdateEnding env w1 r) (h : w1.savedTx = some w1.m_txDesc) :
    r.savedTx = some r.m_txDesc := by
  rcases he with rfl | ⟨c, -, rfl⟩ | ⟨n, rfl⟩ | ⟨told, kernel, rfl⟩ | rfl
  · exact h
  · exact h
  · exact onFailed_saved env w1 n
  · cases told <;> rfl
  · rfl

theorem peerIsOwn_false (env : Env K S P CP) (w : TxState K S P CP)
    (hown : ∀ k a, env.keychain.getAddress k w.m_txDesc.m_peerId = some a → a.m_own = false) :
    SendTransaction.peerIsOwn env w = false := by
  unfold SendTransaction.peerIsOwn
  cases h : env.keychain.getAddress w.m_keychain w.m_txDesc.m_peerId with
  | none => rfl
  | some a => exact hown _ a h

theorem reserveCoins_peerId (env : Env K S P CP) (w : TxState K S P CP) (coins : List Coin)
    (awf : Amount) (ch : Height) (be off : S) :
    (SendTransaction.reserveCoins env w coins awf ch be off).1.m_txDesc.m_peerId =
      w.m_txDesc.m_peerId := by
  rw [reserveCoins_txDesc]
  split <;> rfl

theorem updateReserve_saved (env : Env K S P CP) (w : TxState K S P CP) (i : Bool)
    (be off : S)
    (hown : ∀ k a, env.keychain.getAddress k w.m_txDesc.m_peerId = some a → a.m_own = false) :
    match SendTransaction.updateReserve env w i be off with
    | Sum.inl r => r.savedTx = some r.m_txDesc
    | Sum.inr x => x.1.savedTx = some x.1.m_txDesc := by
  unfold SendTransaction.updateReserve
  by_cases hs : w.m_txDesc.m_sender = true
  · simp only [hs, if_true]
    by_cases he : (env.keychain.selectCoins
        (w.setMinHeight (env.keychain.getCurrentHeight w.m_keychain)).m_keychain
        (add64 (w.setMinHeight (env.keychain.getCurrentHeight w.m_keychain)).m_txDesc.m_amount
          (w.setMinHeight
            (env.keychain.getCurrentHeight w.m_keychain)).m_txDesc.m_fee)).isEmpty = true
    · simp only [he, if_true]
      exact onFailed_saved env _ _
    · simp only [he, if_false]
      unfold SendTransaction.updateReserveCoins
      simp only []
      rw [peerIsOwn_false env _ (by
        intro k a
        rw [reserveCoins_peerId]
        exact hown k a)]
      rfl
  · simp only [hs]
    rfl

/-- The first `if` of `SendTransaction::update` leaves the description saved,
unless it returns for a peer that is an own address. -/
theorem sendEntry_saved (env : Env K S P CP) (w : TxState K S P CP)
    (h : w.savedTx = some w.m_txDesc)
    (hown : ∀ k a, env.keychain.getAddress k w.m_txDesc.m_peerId = some a → a.m_own = false) :
    match SendTransaction.updateEntry env w with
    | Sum.inl r => r.savedTx = some r.m_txDesc
    | Sum.inr x => x.1.savedTx = some x.1.m_txDesc := by
  cases hF : w.params.FailureReason with
  | some reason =>
    simp only [SendTransaction.updateEntry, hF]
    exact onFailed_saved env w false
  | none =>
    cases hbe : w.params.BlindingExcess with
    | none =>
      simp only [SendTransaction.updateEntry, hF, hbe]
      exact updateReserve_saved env w _ _ _ hown
    | some be =>
      cases hoff : w.params.Offset with
      | none =>
        simp only [SendTransaction.updateEntry, hF, hbe, hoff]
        exact updateReserve_saved env w _ _ _ hown
      | some off =>
        simp only [SendTransaction.updateEntry, hF, hbe, hoff]
        exact h

/-- The update of either role leaves the description of the object saved, if
it was and the peer is no own address. -/
theorem update_saved (env : Env K S P CP) (role : Bool) (w : TxState K S P CP)
    (h : w.savedTx = some w.m_txDesc)
    (hown : ∀ k a, env.keychain.getAddress k w.m_txDesc.m_peerId = some a → a.m_own = false) :
    (BaseTransaction.update env role w).savedTx =
      some (BaseTransaction.update env role w).m_txDesc := by
  cases role
  · simp only [BaseTransaction.update, Bool.false_eq_true, if_false]
    have hc : (ReceiveTransaction.updateCreateOutput env w).savedTx =
        some (ReceiveTransaction.updateCreateOutput env w).m_txDesc := by
      unfold ReceiveTransaction.updateCreateOutput
      split
      · exact h
      · rfl
    refine ending_saved env (ReceiveTransaction.updateCreateOutput env w) _ ?_ hc
    unfold ReceiveTransaction.update ReceiveTransaction.updateEntry
    simp only []
    cases (ReceiveTransaction.updateCreateOutput env w).params.BlindingExcess with
    | none => exact ending_failed env _ true
    | some be =>
      cases (ReceiveTransaction.updateCreateOutput env w).params.Offset with
      | none => exact ending_failed env _ true
      | some off => exact receiveNegotiate_ending env _ be off
  · simp only [BaseTransaction.update, if_true]
    have hs := sendEntry_saved env w h hown
    unfold SendTransaction.update
    cases hentry : SendTransaction.updateEntry env w with
    | inl r =>
      rw [hentry] at hs
      exact hs
    | inr x =>
      rw [hentry] at hs
      exact ending_saved env x.1 _ (sendNegotiate_ending env x.1 _ _ _ _) hs

@[simp] theorem descAtTime_txId (d : TxDescription) (t : Nat) :
    (d.atTime t).m_txId = d.m_txId := rfl

@[simp] theorem descAtTime_amount (d : TxDescription) (t : Nat) :
    (d.atTime t).m_amount = d.m_amount := rfl

@[simp] theorem descAtTime_fee (d : TxDescription) (t : Nat) :
    (d.atTime t).m_fee = d.m_fee := rfl

@[simp] theorem descAtTime_minHeight (d : TxDescription) (t : Nat) :
    (d.atTime t).m_minHeight = d.m_minHeight := rfl

@[simp] theorem descAtTime_peerId (d : TxDescription) (t : Nat) :
    (d.atTime t).m_peerId = d.m_peerId := rfl

@[simp] theorem descAtTime_sender (d : TxDescription) (t : Nat) :
    (d.atTime t).m_sender = d.m_sender := rfl

@[simp] theorem atTime_txDesc (w : TxState K S P CP) (t : Nat) :
    (w.atTime t).m_txDesc = w.m_txDesc.atTime t := rfl

@[simp] theorem atTime_keychain (w : TxState K S P CP) (t : Nat) :
    (w.atTime t).m_keychain = w.m_keychain := rfl

@[simp] theorem atTime_params (w : TxState K S P CP) (t : Nat) :
    (w.atTime t).params = w.params := rfl

@[simp] theorem atTime_calls (w : TxState K S P CP) (t : Nat) :
    (w.atTime t).calls = w.calls.map (Call.atTime t) := rfl

@[simp] theorem atTime_savedTx (w : TxState K S P CP) (t : Nat) :
    (w.atTime t).savedTx = w.savedTx.map (fun d => d.atTime t) := rfl

@[simp] theorem envAtTime_ecc (env : Env K S P CP) (t : Nat) : (env.atTime t).ecc = env.ecc := rfl

@[simp] theorem envAtTime_keychain (env : Env K S P CP) (t : Nat) :
    (env.atTime t).keychain = env.keychain := rfl

@[simp] theorem envAtTime_txSort (env : Env K S P CP) (t : Nat) :
    (env.atTime t).txSort = env.txSort := rfl

@[simp] theorem envAtTime_IsValid (env : Env K S P CP) (t : Nat) :
    (env.atTime t).IsValid = env.IsValid := rfl

@[simp] theorem envAtTime_get_tip (env : Env K S P CP) (t : Nat) :
    (env.atTime t).get_tip = env.get_tip := rfl

@[simp] theorem envAtTime_IsValidProofKernel (env : Env K S P CP) (t : Nat) :
    (env.atTime t).IsValidProofKernel = env.IsValidProofKernel := rfl

@[simp] theorem envAtTime_isTestMode (env : Env K S P CP) (t : Nat) :
    (env.atTime t).isTestMode = env.isTestMode := rfl

@[simp] theorem envAtTime_getTimestamp (env : Env K S P CP) (t : Nat) :
    (env.atTime t).getTimestamp = t := rfl

theorem emit_atTime (w : TxState K S P CP) (t : Nat) (c : Call S P) :
    (w.atTime t).emit (Call.atTime t c) = (w.emit c).atTime t := by
  simp [TxState.atTime, TxState.emit]

theorem setMinHeight_atTime (w : TxState K S P CP) (t : Nat) (h : Height) :
    (w.atTime t).setMinHeight h = (w.setMinHeight h).atTime t := rfl

theorem setChange_atTime (w : TxState K S P CP) (t : Nat) (a : Amount) :
    (w.atTime t).setChange a = (w.setChange a).atTime t := rfl

theorem keychainUpdate_atTime (env : Env K S P CP) (w : TxState K S P CP) (t : Nat)
    (cs : List Coin) :
    (w.atTime t).keychainUpdate (env.atTime t) cs = (w.keychainUpdate env cs).atTime t := by
  simp [TxState.atTime, TxState.keychainUpdate, Call.atTime, Env.atTime]

theorem keychainStore_atTime (env : Env K S P CP) (w : TxState K S P CP) (t : Nat) (c : Coin) :
    (w.atTime t).keychainStore (env.atTime t) c =
      ((w.keychainStore env c).1.atTime t, (w.keychainStore env c).2) := by
  simp [TxState.atTime, TxState.keychainStore, Call.atTime, Env.atTime]

theorem setBlindingExcess_atTime (w : TxState K S P CP) (t : Nat) (v : S) :
    (w.atTime t).setBlindingExcess v = (w.setBlindingExcess v).atTime t := by
  simp [TxState.atTime, TxState.setBlindingExcess, Call.atTime]

theorem setOffset_atTime (w : TxState K S P CP) (t : Nat) (v : S) :
    (w.atTime t).setOffset v = (w.setOffset v).atTime t := by
  simp [TxState.atTime, TxState.setOffset, Call.atTime]

theorem setOutputs_atTime (w : TxState K S P CP) (t : Nat) (v : List (Output P)) :
    (w.atTime t).setOutputs v = (w.setOutputs v).atTime t := by
  simp [TxState.atTime, TxState.setOutputs, Call.atTime]

theorem updateTxDescription_atTime (env : Env K S P CP) (w : TxState K S P CP) (t : Nat)
    (st : TxStatus) :
    BaseTransaction.updateTxDescription (env.atTime t) (w.atTime t) st =
      (BaseTransaction.updateTxDescription env w st).atTime t := by
  simp [TxState.atTime, BaseTransaction.updateTxDescription, Call.atTime, Env.atTime,
    TxDescription.atTime]

theorem rollbackTx_atTime (env : Env K S P CP) (w : TxState K S P CP) (t : Nat) :
    BaseTransaction.rollbackTx (env.atTime t) (w.atTime t) =
      (BaseTransaction.rollbackTx env w).atTime t := by
  simp [TxState.atTime, BaseTransaction.rollbackTx, Call.atTime, Env.atTime,
    TxDescription.atTime]

theorem emit_failed_atTime (w : TxState K S P CP) (t : Nat) (d : TxDescription) :
    (w.atTime t).emit (Call.send_tx_failed (d.atTime t)) =
      (w.emit (Call.send_tx_failed d)).atTime t :=
  emit_atTime w t (Call.send_tx_failed d)

theorem emit_completed_atTime (w : TxState K S P CP) (t : Nat) (d : TxDescription) :
    (w.atTime t).emit (Call.on_tx_completed (d.atTime t)) =
      (w.emit (Call.on_tx_completed d)).atTime t :=
  emit_atTime w t (Call.on_tx_completed d)

theorem emit_registered_atTime (w : TxState K S P CP) (t : Nat) (d : TxDescription) :
    (w.atTime t).emit (Call.send_tx_registered (d.atTime t)) =
      (w.emit (Call.send_tx_registered d)).atTime t :=
  emit_atTime w t (Call.send_tx_registered d)

theorem emit_invitation_atTime (w : TxState K S P CP) (t : Nat) (d : TxDescription)
    (m : Invite S P) :
    (w.atTime t).emit (Call.send_tx_invitation (d.atTime t) m) =
      (w.emit (Call.send_tx_invitation d m)).atTime t :=
  emit_atTime w t (Call.send_tx_invitation d m)

theorem emit_confirmation_atTime (w : TxState K S P CP) (t : Nat) (d : TxDescription)
    (m : ConfirmInvitation S P) :
    (w.atTime t).emit (Call.send_tx_confirmation (d.atTime t) m) =
      (w.emit (Call.send_tx_confirmation d m)).atTime t :=
  emit_atTime w t (Call.send_tx_confirmation d m)

theorem emit_confirmation_tx_atTime (w : TxState K S P CP) (t : Nat) (d : TxDescription)
    (m : ConfirmTransaction S) :
    (w.atTime t).emit (Call.send_tx_confirmation_tx (d.atTime t) m) =
      (w.emit (Call.send_tx_confirmation_tx d m)).atTime t :=
  emit_atTime w t (Call.send_tx_confirmation_tx d m)

theorem emit_register_tx_atTime (w : TxState K S P CP) (t : Nat) (d : TxDescription)
    (tx : Transaction S P) :
    (w.atTime t).emit (Call.register_tx (d.atTime t) tx) =
      (w.emit (Call.register_tx d tx)).atTime t :=
  emit_atTime w t (Call.register_tx d tx)

theorem emit_confirm_kernel_atTime (w : TxState K S P CP) (t : Nat) (d : TxDescription)
    (k : TxKernel S P) :
    (w.atTime t).emit (Call.confirm_kernel (d.atTime t) k) =
      (w.emit (Call.confirm_kernel d k)).atTime t :=
  emit_atTime w t (Call.confirm_kernel d k)

theorem emit_selectCoins_atTime (w : TxState K S P CP) (t : Nat) (a : Amount) :
    (w.atTime t).emit (Call.selectCoins a) = (w.emit (Call.selectCoins a)).atTime t :=
  emit_atTime w t (Call.selectCoins a)

theorem onFailed_atTime (env : Env K S P CP) (w : TxState K S P CP) (t : Nat) (notify : Bool) :
    BaseTransaction.onFailed (env.atTime t) (w.atTime t) notify =
      (BaseTransaction.onFailed env w notify).atTime t := by
  unfold BaseTransaction.onFailed
  cases notify <;>
    simp only [updateTxDescription_atTime, rollbackTx_atTime, atTime_txDesc, emit_failed_atTime,
      emit_completed_atTime, Bool.false_eq_true, if_false, if_true]

theorem confirmKernel_atTime (env : Env K S P CP) (w : TxState K S P CP) (t : Nat)
    (kernel : TxKernel S P) :
    BaseTransaction.confirmKernel (env.atTime t) (w.atTime t) kernel =
      (BaseTransaction.confirmKernel env w kernel).atTime t := by
  unfold BaseTransaction.confirmKernel
  simp only [updateTxDescription_atTime, atTime_txDesc, atTime_keychain, envAtTime_keychain,
    descAtTime_txId, keychainUpdate_atTime, emit_confirm_kernel_atTime]

theorem completeTx_atTime (env : Env K S P CP) (w : TxState K S P CP) (t : Nat) :
    BaseTransaction.completeTx (env.atTime t) (w.atTime t) =
      (BaseTransaction.completeTx env w).atTime t := by
  unfold BaseTransaction.completeTx
  simp only [updateTxDescription_atTime, atTime_txDesc, emit_completed_atTime]

theorem updateFinish_atTime (env : Env K S P CP) (w : TxState K S P CP) (t : Nat)
    (kernel : TxKernel S P) (proof : MerkleProof) :
    BaseTransaction.updateFinish (env.atTime t) (w.atTime t) kernel proof =
      (BaseTransaction.updateFinish env w kernel proof).atTime t := by
  unfold BaseTransaction.updateFinish
  simp only [completeTx_atTime, envAtTime_get_tip, envAtTime_IsValidProofKernel,
    envAtTime_isTestMode]
  split <;> rfl

theorem sendConfirmTransaction_atTime (w : TxState K S P CP) (t : Nat) (sig : S) :
    SendTransaction.sendConfirmTransaction (w.atTime t) sig =
      (SendTransaction.sendConfirmTransaction w sig).atTime t := by
  unfold SendTransaction.sendConfirmTransaction
  simp only [atTime_txDesc, descAtTime_txId, emit_confirmation_tx_atTime]

theorem persistExcess_atTime (env : Env K S P CP) (w : TxState K S P CP) (t : Nat) (be off : S) :
    SendTransaction.persistExcess (env.atTime t) (w.atTime t) be off =
      (SendTransaction.persistExcess env w be off).atTime t := by
  unfold SendTransaction.persistExcess
  simp only [setBlindingExcess_atTime, setOffset_atTime, updateTxDescription_atTime]

theorem createUtxo_atTime (env : Env K S P CP) (w : TxState K S P CP) (t : Nat) (a : Amount)
    (h : Height) (be off : S) :
    SendTransaction.createUtxo (env.atTime t) (w.atTime t) a h be off =
      ((SendTransaction.createUtxo env w a h be off).1.atTime t,
        (SendTransaction.createUtxo env w a h be off).2) := by
  unfold SendTransaction.createUtxo
  simp only [keychainStore_atTime, atTime_txDesc, descAtTime_txId, envAtTime_keychain,
    envAtTime_ecc]

theorem addKeys_atTime (env : Env K S P CP) (t : Nat) (be : S) (coins : List Coin) :
    addKeys (env.atTime t) be coins = addKeys env be coins := rfl

theorem reserveCoins_atTime (env : Env K S P CP) (w : TxState K S P CP) (t : Nat)
    (coins : List Coin) (awf : Amount) (ch : Height) (be off : S) :
    SendTransaction.reserveCoins (env.atTime t) (w.atTime t) coins awf ch be off =
      ((SendTransaction.reserveCoins env w coins awf ch be off).1.atTime t,
        (SendTransaction.reserveCoins env w coins awf ch be off).2) := by
  unfold SendTransaction.reserveCoins
  simp only [keychainUpdate_atTime, createUtxo_atTime, setChange_atTime, atTime_txDesc,
    descAtTime_txId, addKeys_atTime]
  split <;> rfl

theorem peerIsOwn_atTime (env : Env K S P CP) (w : TxState K S P CP) (t : Nat) :
    SendTransaction.peerIsOwn (env.atTime t) (w.atTime t) = SendTransaction.peerIsOwn env w :=
  rfl

theorem updateReserveCoins_atTime (env : Env K S P CP) (w : TxState K S P CP) (t : Nat)
    (coins : List Coin) (awf : Amount) (ch : Height) (be off : S) :
    SendTransaction.updateReserveCoins (env.atTime t) (w.atTime t) coins awf ch be off =
      TxState.atTimeResult (SendTransaction.updateReserveCoins env w coins awf ch be off) t := by
  unfold SendTransaction.updateReserveCoins
  simp only [reserveCoins_atTime, peerIsOwn_atTime, persistExcess_atTime]
  split <;> rfl

theorem updateReserve_atTime (env : Env K S P CP) (w : TxState K S P CP) (t : Nat) (i : Bool)
    (be off : S) :
    SendTransaction.updateReserve (env.atTime t) (w.atTime t) i be off =
      TxState.atTimeResult (SendTransaction.updateReserve env w i be off) t := by
  unfold SendTransaction.updateReserve
  simp only [atTime_txDesc, atTime_keychain, envAtTime_keychain, descAtTime_sender,
    descAtTime_amount, descAtTime_fee, descAtTime_minHeight,
    setMinHeight_atTime, emit_selectCoins_atTime, onFailed_atTime, updateReserveCoins_atTime,
    createUtxo_atTime, persistExcess_atTime]
  split
  · split <;> rfl
  · rfl

theorem sendEntry_atTime (env : Env K S P CP) (w : TxState K S P CP) (t : Nat) :
    SendTransaction.updateEntry (env.atTime t) (w.atTime t) =
      TxState.atTimeResult (SendTransaction.updateEntry env w) t := by
  unfold SendTransaction.updateEntry
  simp only [atTime_params, onFailed_atTime, updateReserve_atTime]
  split
  · rfl
  · split <;> rfl

theorem getTxInputs_atTime (env : Env K S P CP) (t : Nat) (k : K) (txID : TxID) :
    BaseTransaction.getTxInputs (env.atTime t) k txID = BaseTransaction.getTxInputs env k txID :=
  rfl

theorem getTxOutputs_atTime (env : Env K S P CP) (t : Nat) (k : K) (txID : TxID) :
    BaseTransaction.getTxOutputs (env.atTime t) k txID =
      BaseTransaction.getTxOutputs env k txID := rfl

theorem assemble_atTime (env : Env K S P CP) (w : TxState K S P CP) (t : Nat)
    (kernel : TxKernel S P) (po off : S) (ins : List (Input P)) (outs : List (Output P)) :
    BaseTransaction.assemble (env.atTime t) (w.atTime t) kernel po off ins outs =
      BaseTransaction.assemble env w kernel po off ins outs := rfl

theorem updateCoSign_atTime (env : Env K S P CP) (d : TxDescription) (t : Nat) (be : S)
    (Rp Pp : P) :
    BaseTransaction.updateCoSign (env.atTime t) (d.atTime t) be Rp Pp =
      BaseTransaction.updateCoSign env d be Rp Pp := rfl

theorem getParameterPoint_atTime (env : Env K S P CP) (t : Nat) (stored : Option CP) :
    BaseTransaction.getParameterPoint (env.atTime t) stored =
      BaseTransaction.getParameterPoint env stored := rfl

theorem isValidPartial_atTime (env : Env K S P CP) (t : Nat) (sig : Signature S) (Rp Pp : P) :
    Signature.IsValidPartial (env.atTime t) sig Rp Pp = Signature.IsValidPartial env sig Rp Pp :=
  rfl

theorem createMultiSig_atTime (env : Env K S P CP) (t : Nat) (kernel : TxKernel S P) (be : S) :
    BaseTransaction.createMultiSig (env.atTime t) kernel be =
      BaseTransaction.createMultiSig env kernel be := rfl

theorem sendRegister_atTime (env : Env K S P CP) (w : TxState K S P CP) (t : Nat) (i : Bool)
    (po off : S) (kernel : TxKernel S P) (ps : S) :
    SendTransaction.updateRegister (env.atTime t) (w.atTime t) i po off kernel ps =
      (SendTransaction.updateRegister env w i po off kernel ps).atTime t := by
  unfold SendTransaction.updateRegister
  simp only [atTime_params, atTime_txDesc, assemble_atTime, envAtTime_txSort,
    envAtTime_IsValid, onFailed_atTime, emit_register_tx_atTime, emit_registered_atTime,
    sendConfirmTransaction_atTime, confirmKernel_atTime, updateFinish_atTime]
  split
  · split
    · split <;> rfl
    · rfl
  · split
    · rfl
    · split
      · cases i <;> simp only [Bool.not_true, Bool.not_false, Bool.false_eq_true, if_false,
          if_true, confirmKernel_atTime]
      · rfl

theorem sendNegotiate_atTime (env : Env K S P CP) (w : TxState K S P CP) (t : Nat) (i : Bool)
    (po be off : S) :
    SendTransaction.updateNegotiate (env.atTime t) (w.atTime t) i po be off =
      (SendTransaction.updateNegotiate env w i po be off).atTime t := by
  unfold SendTransaction.updateNegotiate
  simp only [atTime_params, atTime_txDesc, atTime_keychain, getParameterPoint_atTime,
    updateCoSign_atTime, isValidPartial_atTime, createMultiSig_atTime, getTxInputs_atTime,
    getTxOutputs_atTime, envAtTime_ecc, descAtTime_txId, descAtTime_amount,
    descAtTime_fee, descAtTime_minHeight, descAtTime_sender,
    onFailed_atTime, emit_invitation_atTime, emit_confirmation_atTime, sendRegister_atTime]
  split
  · split
    · rfl
    · split <;> rfl
  · rfl

theorem send_update_atTime (env : Env K S P CP) (w : TxState K S P CP) (t : Nat) :
    SendTransaction.update (env.atTime t) (w.atTime t) =
      (SendTransaction.update env w).atTime t := by
  unfold SendTransaction.update
  rw [sendEntry_atTime]
  cases SendTransaction.updateEntry env w with
  | inl r => rfl
  | inr r =>
    simp only [TxState.atTimeResult, atTime_params]
    exact sendNegotiate_atTime env r.1 t _ _ _ _

theorem createOutput_atTime (env : Env K S P CP) (w : TxState K S P CP) (t : Nat) :
    ReceiveTransaction.updateCreateOutput (env.atTime t) (w.atTime t) =
      (ReceiveTransaction.updateCreateOutput env w).atTime t := by
  unfold ReceiveTransaction.updateCreateOutput
  simp only [atTime_params, atTime_txDesc, atTime_keychain, keychainStore_atTime,
    descAtTime_txId, descAtTime_amount, descAtTime_minHeight,
    envAtTime_keychain, envAtTime_ecc, getTxOutputs_atTime, setOutputs_atTime,
    setBlindingExcess_atTime, setOffset_atTime, updateTxDescription_atTime]
  split <;> rfl

theorem receiveRegister_atTime (env : Env K S P CP) (w : TxState K S P CP) (t : Nat)
    (po off : S) (kernel : TxKernel S P) :
    ReceiveTransaction.updateRegister (env.atTime t) (w.atTime t) po off kernel =
      (ReceiveTransaction.updateRegister env w po off kernel).atTime t := by
  unfold ReceiveTransaction.updateRegister
  simp only [atTime_params, atTime_txDesc, assemble_atTime, envAtTime_txSort,
    envAtTime_IsValid, onFailed_atTime, emit_register_tx_atTime, emit_registered_atTime,
    confirmKernel_atTime, updateFinish_atTime]
  split
  · split <;> rfl
  · split
    · rfl
    · split <;> rfl

theorem receiveNegotiate_atTime (env : Env K S P CP) (w : TxState K S P CP) (t : Nat)
    (be off : S) :
    ReceiveTransaction.updateNegotiate (env.atTime t) (w.atTime t) be off =
      (ReceiveTransaction.updateNegotiate env w be off).atTime t := by
  unfold ReceiveTransaction.updateNegotiate
  simp only [atTime_params, atTime_txDesc, getParameterPoint_atTime, updateCoSign_atTime,
    isValidPartial_atTime, descAtTime_txId, onFailed_atTime,
    emit_confirmation_atTime, receiveRegister_atTime]
  split
  · split
    · rfl
    · split <;> rfl
  · rfl

theorem receive_update_atTime (env : Env K S P CP) (w : TxState K S P CP) (t : Nat) :
    ReceiveTransaction.update (env.atTime t) (w.atTime t) =
      (ReceiveTransaction.update env w).atTime t := by
  unfold ReceiveTransaction.update ReceiveTransaction.updateEntry
  simp only [createOutput_atTime, atTime_params, onFailed_atTime]
  cases (ReceiveTransaction.updateCreateOutput env w).params.BlindingExcess with
  | none => rfl
  | some be =>
    cases (ReceiveTransaction.updateCreateOutput env w).params.Offset with
    | none => rfl
    | some off => exact receiveNegotiate_atTime env _ t be off

/-- The update of either role when the clock reads `t`, on the object with
every modification time put to `t`: the result of the update, with every
modification time put to `t`. -/
theorem update_atTime (env : Env K S P CP) (role : Bool) (w : TxState K S P CP) (t : Nat) :
    BaseTransaction.update (env.atTime t) role (w.atTime t) =
      (BaseTransaction.update env role w).atTime t := by
  cases role
  · exact receive_update_atTime env w t
  · exact send_update_atTime env w t

theorem callsSince_atTime (w r : TxState K S P CP) (t : Nat) :
    (w.atTime t).callsSince (r.atTime t) = (w.callsSince r).map (Call.atTime t) := by
  simp [TxState.callsSince, List.map_drop]

theorem update_rebase_savedTx (env : Env K S P CP) (role : Bool) (w w1 : TxState K S P CP)
    (h : TxState.samePersisted w w1) (hsaved : w.savedTx = w1.savedTx) :
    (BaseTransaction.update env role w).savedTx = (BaseTransaction.update env role w1).savedTx := by
  have h1 : BaseTransaction.update env role w =
      (BaseTransaction.update env role w.core).rebase w.calls w.savedTx := by
    rw [← update_rebase, rebase_core]
  have h2 : BaseTransaction.update env role w1 =
      (BaseTransaction.update env role w.core).rebase w1.calls w1.savedTx := by
    rw [core_eq_of_samePersisted w w1 h, ← update_rebase, rebase_core]
  rw [h1, h2, hsaved]
  rfl

/-- Two objects over the same persisted state, in calls at different times:
the same calls up to the modification time of the descriptions, the same
parameters and ledger, and the same saved description up to its modification
time. -/
theorem update_clock_frame (env env1 : Env K S P CP) (role : Bool) (w w1 : TxState K S P CP)
    (hclock : env.atTime 0 = env1.atTime 0) (h : TxState.samePersisted w w1) :
    (w.callsSince (BaseTransaction.update env role w)).map (Call.atTime 0) =
        (w1.callsSince (BaseTransaction.update env1 role w1)).map (Call.atTime 0) ∧
      (BaseTransaction.update env role w).params =
        (BaseTransaction.update env1 role w1).params ∧
      (BaseTransaction.update env role w).m_keychain =
        (BaseTransaction.update env1 role w1).m_keychain ∧
      (w.savedTx = w1.savedTx →
        (BaseTransaction.update env role w).savedTx.map (fun d => d.atTime 0) =
          (BaseTransaction.update env1 role w1).savedTx.map (fun d => d.atTime 0)) := by
  obtain ⟨⟨-, f2, f3⟩, f4⟩ := update_frame env role w w1 h
  have e : (BaseTransaction.update env role w1).atTime 0 =
      (BaseTransaction.update env1 role w1).atTime 0 := by
    rw [← update_atTime, ← update_atTime, hclock]
  refine ⟨?_, ?_, ?_, ?_⟩
  · rw [f4, ← callsSince_atTime, ← callsSince_atTime, e]
  · rw [f3]
    have e1 := congrArg TxState.params e
    exact e1
  · rw [f2]
    have e1 := congrArg TxState.m_keychain e
    exact e1
  · intro hsaved
    rw [update_rebase_savedTx env role w w1 h hsaved]
    have e1 := congrArg TxState.savedTx e
    exact e1

/-- The same message in the calls of two runs that agree up to the modification
times. -/
theorem confirmation_of_map_eq (L L1 : List (Call S P))
    (h : L.map (Call.atTime 0) = L1.map (Call.atTime 0)) (d : TxDescription)
    (m : ConfirmInvitation S P) (hm : Call.send_tx_confirmation d m ∈ L) :
    ∃ d1 : TxDescription, d1.atTime 0 = d.atTime 0 ∧ Call.send_tx_confirmation d1 m ∈ L1 := by
  have h1 : Call.atTime 0 (Call.send_tx_confirmation d m) ∈ L1.map (Call.atTime 0) := by
    rw [← h]
    exact List.mem_map_of_mem _ hm
  obtain ⟨c, hc, hce⟩ := List.mem_map.mp h1
  cases c <;> simp only [Call.atTime, Call.send_tx_confirmation.injEq, reduceCtorEq] at hce
  obtain ⟨e1, e2⟩ := hce
  subst e2
  exact ⟨_, e1, hc⟩

/-- The invitation of the sender that passes its first `if` without the public
nonce or the public excess of its peer. -/
theorem sender_invite_sent (env : Env K S P CP) (w w2 : TxState K S P CP) (be off : S)
    (hentry : SendTransaction.updateEntry env w = Sum.inr (w2, be, off))
    (hN : BaseTransaction.getParameterPoint env w.params.PublicPeerNonce = none ∨
      BaseTransaction.getParameterPoint env w.params.PublicPeerExcess = none) :
    BaseTransaction.update env true w =
        w2.emit (Call.send_tx_invitation w2.m_txDesc
          { m_txId := w2.m_txDesc.m_txId, m_amount := w2.m_txDesc.m_amount,
            m_fee := w2.m_txDesc.m_fee, m_height := w2.m_txDesc.m_minHeight,
            m_send := w2.m_txDesc.m_sender,
            m_inputs := BaseTransaction.getTxInputs env w2.m_keychain w2.m_txDesc.m_txId,
            m_outputs := BaseTransaction.getTxOutputs env w2.m_keychain w2.m_txDesc.m_txId,
            m_publicPeerExcess := be • env.ecc.G,
            m_publicPeerNonce := BaseTransaction.ownNonce env w2.m_txDesc be • env.ecc.G,
            m_offset := off }) := by
  obtain ⟨-, h2, h3, -⟩ := sendEntry_params env w w2 be off hentry
  rw [← h2, ← h3] at hN
  have hu := sendNegotiate_invite env w2 w.params.PeerOffset.isNone
    (w.params.PeerOffset.getD 0) be off hN
  have hupd : BaseTransaction.update env true w =
      SendTransaction.updateNegotiate env w2 w.params.PeerOffset.isNone
        (w.params.PeerOffset.getD 0) be off := by
    simp only [BaseTransaction.update, if_true, SendTransaction.update, hentry]
  rw [hupd]
  exact hu

/-- The sender that has sent its invitation, constructed afresh from the saved
description with the excess and the offset of the store: its description is
the one the invitation was sent with, and it passes its first `if` with the
same excess and offset. -/
theorem resumed_sender_entry (env env1 : Env K S P CP) (w w2 x : TxState K S P CP) (be off : S)
    (hfresh : w.savedTx = some w.m_txDesc)
    (hown : ∀ k a, env.keychain.getAddress k w.m_txDesc.m_peerId = some a → a.m_own = false)
    (hentry : SendTransaction.updateEntry env w = Sum.inr (w2, be, off))
    (hN : BaseTransaction.getParameterPoint env w.params.PublicPeerNonce = none ∨
      BaseTransaction.getParameterPoint env w.params.PublicPeerExcess = none)
    (hd : (BaseTransaction.update env true w).savedTx = some x.m_txDesc)
    (hbe : x.params.BlindingExcess = (BaseTransaction.update env true w).params.BlindingExcess)
    (hoff : x.params.Offset = (BaseTransaction.update env true w).params.Offset)
    (hF : x.params.FailureReason = none) :
    x.m_txDesc = w2.m_txDesc ∧ SendTransaction.updateEntry env1 x = Sum.inr (x, be, off) := by
  obtain ⟨-, -, hbe2, hoff2⟩ := sendEntry_result env w w2 be off hentry
  have hu := sender_invite_sent env w w2 be off hentry hN
  have hs := sendEntry_saved env w hfresh hown
  rw [hentry] at hs
  simp only [] at hs
  rw [hu] at hd hbe hoff
  have hd1 : x.m_txDesc = w2.m_txDesc := by
    have h1 : w2.savedTx = some x.m_txDesc := hd
    rw [hs] at h1
    exact (Option.some.inj h1).symm
  have hbe1 : x.params.BlindingExcess = some be := by
    rw [hbe]
    exact hbe2
  have hoff1 : x.params.Offset = some off := by
    rw [hoff]
    exact hoff2
  exact ⟨hd1, sendEntry_stored env1 x be off hF hbe1 hoff1⟩

/-- The partial signature of a resumed call verifies against the public nonce
and the public excess of the earlier call. -/
theorem resumed_signature (env env1 : Env K S P CP) (d d2 : TxDescription) (be e : S)
    (hecc : env1.ecc = env.ecc) (hd : d = d2) :
    (BaseTransaction.ownNonce env1 d be + e * be) • env1.ecc.G =
      BaseTransaction.ownNonce env d2 be • env.ecc.G + e • be • env.ecc.G := by
  subst hd
  unfold BaseTransaction.ownNonce
  rw [hecc, add_smul, mul_smul]

/-- C28 as amended: determinism up to the clock, and resumability.  The calls
and the writes of an `update()` are a function of the persisted state (the
saved description, the ledger and the parameter store; the tip and the test
mode are part of the environment) and of the reading of the clock, which
enters as the `m_modifyTime` of the descriptions passed to `saveTx` and to the
gateway and nowhere else.  Of the data members of the class, `update()` and
the functions it calls read `m_txDesc`, `m_keychain` and `m_gateway` only;
a freshly constructed object has the saved description as its `m_txDesc`.
For two such objects over the same persisted state, whatever calls were made
before, and two readings of the clock: the calls are the same up to
`m_modifyTime`, messages, transactions and kernels included; the parameters
and the ledger they leave are the same, and the saved description is the same
up to `m_modifyTime`; every `ConfirmInvitation` of the one run is sent in the
other, with the same `peerSignature`, public nonce and public excess.  When
the peer is no own address of the wallet, the call leaves the description of
the object saved, so an object constructed afresh from the persisted state
after the call, with whatever parameters are delivered in between, makes in
its next `update()` the calls of the object that was never interrupted, up to
`m_modifyTime`.  And a sender that has sent its `Invite` and is constructed
afresh signs with the nonce of that `Invite`: with the public nonce and the
public excess of the peer readable, the `ConfirmInvitation` it sends carries
the public nonce and the public excess of the `Invite`, the partial signature
of its `ConfirmTransaction` verifies against them, and the kernel it signs has
the excess of the `Invite` plus that of the peer. -/
theorem C28_resumable (env env1 : Env K S P CP) (role : Bool) (w w1 : TxState K S P CP)
    (hclock : env.atTime 0 = env1.atTime 0)
    (hfresh : w.savedTx = some w.m_txDesc) (hfresh1 : w1.savedTx = some w1.m_txDesc)
    (hsaved : w.savedTx = w1.savedTx) (hledger : w.m_keychain = w1.m_keychain)
    (hstore : w.params = w1.params) :
    (w.callsSince (BaseTransaction.update env role w)).map (Call.atTime 0) =
        (w1.callsSince (BaseTransaction.update env1 role w1)).map (Call.atTime 0) ∧
      (BaseTransaction.update env role w).params =
        (BaseTransaction.update env1 role w1).params ∧
      (BaseTransaction.update env role w).m_keychain =
        (BaseTransaction.update env1 role w1).m_keychain ∧
      (BaseTransaction.update env role w).savedTx.map (fun d => d.atTime 0) =
        (BaseTransaction.update env1 role w1).savedTx.map (fun d => d.atTime 0) ∧
      (∀ (d : TxDescription) (m : ConfirmInvitation S P),
        Call.send_tx_confirmation d m ∈ w.callsSince (BaseTransaction.update env role w) →
        ∃ d1 : TxDescription, d1.atTime 0 = d.atTime 0 ∧
          Call.send_tx_confirmation d1 m ∈
            w1.callsSince (BaseTransaction.update env1 role w1)) ∧
      ((∀ k a, env.keychain.getAddress k w.m_txDesc.m_peerId = some a → a.m_own = false) →
        (BaseTransaction.update env role w).savedTx =
          some (BaseTransaction.update env role w).m_txDesc ∧
        (∀ (x : TxState K S P CP) (deliver : Params S P CP → Params S P CP),
          (BaseTransaction.update env role w).savedTx = some x.m_txDesc →
          x.m_keychain = (BaseTransaction.update env role w).m_keychain →
          x.params = deliver (BaseTransaction.update env role w).params →
          (x.callsSince (BaseTransaction.update env1 role x)).map (Call.atTime 0) =
            (TxState.callsSince
              { BaseTransaction.update env role w with
                params := deliver (BaseTransaction.update env role w).params }
              (BaseTransaction.update env role
                { BaseTransaction.update env role w with
                  params := deliver (BaseTransaction.update env role w).params })).map
              (Call.atTime 0) ∧
          (BaseTransaction.update env1 role x).params =
            (BaseTransaction.update env role
              { BaseTransaction.update env role w with
                params := deliver (BaseTransaction.update env role w).params }).params ∧
          (BaseTransaction.update env1 role x).m_keychain =
            (BaseTransaction.update env role
              { BaseTransaction.update env role w with
                params := deliver (BaseTransaction.update env role w).params }).m_keychain) ∧
        (∀ (w2 : TxState K S P CP) (be off : S),
          SendTransaction.updateEntry env w = Sum.inr (w2, be, off) →
          (BaseTransaction.getParameterPoint env w.params.PublicPeerNonce = none ∨
            BaseTransaction.getParameterPoint env w.params.PublicPeerExcess = none) →
          ∃ inviteMsg : Invite S P,
            BaseTransaction.update env true w =
              w2.emit (Call.send_tx_invitation w2.m_txDesc inviteMsg) ∧
            inviteMsg.m_publicPeerNonce =
              env.ecc.GenerateNonce
                (env.ecc.get_Hash
                  (BaseTransaction.createKernel w2.m_txDesc.m_fee w2.m_txDesc.m_minHeight :
                    TxKernel S P)) be • env.ecc.G ∧
            inviteMsg.m_publicPeerExcess = be • env.ecc.G ∧
            ∀ (x : TxState K S P CP) (Rp Pp : P),
              (BaseTransaction.update env true w).savedTx = some x.m_txDesc →
              x.params.BlindingExcess =
                (BaseTransaction.update env true w).params.BlindingExcess →
              x.params.Offset = (BaseTransaction.update env true w).params.Offset →
              x.params.FailureReason = none →
              BaseTransaction.getParameterPoint env1 x.params.PublicPeerNonce = some Rp →
              BaseTransaction.getParameterPoint env1 x.params.PublicPeerExcess = some Pp →
              (x.params.PeerSignature = none →
                ∃ confirmMsg : ConfirmInvitation S P,
                  BaseTransaction.update env1 true x =
                    x.emit (Call.send_tx_confirmation x.m_txDesc confirmMsg) ∧
                  confirmMsg.m_publicPeerNonce = inviteMsg.m_publicPeerNonce ∧
                  confirmMsg.m_publicPeerExcess = inviteMsg.m_publicPeerExcess ∧
                  confirmMsg.m_peerSignature • env1.ecc.G =
                    inviteMsg.m_publicPeerNonce +
                      BaseTransaction.challenge env1 x.m_txDesc be Rp Pp •
                        inviteMsg.m_publicPeerExcess) ∧
              (∀ sp : S, x.params.PeerSignature = some sp →
                sp • env1.ecc.G = Rp + BaseTransaction.challenge env1 x.m_txDesc be Rp Pp • Pp →
                x.params.TransactionRegistered = none → x.params.PeerInputs = none →
                ∃ sig : S,
                  BaseTransaction.update env1 true x =
                    x.emit (Call.send_tx_confirmation_tx x.m_txDesc
                      { m_txId := x.m_txDesc.m_txId, m_peerSignature := sig }) ∧
                  sig • env1.ecc.G =
                    inviteMsg.m_publicPeerNonce +
                      BaseTransaction.challenge env1 x.m_txDesc be Rp Pp •
                        inviteMsg.m_publicPeerExcess ∧
                  (signedKernel env1 x.m_txDesc be sp Rp Pp).m_Excess =
                    inviteMsg.m_publicPeerExcess + Pp))) := by
  have hd : w.m_txDesc = w1.m_txDesc := by
    have h1 : some w.m_txDesc = some w1.m_txDesc := by rw [← hfresh, ← hfresh1, hsaved]
    exact Option.some.inj h1
  have hsame : TxState.samePersisted w w1 := ⟨hd, hledger, hstore⟩
  obtain ⟨c1, c2, c3, c4⟩ := update_clock_frame env env1 role w w1 hclock hsame
  refine ⟨c1, c2, c3, c4 hsaved, ?_, ?_⟩
  · intro d m hm
    exact confirmation_of_map_eq _ _ c1 d m hm
  · intro hown
    have hs := update_saved env role w hfresh hown
    refine ⟨hs, ?_, ?_⟩
    · intro x deliver hx hk hp
      rw [hs] at hx
      have hsame1 : TxState.samePersisted x
          { BaseTransaction.update env role w with
            params := deliver (BaseTransaction.update env role w).params } :=
        ⟨(Option.some.inj hx).symm, hk, hp⟩
      obtain ⟨g1, g2, g3, -⟩ := update_clock_frame env1 env role x _ hclock.symm hsame1
      exact ⟨g1, g2, g3⟩
    · intro w2 be off hentry hN
      have hecc : env1.ecc = env.ecc := (congrArg Env.ecc hclock).symm
      refine ⟨_, sender_invite_sent env w w2 be off hentry hN, rfl, rfl, ?_⟩
      intro x Rp Pp hd hbe hoff hF hRp hPp
      obtain ⟨hd1, hentry1⟩ := resumed_sender_entry env env1 w w2 x be off hfresh hown hentry hN
        hd hbe hoff hF
      have hupd1 : BaseTransaction.update env1 true x = SendTransaction.update env1 x := by
        simp only [BaseTransaction.update, if_true]
      refine ⟨?_, ?_⟩
      · intro hS
        have hc := sendNegotiate_confirm env1 x x.params.PeerOffset.isNone
          (x.params.PeerOffset.getD 0) be off Rp Pp hRp hPp hS
        have hu1 : SendTransaction.update env1 x =
            SendTransaction.updateNegotiate env1 x x.params.PeerOffset.isNone
              (x.params.PeerOffset.getD 0) be off := by
          simp only [SendTransaction.update, hentry1]
        refine ⟨_, by rw [hupd1, hu1, hc], ?_, ?_, ?_⟩
        · show BaseTransaction.ownNonce env1 x.m_txDesc be • env1.ecc.G =
            BaseTransaction.ownNonce env w2.m_txDesc be • env.ecc.G
          rw [hd1]
          unfold BaseTransaction.ownNonce
          rw [hecc]
        · show be • env1.ecc.G = be • env.ecc.G
          rw [hecc]
        · exact resumed_signature env env1 x.m_txDesc w2.m_txDesc be _ hecc hd1
      · intro sp hS hv hT hI
        have hacc := update_accepted env1 true x x be off sp 0 Rp Pp
          (by simpa using hentry1) (fun h => by cases h) hRp hPp hS hv
        simp only [if_true] at hacc
        refine ⟨BaseTransaction.ownNonce env1 x.m_txDesc be +
          BaseTransaction.challenge env1 x.m_txDesc be Rp Pp * be, ?_, ?_, ?_⟩
        · rw [hupd1, hacc]
          unfold SendTransaction.updateRegister
          simp only [hT, hI]
          rfl
        · exact resumed_signature env env1 x.m_txDesc w2.m_txDesc be _ hecc hd1
        · show be • env1.ecc.G + Pp = be • env.ecc.G + Pp
          rw [hecc]

/-- C28, at the sender of the examples and at an object constructed from the
same saved description in a wallet with another past, the one run with the
clock at 1000 and the other at 2000: the calls are the same up to the
modification time, which is 2000 in the two descriptions of the second run;
the first run leaves its description saved; and the sender resumed at 2000
with the `ConfirmInvitation` of its peer sends the signature -1608, which
verifies against the public nonce `(-28, 0)` and the public excess `(-20, 0)`
of the `Invite` under the challenge 79. -/
theorem C28_resumable_witness :
    (intEnv true 5).atTime 0 = laterEnv.atTime 0 ∧
    senderExample.savedTx = some senderExample.m_txDesc ∧
    restartedSender.savedTx = some restartedSender.m_txDesc ∧
    senderExample.savedTx = restartedSender.savedTx ∧
    senderExample.m_keychain = restartedSender.m_keychain ∧
    senderExample.params = restartedSender.params ∧
    restartedSender.calls = [Call.rollbackTx 7] ∧
    (senderExample.callsSince (BaseTransaction.update (intEnv true 5) true senderExample)).map
        (Call.atTime 0) =
      (restartedSender.callsSince (BaseTransaction.update laterEnv true restartedSender)).map
        (Call.atTime 0) ∧
    (BaseTransaction.update (intEnv true 5) true senderExample).savedTx =
      some (BaseTransaction.update (intEnv true 5) true senderExample).m_txDesc ∧
    ((restartedSender.callsSince
        (BaseTransaction.update laterEnv true restartedSender)).filterMap Call.description).map
        TxDescription.m_modifyTime = [2000, 2000] ∧
    ((senderExample.callsSince
        (BaseTransaction.update (intEnv true 5) true senderExample)).filterMap
          (fun c => match c with
            | Call.send_tx_invitation _ m => some (m.m_publicPeerNonce, m.m_publicPeerExcess)
            | _ => none)) = [((-28, 0), (-20, 0))] ∧
    confirmedSender.callsSince (BaseTransaction.update laterEnv true confirmedSender) =
      [Call.send_tx_confirmation_tx confirmedSender.m_txDesc
        { m_txId := 1, m_peerSignature := -1608 }] ∧
    BaseTransaction.challenge laterEnv confirmedSender.m_txDesc (-20) (-32, 0) (-22, 0) = 79 ∧
    (-1608 : Int) • laterEnv.ecc.G = ((-28, 0) : Int × Int) + (79 : Int) • ((-20, 0) : Int × Int) :=
  ⟨rfl, rfl, rfl, rfl, rfl, rfl, rfl,
    (C28_resumable (intEnv true 5) laterEnv true senderExample restartedSender rfl rfl rfl rfl
      rfl rfl).1,
    ((C28_resumable (intEnv true 5) laterEnv true senderExample restartedSender rfl rfl rfl rfl
      rfl rfl).2.2.2.2.2 (fun _ _ h => by cases h)).1,
    by decide, by decide, by decide, by decide, by decide⟩

/-- C28 as stated fails.  The calls depend on the clock: the sender of the
examples, run on the same persisted state with the clock at 1000 and at 2000,
passes to `saveTx` and to `send_tx_invitation` a description with
`m_modifyTime` 1000 in the one run and 2000 in the other.  And they depend on
the member `m_txDesc` where it is not the saved description: after an
`update()` towards an own address, which returns after `sendSelfTx()` without
saving, the member has `m_change = 59` and the saved description `m_change =
0`; in the next `update()` the same object passes the change 59 to `saveTx`
and `on_tx_completed`, and an object constructed from the saved description
over the same ledger and store passes the change 0. -/
theorem C28_counterexample :
    ((senderExample.callsSince
        (BaseTransaction.update (intEnv true 5) true senderExample)).filterMap
          Call.description).map TxDescription.m_modifyTime = [1000, 1000] ∧
    ((senderExample.callsSince
        (BaseTransaction.update laterEnv true senderExample)).filterMap
          Call.description).map TxDescription.m_modifyTime = [2000, 2000] ∧
    laterEnv.get_tip = (intEnv true 5).get_tip ∧
    laterEnv.isTestMode = (intEnv true 5).isTestMode ∧
    selfSent.savedTx = some (pendingTx true 40 1) ∧
    selfSent.m_txDesc.m_change = 59 ∧
    (BaseTransaction.construct selfSent (pendingTx true 40 1)).m_keychain = selfSent.m_keychain ∧
    (BaseTransaction.construct selfSent (pendingTx true 40 1)).params = selfSent.params ∧
    (BaseTransaction.construct selfSent (pendingTx true 40 1)).savedTx = selfSent.savedTx ∧
    ((selfSent.callsSince (BaseTransaction.update selfEnv true selfSent)).filterMap
        Call.description).map TxDescription.m_change = [59, 59] ∧
    (((BaseTransaction.construct selfSent (pendingTx true 40 1)).callsSince
        (BaseTransaction.update selfEnv true
          (BaseTransaction.construct selfSent (pendingTx true 40 1)))).filterMap
        Call.description).map TxDescription.m_change = [0, 0] := by
  decide

end Resumption

/-! ## The round trip through the parameter store -/

section RoundTrip

variable {St B T S P CS CP : Type}

/-- C29 as amended: the parameter round trip.  For every parameter
identifier, on a store that returns what was put and with a serialization
that decodes what it encoded: `getParameter(paramId, out)` after
`setParameter(paramId, v)` returns true with `out = v` for the values that go
through the serializer directly, for every `Scalar::Native` (through `Export`
and `Import`), and for every `Point::Native` whose `Export` succeeds; for a
point whose `Export` fails `setParameter` stores nothing and leaves the store
as it is.  `getParameter` on an absent parameter returns false and leaves
`out` unchanged, in all three forms. -/
theorem C29_parameter_round_trip (store : IParameterStore St B) (serT : Serialization T B)
    (serS : Serialization CS B) (serP : Serialization CP B) (forms : NativeForms S P CS CP)
    (st : St) (txId : TxID) (paramID : TxParams)
    (hstore : ∀ b,
      store.getTxParameter (store.setTxParameter st txId paramID b) txId paramID = some b)
    (hT : ∀ v, serT.decode (serT.encode v) = v)
    (hS : ∀ v, serS.decode (serS.encode v) = v)
    (hP : ∀ v, serP.decode (serP.encode v) = v)
    (hscalar : ∀ v, forms.scalarImport (forms.scalarExport v) = v)
    (hpoint : ∀ v pt old, forms.pointExport v = some pt → forms.pointImport pt old = (true, v)) :
    (∀ v out : T,
      BaseTransaction.getParameter store serT
        (BaseTransaction.setParameter store serT st txId paramID v) txId paramID out =
        (true, v)) ∧
    (∀ (v out : S) (s : CS),
      BaseTransaction.getParameterScalarNative store serS forms
        (BaseTransaction.setParameterScalarNative store serS forms st txId paramID v)
        txId paramID s out = (true, v)) ∧
    (∀ (v out : P) (pt : CP), (forms.pointExport v).isSome = true →
      BaseTransaction.getParameterPointNative store serP forms
        (BaseTransaction.setParameterPointNative store serP forms st txId paramID v)
        txId paramID pt out = (true, v)) ∧
    (∀ v : P, forms.pointExport v = none →
      BaseTransaction.setParameterPointNative store serP forms st txId paramID v = st) ∧
    (store.getTxParameter st txId paramID = none →
      (∀ out : T, BaseTransaction.getParameter store serT st txId paramID out = (false, out)) ∧
      (∀ (out : S) (s : CS),
        BaseTransaction.getParameterScalarNative store serS forms st txId paramID s out =
          (false, out)) ∧
      (∀ (out : P) (pt : CP),
        BaseTransaction.getParameterPointNative store serP forms st txId paramID pt out =
          (false, out))) := by
  refine ⟨?_, ?_, ?_, ?_, ?_⟩
  · intro v out
    simp only [BaseTransaction.getParameter, BaseTransaction.setParameter, hstore, hT]
  · intro v out s
    simp only [BaseTransaction.getParameterScalarNative,
      BaseTransaction.setParameterScalarNative, BaseTransaction.getParameter,
      BaseTransaction.setParameter, hstore, hS, hscalar, if_true]
  · intro v out pt hv
    obtain ⟨cp, hcp⟩ := Option.isSome_iff_exists.mp hv
    simp only [BaseTransaction.getParameterPointNative,
      BaseTransaction.setParameterPointNative, BaseTransaction.getParameter,
      BaseTransaction.setParameter, hcp, hstore, hP, if_true]
    exact hpoint v cp out hcp
  · intro v hv
    simp only [BaseTransaction.setParameterPointNative, hv]
  · intro habs
    refine ⟨?_, ?_, ?_⟩
    · intro out
      simp only [BaseTransaction.getParameter, habs]
    · intro out s
      simp only [BaseTransaction.getParameterScalarNative, BaseTransaction.getParameter, habs,
        Bool.false_eq_true, if_false]
    · intro out pt
      simp only [BaseTransaction.getParameterPointNative, BaseTransaction.getParameter, habs,
        Bool.false_eq_true, if_false]

/-- C29, on the list store: a point that has a compact form comes back from
the store. -/
theorem C29_parameter_round_trip_witness :
    BaseTransaction.getParameterPointNative (listStore (Int × Int))
      (plainSerialization (Int × Int)) intForms
      (BaseTransaction.setParameterPointNative (listStore (Int × Int))
        (plainSerialization (Int × Int)) intForms [] 1 TxParams.PublicPeerNonce (3, 4))
      1 TxParams.PublicPeerNonce (0, 0) (9, 9) = (true, (3, 4)) :=
  (C29_parameter_round_trip (listStore (Int × Int)) (plainSerialization (Int × Int))
    scalarSerialization (plainSerialization (Int × Int)) intForms [] 1
    TxParams.PublicPeerNonce (fun _ => rfl) (fun _ => rfl) (fun _ => rfl) (fun _ => rfl)
    (fun _ => rfl)
    (fun v pt old h => by
      have hpt : pt = v := by
        unfold intForms at h
        simp only [] at h
        split at h
        · cases h
        · exact (Option.some.inj h).symm
      rw [hpt]
      rfl)).2.2.1 (3, 4) (9, 9) (0, 0) rfl

/-- C29 as stated fails for the identity: `Export` returns false for it, so
`setParameter` stores nothing, and `getParameter` afterwards returns false on
a store that did not hold the parameter, and leaves `out` as it was. -/
theorem C29_counterexample :
    BaseTransaction.setParameterPointNative (listStore (Int × Int))
      (plainSerialization (Int × Int)) intForms [] 1 TxParams.PublicPeerNonce (0, 0) = [] ∧
    BaseTransaction.getParameterPointNative (listStore (Int × Int))
      (plainSerialization (Int × Int)) intForms
      (BaseTransaction.setParameterPointNative (listStore (Int × Int))
        (plainSerialization (Int × Int)) intForms [] 1 TxParams.PublicPeerNonce (0, 0))
      1 TxParams.PublicPeerNonce (0, 0) (9, 9) = (false, (9, 9)) := by
  decide

end RoundTrip

/-! ## The transaction to an address of the wallet itself -/

section SelfSend

variable {K S P CP : Type} [CommRing S] [AddCommGroup P] [Module S P] [DecidableEq P]

/-- The sender whose peer is an address of the wallet itself: `update` returns
from the first `if` through `sendSelfTx`, which does nothing.  The selection
is written back and the change coin stored; the status, the parameters and
the saved description are those before the call, and no call is made on the
gateway. -/
theorem send_update_self (env : Env K S P CP) (w : TxState K S P CP)
    (hF : w.params.FailureReason = none) (hs : w.m_txDesc.m_sender = true)
    (habs : w.params.BlindingExcess = none ∨ w.params.Offset = none)
    (hsel : SendTransaction.selection env w ≠ [])
    (hown : ∀ k, ∃ a, env.keychain.getAddress k w.m_txDesc.m_peerId = some a ∧
      a.m_own = true) :
    SendTransaction.update env w =
        (SendTransaction.reserved env w (w.params.BlindingExcess.getD 0) 0).1 ∧
      (SendTransaction.update env w).m_txDesc.m_status = w.m_txDesc.m_status ∧
      (SendTransaction.update env w).params = w.params ∧
      w.callsSince (SendTransaction.update env w) =
        (Call.selectCoins (add64 w.m_txDesc.m_amount w.m_txDesc.m_fee) ::
          Call.update (SendTransaction.markSpent w.m_txDesc.m_txId
            (SendTransaction.selection env w)) ::
          (if 0 < SendTransaction.change env w then
            [Call.store (draftCoin w.m_txDesc.m_txId (SendTransaction.change env w)
              (env.keychain.getCurrentHeight w.m_keychain))]
           else [])) := by
  have hpeer : SendTransaction.peerIsOwn env
      (SendTransaction.reserved env w (w.params.BlindingExcess.getD 0) 0).1 = true := by
    unfold SendTransaction.peerIsOwn
    have hid : (SendTransaction.reserved env w (w.params.BlindingExcess.getD 0) 0).1.m_txDesc.m_peerId
        = w.m_txDesc.m_peerId := by
      rw [reserved_txDesc]; split <;> rfl
    obtain ⟨a, ha, hao⟩ := hown
      (SendTransaction.reserved env w (w.params.BlindingExcess.getD 0) 0).1.m_keychain
    rw [hid, ha]
    exact hao
  have hu := send_update_with_funds env w hF hs habs hsel
  rw [if_pos hpeer] at hu
  refine ⟨hu, ?_, ?_, ?_⟩
  · rw [hu, reserved_txDesc]; split <;> rfl
  · rw [hu, reserved_params]
  · apply callsSince_append
    rw [hu, reserved_calls]

/-- C31: the self-send is not carried out.  A sender of amount 40 and fee 1
that owns one confirmed coin of 100 and whose peer is an address of the wallet
itself: `SendTransaction::update` reserves the coin, stores the change coin of
59 and returns through the empty `sendSelfTx`.  The status is still Pending
(in the object and in the saved description), no parameter is persisted and
nothing is sent; the coin is left Locked for the transaction and the change
coin Draft.  The next `update` finds no coin to select and fails the
transaction, which is never Completed. -/
theorem C31_self_send_stalls :
    (selfEnv.keychain.getAddress senderExample.m_keychain senderExample.m_txDesc.m_peerId).map
        WalletAddress.m_own = some true ∧
    SendTransaction.selection selfEnv senderExample ≠ [] ∧
    (SendTransaction.update selfEnv senderExample).m_txDesc.m_status = TxStatus.Pending ∧
    (SendTransaction.update selfEnv senderExample).savedTx = some (pendingTx true 40 1) ∧
    (SendTransaction.update selfEnv senderExample).params = Params.empty ∧
    (SendTransaction.update selfEnv senderExample).calls =
      [Call.selectCoins 41,
        Call.update [{ m_id := 1, m_amount := 100, m_status := CoinStatus.Locked,
                       m_height := 0, m_createTxId := none, m_spentTxId := some 1 }],
        Call.store { m_id := 0, m_amount := 59, m_status := CoinStatus.Draft, m_height := 5,
                     m_createTxId := some 1, m_spentTxId := none }] ∧
    (SendTransaction.update selfEnv senderExample).m_keychain =
      [{ m_id := 1, m_amount := 100, m_status := CoinStatus.Locked, m_height := 0,
         m_createTxId := none, m_spentTxId := some 1 },
       { m_id := 2, m_amount := 59, m_status := CoinStatus.Draft, m_height := 5,
         m_createTxId := some 1, m_spentTxId := none }] ∧
    (SendTransaction.update selfEnv
      (SendTransaction.update selfEnv senderExample)).m_txDesc.m_status = TxStatus.Failed := by
  decide

end SelfSend

/-! ## The assertions of the sender -/

section Assertions

variable {K S P CP : Type} [CommRing S] [AddCommGroup P] [Module S P] [DecidableEq P]

/-- Where an `assert` is evaluated after the first `if`, its condition is
`initiator` or its negation, and the call sends the message of the branch. -/
theorem negotiateAssert_message (env : Env K S P CP) (w : TxState K S P CP) (i : Bool)
    (po be off : S) :
    (∀ b, SendTransaction.updateNegotiateAssert env w i be = some (Assertion.invite, b) →
      b = i ∧ ∃ m, SendTransaction.updateNegotiate env w i po be off =
        w.emit (Call.send_tx_invitation w.m_txDesc m)) ∧
    (∀ b, SendTransaction.updateNegotiateAssert env w i be =
        some (Assertion.confirmInvitation, b) →
      b = !i ∧ ∃ m, SendTransaction.updateNegotiate env w i po be off =
        w.emit (Call.send_tx_confirmation w.m_txDesc m)) ∧
    (∀ b, SendTransaction.updateNegotiateAssert env w i be =
        some (Assertion.confirmTransaction, b) →
      b = i ∧ ∃ m, SendTransaction.updateNegotiate env w i po be off =
        w.emit (Call.send_tx_confirmation_tx w.m_txDesc m)) := by
  unfold SendTransaction.updateNegotiateAssert SendTransaction.updateNegotiate
  cases hN : BaseTransaction.getParameterPoint env w.params.PublicPeerNonce with
  | none =>
    refine ⟨?_, ?_, ?_⟩ <;> intro b h <;> simp only [Option.some.injEq, Prod.mk.injEq] at h
    · exact ⟨h.2.symm, _, rfl⟩
    · exact absurd h.1 (by decide)
    · exact absurd h.1 (by decide)
  | some Rp =>
    cases hE : BaseTransaction.getParameterPoint env w.params.PublicPeerExcess with
    | none =>
      refine ⟨?_, ?_, ?_⟩ <;> intro b h <;> simp only [Option.some.injEq, Prod.mk.injEq] at h
      · exact ⟨h.2.symm, _, rfl⟩
      · exact absurd h.1 (by decide)
      · exact absurd h.1 (by decide)
    | some Pp =>
      cases hS : w.params.PeerSignature with
      | none =>
        refine ⟨?_, ?_, ?_⟩ <;> intro b h <;>
          simp only [Option.some.injEq, Prod.mk.injEq] at h
        · exact absurd h.1 (by decide)
        · exact ⟨h.2.symm, _, rfl⟩
        · exact absurd h.1 (by decide)
      | some sp =>
        simp only []
        by_cases hv : Signature.IsValidPartial env
            { m_e := (BaseTransaction.updateCoSign env w.m_txDesc be Rp Pp).1.m_Signature.m_e,
              m_k := sp } Rp Pp = true
        · simp only [hv, Bool.not_true, Bool.false_eq_true, if_false]
          unfold SendTransaction.updateRegister
          cases hT : w.params.TransactionRegistered with
          | some reg =>
            refine ⟨?_, ?_, ?_⟩ <;> intro b h <;> cases h
          | none =>
            cases hI : w.params.PeerInputs with
            | none =>
              refine ⟨?_, ?_, ?_⟩ <;> intro b h <;>
                simp only [Option.some.injEq, Prod.mk.injEq] at h
              · exact absurd h.1 (by decide)
              · exact absurd h.1 (by decide)
              · exact ⟨h.2.symm, _, rfl⟩
            | some ins =>
              cases hO : w.params.PeerOutputs with
              | none =>
                refine ⟨?_, ?_, ?_⟩ <;> intro b h <;>
                  simp only [Option.some.injEq, Prod.mk.injEq] at h
                · exact absurd h.1 (by decide)
                · exact absurd h.1 (by decide)
                · exact ⟨h.2.symm, _, rfl⟩
              | some outs =>
                refine ⟨?_, ?_, ?_⟩ <;> intro b h <;> cases h
        · have hv1 : Signature.IsValidPartial env
              { m_e := (BaseTransaction.updateCoSign env w.m_txDesc be Rp Pp).1.m_Signature.m_e,
                m_k := sp } Rp Pp = false := by simpa using hv
          simp only [hv1, Bool.not_false, if_true]
          refine ⟨?_, ?_, ?_⟩ <;> intro b h <;> cases h

/-- On a store that satisfies the invariant of the transport and whose stored
points import, what `getParameter` can read satisfies the invariant too. -/
theorem readable_invariant (env : Env K S P CP) (p : Params S P CP)
    (hinv : Transport.invariant p) (himp : Transport.importable env p) :
    (p.PeerOffset.isSome = true →
      p.PeerInputs.isSome = true ∧ p.PeerOutputs.isSome = true ∧
      (BaseTransaction.getParameterPoint env p.PublicPeerNonce).isSome = true ∧
      (BaseTransaction.getParameterPoint env p.PublicPeerExcess).isSome = true) ∧
    ((BaseTransaction.getParameterPoint env p.PublicPeerNonce).isSome = true →
      (BaseTransaction.getParameterPoint env p.PublicPeerExcess).isSome = true →
      p.PeerOffset.isSome = true ∨ p.PeerSignature.isSome = true) := by
  obtain ⟨h1, h2⟩ := hinv
  obtain ⟨i1, i2⟩ := himp
  constructor
  · intro hpo
    obtain ⟨a1, a2, a3, a4⟩ := h1 hpo
    obtain ⟨n, hn⟩ := Option.isSome_iff_exists.mp a3
    obtain ⟨e, he⟩ := Option.isSome_iff_exists.mp a4
    refine ⟨a1, a2, ?_, ?_⟩
    · rw [hn]; exact i1 n hn
    · rw [he]; exact i2 e he
  · intro hn he
    apply h2
    · cases hN : p.PublicPeerNonce with
      | none => rw [hN] at hn; cases hn
      | some n => rfl
    · cases hE : p.PublicPeerExcess with
      | none => rw [hE] at he; cases he
      | some e => rfl

/-- Under the invariant of the transport, on a store whose stored points
import, with `initiator` the absence of `PeerOffset`, the condition of the
`assert` evaluated after the first `if` is true. -/
theorem negotiateAssert_holds (env : Env K S P CP) (w : TxState K S P CP) (be : S)
    (hinv : Transport.invariant w.params) (himp : Transport.importable env w.params)
    (a : Assertion) (b : Bool)
    (h : SendTransaction.updateNegotiateAssert env w w.params.PeerOffset.isNone be =
      some (a, b)) : b = true := by
  obtain ⟨h1, h2⟩ := readable_invariant env w.params hinv himp
  unfold SendTransaction.updateNegotiateAssert at h
  cases hN : BaseTransaction.getParameterPoint env w.params.PublicPeerNonce with
  | none =>
    rw [hN] at h h1
    simp only [Option.some.injEq, Prod.mk.injEq] at h
    rw [← h.2]
    cases hpo : w.params.PeerOffset with
    | none => rfl
    | some po =>
      rw [hpo] at h1
      exact absurd (h1 rfl).2.2.1 (by simp)
  | some Rp =>
    cases hE : BaseTransaction.getParameterPoint env w.params.PublicPeerExcess with
    | none =>
      rw [hN, hE] at h
      rw [hE] at h1
      simp only [Option.some.injEq, Prod.mk.injEq] at h
      rw [← h.2]
      cases hpo : w.params.PeerOffset with
      | none => rfl
      | some po =>
        rw [hpo] at h1
        exact absurd (h1 rfl).2.2.2 (by simp)
    | some Pp =>
      rw [hN, hE] at h h2
      cases hS : w.params.PeerSignature with
      | none =>
        rw [hS] at h h2
        simp only [Option.some.injEq, Prod.mk.injEq] at h
        rw [← h.2]
        rcases h2 rfl rfl with hpo | hps
        · obtain ⟨po, hpo1⟩ := Option.isSome_iff_exists.mp hpo
          rw [hpo1]
          rfl
        · exact absurd hps (by simp)
      | some sp =>
        rw [hS] at h
        simp only [] at h
        split at h
        · cases h
        · cases hT : w.params.TransactionRegistered with
          | some reg =>
            rw [hT] at h
            cases h
          | none =>
            rw [hT] at h
            simp only [] at h
            cases hpo : w.params.PeerOffset with
            | none =>
              rw [hpo] at h
              split at h
              · cases h
              · simp only [Option.some.injEq, Prod.mk.injEq] at h
                rw [← h.2]
                rfl
            | some po =>
              rw [hpo] at h1
              obtain ⟨hI, hO, -, -⟩ := h1 rfl
              obtain ⟨ins, hI1⟩ := Option.isSome_iff_exists.mp hI
              obtain ⟨outs, hO1⟩ := Option.isSome_iff_exists.mp hO
              rw [hI1, hO1] at h
              cases h

theorem invariant_of_samePeerData (p q : Params S P CP)
    (h : Params.samePeerData p q) (hinv : Transport.invariant q) :
    Transport.invariant p := by
  obtain ⟨h1, h2, h3, h4, h5, h6, -, -, -⟩ := h
  unfold Transport.invariant at hinv ⊢
  rw [h1, h2, h3, h4, h5, h6]
  exact hinv

theorem importable_of_samePeerData (env : Env K S P CP) (p q : Params S P CP)
    (h : Params.samePeerData p q) (himp : Transport.importable env q) :
    Transport.importable env p := by
  obtain ⟨-, h2, h3, -⟩ := h
  unfold Transport.importable at himp ⊢
  rw [h2, h3]
  exact himp

/-- The store without any parameter of the peer satisfies the invariant of
the transport. -/
theorem invariant_empty : Transport.invariant (Params.empty : Params S P CP) :=
  ⟨fun h => (by cases h), fun h => (by cases h)⟩

/-- The delivery of an `Invite` establishes the invariant of the
transport. -/
theorem invariant_deliverInvite (ecc : Ecc S P CP) (w : TxState K S P CP) (m : Invite S P) :
    Transport.invariant (Transport.deliverInvite ecc w m).params :=
  ⟨fun _ => ⟨rfl, rfl, rfl, rfl⟩, fun _ _ => Or.inl rfl⟩

/-- The delivery of a `ConfirmInvitation` keeps the invariant of the
transport. -/
theorem invariant_deliverConfirmInvitation (ecc : Ecc S P CP) (w : TxState K S P CP)
    (m : ConfirmInvitation S P) (hinv : Transport.invariant w.params) :
    Transport.invariant (Transport.deliverConfirmInvitation ecc w m).params :=
  ⟨fun h => ⟨(hinv.1 h).1, (hinv.1 h).2.1, rfl, rfl⟩, fun _ _ => Or.inr rfl⟩

/-- The delivery of a `ConfirmTransaction` keeps the invariant of the
transport. -/
theorem invariant_deliverConfirmTransaction (w : TxState K S P CP)
    (m : ConfirmTransaction S) (hinv : Transport.invariant w.params) :
    Transport.invariant (Transport.deliverConfirmTransaction w m).params :=
  ⟨fun h => hinv.1 h, fun _ _ => Or.inr rfl⟩

/-- An `update` of either role keeps the invariant of the transport: it
writes no parameter of the peer. -/
theorem invariant_update (env : Env K S P CP) (role : Bool) (w : TxState K S P CP)
    (hinv : Transport.invariant w.params) :
    Transport.invariant (BaseTransaction.update env role w).params := by
  have h := (update_sameButOwn env role w).1
  unfold Params.sameButOwn at h
  unfold Transport.invariant at hinv ⊢
  rw [h]
  exact hinv

/-- Where the stored points of the peer import, the assertions hold.  On
every store that satisfies the invariant of the transport and whose stored
`PublicPeerNonce` and `PublicPeerExcess` pass `Import`, the condition of every
`assert` that `SendTransaction::update` evaluates is true.  The
`assert(initiator)` of the first branch is evaluated in the call that sends
the `Invite`, the `assert(!initiator)` in the call that sends the
`ConfirmInvitation`, and the `assert(initiator)` of the third in the call that
sends the `ConfirmTransaction`, `initiator` being the absence of
`PeerOffset`. -/
theorem assertions_hold (env : Env K S P CP) (w : TxState K S P CP)
    (hinv : Transport.invariant w.params) (himp : Transport.importable env w.params) :
    (∀ a b, SendTransaction.updateAssert env w = some (a, b) → b = true) ∧
    (∀ b, SendTransaction.updateAssert env w = some (Assertion.invite, b) →
      b = w.params.PeerOffset.isNone ∧
        ∃ (w1 : TxState K S P CP) (m : Invite S P), SendTransaction.update env w =
          w1.emit (Call.send_tx_invitation w1.m_txDesc m)) ∧
    (∀ b, SendTransaction.updateAssert env w = some (Assertion.confirmInvitation, b) →
      b = !w.params.PeerOffset.isNone ∧
        ∃ (w1 : TxState K S P CP) (m : ConfirmInvitation S P), SendTransaction.update env w =
          w1.emit (Call.send_tx_confirmation w1.m_txDesc m)) ∧
    (∀ b, SendTransaction.updateAssert env w = some (Assertion.confirmTransaction, b) →
      b = w.params.PeerOffset.isNone ∧
        ∃ (w1 : TxState K S P CP) (m : ConfirmTransaction S), SendTransaction.update env w =
          w1.emit (Call.send_tx_confirmation_tx w1.m_txDesc m)) := by
  unfold SendTransaction.updateAssert SendTransaction.update
  cases hentry : SendTransaction.updateEntry env w with
  | inl r =>
    refine ⟨?_, ?_, ?_, ?_⟩ <;> intros <;> rename_i h <;> cases h
  | inr r =>
    have hp := sendEntry_params env w r.1 r.2.1 r.2.2 hentry
    have hpo : w.params.PeerOffset = r.1.params.PeerOffset := hp.2.2.2.1.symm
    have hinv1 := invariant_of_samePeerData _ _ hp hinv
    have himp1 := importable_of_samePeerData env _ _ hp himp
    obtain ⟨m1, m2, m3⟩ := negotiateAssert_message env r.1 w.params.PeerOffset.isNone
      (w.params.PeerOffset.getD 0) r.2.1 r.2.2
    refine ⟨?_, ?_, ?_, ?_⟩
    · intro a b h
      simp only [] at h
      rw [hpo] at h
      exact negotiateAssert_holds env r.1 r.2.1 hinv1 himp1 a b h
    · intro b h
      obtain ⟨e1, m, e2⟩ := m1 b h
      exact ⟨e1, r.1, m, e2⟩
    · intro b h
      obtain ⟨e1, m, e2⟩ := m2 b h
      exact ⟨e1, r.1, m, e2⟩
    · intro b h
      obtain ⟨e1, m, e2⟩ := m3 b h
      exact ⟨e1, r.1, m, e2⟩

/-- The sender of the examples to which the `ConfirmInvitation` of its peer
was delivered: the store satisfies the invariant, the call evaluates the
`assert(initiator)` before the `ConfirmTransaction`, and its condition is
true. -/
theorem assertions_hold_confirmedSender :
    Transport.invariant confirmedSender.params ∧
    SendTransaction.updateAssert (intEnv true 5) confirmedSender =
      some (Assertion.confirmTransaction, true) :=
  ⟨invariant_deliverConfirmInvitation intEcc _ _
      (invariant_update (intEnv true 5) true senderExample invariant_empty),
    by decide⟩

/-- C32: an assertion of `SendTransaction::update` fails.  The store holds a
whole `Invite` of the peer (`PeerOffset`, `PeerInputs`, `PeerOutputs`,
`PublicPeerNonce` and `PublicPeerExcess` are present, so that it satisfies the
invariant of the transport), and the compact form stored as `PublicPeerNonce`
is no point: `getParameter` returns false for it as for an absent parameter
(lines 33-41), the call takes the branch of line 219 and evaluates
`assert(initiator)` with `initiator = false`.  With the assertion compiled
out, the invited sender answers the `Invite` with an `Invite` of its own. -/
theorem C32_assertion_fails :
    garbledInvite.params.PeerOffset.isSome = true ∧
    garbledInvite.params.PeerInputs.isSome = true ∧
    garbledInvite.params.PeerOutputs.isSome = true ∧
    garbledInvite.params.PublicPeerNonce = some (3, 1) ∧
    garbledInvite.params.PublicPeerExcess.isSome = true ∧
    strictEnv.ecc.pointImport (3, 1) = none ∧
    SendTransaction.updateAssert strictEnv garbledInvite = some (Assertion.invite, false) ∧
    (SendTransaction.update strictEnv garbledInvite).calls.map Call.isInvitation = [true] := by
  decide

/-- The store of `garbledInvite` satisfies the invariant of the transport. -/
theorem garbledInvite_invariant : Transport.invariant garbledInvite.params :=
  ⟨fun _ => ⟨rfl, rfl, rfl, rfl⟩, fun _ _ => Or.inl rfl⟩

end Assertions

/-! ## The funds behind an invitation -/

section FundsCoverage

variable {K S P CP : Type} [CommRing S] [AddCommGroup P] [Module S P] [DecidableEq P]

theorem onFailed_noInvitation (env : Env K S P CP) (w : TxState K S P CP) (notify : Bool) :
    TxState.extendsBy (fun c => !Call.isInvitation c) w
      (BaseTransaction.onFailed env w notify) := by
  refine ⟨_, onFailed_calls env w notify, ?_⟩
  intro c hc
  cases notify <;> simp at hc <;> rcases hc with rfl | rfl | rfl | rfl <;> rfl

theorem confirmKernel_noInvitation (env : Env K S P CP) (w : TxState K S P CP)
    (kernel : TxKernel S P) :
    TxState.extendsBy (fun c => !Call.isInvitation c) w
      (BaseTransaction.confirmKernel env w kernel) := by
  unfold BaseTransaction.confirmKernel
  refine extendsBy_trans _ _ _ _ ⟨[Call.saveTx _], rfl, ?_⟩
    (extendsBy_trans _ _ _ _ ⟨[Call.update _], rfl, ?_⟩ (extendsBy_emit _ _ _ rfl))
  · intro c hc
    simp only [List.mem_singleton] at hc
    subst hc
    rfl
  · intro c hc
    simp only [List.mem_singleton] at hc
    subst hc
    rfl

theorem updateFinish_noInvitation (env : Env K S P CP) (w : TxState K S P CP)
    (kernel : TxKernel S P) (proof : MerkleProof) :
    TxState.extendsBy (fun c => !Call.isInvitation c) w
      (BaseTransaction.updateFinish env w kernel proof) := by
  unfold BaseTransaction.updateFinish
  simp only []
  split
  · exact extendsBy_refl _ w
  · unfold BaseTransaction.completeTx
    refine extendsBy_trans _ _ _ _ ⟨[Call.saveTx _], rfl, ?_⟩ (extendsBy_emit _ _ _ rfl)
    intro c hc
    simp only [List.mem_singleton] at hc
    subst hc
    rfl

theorem sendRegister_noInvitation (env : Env K S P CP) (w : TxState K S P CP) (i : Bool)
    (po off : S) (kernel : TxKernel S P) (ps : S) :
    TxState.extendsBy (fun c => !Call.isInvitation c) w
      (SendTransaction.updateRegister env w i po off kernel ps) := by
  unfold SendTransaction.updateRegister
  split
  · split
    · simp only []
      split
      · exact onFailed_noInvitation env w true
      · exact extendsBy_emit _ w _ rfl
    · exact extendsBy_emit _ w _ rfl
  · split
    · exact onFailed_noInvitation env w true
    · split
      · refine extendsBy_trans _ w _ _ ?_ (confirmKernel_noInvitation env _ kernel)
        split
        · exact extendsBy_emit _ w _ rfl
        · exact extendsBy_refl _ w
      · exact updateFinish_noInvitation env w kernel _

/-- Every invitation that the steps after the first `if` send carries the
amount and the fee of the description. -/
theorem sendNegotiate_invitations (env : Env K S P CP) (w : TxState K S P CP) (i : Bool)
    (po be off : S) (d : TxDescription) (m : Invite S P)
    (h : Call.send_tx_invitation d m ∈
      w.callsSince (SendTransaction.updateNegotiate env w i po be off)) :
    m.m_amount = w.m_txDesc.m_amount ∧ m.m_fee = w.m_txDesc.m_fee := by
  by_cases hN : BaseTransaction.getParameterPoint env w.params.PublicPeerNonce = none ∨
      BaseTransaction.getParameterPoint env w.params.PublicPeerExcess = none
  · rw [sendNegotiate_invite env w i po be off hN, callsSince_emit w w [] _ (by simp)] at h
    simp only [List.nil_append, List.mem_singleton, Call.send_tx_invitation.injEq] at h
    rw [h.2]
    exact ⟨rfl, rfl⟩
  · have hno : TxState.extendsBy (fun c => !Call.isInvitation c) w
        (SendTransaction.updateNegotiate env w i po be off) := by
      unfold SendTransaction.updateNegotiate
      split
      · simp only []
        split
        · exact extendsBy_emit _ w _ rfl
        · split
          · exact onFailed_noInvitation env w true
          · exact sendRegister_noInvitation env w i po off _ _
      · rename_i h1
        exfalso
        apply hN
        cases hn : BaseTransaction.getParameterPoint env w.params.PublicPeerNonce with
        | none => exact Or.inl rfl
        | some Rp =>
          cases he : BaseTransaction.getParameterPoint env w.params.PublicPeerExcess with
          | none => exact Or.inr rfl
          | some Pp => exact absurd he (h1 Rp Pp hn)
    obtain ⟨L, hL, hL2⟩ := hno
    rw [callsSince_append w _ L hL] at h
    have := hL2 _ h
    simp [Call.isInvitation] at this

/-- The calls of the sender with funds hold no invitation but those of the
steps after the first `if`, which carry the amount and the fee of the
description. -/
theorem send_update_invitations (env : Env K S P CP) (w : TxState K S P CP)
    (hF : w.params.FailureReason = none) (hs : w.m_txDesc.m_sender = true)
    (habs : w.params.BlindingExcess = none ∨ w.params.Offset = none)
    (hsel : SendTransaction.selection env w ≠ []) (d : TxDescription) (m : Invite S P)
    (h : Call.send_tx_invitation d m ∈ w.callsSince (SendTransaction.update env w)) :
    m.m_amount = w.m_txDesc.m_amount ∧ m.m_fee = w.m_txDesc.m_fee := by
  by_cases hown : SendTransaction.peerIsOwn env
      (SendTransaction.reserved env w (w.params.BlindingExcess.getD 0) 0).1 = true
  · have hu := send_update_with_funds env w hF hs habs hsel
    rw [if_pos hown] at hu
    rw [hu, callsSince_append w _ _ (reserved_calls env w _ _)] at h
    exfalso
    by_cases hc : 0 < SendTransaction.change env w
    · simp [hc] at h
    · simp [hc] at h
  · have hown1 : SendTransaction.peerIsOwn env
        (SendTransaction.reserved env w (w.params.BlindingExcess.getD 0) 0).1 = false := by
      simpa using hown
    have hentry := sendEntry_reserved env w hF hs habs hsel hown1
    obtain ⟨⟨L0, hL0, hL0e⟩, hsame, -⟩ := entry_result env true w _ _ _
      (by simpa using hentry)
    have hu : SendTransaction.update env w =
        SendTransaction.updateNegotiate env
          (SendTransaction.persistExcess env
            (SendTransaction.reserved env w (w.params.BlindingExcess.getD 0) 0).1
            (SendTransaction.reserved env w (w.params.BlindingExcess.getD 0) 0).2.1
            (SendTransaction.reserved env w (w.params.BlindingExcess.getD 0) 0).2.2)
          w.params.PeerOffset.isNone (w.params.PeerOffset.getD 0)
          (SendTransaction.reserved env w (w.params.BlindingExcess.getD 0) 0).2.1
          (SendTransaction.reserved env w (w.params.BlindingExcess.getD 0) 0).2.2 := by
      unfold SendTransaction.update
      rw [hentry]
    obtain ⟨L1, hL1, -⟩ := sendNegotiate_late env
      (SendTransaction.persistExcess env
        (SendTransaction.reserved env w (w.params.BlindingExcess.getD 0) 0).1
        (SendTransaction.reserved env w (w.params.BlindingExcess.getD 0) 0).2.1
        (SendTransaction.reserved env w (w.params.BlindingExcess.getD 0) 0).2.2)
      w.params.PeerOffset.isNone (w.params.PeerOffset.getD 0)
      (SendTransaction.reserved env w (w.params.BlindingExcess.getD 0) 0).2.1
      (SendTransaction.reserved env w (w.params.BlindingExcess.getD 0) 0).2.2
    have hall : w.callsSince (SendTransaction.update env w) = L0 ++ L1 := by
      apply callsSince_append
      rw [hu, hL1, hL0, List.append_assoc]
    rw [hall] at h
    rcases List.mem_append.mp h with h0 | h1
    · have := hL0e _ h0
      simp [Call.isEntryCall] at this
    · have hin := sendNegotiate_invitations env _ w.params.PeerOffset.isNone
        (w.params.PeerOffset.getD 0)
        (SendTransaction.reserved env w (w.params.BlindingExcess.getD 0) 0).2.1
        (SendTransaction.reserved env w (w.params.BlindingExcess.getD 0) 0).2.2 d m
        (by rw [callsSince_append _ _ L1 hL1]; exact h1)
      exact ⟨hin.1.trans hsame.2.1, hin.2.trans hsame.2.2.1⟩

/-- C33 as amended: funds coverage.  For every amount and fee with
`amount + fee < 2^64` and every ledger whose `selectCoins(a)` returns either
the empty list or coins with `Σ amounts ≥ a`: whenever the call of
`SendTransaction::update` that reserves the coins of a sender emits an
`Invite`, the `Invite` is for the amount and the fee of the description, the
selection is not empty and `Σ amounts ≥ amount + fee` as natural numbers; and
when `Σ amounts − amount − fee < 2^64`, the change that the call computes, the
amount of the change coin it stores and the change it records in the
description are `Σ amounts − amount − fee` as natural numbers (nothing is
stored or recorded when that is 0). -/
theorem C33_funds_cover_invite (env : Env K S P CP) (w : TxState K S P CP)
    (hF : w.params.FailureReason = none) (hs : w.m_txDesc.m_sender = true)
    (habs : w.params.BlindingExcess = none ∨ w.params.Offset = none)
    (hcover : ∀ k a, env.keychain.selectCoins k a = [] ∨
      a ≤ ((env.keychain.selectCoins k a).map Coin.m_amount).sum)
    (hno : w.m_txDesc.m_amount + w.m_txDesc.m_fee < 2 ^ 64)
    (hinv : ∃ c ∈ w.callsSince (SendTransaction.update env w), Call.isInvitation c = true) :
    SendTransaction.selection env w ≠ [] ∧
    w.m_txDesc.m_amount + w.m_txDesc.m_fee ≤
      ((SendTransaction.selection env w).map Coin.m_amount).sum ∧
    (∀ d m, Call.send_tx_invitation d m ∈ w.callsSince (SendTransaction.update env w) →
      m.m_amount = w.m_txDesc.m_amount ∧ m.m_fee = w.m_txDesc.m_fee) ∧
    (((SendTransaction.selection env w).map Coin.m_amount).sum -
        (w.m_txDesc.m_amount + w.m_txDesc.m_fee) < 2 ^ 64 →
      SendTransaction.change env w =
        ((SendTransaction.selection env w).map Coin.m_amount).sum - w.m_txDesc.m_amount -
          w.m_txDesc.m_fee ∧
      (∃ L, w.callsSince (SendTransaction.update env w) =
        (Call.selectCoins (w.m_txDesc.m_amount + w.m_txDesc.m_fee) ::
          Call.update (SendTransaction.markSpent w.m_txDesc.m_txId
            (SendTransaction.selection env w)) ::
          (if 0 < SendTransaction.change env w then
            [Call.store (draftCoin w.m_txDesc.m_txId (SendTransaction.change env w)
              (env.keychain.getCurrentHeight w.m_keychain))]
           else [])) ++ L ∧
        ∀ c ∈ L, Call.isStore c = false) ∧
      (SendTransaction.update env w).m_txDesc.m_change =
        (if 0 < SendTransaction.change env w then SendTransaction.change env w
         else w.m_txDesc.m_change)) := by
  have hawf : add64 w.m_txDesc.m_amount w.m_txDesc.m_fee =
      w.m_txDesc.m_amount + w.m_txDesc.m_fee := by
    unfold add64 u64
    exact Nat.mod_eq_of_lt hno
  have hsel : SendTransaction.selection env w ≠ [] := by
    intro hsel0
    obtain ⟨c, hc, hi⟩ := hinv
    rw [send_no_funds_calls env w hF hs habs hsel0] at hc
    cases hpo : w.params.PeerOffset <;> simp [hpo] at hc <;>
      rcases hc with rfl | rfl | rfl | rfl | rfl <;> cases hi
  have hge : w.m_txDesc.m_amount + w.m_txDesc.m_fee ≤
      ((SendTransaction.selection env w).map Coin.m_amount).sum := by
    rcases hcover w.m_keychain (add64 w.m_txDesc.m_amount w.m_txDesc.m_fee) with h | h
    · exact absurd h hsel
    · rw [hawf] at h
      unfold SendTransaction.selection
      rw [hawf]
      exact h
  refine ⟨hsel, hge, fun d m h => send_update_invitations env w hF hs habs hsel d m h, ?_⟩
  intro hlt
  have hchange : SendTransaction.change env w =
      ((SendTransaction.selection env w).map Coin.m_amount).sum -
        (w.m_txDesc.m_amount + w.m_txDesc.m_fee) := by
    unfold SendTransaction.change
    rw [hawf]
    exact changeOf_eq _ _ _ hge hlt
  have hcalls := send_update_reserve_calls env w hF hs habs hsel
  rw [hawf] at hcalls
  exact ⟨by rw [hchange]; exact (Nat.sub_sub _ _ _).symm, hcalls,
    send_update_change env w hF hs habs hsel⟩

theorem selectGreedy_covers (k : List Coin) (a : Amount) (acc : List Coin) :
    selectGreedy k a acc = [] ∨ a ≤ ((selectGreedy k a acc).map Coin.m_amount).sum := by
  induction k generalizing acc with
  | nil => exact Or.inl rfl
  | cons c rest ih =>
    unfold selectGreedy
    split
    · split
      · rename_i h
        exact Or.inr h
      · exact ih _
    · exact ih _

/-- The list ledger of the examples returns the empty list or coins that
cover the amount asked for. -/
theorem listKeyChain_covers (lock : Bool) (height : Height) (k : List Coin) (a : Amount) :
    (listKeyChain lock height).selectCoins k a = [] ∨
      a ≤ (((listKeyChain lock height).selectCoins k a).map Coin.m_amount).sum := by
  have hmap : (((listKeyChain lock height).selectCoins k a).map Coin.m_amount) =
      (selectGreedy k a []).map Coin.m_amount := by
    unfold listKeyChain
    simp only [List.map_map]
    apply List.map_congr_left
    intro c _
    cases lock <;> rfl
  rcases selectGreedy_covers k a [] with h | h
  · left
    unfold listKeyChain
    simp only [h, List.map_nil]
  · right
    rw [hmap]
    exact h

/-- The ledger that returns all its coins returns the empty list or coins
that cover the amount asked for. -/
theorem intEnvAll_covers (height : Height) (k : List Coin) (a : Amount) :
    (intEnvAll height).keychain.selectCoins k a = [] ∨
      a ≤ (((intEnvAll height).keychain.selectCoins k a).map Coin.m_amount).sum := by
  unfold intEnvAll
  simp only []
  split
  · rename_i h
    exact Or.inr h
  · exact Or.inl rfl

/-- C33 as amended, at the sender of the examples: one coin of 100 for the
amount 40 and the fee 1; the invitation is sent, the selection covers 41 and
the change is 59. -/
theorem C33_funds_cover_invite_witness :
    (∃ c ∈ senderExample.callsSince (SendTransaction.update (intEnv true 5) senderExample),
      Call.isInvitation c = true) ∧
    40 + 1 ≤ ((SendTransaction.selection (intEnv true 5) senderExample).map Coin.m_amount).sum ∧
    ((SendTransaction.selection (intEnv true 5) senderExample).map Coin.m_amount).sum = 100 ∧
    SendTransaction.change (intEnv true 5) senderExample = 100 - 40 - 1 :=
  ⟨by decide,
    (C33_funds_cover_invite (intEnv true 5) senderExample rfl rfl (Or.inl rfl)
      (fun k a => listKeyChain_covers true 5 k a) (by decide) (by decide)).2.1,
    by decide,
    ((C33_funds_cover_invite (intEnv true 5) senderExample rfl rfl (Or.inl rfl)
      (fun k a => listKeyChain_covers true 5 k a) (by decide) (by decide)).2.2.2
        (by decide)).1⟩

/-- C33 as stated fails.  With the amount `2^64 − 1` and the fee 2 the sum
`amount + fee` wraps to 1: on a ledger with one coin of 1, whose `selectCoins`
returns the empty list or coins that cover what is asked for, the sender
selects the coin, computes no change and sends the `Invite` for the amount
`2^64 − 1` and the fee 2, having reserved 1.  And where the selection exceeds
`amount + fee` by `2^64` or more (coins `2^63, 2^63, 5` from a ledger that
returns all its coins, amount 1, fee 0) the `Invite` is sent and the change
recorded is 4, not `2^64 + 4`. -/
theorem C33_counterexample :
    (∀ k a, (intEnv true 5).keychain.selectCoins k a = [] ∨
      a ≤ (((intEnv true 5).keychain.selectCoins k a).map Coin.m_amount).sum) ∧
    ((freshState (pendingTx true (2 ^ 64 - 1) 2) [confirmedCoin 1 1]).callsSince
      (SendTransaction.update (intEnv true 5)
        (freshState (pendingTx true (2 ^ 64 - 1) 2) [confirmedCoin 1 1]))).filterMap
      (fun c => match c with
        | Call.send_tx_invitation _ m => some (m.m_amount, m.m_fee)
        | _ => none) = [(2 ^ 64 - 1, 2)] ∧
    ((SendTransaction.selection (intEnv true 5)
      (freshState (pendingTx true (2 ^ 64 - 1) 2) [confirmedCoin 1 1])).map
        Coin.m_amount).sum = 1 ∧
    (1 : Nat) < (2 ^ 64 - 1) + 2 ∧
    (SendTransaction.update (intEnv true 5)
      (freshState (pendingTx true (2 ^ 64 - 1) 2) [confirmedCoin 1 1])).m_txDesc.m_change = 0 ∧
    (∀ k a, (intEnvAll 5).keychain.selectCoins k a = [] ∨
      a ≤ (((intEnvAll 5).keychain.selectCoins k a).map Coin.m_amount).sum) ∧
    ((freshState (pendingTx true 1 0)
        [confirmedCoin 1 (2 ^ 63), confirmedCoin 2 (2 ^ 63), confirmedCoin 3 5]).callsSince
      (SendTransaction.update (intEnvAll 5)
        (freshState (pendingTx true 1 0)
          [confirmedCoin 1 (2 ^ 63), confirmedCoin 2 (2 ^ 63), confirmedCoin 3 5]))).filterMap
      (fun c => match c with
        | Call.send_tx_invitation _ m => some (m.m_amount, m.m_fee)
        | _ => none) = [(1, 0)] ∧
    ((SendTransaction.selection (intEnvAll 5)
      (freshState (pendingTx true 1 0)
        [confirmedCoin 1 (2 ^ 63), confirmedCoin 2 (2 ^ 63), confirmedCoin 3 5])).map
      Coin.m_amount).sum = 2 ^ 64 + 5 ∧
    (SendTransaction.update (intEnvAll 5)
      (freshState (pendingTx true 1 0)
        [confirmedCoin 1 (2 ^ 63), confirmedCoin 2 (2 ^ 63), confirmedCoin 3 5])).m_txDesc.m_change
      = 4 ∧
    (4 : Nat) ≠ 2 ^ 64 + 5 - 1 - 0 :=
  ⟨fun k a => listKeyChain_covers true 5 k a, by decide, by decide, by decide, by decide,
    fun k a => intEnvAll_covers 5 k a, by decide, by decide, by decide, by decide⟩

end FundsCoverage

end Beam
